import Mathlib

/-!
# The citrusleaf event client: wire codec and request engine

A shallow embedding of `src/src/ev2citrusleaf.c`.

Conventions of the embedding

* A byte is a `Nat`; memory is a `List Nat`.  A C integer is a `Nat` or an `Int`
  and every narrowing conversion of the source is an explicit `%`.
* A pointer paired with a length is the list of the bytes it points at.
* A function that writes through a pointer returns what it wrote; where the
  source leaves memory untouched the previous content is an argument.
* The host is little-endian and LP64 (the source prints `uint64_t` with `%lu`),
  so `size_t` is 64 bits wide and `ntohll` is a byte swap.
* The request engine is a state (the request, its two event slots, its place
  on the cluster's queue) with a log of the calls it makes to the user callback,
  the cluster and the sockets.  What libevent, the cluster and the sockets
  answer comes from oracles.  Event handlers run one at a time, and only while
  the cross-thread lock is free, as `event_cross_thread_check` makes them.
-/

namespace Citrusleaf

/-! ## Bytes and machine integers -/

/-- The `n` low-order bytes of `x`, most significant first (network order). -/
def be_bytes : Nat → Nat → List Nat
  | 0, _ => []
  | n + 1, x => (x / 256 ^ n) % 256 :: be_bytes n x

/-- The number a big-endian byte string denotes. -/
def be_value (bs : List Nat) : Nat :=
  bs.foldl (fun v b => v * 256 + b) 0

/-- The conversion `(uint8_t)x`. -/
def to_u8 (x : Int) : Nat := (x % 2 ^ 8).toNat

/-- The conversion `(uint16_t)x`. -/
def to_u16 (x : Int) : Nat := (x % 2 ^ 16).toNat

/-- The conversion `(uint32_t)x`. -/
def to_u32 (x : Int) : Nat := (x % 2 ^ 32).toNat

/-- The conversion `(uint64_t)x`. -/
def to_u64 (x : Int) : Nat := (x % 2 ^ 64).toNat

/-- The conversion `(int64_t)u` of an unsigned 64-bit value. -/
def to_i64 (u : Nat) : Int :=
  if u % 2 ^ 64 < 2 ^ 63 then ((u % 2 ^ 64 : Nat) : Int)
  else ((u % 2 ^ 64 : Nat) : Int) - 2 ^ 64

/-- The conversion `(int)u` of an unsigned 32-bit value. -/
def to_i32 (u : Nat) : Int :=
  if u % 2 ^ 32 < 2 ^ 31 then ((u % 2 ^ 32 : Nat) : Int)
  else ((u % 2 ^ 32 : Nat) : Int) - 2 ^ 32

/-- A value is an `int64_t`. -/
def is_i64 (v : Int) : Prop := -(2 ^ 63) ≤ v ∧ v < 2 ^ 63

instance (v : Int) : Decidable (is_i64 v) := by
  unfold is_i64
  infer_instance

/-- The store `*(uint64_t*)data = htonll(x)`: eight bytes in network order. -/
def store_htonll (x : Nat) : List Nat := be_bytes 8 x

/-- The store `*(uint32_t*)data = htonl(x)`. -/
def store_htonl (x : Nat) : List Nat := be_bytes 4 x

/-- The store `*(uint16_t*)data = htons(x)`. -/
def store_htons (x : Nat) : List Nat := be_bytes 2 x

/-- The load `ntohll(*(uint64_t*)buf)`: the eight bytes at `buf` read in
network order. -/
def load_ntohll (buf : List Nat) : Nat := be_value (buf.take 8)

/-- The function `ntohll` applied to a value held in a register: on the
little-endian host it reverses the eight bytes of its argument. -/
def ntohll (x : Nat) : Nat := be_value (be_bytes 8 x).reverse

/-- The byte at a pointer, `*buf`. -/
def deref (buf : List Nat) : Nat := buf.headD 0

/-- The effect of `memcpy(buf + pos, bytes, bytes.length)` on the memory `buf`. -/
def poke (buf : List Nat) (pos : Nat) (bytes : List Nat) : List Nat :=
  buf.take pos ++ List.replicate (pos - buf.length) 0 ++ bytes
    ++ buf.drop (pos + bytes.length)

/-- The bytes `memcpy(dst, src, n)` reads from `src`. -/
def memcpy_src (src : List Nat) (n : Nat) : List Nat := src.take n

/-- The result of `strlen` on a character array: the bytes before the first NUL. -/
def strlen (s : List Nat) : Nat := (s.takeWhile (fun c => c ≠ 0)).length

/-- The C string a character array holds. -/
def cstring (s : List Nat) : List Nat := s.takeWhile (fun c => c ≠ 0)

/-! ## Integer and float values on the wire -/

/-- The function `value_to_op_int`: the bytes written at `data` and the
returned width. -/
def value_to_op_int (value : Int) : List Nat × Int :=
  if value < 0 ∨ value ≥ 0x7FFFFFFF then
    (store_htonll (to_u64 value), 8)
  else if value ≤ 0x7F then
    ([to_u8 value], 1)
  else if value ≤ 0x7FFF then
    (store_htons (to_u16 value), 2)
  else
    (store_htonl (to_u32 value), 4)

/-- The function `value_to_op_float`; a double is its 64-bit pattern. -/
def value_to_op_float (value : Nat) : List Nat × Int :=
  (store_htonll value, 8)

/-- The function `value_to_op_int_size`. -/
def value_to_op_int_size (i : Int) : Int :=
  if i < 0 then 8
  else if i ≤ 0x7F then 1
  else if i < 0x7FFF then 2
  else if i < 0x7FFFFFFF then 4
  else 8

/-- The function `op_to_value_int`: the return code and the content of `*value`
afterwards (`value` is its content before). -/
def op_to_value_int (buf : List Nat) (size : Int) (value : Int) : Int × Int :=
  if size > 8 then (-1, value)
  else if size = 8 then (0, to_i64 (load_ntohll buf))
  else if size = 0 then (0, 0)
  else if size = 1 ∧ deref buf < 0x7f then (0, (deref buf : Int))
  else if deref buf &&& 0x80 ≠ 0 then
    (0, to_i64 (ntohll (deref buf)))
  else
    (0, to_i64 ((buf.take size.toNat).foldl (fun v b => (v * 2 ^ 8 % 2 ^ 64) ||| b) 0))

/-- The function `op_to_value_float`: the return code and the bit pattern of
`*value` afterwards. -/
def op_to_value_float (buf : List Nat) (size : Int) (value : Nat) : Int × Nat :=
  if size ≠ 8 then (-1, value)
  else (0, load_ntohll buf)


/-! ## Constants and layouts of the headers that are not among the sources -/

/-- Modelled from the spec: particle type `NULL=0` of the missing `proto.h`. -/
def CL_PARTICLE_TYPE_NULL : Nat := 0

/-- Modelled from the spec: particle type `INTEGER=1` of the missing `proto.h`. -/
def CL_PARTICLE_TYPE_INTEGER : Nat := 1

/-- Modelled from the spec: particle type `FLOAT=2` of the missing `proto.h`. -/
def CL_PARTICLE_TYPE_FLOAT : Nat := 2

/-- Modelled from the spec: particle type `STRING=3` of the missing `proto.h`. -/
def CL_PARTICLE_TYPE_STRING : Nat := 3

/-- Modelled from the spec: particle type `BLOB=4` of the missing `proto.h`. -/
def CL_PARTICLE_TYPE_BLOB : Nat := 4

/-- The constants of `citrusleaf/proto.h` and `ev2citrusleaf.h` to which the
sources refer by name only.  The embedding is parametric in their numbers. -/
structure proto_h where
  CL_MSG_FIELD_TYPE_NAMESPACE : Nat
  CL_MSG_FIELD_TYPE_SET : Nat
  CL_MSG_FIELD_TYPE_KEY : Nat
  CL_MSG_FIELD_TYPE_DIGEST_RIPE : Nat
  CL_MSG_OP_READ : Int
  CL_MSG_OP_WRITE : Int
  CL_MSG_OP_INCR : Int
  CL_MSG_INFO1_READ : Nat
  CL_MSG_INFO1_GET_ALL : Nat
  CL_MSG_INFO2_WRITE : Nat
  CL_MSG_INFO2_DELETE : Nat
  CL_MSG_INFO2_GENERATION : Nat
  CL_PARTICLE_TYPE_JAVA_BLOB : Nat
  CL_PARTICLE_TYPE_CSHARP_BLOB : Nat
  CL_PARTICLE_TYPE_PYTHON_BLOB : Nat
  CL_PARTICLE_TYPE_RUBY_BLOB : Nat
  EV2CITRUSLEAF_FAIL_TIMEOUT : Int
  EV2CITRUSLEAF_FAIL_CLIENT_ERROR : Int
  EV2CITRUSLEAF_FAIL_THROTTLED : Int
  EV2CITRUSLEAF_FAIL_SERVERSIDE_TIMEOUT : Int
  /-- The value of `sizeof(ev2citrusleaf_bin_name)`, the bin-name buffer. -/
  sizeof_bin_name : Nat
  /-- The value of `sizeof(req->wr_tmp)`, the inline write scratch of a request. -/
  sizeof_wr_tmp : Nat
  /-- The value of `sizeof(req->rd_tmp)`, the inline read scratch of a request. -/
  sizeof_rd_tmp : Nat
  /-- A write is not a read. -/
  write_ne_read : CL_MSG_OP_WRITE ≠ CL_MSG_OP_READ
  /-- A name that fits the bin-name buffer has a length the one-byte
  `name_sz` of an op can hold. -/
  bin_name_le : sizeof_bin_name ≤ 256
  /-- The particle types label the cases of one `switch` (in `set_object`), so
  they are pairwise different. -/
  particle_types_nodup :
    [CL_PARTICLE_TYPE_NULL, CL_PARTICLE_TYPE_INTEGER, CL_PARTICLE_TYPE_FLOAT,
      CL_PARTICLE_TYPE_STRING, CL_PARTICLE_TYPE_BLOB, CL_PARTICLE_TYPE_JAVA_BLOB,
      CL_PARTICLE_TYPE_CSHARP_BLOB, CL_PARTICLE_TYPE_PYTHON_BLOB,
      CL_PARTICLE_TYPE_RUBY_BLOB].Nodup
  /-- The result codes a start call returns are different integers; 0 is `OK`. -/
  result_codes_nodup :
    [0, EV2CITRUSLEAF_FAIL_TIMEOUT, EV2CITRUSLEAF_FAIL_CLIENT_ERROR,
      EV2CITRUSLEAF_FAIL_THROTTLED].Nodup

/-- The numbers the Aerospike wire protocol gives these constants; used where a
definition is evaluated on a concrete input. -/
def aerospike : proto_h where
  CL_MSG_FIELD_TYPE_NAMESPACE := 0
  CL_MSG_FIELD_TYPE_SET := 1
  CL_MSG_FIELD_TYPE_KEY := 2
  CL_MSG_FIELD_TYPE_DIGEST_RIPE := 4
  CL_MSG_OP_READ := 1
  CL_MSG_OP_WRITE := 2
  CL_MSG_OP_INCR := 5
  CL_MSG_INFO1_READ := 1
  CL_MSG_INFO1_GET_ALL := 2
  CL_MSG_INFO2_WRITE := 1
  CL_MSG_INFO2_DELETE := 2
  CL_MSG_INFO2_GENERATION := 4
  CL_PARTICLE_TYPE_JAVA_BLOB := 7
  CL_PARTICLE_TYPE_CSHARP_BLOB := 8
  CL_PARTICLE_TYPE_PYTHON_BLOB := 9
  CL_PARTICLE_TYPE_RUBY_BLOB := 10
  EV2CITRUSLEAF_FAIL_TIMEOUT := -2
  EV2CITRUSLEAF_FAIL_CLIENT_ERROR := -1
  EV2CITRUSLEAF_FAIL_THROTTLED := -3
  EV2CITRUSLEAF_FAIL_SERVERSIDE_TIMEOUT := 9
  sizeof_bin_name := 32
  sizeof_wr_tmp := 1024
  sizeof_rd_tmp := 1024
  write_ne_read := by decide
  bin_name_le := by decide
  particle_types_nodup := by decide
  result_codes_nodup := by decide

/-- Modelled from the spec: the result code `OK=0` of the missing
`ev2citrusleaf.h`. -/
def EV2CITRUSLEAF_OK : Int := 0

/-- Modelled from the spec: `CL_PROTO_VERSION` of the missing `proto.h`; request
bytes begin with `0x02, 0x03`. -/
def CL_PROTO_VERSION : Nat := 2

/-- Modelled from the spec: `CL_PROTO_TYPE_CL_MSG` of the missing `proto.h`;
request bytes begin with `0x02, 0x03`. -/
def CL_PROTO_TYPE_CL_MSG : Nat := 3

/-- Modelled from the spec: `sizeof(cl_proto)`, the 64-bit frame header
`(version:8, type:8, size:48)` of the missing `proto.h`. -/
def sizeof_cl_proto : Nat := 8

/-- Modelled from the spec: `sizeof(cl_msg)`, the 22-byte message header of the
missing `proto.h`. -/
def sizeof_cl_msg : Nat := 22

/-- Modelled from the spec: `sizeof(as_msg)`, a `cl_proto` followed by a `cl_msg`
(missing `proto.h`). -/
def sizeof_as_msg : Nat := sizeof_cl_proto + sizeof_cl_msg

/-- Modelled from the spec: `sizeof(cl_msg_field)` of the missing `proto.h`, the
fixed part `field_size:32, type:8` of a field. -/
def sizeof_cl_msg_field : Nat := 5

/-- Modelled from the spec: `sizeof(cl_msg_op)` of the missing `proto.h`, the
fixed part `op_size:32, op:8, particle_type:8, version:8, name_size:8` of an op. -/
def sizeof_cl_msg_op : Nat := 8

/-- Modelled from the spec: `sizeof(cf_digest)` of the missing `cf_digest.h`; a
digest is 20 bytes. -/
def sizeof_cf_digest : Nat := 20

/-- Modelled from the spec: the value tag `CL_NULL` of the missing
`ev2citrusleaf.h`; the particle type byte matches the value tag. -/
def CL_NULL : Nat := CL_PARTICLE_TYPE_NULL

/-- Modelled from the spec: the value tag `CL_INT` of the missing
`ev2citrusleaf.h`; the particle type byte matches the value tag. -/
def CL_INT : Nat := CL_PARTICLE_TYPE_INTEGER

/-- Modelled from the spec: the value tag `CL_FLOAT` of the missing
`ev2citrusleaf.h`; the particle type byte matches the value tag. -/
def CL_FLOAT : Nat := CL_PARTICLE_TYPE_FLOAT

/-- Modelled from the spec: the value tag `CL_STR` of the missing
`ev2citrusleaf.h`; the particle type byte matches the value tag. -/
def CL_STR : Nat := CL_PARTICLE_TYPE_STRING

/-- Modelled from the spec: the value tag `CL_BLOB` of the missing
`ev2citrusleaf.h`; the particle type byte matches the value tag. -/
def CL_BLOB : Nat := CL_PARTICLE_TYPE_BLOB

/-- Modelled from the spec: the value tag `CL_JAVA_BLOB` of the missing
`ev2citrusleaf.h`; the particle type byte matches the value tag. -/
def CL_JAVA_BLOB (K : proto_h) : Nat := K.CL_PARTICLE_TYPE_JAVA_BLOB

/-- Modelled from the spec: the value tag `CL_CSHARP_BLOB` of the missing
`ev2citrusleaf.h`; the particle type byte matches the value tag. -/
def CL_CSHARP_BLOB (K : proto_h) : Nat := K.CL_PARTICLE_TYPE_CSHARP_BLOB

/-- Modelled from the spec: the value tag `CL_PYTHON_BLOB` of the missing
`ev2citrusleaf.h`; the particle type byte matches the value tag. -/
def CL_PYTHON_BLOB (K : proto_h) : Nat := K.CL_PARTICLE_TYPE_PYTHON_BLOB

/-- Modelled from the spec: the value tag `CL_RUBY_BLOB` of the missing
`ev2citrusleaf.h`; the particle type byte matches the value tag. -/
def CL_RUBY_BLOB (K : proto_h) : Nat := K.CL_PARTICLE_TYPE_RUBY_BLOB

/-! ## Values, bins and operations -/

/-- The struct `ev2citrusleaf_object`.  The members of the union `u` are kept
apart; `ptr` is the memory `u.str` and `u.blob` point at.  The member `free`
(ownership of that memory) is not modelled. -/
structure ev2citrusleaf_object where
  type : Nat
  size : Nat
  i64 : Int
  f64 : Nat
  ptr : List Nat
deriving DecidableEq, Repr

/-- The struct `ev2citrusleaf_bin`; `bin_name` is the content of the name
buffer. -/
structure ev2citrusleaf_bin where
  bin_name : List Nat
  object : ev2citrusleaf_object
deriving DecidableEq, Repr

/-- The enum `ev2citrusleaf_operation_type`. -/
inductive cl_operation_type where
  | CL_OP_WRITE
  | CL_OP_READ
  | CL_OP_ADD
deriving DecidableEq, Repr

/-- The struct `ev2citrusleaf_operation`. -/
structure ev2citrusleaf_operation where
  bin_name : List Nat
  op : cl_operation_type
  object : ev2citrusleaf_object
deriving DecidableEq, Repr

/-- The enum `ev2citrusleaf_write_policy`. -/
inductive ev2citrusleaf_write_policy where
  | CL_WRITE_ONESHOT
  | CL_WRITE_RETRY
deriving DecidableEq, Repr

/-- The struct `ev2citrusleaf_write_parameters`. -/
structure ev2citrusleaf_write_parameters where
  use_generation : Bool
  generation : Nat
  expiration : Nat
  wpol : ev2citrusleaf_write_policy
deriving DecidableEq, Repr

/-- The function `ev2citrusleaf_object_init`. -/
def ev2citrusleaf_object_init (o : ev2citrusleaf_object) : ev2citrusleaf_object :=
  { o with type := CL_NULL, size := 0 }

/-- The function `ev2citrusleaf_object_set_null`. -/
def ev2citrusleaf_object_set_null (o : ev2citrusleaf_object) : ev2citrusleaf_object :=
  { o with type := CL_NULL, size := 0 }

/-- The function `ev2citrusleaf_object_init_str`. -/
def ev2citrusleaf_object_init_str (o : ev2citrusleaf_object) (str : List Nat) :
    ev2citrusleaf_object :=
  { o with type := CL_STR, size := strlen str, ptr := str }

/-- The function `ev2citrusleaf_object_init_str2`. -/
def ev2citrusleaf_object_init_str2 (o : ev2citrusleaf_object) (str : List Nat)
    (buf_len : Nat) : ev2citrusleaf_object :=
  { o with type := CL_STR, size := buf_len, ptr := str }

/-- The function `ev2citrusleaf_object_init_int`. -/
def ev2citrusleaf_object_init_int (o : ev2citrusleaf_object) (i : Int) :
    ev2citrusleaf_object :=
  { o with type := CL_INT, size := 8, i64 := i }

/-- The function `ev2citrusleaf_object_init_float`; a double is its bit pattern. -/
def ev2citrusleaf_object_init_float (o : ev2citrusleaf_object) (f : Nat) :
    ev2citrusleaf_object :=
  { o with type := CL_FLOAT, size := 8, f64 := f }

/-- The function `ev2citrusleaf_object_init_blob`. -/
def ev2citrusleaf_object_init_blob (o : ev2citrusleaf_object) (blob : List Nat)
    (len : Nat) : ev2citrusleaf_object :=
  { o with type := CL_BLOB, size := len, ptr := blob }

/-- The function `ev2citrusleaf_object_init_blob2`. -/
def ev2citrusleaf_object_init_blob2 (btype : Nat) (o : ev2citrusleaf_object)
    (blob : List Nat) (len : Nat) : ev2citrusleaf_object :=
  { o with type := btype, size := len, ptr := blob }

/-! ## The message header -/

/-- Modelled from the spec: the struct `cl_proto` of the missing `proto.h`,
`(version:8, type:8, size:48)`. -/
structure cl_proto where
  version : Nat
  type : Nat
  sz : Nat
deriving DecidableEq, Repr

/-- Modelled from the spec: the struct `cl_msg` of the missing `proto.h`,
`header_size:8, info1:8, info2:8, info3:8, unused:8, result_code:8,
generation:32, record_ttl:32, transaction_ttl:32, n_fields:16, n_ops:16`. -/
structure cl_msg where
  header_sz : Nat
  info1 : Nat
  info2 : Nat
  info3 : Nat
  unused : Nat
  result_code : Nat
  generation : Nat
  record_ttl : Nat
  transaction_ttl : Nat
  n_fields : Nat
  n_ops : Nat
deriving DecidableEq, Repr

/-- Modelled from the spec: the bytes of a `cl_proto` after `cl_proto_swap` (missing
`proto.h`): a 64-bit big-endian header `(version:8, type:8, size:48)`. -/
def cl_proto_swap (p : cl_proto) : List Nat :=
  [p.version % 256, p.type % 256] ++ be_bytes 6 p.sz

/-- Modelled from the spec: the bytes of a `cl_msg` after `cl_msg_swap_header`
(missing `proto.h`): 22 bytes, all multi-byte fields big-endian. -/
def cl_msg_swap_header (m : cl_msg) : List Nat :=
  [m.header_sz % 256, m.info1 % 256, m.info2 % 256, m.info3 % 256, m.unused % 256,
    m.result_code % 256]
    ++ be_bytes 4 m.generation ++ be_bytes 4 m.record_ttl ++ be_bytes 4 m.transaction_ttl
    ++ be_bytes 2 m.n_fields ++ be_bytes 2 m.n_ops

/-- The function `cl_write_header`: the memory at `buf` afterwards and the
returned pointer as an offset from `buf`. -/
def cl_write_header (buf : List Nat) (msg_size : Nat) (info1 info2 : Int)
    (generation expiration timeout n_fields n_ops : Nat) : List Nat × Nat :=
  let proto : cl_proto :=
    { version := CL_PROTO_VERSION
      type := CL_PROTO_TYPE_CL_MSG
      sz := to_u64 ((msg_size : Int) - sizeof_cl_proto) % 2 ^ 48 }
  let m : cl_msg :=
    { header_sz := sizeof_cl_msg
      info1 := to_u8 info1
      info2 := to_u8 info2
      info3 := 0
      unused := 0
      result_code := 0
      generation := generation % 2 ^ 32
      record_ttl := expiration % 2 ^ 32
      transaction_ttl := timeout % 2 ^ 32
      n_fields := n_fields % 2 ^ 16
      n_ops := n_ops % 2 ^ 16 }
  (poke buf 0 (cl_proto_swap proto ++ cl_msg_swap_header m), sizeof_as_msg)

/-! ## Digests and fields -/

/-- Modelled from the spec: the function `cf_digest_compute2` of the missing
`cf_digest.h`, `digest = ripemd160(set_bytes || particle_type_byte || key_bytes)`.
It reads `set_len` bytes at `set` and `key_len` bytes at `key`; the hash
`ripemd160` itself is a parameter of the embedding. -/
def cf_digest_compute2 (ripemd160 : List Nat → List Nat) (set : List Nat) (set_len : Nat)
    (key : List Nat) (key_len : Nat) : List Nat :=
  ripemd160 (memcpy_src set set_len ++ memcpy_src key key_len)

/-- The memory a possibly null `const char*` points at. -/
def chars (s : Option (List Nat)) : List Nat := s.getD []

/-- The function `ev2citrusleaf_calculate_digest`: the return code and the
content of `*digest` afterwards (`digest` is its content before). -/
def ev2citrusleaf_calculate_digest (K : proto_h) (ripemd160 : List Nat → List Nat)
    (set : Option (List Nat)) (key : ev2citrusleaf_object) (digest : List Nat) :
    Int × List Nat :=
  let set_len := match set with
    | some s => strlen s
    | none => 0
  -- the key as it is laid out for digesting; `k` is the `alloca` buffer
  let k : Option (List Nat) :=
    if key.type = CL_STR then
      some ([key.type % 256] ++ memcpy_src key.ptr key.size)
    else if key.type = CL_INT then
      some ([key.type % 256] ++ store_htonll (to_u64 key.i64))
    else if key.type = CL_BLOB ∨ key.type = CL_JAVA_BLOB K ∨ key.type = CL_CSHARP_BLOB K
        ∨ key.type = CL_PYTHON_BLOB K ∨ key.type = CL_RUBY_BLOB K then
      some ([key.type % 256] ++ memcpy_src key.ptr key.size)
    else
      none
  match k with
  | none => (-1, digest)
  | some k => (0, cf_digest_compute2 ripemd160 (chars set) set_len k (key.size + 1))

/-- Modelled from the spec: the header of a `cl_msg_field` after
`cl_msg_swap_field` (missing `proto.h`), `field_size:32` big-endian and `type:8`. -/
def cl_msg_swap_field (field_sz type : Nat) : List Nat :=
  be_bytes 4 field_sz ++ [type % 256]

/-- Modelled from the spec: the function `cl_msg_field_get_next` of the missing
`proto.h`; `field_size` is the length of what follows it, so the next field
starts `4 + field_sz` bytes after the start of this one. -/
def cl_msg_field_get_next (mf field_sz : Nat) : Nat := mf + 4 + field_sz

/-- The result of `write_fields`. -/
structure write_fields_result where
  /-- The memory of the request buffer afterwards. -/
  buf : List Nat
  /-- The returned pointer as an offset into the buffer, `none` for the null
  pointer. -/
  ret : Option Nat
  /-- The content of `*d_ret` afterwards. -/
  d_ret : List Nat
deriving DecidableEq, Repr

/-- The function `write_fields`.  `buf` is the memory of the whole request
buffer and `pos` the offset at which the fields start; `d_ret` is the content of
`*d_ret` before the call (the callers never pass a null `d_ret`). -/
def write_fields (K : proto_h) (ripemd160 : List Nat → List Nat) (buf : List Nat)
    (pos : Nat) (ns : List Nat) (ns_len : Nat) (set : Option (List Nat)) (set_len : Nat)
    (key : Option ev2citrusleaf_object) (d : Option (List Nat)) (d_ret : List Nat) :
    write_fields_result :=
  -- the namespace
  let mf := pos
  let field_sz := (ns_len + 1) % 2 ^ 32
  let buf := poke buf (mf + sizeof_cl_msg_field) (memcpy_src ns ns_len)
  let mf_tmp := cl_msg_field_get_next mf field_sz
  let buf := poke buf mf (cl_msg_swap_field field_sz K.CL_MSG_FIELD_TYPE_NAMESPACE)
  let mf := mf_tmp
  -- the set
  let (buf, mf, mf_tmp) :=
    match set with
    | some s =>
      let field_sz := (set_len + 1) % 2 ^ 32
      let buf := poke buf (mf + sizeof_cl_msg_field) (memcpy_src s set_len)
      let mf_tmp := cl_msg_field_get_next mf field_sz
      let buf := poke buf mf (cl_msg_swap_field field_sz K.CL_MSG_FIELD_TYPE_SET)
      (buf, mf_tmp, mf_tmp)
    | none => (buf, mf, mf_tmp)
  -- the key: `none` stands for the early `return(0)`
  let after_key : Option (List Nat × Nat) :=
    match key with
    | none => some (buf, mf_tmp)
    | some key =>
      if key.type = CL_STR then
        let field_sz := (key.size % 2 ^ 32 + 2) % 2 ^ 32
        let buf := poke buf (mf + sizeof_cl_msg_field) [CL_PARTICLE_TYPE_STRING]
        let buf := poke buf (mf + sizeof_cl_msg_field + 1) (memcpy_src key.ptr key.size)
        let buf := poke buf mf (cl_msg_swap_field field_sz K.CL_MSG_FIELD_TYPE_KEY)
        some (buf, cl_msg_field_get_next mf field_sz)
      else if key.type = CL_BLOB then
        let field_sz := (key.size % 2 ^ 32 + 2) % 2 ^ 32
        let buf := poke buf (mf + sizeof_cl_msg_field) [CL_PARTICLE_TYPE_BLOB]
        let buf := poke buf (mf + sizeof_cl_msg_field + 1) (memcpy_src key.ptr key.size)
        let buf := poke buf mf (cl_msg_swap_field field_sz K.CL_MSG_FIELD_TYPE_KEY)
        some (buf, cl_msg_field_get_next mf field_sz)
      else if key.type = CL_INT then
        let field_sz := 8 + 2
        let buf := poke buf (mf + sizeof_cl_msg_field) [CL_PARTICLE_TYPE_INTEGER]
        let buf := poke buf (mf + sizeof_cl_msg_field + 1) (store_htonll (to_u64 key.i64))
        let buf := poke buf mf (cl_msg_swap_field field_sz K.CL_MSG_FIELD_TYPE_KEY)
        some (buf, cl_msg_field_get_next mf field_sz)
      else
        none
  match after_key with
  | none =>
    { buf := poke buf (mf + 4) [K.CL_MSG_FIELD_TYPE_KEY % 256], ret := none, d_ret := d_ret }
  | some (buf, mf_tmp) =>
    -- the digest of the key, read back from the key field at `mf`
    let d_ret :=
      match key with
      | some key =>
        cf_digest_compute2 ripemd160 (chars set) set_len
          (buf.drop (mf + sizeof_cl_msg_field)) (key.size + 1)
      | none => d_ret
    -- the digest field
    match d with
    | some d =>
      let field_sz := sizeof_cf_digest + 1
      let buf := poke buf (mf + sizeof_cl_msg_field) (memcpy_src d sizeof_cf_digest)
      let mf_tmp := cl_msg_field_get_next mf field_sz
      let buf := poke buf mf (cl_msg_swap_field field_sz K.CL_MSG_FIELD_TYPE_DIGEST_RIPE)
      { buf := buf, ret := some mf_tmp, d_ret := memcpy_src d sizeof_cf_digest }
    | none => { buf := buf, ret := some mf_tmp, d_ret := d_ret }

/-! ## Operations on the wire -/

/-- Modelled from the spec: the struct `cl_msg_op` of the missing `proto.h`,
`op_size:32, op:8, particle_type:8, version:8, name_size:8, name[name_size],
value[op_size - 4 - name_size]`, with its fields in host order.  `name` is the
memory from the flexible member `name` on: the name, then the value, then
whatever follows the op. -/
structure cl_msg_op where
  op_sz : Nat
  op : Nat
  particle_type : Nat
  version : Nat
  name_sz : Nat
  name : List Nat
deriving DecidableEq, Repr

/-- Modelled from the spec: the function `cl_msg_op_get_value_p` of the missing
`proto.h`; the value follows the `name_size` bytes of the name.  The result is
the offset of the value in `op.name`. -/
def cl_msg_op_get_value_p (op : cl_msg_op) : Nat := op.name_sz

/-- Modelled from the spec: the function `cl_msg_op_get_value_sz` of the missing
`proto.h`, `op_size - 4 - name_size` in 32-bit unsigned arithmetic. -/
def cl_msg_op_get_value_sz (op : cl_msg_op) : Nat :=
  (op.op_sz + 2 ^ 32 - (4 + op.name_sz) % 2 ^ 32) % 2 ^ 32

/-- Modelled from the spec: the function `cl_msg_op_get_next` of the missing
`proto.h`; `op_size` is the length of what follows it, so the next op starts
`4 + op_sz` bytes after the start of this one. -/
def cl_msg_op_get_next (pos : Nat) (op : cl_msg_op) : Nat := pos + 4 + op.op_sz

/-- Modelled from the spec: the fixed part of a `cl_msg_op` after `cl_msg_swap_op`
(missing `proto.h`), `op_size:32` big-endian and four single bytes. -/
def cl_msg_swap_op (op : cl_msg_op) : List Nat :=
  be_bytes 4 op.op_sz ++ [op.op % 256, op.particle_type % 256, op.version % 256,
    op.name_sz % 256]

/-- The `cl_msg_op` found at offset `pos` of a buffer that has not been written
there yet: the single-byte fields and the memory from `name` on are what the
buffer holds. -/
def cl_msg_op_at (buf : List Nat) (pos : Nat) : cl_msg_op :=
  { op_sz := 0
    op := buf.getD (pos + 4) 0
    particle_type := buf.getD (pos + 5) 0
    version := buf.getD (pos + 6) 0
    name_sz := buf.getD (pos + 7) 0
    name := buf.drop (pos + sizeof_cl_msg_op) }

/-- The buffer after the op at offset `pos` has been filled in and swapped to
network order. -/
def cl_msg_op_store (buf : List Nat) (pos : Nat) (op : cl_msg_op) : List Nat :=
  poke (poke buf (pos + sizeof_cl_msg_op) op.name) pos (cl_msg_swap_op op)

/-- The `switch (v->object.type)` shared by `bin_to_op` and `operation_to_op`:
copy the value behind the name and add its width to `op_sz`.  The `default`
case returns with the op as it is. -/
def value_to_op (object : ev2citrusleaf_object) (op : cl_msg_op) : cl_msg_op :=
  let data := cl_msg_op_get_value_p op
  if object.type = CL_NULL then
    { op with particle_type := CL_PARTICLE_TYPE_NULL }
  else if object.type = CL_INT then
    { op with
      particle_type := CL_PARTICLE_TYPE_INTEGER
      op_sz := to_u32 ((op.op_sz : Int) + (value_to_op_int object.i64).2)
      name := poke op.name data (value_to_op_int object.i64).1 }
  else if object.type = CL_FLOAT then
    { op with
      particle_type := CL_PARTICLE_TYPE_FLOAT
      op_sz := to_u32 ((op.op_sz : Int) + (value_to_op_float object.f64).2)
      name := poke op.name data (value_to_op_float object.f64).1 }
  else if object.type = CL_STR then
    { op with
      op_sz := (op.op_sz + object.size % 2 ^ 32) % 2 ^ 32
      particle_type := CL_PARTICLE_TYPE_STRING
      name := poke op.name data (memcpy_src object.ptr object.size) }
  else if object.type = CL_BLOB then
    { op with
      op_sz := (op.op_sz + object.size % 2 ^ 32) % 2 ^ 32
      particle_type := CL_PARTICLE_TYPE_BLOB
      name := poke op.name data (memcpy_src object.ptr object.size) }
  else
    op

/-- The function `bin_to_op`; `op` is the content of `*op` before the call. -/
def bin_to_op (K : proto_h) (operation : Int) (v : ev2citrusleaf_bin) (op : cl_msg_op) :
    cl_msg_op :=
  let bin_len := strlen v.bin_name
  let op : cl_msg_op :=
    { op with
      op_sz := (sizeof_cl_msg_op + bin_len - 4) % 2 ^ 32
      op := to_u8 operation
      version := 0
      name_sz := bin_len % 256
      name := poke op.name 0 (memcpy_src v.bin_name bin_len) }
  if operation = K.CL_MSG_OP_READ then
    { op with particle_type := 0 }
  else
    value_to_op v.object op

/-- The function `operation_to_op`; `op` is the content of `*op` before the
call. -/
def operation_to_op (K : proto_h) (v : ev2citrusleaf_operation) (op : cl_msg_op) :
    cl_msg_op :=
  let bin_len := strlen v.bin_name
  let op : cl_msg_op :=
    { op with
      op_sz := (sizeof_cl_msg_op + bin_len - 4) % 2 ^ 32
      name_sz := bin_len % 256
      name := poke op.name 0 (memcpy_src v.bin_name bin_len) }
  let op : cl_msg_op :=
    match v.op with
    | .CL_OP_WRITE => { op with op := to_u8 K.CL_MSG_OP_WRITE }
    | .CL_OP_READ => { op with op := to_u8 K.CL_MSG_OP_READ }
    | .CL_OP_ADD => { op with op := to_u8 K.CL_MSG_OP_INCR }
  if v.op = .CL_OP_READ then
    { op with particle_type := 0 }
  else
    value_to_op v.object op

/-- The function `value_to_op_get_size`: the return code and `*sz` afterwards. -/
def value_to_op_get_size (K : proto_h) (v : ev2citrusleaf_object) (sz : Nat) : Int × Nat :=
  if v.type = CL_NULL then (0, sz)
  else if v.type = CL_INT then (0, to_u64 ((sz : Int) + value_to_op_int_size v.i64))
  else if v.type = CL_FLOAT then (0, (sz + 8) % 2 ^ 64)
  else if v.type = CL_STR then (0, (sz + v.size) % 2 ^ 64)
  else if v.type = CL_PYTHON_BLOB K ∨ v.type = CL_RUBY_BLOB K ∨ v.type = CL_JAVA_BLOB K
      ∨ v.type = CL_CSHARP_BLOB K ∨ v.type = CL_BLOB then (0, (sz + v.size) % 2 ^ 64)
  else (-1, sz)

/-! ## Laying out a request -/

/-- The result of `compile` and `compile_ops`. -/
structure compile_result where
  /-- The return code. -/
  rc : Int
  /-- The memory of the buffer `*buf_r` points at afterwards. -/
  buf : List Nat
  /-- The content of `*buf_size_r` afterwards. -/
  buf_size : Nat
  /-- The content of `*digest_r` afterwards. -/
  digest : List Nat
  /-- The content of `*write` afterwards (`compile_ops` only). -/
  write : Bool
  /-- The final value of the local cursor, as an offset into the buffer: the
  position after the last field or op laid out (`none` if nothing was). -/
  end_pos : Option Nat
  /-- Whether `*buf_r` was redirected to a block obtained from `malloc`. -/
  malloced : Bool
deriving DecidableEq, Repr

/-- The size pass of `compile` over the bins: `msg_size` afterwards, or `none`
for the early `return(-1)`. -/
def compile_size_ops (K : proto_h) (info2 : Nat) :
    List ev2citrusleaf_bin → Nat → Option Nat
  | [], msg_size => some msg_size
  | v :: values, msg_size =>
    let msg_size := (msg_size + (sizeof_cl_msg_op + strlen v.bin_name)) % 2 ^ 64
    if info2 &&& K.CL_MSG_INFO2_WRITE ≠ 0 then
      if (value_to_op_get_size K v.object msg_size).1 ≠ 0 then none
      else compile_size_ops K info2 values (value_to_op_get_size K v.object msg_size).2
    else compile_size_ops K info2 values msg_size

/-- The loop of `compile` that lays out the ops: the buffer and the cursor `op`
afterwards. -/
def compile_lay_ops (K : proto_h) (operation : Int) :
    List ev2citrusleaf_bin → List Nat → Nat → List Nat × Nat
  | [], buf, op => (buf, op)
  | v :: values, buf, op =>
    let o := bin_to_op K operation v (cl_msg_op_at buf op)
    let op_tmp := cl_msg_op_get_next op o
    compile_lay_ops K operation values (cl_msg_op_store buf op o) op_tmp

/-- The size of the fields in the size pass of `compile` and `compile_ops`. -/
def compile_size_fields (ns_len : Nat) (set : Option (List Nat)) (set_len : Nat)
    (key : Option ev2citrusleaf_object) (digest : Option (List Nat)) : Nat :=
  let msg_size := sizeof_as_msg
  let msg_size := msg_size + (ns_len + sizeof_cl_msg_field)
  let msg_size := if set.isSome then msg_size + (set_len + sizeof_cl_msg_field) else msg_size
  let msg_size := match key with
    | some key => (msg_size + (sizeof_cl_msg_field + 1 + key.size)) % 2 ^ 64
    | none => msg_size
  let msg_size := if digest.isSome then msg_size + (sizeof_cl_msg_field + 1 + sizeof_cf_digest)
    else msg_size
  msg_size % 2 ^ 64

/-- The function `compile`.  `buf_r` is the memory of the buffer `*buf_r` points
at (the callers pass the request's `wr_tmp`), `buf_size_r` the content of
`*buf_size_r`, `digest_r` the content of `*digest_r`; `mbuf` is the block
`malloc` hands out if it is called, `none` if it fails.  The bins are
`values[0 .. n_values-1]`. -/
def compile (K : proto_h) (ripemd160 : List Nat → List Nat) (info1 info2 : Nat)
    (ns : List Nat) (set : Option (List Nat)) (key : Option ev2citrusleaf_object)
    (digest : Option (List Nat)) (wparam : Option ev2citrusleaf_write_parameters)
    (timeout : Nat) (values : List ev2citrusleaf_bin) (buf_r : List Nat) (buf_size_r : Nat)
    (mbuf : Option (List Nat)) (digest_r : List Nat) : compile_result :=
  let fail (buf : List Nat) (buf_size : Nat) (malloced : Bool) : compile_result :=
    { rc := -1, buf := buf, buf_size := buf_size, digest := digest_r, write := false,
      end_pos := none, malloced := malloced }
  let ns_len := strlen ns
  let set_len := match set with
    | some s => strlen s
    | none => 0
  -- determine the size
  match compile_size_ops K info2 values (compile_size_fields ns_len set set_len key digest) with
  | none => fail buf_r buf_size_r false
  | some msg_size =>
    -- size too small? malloc!
    let chosen : Option (List Nat × Bool) :=
      if msg_size > buf_size_r then
        match mbuf with
        | some m => some (m, true)
        | none => none
      else some (buf_r, false)
    match chosen with
    | none => fail buf_r buf_size_r false
    | some (buf, malloced) =>
      -- lay out the header
      let info2 : Nat := match wparam with
        | some w => if w.use_generation then info2 ||| K.CL_MSG_INFO2_GENERATION else info2
        | none => info2
      let generation : Nat := match wparam with
        | some w => if w.use_generation then w.generation else 0
        | none => 0
      let expiration : Nat := match wparam with
        | some w => w.expiration
        | none => 0
      let n_fields : Nat := 1 + (if set.isSome then 1 else 0) + (if key.isSome then 1 else 0)
        + (if digest.isSome then 1 else 0)
      let hdr := cl_write_header buf msg_size (info1 : Int) (info2 : Int) generation expiration timeout
        n_fields values.length
      -- now the fields
      let wf := write_fields K ripemd160 hdr.1 hdr.2 ns ns_len set set_len key digest digest_r
      match wf.ret with
      | none => { fail wf.buf msg_size malloced with digest := wf.d_ret }
      | some pos =>
        -- lay out the ops
        let operation :=
          if info2 &&& K.CL_MSG_INFO2_WRITE ≠ 0 then K.CL_MSG_OP_WRITE else K.CL_MSG_OP_READ
        let ops := compile_lay_ops K operation values wf.buf pos
        { rc := 0, buf := ops.1, buf_size := msg_size, digest := wf.d_ret, write := false,
          end_pos := some ops.2, malloced := malloced }

/-! ## Decoding an op of a response -/

/-- The function `set_object`: the return code and `*obj` afterwards.
`malloc_ok` tells whether the `malloc` of the string copy succeeds. -/
def set_object (K : proto_h) (op : cl_msg_op) (obj : ev2citrusleaf_object)
    (malloc_ok : Bool) : Int × ev2citrusleaf_object :=
  let obj := { obj with type := op.particle_type }
  let value_p := op.name.drop (cl_msg_op_get_value_p op)
  if op.particle_type = CL_PARTICLE_TYPE_NULL then
    (0, { obj with size := 0 })
  else if op.particle_type = CL_PARTICLE_TYPE_INTEGER then
    let r := op_to_value_int value_p (to_i32 (cl_msg_op_get_value_sz op)) obj.i64
    (r.1, { obj with size := 8, i64 := r.2 })
  else if op.particle_type = CL_PARTICLE_TYPE_FLOAT then
    let r := op_to_value_float value_p (to_i32 (cl_msg_op_get_value_sz op)) obj.f64
    (r.1, { obj with size := 8, f64 := r.2 })
  else if op.particle_type = CL_PARTICLE_TYPE_STRING then
    let size := cl_msg_op_get_value_sz op
    if malloc_ok then
      (0, { obj with size := size, ptr := memcpy_src value_p size ++ [0] })
    else
      (-1, { obj with size := size, ptr := [] })
  else if op.particle_type = CL_PARTICLE_TYPE_BLOB
      ∨ op.particle_type = K.CL_PARTICLE_TYPE_JAVA_BLOB
      ∨ op.particle_type = K.CL_PARTICLE_TYPE_CSHARP_BLOB
      ∨ op.particle_type = K.CL_PARTICLE_TYPE_PYTHON_BLOB
      ∨ op.particle_type = K.CL_PARTICLE_TYPE_RUBY_BLOB then
    (0, { obj with size := cl_msg_op_get_value_sz op, ptr := value_p })
  else
    (-1, obj)

/-- The function `cl_set_value_particular`: `*value` afterwards. -/
def cl_set_value_particular (K : proto_h) (op : cl_msg_op) (value : ev2citrusleaf_bin)
    (malloc_ok : Bool) : ev2citrusleaf_bin :=
  if op.name_sz > K.sizeof_bin_name then
    value
  else
    { bin_name := poke (poke value.bin_name 0 (memcpy_src op.name op.name_sz)) op.name_sz [0]
      object := (set_object K op value.object malloc_ok).2 }

/-- The size pass of `compile_ops` over the operations: `msg_size`, `info1` and
`info2` afterwards.  The result of `value_to_op_get_size` is not looked at. -/
def compile_ops_size_ops (K : proto_h) :
    List ev2citrusleaf_operation → Nat × Nat × Nat → Nat × Nat × Nat
  | [], acc => acc
  | v :: ops, (msg_size, info1, info2) =>
    let msg_size := (msg_size + (sizeof_cl_msg_op + strlen v.bin_name)) % 2 ^ 64
    let (msg_size, info2) :=
      if v.op = .CL_OP_WRITE ∨ v.op = .CL_OP_ADD then
        ((value_to_op_get_size K v.object msg_size).2, info2 ||| K.CL_MSG_INFO2_WRITE)
      else (msg_size, info2)
    let info1 := if v.op = .CL_OP_READ then info1 ||| K.CL_MSG_INFO1_READ else info1
    compile_ops_size_ops K ops (msg_size, info1, info2)

/-- The loop of `compile_ops` that lays out the ops: the buffer and the cursor
`op` afterwards. -/
def compile_ops_lay_ops (K : proto_h) :
    List ev2citrusleaf_operation → List Nat → Nat → List Nat × Nat
  | [], buf, op => (buf, op)
  | v :: ops, buf, op =>
    let o := operation_to_op K v (cl_msg_op_at buf op)
    let op_tmp := cl_msg_op_get_next op o
    compile_ops_lay_ops K ops (cl_msg_op_store buf op o) op_tmp

/-- The function `compile_ops`, with the arguments of `compile`; the result is
`none` when `set` is the null pointer, which the function hands to `strlen`. -/
def compile_ops (K : proto_h) (ripemd160 : List Nat → List Nat) (ns : List Nat)
    (set : Option (List Nat)) (key : Option ev2citrusleaf_object)
    (digest : Option (List Nat)) (ops : List ev2citrusleaf_operation)
    (wparam : Option ev2citrusleaf_write_parameters) (buf_r : List Nat) (buf_size_r : Nat)
    (mbuf : Option (List Nat)) (digest_r : List Nat) : Option compile_result :=
  match set with
  | none => none
  | some s =>
    let ns_len := strlen ns
    let set_len := strlen s
    -- determine the size
    let sized := compile_ops_size_ops K ops
      (compile_size_fields ns_len set set_len key digest, 0, 0)
    let msg_size := sized.1
    let info1 := sized.2.1
    let info2 := sized.2.2
    let write : Bool := info2 &&& K.CL_MSG_INFO2_WRITE ≠ 0
    -- size too small? malloc!
    let chosen : Option (List Nat × Bool) :=
      if msg_size > buf_size_r then
        match mbuf with
        | some m => some (m, true)
        | none => none
      else some (buf_r, false)
    match chosen with
    | none =>
      some { rc := -1, buf := buf_r, buf_size := buf_size_r, digest := digest_r, write := write,
             end_pos := none, malloced := false }
    | some (buf, malloced) =>
      -- lay out the header
      let info2 : Nat := match wparam with
        | some w => if w.use_generation then info2 ||| K.CL_MSG_INFO2_GENERATION else info2
        | none => info2
      let generation : Nat := match wparam with
        | some w => if w.use_generation then w.generation else 0
        | none => 0
      let expiration : Nat := match wparam with
        | some w => w.expiration
        | none => 0
      let n_fields : Nat := 1 + 1 + (if key.isSome then 1 else 0)
        + (if digest.isSome then 1 else 0)
      let hdr := cl_write_header buf msg_size (info1 : Int) (info2 : Int) generation expiration
        expiration n_fields ops.length
      -- now the fields
      let wf := write_fields K ripemd160 hdr.1 hdr.2 ns ns_len set set_len key digest digest_r
      match wf.ret with
      | none =>
        some { rc := -1, buf := wf.buf, buf_size := msg_size, digest := wf.d_ret, write := write,
               end_pos := none, malloced := malloced }
      | some pos =>
        -- lay out the ops
        let laid := compile_ops_lay_ops K ops wf.buf pos
        some { rc := 0, buf := laid.1, buf_size := msg_size, digest := wf.d_ret, write := write,
               end_pos := some laid.2, malloced := malloced }

/-! ## Sample inputs -/

/-- An object whose members are all zero. -/
def zero_object : ev2citrusleaf_object := ⟨0, 0, 0, 0, []⟩

/-- A `cl_msg_op` in zeroed memory. -/
def zero_op : cl_msg_op := ⟨0, 0, 0, 0, 0, []⟩

/-- A bin in zeroed memory. -/
def zero_bin : ev2citrusleaf_bin := ⟨[], zero_object⟩

/-- A digest function for evaluating the encoder where the digest is of no
interest. -/
def no_digest : List Nat → List Nat := fun _ => []

/-- The bin `value` holding the integer `0x7FFF`. -/
def bin_0x7FFF : ev2citrusleaf_bin :=
  ⟨[118, 97, 108, 117, 101, 0], ev2citrusleaf_object_init_int zero_object 0x7FFF⟩

/-- The request `ev2citrusleaf_put` compiles for namespace `test`, set `s`, the
string key `k1` and the single bin `bin_0x7FFF`, with timeout 200 and no write
parameters, into a zeroed write buffer of 80 bytes. -/
def put_0x7FFF : compile_result :=
  compile aerospike no_digest 0 aerospike.CL_MSG_INFO2_WRITE [116, 101, 115, 116, 0]
    (some [115, 0]) (some (ev2citrusleaf_object_init_str zero_object [107, 49, 0])) none none
    200 [bin_0x7FFF] (List.replicate 80 0) 80 none []

/-- A key that is a java blob of the two bytes `k1`. -/
def java_blob_key (K : proto_h) : ev2citrusleaf_object :=
  ev2citrusleaf_object_init_blob2 (CL_JAVA_BLOB K) zero_object [107, 49] 2

/-- A bin named `a` holding a plain blob of `2 ^ 32` zero bytes. -/
def bin_4GiB : ev2citrusleaf_bin :=
  ⟨[97, 0], ev2citrusleaf_object_init_blob zero_object (List.replicate (2 ^ 32) 0) (2 ^ 32)⟩

/-- A bin named `v` holding the string `hi`. -/
def bin_hi : ev2citrusleaf_bin :=
  ⟨[118, 0], ev2citrusleaf_object_init_str zero_object [104, 105, 0]⟩

/-! ## Parsing a response -/

/-- The function `parse_get_maxbins`: `ntohs(msg->n_ops)`, the two bytes at
offset 20 of the message header. -/
def parse_get_maxbins (buf : List Nat) : Nat :=
  be_value ((buf.drop 20).take 2)

/-- Modelled from the spec: the `cl_msg_op` found at offset `pos` of a received
buffer after `cl_msg_swap_op` (missing `proto.h`), `op_size:32` big-endian, then
the four single bytes, then the name. -/
def cl_msg_op_of_wire (buf : List Nat) (pos : Nat) : cl_msg_op :=
  { op_sz := be_value ((buf.drop pos).take 4)
    op := buf.getD (pos + 4) 0
    particle_type := buf.getD (pos + 5) 0
    version := buf.getD (pos + 6) 0
    name_sz := buf.getD (pos + 7) 0
    name := buf.drop (pos + sizeof_cl_msg_op) }

/-- The loop of `parse` over the fields: the cursor `mf` after `n` fields, or
`none` for the `return(-1)`. -/
def parse_fields (buf : List Nat) (limit : Nat) : Nat → Nat → Option Nat
  | 0, mf => some mf
  | n + 1, mf =>
    if mf ≥ limit then none
    else parse_fields buf limit n (cl_msg_field_get_next mf (be_value ((buf.drop mf).take 4)))

/-- The loop of `parse` over the ops, from index `i` for `n` more ops: the return
code and the array `values` afterwards.  A write past the end of `values` is
dropped. -/
def parse_ops (K : proto_h) (malloc_ok : Bool) (buf : List Nat) (limit : Nat) :
    Nat → Nat → Nat → List ev2citrusleaf_bin → Int × List ev2citrusleaf_bin
  | 0, _, _, values => (0, values)
  | n + 1, i, op, values =>
    if op ≥ limit then (-1, values)
    else
      let o := cl_msg_op_of_wire buf op
      let v := cl_set_value_particular K o (values.getD i zero_bin) malloc_ok
      parse_ops K malloc_ok buf limit n (i + 1) (cl_msg_op_get_next op o) (values.set i v)

/-- The result of `parse`. -/
structure parse_result where
  rc : Int
  result_code : Int
  generation : Nat
  expiration : Nat
  values : Option (List ev2citrusleaf_bin)
deriving DecidableEq, Repr

/-- The function `parse`.  `values` is the array to fill (`none` for a null
pointer) and `n_values` its length; `void_time_to_ttl` stands for
`cf_server_void_time_to_ttl` of the missing `cf_clock.h` and `malloc_ok` tells
whether the string copies can be allocated. -/
def parse (K : proto_h) (void_time_to_ttl : Nat → Nat) (malloc_ok : Bool) (buf : List Nat)
    (buf_len : Nat) (values : Option (List ev2citrusleaf_bin)) (n_values : Nat) :
    parse_result :=
  let limit := buf_len
  let result_code : Int := buf.getD 5 0
  let generation := be_value ((buf.drop 6).take 4)
  let expiration := void_time_to_ttl (be_value ((buf.drop 10).take 4))
  let n_fields := be_value ((buf.drop 18).take 2)
  let n_ops := be_value ((buf.drop 20).take 2)
  match parse_fields buf limit n_fields sizeof_cl_msg with
  | none =>
    { rc := -1, result_code := result_code, generation := generation, expiration := expiration,
      values := values }
  | some op =>
    match values with
    | none =>
      { rc := 0, result_code := result_code, generation := generation,
        expiration := expiration, values := none }
    | some vs =>
      if n_values = 0 then
        { rc := 0, result_code := result_code, generation := generation,
          expiration := expiration, values := some vs }
      else
        let r := parse_ops K malloc_ok buf limit n_ops 0 op vs
        { rc := r.1, result_code := result_code, generation := generation,
          expiration := expiration, values := some r.2 }

/-! ## The request engine -/

/-- What the engine does to its collaborators and to the user, in the order in
which it does it. -/
inductive action where
  /-- The user callback `(req->user_cb)(return_code, bins, n_bins, generation,
  expiration, user_data)`. -/
  | user_cb (return_code : Int) (bins : Option (List ev2citrusleaf_bin)) (n_bins : Nat)
      (generation expiration : Nat)
  /-- A call of `cl_cluster_node_get` that returned `node`. -/
  | cl_cluster_node_get (node : Nat)
  | cl_cluster_node_put (node : Nat)
  /-- A call of `cl_cluster_node_fd_get(node)` that returned `fd`. -/
  | cl_cluster_node_fd_get (node : Nat) (fd : Int)
  | cl_cluster_node_fd_put (node : Nat) (fd : Int)
  | cf_close (fd : Int)
  /-- The decrement `cf_atomic32_decr(&node->n_fds_open)`. -/
  | n_fds_open_decr (node : Nat)
  | cl_cluster_node_had_failure (node : Nat)
  | cl_cluster_node_had_success (node : Nat)
  /-- The call `cf_queue_push(asc->request_q, &req)`. -/
  | cf_queue_push
  /-- The call `cf_queue_delete(asc->request_q, &req, true)`. -/
  | cf_queue_delete
  | cl_request_destroy
deriving DecidableEq, Repr

/-- A `struct event` of libevent as far as the engine uses it: the descriptor
and the direction it was assigned, whether its callback is the base-hop
callback, and whether it is pending in the event base. -/
structure event_slot where
  fd : Int
  ev_write : Bool
  base_hop : Bool
  pending : Bool
deriving DecidableEq, Repr

/-- The counters of the cluster (`asc->n_req_successes` and so on). -/
structure cluster_stats where
  n_req_successes : Int
  n_req_failures : Int
  n_req_timeouts : Int
  n_req_throttles : Int
  n_internal_retries : Int
  n_internal_retries_off_q : Int
  requests_in_progress : Int
deriving DecidableEq, Repr

/-- The struct `cl_request` (its declaration is in the missing
`ev2citrusleaf-internal.h`), with the fields the engine reads and writes. -/
structure cl_request where
  timeout_ms : Int
  wpol : ev2citrusleaf_write_policy
  /-- Whether `cross_thread_lock` is a mutex (not null). -/
  cross_thread_lock : Bool
  cross_thread_locked : Bool
  node : Option Nat
  fd : Int
  timeout_set : Bool
  network_set : Bool
  base_hop_set : Bool
  write : Bool
  start_time : Int
  ns : List Nat
  d : List Nat
  wr_buf : List Nat
  wr_buf_size : Nat
  wr_buf_pos : Nat
  /-- Whether `wr_buf` is a block obtained from `malloc` (not `wr_tmp`). -/
  wr_buf_malloced : Bool
  rd_header_buf : List Nat
  rd_header_pos : Nat
  rd_buf : List Nat
  rd_buf_size : Nat
  rd_buf_pos : Nat
deriving DecidableEq, Repr

/-- A request together with what surrounds it: the two events of its
`event_space`, the cluster's queue and counters, and the log of actions. -/
structure engine where
  req : cl_request
  /-- How often `cl_request_destroy` has been called on the request. -/
  destroyed : Nat
  /-- Whether the timeout event is pending in the event base. -/
  timeout_event : Bool
  /-- The network event, which doubles as the base-hop event. -/
  network_event : event_slot
  /-- How often the request is on `asc->request_q`. -/
  request_q : Nat
  asc : cluster_stats
  log : List action
deriving DecidableEq, Repr

/-- The function `cl_request_create`, `none` when `malloc` fails. -/
def cl_request_create (malloc_ok : Bool) (timeout_ms : Int)
    (wparam : Option ev2citrusleaf_write_parameters) : Option cl_request :=
  if malloc_ok then
    some
      { timeout_ms := timeout_ms
        wpol := match wparam with
          | some w => w.wpol
          | none => .CL_WRITE_RETRY
        cross_thread_lock := false
        cross_thread_locked := false
        node := none
        fd := -1
        timeout_set := false
        network_set := false
        base_hop_set := false
        write := false
        start_time := 0
        ns := []
        d := List.replicate sizeof_cf_digest 0
        wr_buf := []
        wr_buf_size := 0
        wr_buf_pos := 0
        wr_buf_malloced := false
        rd_header_buf := List.replicate sizeof_cl_proto 0
        rd_header_pos := 0
        rd_buf := []
        rd_buf_size := 0
        rd_buf_pos := 0 }
  else none

/-- A freshly created request in its surroundings: no event pending, not on the
queue, nothing done yet. -/
def engine_init (req : cl_request) (asc : cluster_stats) : engine :=
  { req := req
    destroyed := 0
    timeout_event := false
    network_event := ⟨-1, false, false, false⟩
    request_q := 0
    asc := asc
    log := [] }

/-- The function `cl_request_destroy`. -/
def cl_request_destroy (w : engine) : engine :=
  { w with
    req := { w.req with cross_thread_locked := false }
    destroyed := w.destroyed + 1
    log := w.log ++ [.cl_request_destroy] }

/-- What the surroundings answer while a request completes. -/
structure complete_oracle where
  /-- The function `cf_server_void_time_to_ttl` of the missing `cf_clock.h`. -/
  void_time_to_ttl : Nat → Nat
  /-- Whether `set_object` can allocate its string copies. -/
  malloc_ok : Bool
  /-- The content of the bins `alloca` hands out. -/
  stack_bin : ev2citrusleaf_bin

/-- The arguments of a call of the user callback (all but `user_data`). -/
structure callback_args where
  return_code : Int
  bins : Option (List ev2citrusleaf_bin)
  n_bins : Nat
  generation : Nat
  expiration : Nat

/-- The part of `ev2citrusleaf_request_complete` that parses the response: the
arguments with which it calls the user back. -/
def response_callback (K : proto_h) (req : cl_request) (o : complete_oracle) : callback_args :=
  let n_bins := parse_get_maxbins req.rd_buf
  let bins : Option (List ev2citrusleaf_bin) :=
    if n_bins ≠ 0 then some (List.replicate n_bins o.stack_bin) else none
  let p := parse K o.void_time_to_ttl o.malloc_ok req.rd_buf req.rd_buf_size bins n_bins
  -- convert server-side timeouts to the usual timeout return-code
  let return_code :=
    if p.result_code = K.EV2CITRUSLEAF_FAIL_SERVERSIDE_TIMEOUT then
      K.EV2CITRUSLEAF_FAIL_TIMEOUT
    else p.result_code
  ⟨return_code, p.values, n_bins, p.generation, p.expiration⟩

/-- The function `ev2citrusleaf_request_complete`. -/
def ev2citrusleaf_request_complete (K : proto_h) (w : engine) (timedout : Bool)
    (o : complete_oracle) : engine :=
  -- evtimer_del
  let w := if w.req.timeout_set then { w with timeout_event := false } else w
  -- event_del of the network event
  let w :=
    if w.req.network_set then { w with network_event := { w.network_event with pending := false } }
    else w
  -- reuse or close the socket, if it's open
  let w :=
    if w.req.fd > -1 then
      match w.req.node with
      | some node =>
        if ¬ timedout then
          { w with
            log := w.log ++ [action.cl_cluster_node_fd_put node w.req.fd]
            req := { w.req with fd := -1 } }
        else
          { w with
            log := w.log ++ [action.cf_close w.req.fd, action.n_fds_open_decr node]
            req := { w.req with fd := -1 } }
      | none => w
    else w
  let w :=
    if timedout = false then
      let cb := response_callback K w.req o
      let w :=
        { w with
          log := w.log
            ++ [action.user_cb cb.return_code cb.bins cb.n_bins cb.generation cb.expiration] }
      match w.req.node with
      | some node =>
        if cb.return_code = K.EV2CITRUSLEAF_FAIL_TIMEOUT then
          { w with
            log := w.log ++ [action.cl_cluster_node_had_failure node]
            asc := { w.asc with
              n_req_timeouts := w.asc.n_req_timeouts + 1
              n_req_failures := w.asc.n_req_failures + 1 } }
        else
          { w with
            log := w.log ++ [action.cl_cluster_node_had_success node]
            asc := { w.asc with n_req_successes := w.asc.n_req_successes + 1 } }
      | none => w
    else
      -- could still be in the cluster's pending queue; scrub it out
      let w := { w with request_q := w.request_q - 1, log := w.log ++ [action.cf_queue_delete] }
      let w :=
        if w.req.base_hop_set then
          { w with network_event := { w.network_event with pending := false } }
        else w
      let w :=
        { w with log := w.log ++ [action.user_cb K.EV2CITRUSLEAF_FAIL_TIMEOUT none 0 0 0] }
      let w :=
        match w.req.node with
        | some node => { w with log := w.log ++ [action.cl_cluster_node_had_failure node] }
        | none => w
      { w with asc := { w.asc with n_req_failures := w.asc.n_req_failures + 1 } }
  -- release the node
  let w :=
    match w.req.node with
    | some node =>
      { w with
        log := w.log ++ [action.cl_cluster_node_put node], req := { w.req with node := none } }
    | none => w
  let w :=
    { w with asc := { w.asc with requests_in_progress := w.asc.requests_in_progress - 1 } }
  cl_request_destroy w

/-- What the cluster answers in one round of the loop of `ev2citrusleaf_restart`. -/
structure restart_attempt where
  /-- The result of `cl_cluster_node_get`, `none` for the null pointer. -/
  node : Option Nat
  /-- The result of `cl_cluster_node_throttle_drop`. -/
  throttle_drop : Bool
  /-- The results of the successive calls of `cl_cluster_node_fd_get`. -/
  fd_gets : List Int

/-- What the surroundings answer during `ev2citrusleaf_restart`. -/
structure restart_oracle where
  /-- The result of `cf_getms()`. -/
  now : Int
  attempts : List restart_attempt
  /-- Whether `event_add` of the network event succeeds. -/
  event_add_ok : Bool

/-- The loop `while (fd == -1) fd = cl_cluster_node_fd_get(node)`: the log
afterwards and the value of `fd` on leaving the loop; `none` when the answers
run out before the loop ends. -/
def fd_get_loop (node : Nat) : List Int → List action → Option (List action × Int)
  | [], _ => none
  | fd :: rest, log =>
    if fd = -1 then fd_get_loop node rest (log ++ [action.cl_cluster_node_fd_get node fd])
    else some (log ++ [action.cl_cluster_node_fd_get node fd], fd)

/-- How the loop `for (i = 0; i < 5; i++)` of `ev2citrusleaf_restart` ends. -/
inductive restart_exit where
  /-- The statement `return true` after `cl_cluster_node_get` gave no node. -/
  | no_node
  /-- The statement `return false`: throttled. -/
  | throttled
  /-- The statement `break` with a good socket. -/
  | got (node : Nat) (fd : Int)
  /-- The loop ran to `i == 5`. -/
  | gave_up
deriving DecidableEq, Repr

/-- The loop `for (i = 0; i < 5; i++)` of `ev2citrusleaf_restart` with `n` rounds
to go: the engine afterwards and how the loop ended; `none` when the answers
run out. -/
def restart_loop (may_throttle : Bool) :
    Nat → List restart_attempt → engine → Option (engine × restart_exit)
  | 0, _, w => some (w, .gave_up)
  | _ + 1, [], _ => none
  | n + 1, a :: attempts, w =>
    match a.node with
    | none =>
      some ({ w with request_q := w.request_q + 1, log := w.log ++ [action.cf_queue_push] }, .no_node)
    | some node =>
      let w := { w with log := w.log ++ [action.cl_cluster_node_get node] }
      if may_throttle ∧ a.throttle_drop then
        some
          ({ w with
             asc := { w.asc with n_req_throttles := w.asc.n_req_throttles + 1 }
             log := w.log ++ [action.cl_cluster_node_put node] }, .throttled)
      else
        match fd_get_loop node a.fd_gets w.log with
        | none => none
        | some (log, fd) =>
          let w := { w with log := log }
          if fd > -1 then some (w, .got node fd)
          else
            restart_loop may_throttle n attempts
              { w with log := w.log ++ [action.cl_cluster_node_put node] }

/-- The function `ev2citrusleaf_restart`: the returned flag and the engine
afterwards; `none` when the answers of the oracle run out. -/
def ev2citrusleaf_restart (w : engine) (may_throttle : Bool) (o : restart_oracle) :
    Option (Bool × engine) :=
  if w.req.timeout_ms > 0 ∧ w.req.start_time + w.req.timeout_ms < o.now then
    some (true, w)
  else
    -- set/reset state to beginning of transaction
    let w :=
      { w with
        req := { w.req with
          wr_buf_pos := 0, rd_buf_pos := 0, rd_header_pos := 0, node := none, fd := -1 } }
    match restart_loop may_throttle 5 o.attempts w with
    | none => none
    | some (w, .no_node) => some (true, w)
    | some (w, .throttled) => some (false, w)
    | some (w, .gave_up) =>
      some (true, { w with request_q := w.request_q + 1, log := w.log ++ [action.cf_queue_push] })
    | some (w, .got node fd) =>
      -- go ahead, using the good node and socket
      let w :=
        { w with
          req := { w.req with node := some node, fd := fd, network_set := o.event_add_ok }
          network_event := ⟨fd, true, false, o.event_add_ok⟩ }
      some (true, w)

/-- The result of a `send` or `recv`. -/
structure io_result where
  rv : Int
  /-- Whether `errno` is `EAGAIN` or `EWOULDBLOCK` (looked at when `rv < 0`). -/
  again : Bool
  /-- The bytes `recv` stored (the first `rv` of them count). -/
  data : List Nat

/-- What the surroundings answer during `ev2citrusleaf_event`. -/
structure network_oracle where
  send : io_result
  recv_header : io_result
  /-- The block `malloc(proto->sz)` hands out, `none` when it fails. -/
  rd_malloc : Option (List Nat)
  recv_body : io_result
  /-- Whether the `event_add` at the end of the handler succeeds. -/
  event_add_ok : Bool
  complete : complete_oracle
  restart : restart_oracle

/-- Modelled from the spec: the effect of `cl_proto_swap` (missing `proto.h`) on
the eight bytes of a frame header in memory: the 48-bit size changes between
network and host order, which on the little-endian host reverses its six
bytes. -/
def cl_proto_swap_in_place (hdr : List Nat) : List Nat :=
  hdr.take 2 ++ ((hdr.drop 2).take 6).reverse ++ hdr.drop 8

/-- Modelled from the spec: the member `sz` of the `cl_proto` (missing `proto.h`)
at `hdr`, read in host order: the six bytes after version and type, least
significant first. -/
def cl_proto_sz (hdr : List Nat) : Nat :=
  be_value ((hdr.drop 2).take 6).reverse

/-- The label `Fail` of `ev2citrusleaf_event`. -/
def ev2citrusleaf_event_fail (K : proto_h) (w : engine) (fd : Int) (o : network_oracle) :
    Option engine :=
  let w := { w with log := w.log ++ [action.cf_close fd], req := { w.req with fd := -1 } }
  let w :=
    match w.req.node with
    | some node => { w with log := w.log ++ [action.n_fds_open_decr node] }
    | none => w
  if w.req.wpol = .CL_WRITE_ONESHOT then
    some (ev2citrusleaf_request_complete K w true o.complete)
  else
    let w :=
      match w.req.node with
      | some node =>
        { w with
          log := w.log ++ [action.cl_cluster_node_put node]
          req := { w.req with node := none } }
      | none => w
    let w :=
      { w with asc := { w.asc with n_internal_retries := w.asc.n_internal_retries + 1 } }
    match ev2citrusleaf_restart w false o.restart with
    | none => none
    | some (_, w) => some w

/-- The end of `ev2citrusleaf_event` when the request is still there: the
network event is added again. -/
def ev2citrusleaf_event_rearm (w : engine) (o : network_oracle) : engine :=
  { w with
    req := { w.req with network_set := o.event_add_ok }
    network_event := { w.network_event with pending := o.event_add_ok } }

/-- The read branch of `ev2citrusleaf_event`, first part: the `recv` into the
frame header while it is incomplete.  The result is `none` for `goto Fail`. -/
def event_recv_header (w : engine) (o : network_oracle) : Option engine :=
  if w.req.rd_header_pos < sizeof_cl_proto then
    let rv := o.recv_header.rv
    if rv > 0 then
      some { w with
        req := { w.req with
          rd_header_buf :=
            poke w.req.rd_header_buf w.req.rd_header_pos (o.recv_header.data.take rv.toNat)
          rd_header_pos := w.req.rd_header_pos + rv.toNat } }
    else if rv = 0 then none
    else if ¬ o.recv_header.again then none
    else some w
  else some w

/-- The read branch of `ev2citrusleaf_event`, second part: with the frame header
complete, the read buffer is set up if it has no size yet.  The flag is false
for the `goto Fail` after a failed `malloc`. -/
def event_init_rd_buf (K : proto_h) (w : engine) (o : network_oracle) : engine × Bool :=
  if w.req.rd_buf_size = 0 then
    -- calculate msg size
    let hdr := cl_proto_swap_in_place w.req.rd_header_buf
    let sz := cl_proto_sz hdr
    let w := { w with req := { w.req with rd_header_buf := hdr } }
    -- set up the read buffer
    if sz ≤ K.sizeof_rd_tmp then
      ({ w with
         req := { w.req with
           rd_buf := List.replicate K.sizeof_rd_tmp 0, rd_buf_pos := 0, rd_buf_size := sz } },
       true)
    else
      match o.rd_malloc with
      | some m =>
        ({ w with req := { w.req with rd_buf := m, rd_buf_pos := 0, rd_buf_size := sz } }, true)
      | none => ({ w with req := { w.req with rd_buf := [] } }, false)
  else (w, true)

/-- The read branch of `ev2citrusleaf_event`, third part: the `recv` into the
read buffer while the body is incomplete, and what follows it. -/
def event_recv_body (K : proto_h) (w : engine) (fd : Int) (o : network_oracle) :
    Option engine :=
  if w.req.rd_buf_pos < w.req.rd_buf_size then
    let rv := o.recv_body.rv
    if rv > 0 then
      let w :=
        { w with
          req := { w.req with
            rd_buf := poke w.req.rd_buf w.req.rd_buf_pos (o.recv_body.data.take rv.toNat)
            rd_buf_pos := w.req.rd_buf_pos + rv.toNat } }
      if w.req.rd_buf_pos = w.req.rd_buf_size then
        some (ev2citrusleaf_request_complete K w false o.complete)
      else some (ev2citrusleaf_event_rearm w o)
    else if rv = 0 then ev2citrusleaf_event_fail K w fd o
    else if ¬ o.recv_body.again then ev2citrusleaf_event_fail K w fd o
    else some (ev2citrusleaf_event_rearm w o)
  else some (ev2citrusleaf_event_rearm w o)

/-- The write branch of `ev2citrusleaf_event`: the `send` while the request is
not fully written, and what follows it. -/
def event_send (K : proto_h) (w : engine) (fd : Int) (o : network_oracle) : Option engine :=
  if w.req.wr_buf_pos < w.req.wr_buf_size then
    let rv := o.send.rv
    if rv > 0 then
      let w := { w with req := { w.req with wr_buf_pos := w.req.wr_buf_pos + rv.toNat } }
      let w :=
        if w.req.wr_buf_pos = w.req.wr_buf_size then
          -- event_assign for EV_READ
          { w with network_event := ⟨fd, false, false, w.network_event.pending⟩ }
        else w
      some (ev2citrusleaf_event_rearm w o)
    else if rv = 0 then ev2citrusleaf_event_fail K w fd o
    else if ¬ o.send.again then ev2citrusleaf_event_fail K w fd o
    else some (ev2citrusleaf_event_rearm w o)
  else some (ev2citrusleaf_event_rearm w o)

/-- The function `ev2citrusleaf_event`, the callback of the network event, for
the descriptor `fd` and the direction the event fired for (`ev_write`, else
`EV_READ`); `none` when the answers of the oracle run out. -/
def ev2citrusleaf_event (K : proto_h) (w : engine) (fd : Int) (ev_write : Bool)
    (o : network_oracle) : Option engine :=
  let w := { w with req := { w.req with network_set := false } }
  if ev_write then event_send K w fd o
  else
    match event_recv_header w o with
    | none => ev2citrusleaf_event_fail K w fd o
    | some w =>
      if w.req.rd_header_pos = sizeof_cl_proto then
        match event_init_rd_buf K w o with
        | (w, false) => ev2citrusleaf_event_fail K w fd o
        | (w, true) => event_recv_body K w fd o
      else some (ev2citrusleaf_event_rearm w o)

/-- The function `ev2citrusleaf_timer_expired`, the callback of the timeout
event. -/
def ev2citrusleaf_timer_expired (K : proto_h) (w : engine) (o : complete_oracle) : engine :=
  if w.req.cross_thread_lock ∧ ¬ w.req.timeout_set then
    cl_request_destroy w
  else
    let w :=
      { w with
        req := { w.req with timeout_set := false }
        asc := { w.asc with n_req_timeouts := w.asc.n_req_timeouts + 1 } }
    ev2citrusleaf_request_complete K w true o

/-- The function `ev2citrusleaf_base_hop_event`, the callback of the base-hop
event; `none` when the answers of the oracle run out. -/
def ev2citrusleaf_base_hop_event (w : engine) (o : restart_oracle) : Option engine :=
  let w :=
    { w with
      req := { w.req with base_hop_set := false }
      asc := { w.asc with
        n_internal_retries_off_q := w.asc.n_internal_retries_off_q + 1 } }
  match ev2citrusleaf_restart w false o with
  | none => none
  | some (_, w) => some w

/-- The function `ev2citrusleaf_base_hop`, which the cluster calls on a request
it has popped from its queue. -/
def ev2citrusleaf_base_hop (w : engine) (event_add_ok : Bool) : engine :=
  -- we'll use the unused network event slot
  let w := { w with network_event := ⟨-1, false, true, w.network_event.pending⟩ }
  if ¬ event_add_ok then w
  else
    { w with
      network_event := { w.network_event with pending := true }
      req := { w.req with base_hop_set := true } }

/-- The function `start_failed`. -/
def start_failed (w : engine) : engine :=
  if ¬ w.req.timeout_set then cl_request_destroy w
  else if w.req.cross_thread_lock then
    -- tell the timer event that the non-blocking call failed, and unlock
    { w with req := { w.req with timeout_set := false, cross_thread_locked := false } }
  else cl_request_destroy { w with timeout_event := false }

/-- What the surroundings answer during a start call. -/
structure start_oracle where
  /-- The option `asc->static_options.cross_threaded`. -/
  cross_threaded : Bool
  /-- Whether `asc->runtime_options.throttle_reads` is set. -/
  throttle_reads : Bool
  /-- Whether `asc->runtime_options.throttle_writes` is set. -/
  throttle_writes : Bool
  /-- Whether `evtimer_add` of the timeout event succeeds. -/
  evtimer_add_ok : Bool
  /-- The result of `cf_getms()`. -/
  now : Int
  /-- The digest function behind `cf_digest_compute2`. -/
  ripemd160 : List Nat → List Nat
  /-- The block `malloc` hands to `compile` if it asks, `none` when it fails. -/
  mbuf : Option (List Nat)
  restart : restart_oracle

/-- The result of a start call: the returned code and the request in its
surroundings afterwards (`none` when the call was given the null pointer). -/
structure start_result where
  rc : Int
  w : Option engine

/-- The common beginning of `ev2citrusleaf_start` and `ev2citrusleaf_start_op`:
the cross-thread lock and the timeout event.  The flag tells whether the call
goes on; if not it has destroyed the request and returns `CLIENT_ERROR`. -/
def start_timer (w : engine) (o : start_oracle) : Bool × engine :=
  -- req_cross_thread_init_and_lock
  let w :=
    if o.cross_threaded then
      { w with req := { w.req with cross_thread_lock := true, cross_thread_locked := true } }
    else w
  if w.req.timeout_ms ≠ 0 then
    if w.req.timeout_ms < 0 then (false, cl_request_destroy w)
    else if ¬ o.evtimer_add_ok then (false, cl_request_destroy w)
    else (true, { w with timeout_event := true, req := { w.req with timeout_set := true } })
  else (true, w)

/-- The common end of `ev2citrusleaf_start` and `ev2citrusleaf_start_op`, from
the result `c` of laying out the request on: `none` when the answers of the
oracle run out. -/
def start_finish (K : proto_h) (w : engine) (o : start_oracle) (c : compile_result)
    (write may_throttle : Bool) : Option start_result :=
  let w :=
    { w with
      req := { w.req with
        wr_buf := c.buf, wr_buf_size := c.buf_size, wr_buf_malloced := c.malloced,
        d := c.digest, write := write } }
  if c.rc ≠ 0 then
    some ⟨K.EV2CITRUSLEAF_FAIL_CLIENT_ERROR, some (start_failed w)⟩
  else
    -- initial restart: get node and socket and initiate network event chain
    match ev2citrusleaf_restart w may_throttle o.restart with
    | none => none
    | some (false, w) => some ⟨K.EV2CITRUSLEAF_FAIL_THROTTLED, some (start_failed w)⟩
    | some (true, w) =>
      some ⟨EV2CITRUSLEAF_OK, some
        { w with
          asc := { w.asc with requests_in_progress := w.asc.requests_in_progress + 1 }
          req := { w.req with cross_thread_locked := false } }⟩

/-- The function `ev2citrusleaf_start` on the request `req` (`none` for the null
pointer) of a cluster with counters `asc`; `none` when the answers of the
oracle run out. -/
def ev2citrusleaf_start (K : proto_h) (o : start_oracle) (asc : cluster_stats)
    (req : Option cl_request) (info1 info2 : Nat) (ns : List Nat) (set : Option (List Nat))
    (key : Option ev2citrusleaf_object) (digest : Option (List Nat))
    (wparam : Option ev2citrusleaf_write_parameters) (bins : List ev2citrusleaf_bin) :
    Option start_result :=
  match req with
  | none => some ⟨K.EV2CITRUSLEAF_FAIL_CLIENT_ERROR, none⟩
  | some req =>
    match start_timer (engine_init req asc) o with
    | (false, w) => some ⟨K.EV2CITRUSLEAF_FAIL_CLIENT_ERROR, some w⟩
    | (true, w) =>
      let w := { w with req := { w.req with start_time := o.now, ns := ns } }
      let write : Bool := info2 &&& K.CL_MSG_INFO2_WRITE ≠ 0
      -- fill out the request write buffer
      let c := compile K o.ripemd160 info1 info2 ns set key digest wparam
        (to_u32 w.req.timeout_ms) bins (List.replicate K.sizeof_wr_tmp 0) K.sizeof_wr_tmp o.mbuf
        w.req.d
      -- determine whether we may throttle
      let may_throttle := if write then o.throttle_writes else o.throttle_reads
      start_finish K w o c write may_throttle

/-- The function `ev2citrusleaf_start_op`; `none` when `compile_ops` is handed a
null `set` or the answers of the oracle run out. -/
def ev2citrusleaf_start_op (K : proto_h) (o : start_oracle) (asc : cluster_stats)
    (req : Option cl_request) (ns : List Nat) (set : Option (List Nat))
    (key : Option ev2citrusleaf_object) (digest : Option (List Nat))
    (ops : List ev2citrusleaf_operation) (wparam : Option ev2citrusleaf_write_parameters) :
    Option start_result :=
  match req with
  | none => some ⟨K.EV2CITRUSLEAF_FAIL_CLIENT_ERROR, none⟩
  | some req =>
    match start_timer (engine_init req asc) o with
    | (false, w) => some ⟨K.EV2CITRUSLEAF_FAIL_CLIENT_ERROR, some w⟩
    | (true, w) =>
      let w := { w with req := { w.req with start_time := o.now, ns := ns } }
      -- fill out the request write buffer
      match compile_ops K o.ripemd160 ns set key digest ops wparam
        (List.replicate K.sizeof_wr_tmp 0) K.sizeof_wr_tmp o.mbuf w.req.d with
      | none => none
      | some c => start_finish K w o c c.write false

/-- What the event base and the cluster can do to a request. -/
inductive event where
  /-- The pending network event fires: `ev2citrusleaf_event` runs. -/
  | network (o : network_oracle)
  /-- The pending timeout event fires: `ev2citrusleaf_timer_expired` runs. -/
  | timer (o : complete_oracle)
  /-- The cluster pops the request from its queue and calls
  `ev2citrusleaf_base_hop` on it. -/
  | cluster_pop (event_add_ok : Bool)
  /-- The pending base-hop event fires: `ev2citrusleaf_base_hop_event` runs. -/
  | base_hop (o : restart_oracle)

/-- One event on a request.  A callback runs only if its event is pending, the
request has not been destroyed and the cross-thread lock is free (the handlers
wait for it in `event_cross_thread_check`); firing takes the event out of the
event base.  The result is `none` when the event cannot happen or the answers
of the oracle run out. -/
def step (K : proto_h) (w : engine) : event → Option engine
  | .network o =>
    if w.destroyed = 0 ∧ ¬ w.req.cross_thread_locked ∧ w.network_event.pending
        ∧ ¬ w.network_event.base_hop then
      ev2citrusleaf_event K
        { w with network_event := { w.network_event with pending := false } }
        w.network_event.fd w.network_event.ev_write o
    else none
  | .timer o =>
    if w.destroyed = 0 ∧ ¬ w.req.cross_thread_locked ∧ w.timeout_event then
      some (ev2citrusleaf_timer_expired K { w with timeout_event := false } o)
    else none
  | .cluster_pop event_add_ok =>
    if w.destroyed = 0 ∧ 0 < w.request_q then
      some (ev2citrusleaf_base_hop { w with request_q := w.request_q - 1 } event_add_ok)
    else none
  | .base_hop o =>
    if w.destroyed = 0 ∧ ¬ w.req.cross_thread_locked ∧ w.network_event.pending
        ∧ w.network_event.base_hop then
      ev2citrusleaf_base_hop_event
        { w with network_event := { w.network_event with pending := false } } o
    else none

/-- A sequence of events on a request. -/
def run (K : proto_h) : engine → List event → Option engine
  | w, [] => some w
  | w, e :: es =>
    match step K w e with
    | none => none
    | some w => run K w es

/-! ## Reading the log -/

/-- How often the user callback was invoked. -/
def callbacks (log : List action) : Nat :=
  log.countP fun a =>
    match a with
    | .user_cb _ _ _ _ _ => true
    | _ => false

/-- How often `cl_request_destroy` was called. -/
def destroys (log : List action) : Nat :=
  log.countP fun a =>
    match a with
    | .cl_request_destroy => true
    | _ => false

/-- The descriptor ledger after one more action.  `some none`: no descriptor is
out; `some (some fd)`: `fd` was obtained from the pool and has been handed
neither to `cl_cluster_node_fd_put` nor to `cf_close` yet; `none`: the
discipline was broken, by obtaining a descriptor while one is out, or by
putting or closing anything but the descriptor that is out. -/
def fd_track : Option (Option Int) → action → Option (Option Int)
  | none, _ => none
  | some held, .cl_cluster_node_fd_get _ fd =>
    if fd > -1 then (if held = none then some (some fd) else none) else some held
  | some held, .cl_cluster_node_fd_put _ fd => if held = some fd then some none else none
  | some held, .cf_close fd => if held = some fd then some none else none
  | some held, _ => some held

/-- The descriptor ledger of a log. -/
def fd_ledger (log : List action) : Option (Option Int) :=
  log.foldl fd_track (some none)

/-- The node ledger after one more action.  `some none`: no node reference is
held; `some (some n)`: a reference to `n` was obtained by `cl_cluster_node_get`
and not released yet; `none`: the discipline was broken, by obtaining a
reference while one is held, or by releasing anything but the held one. -/
def node_track : Option (Option Nat) → action → Option (Option Nat)
  | none, _ => none
  | some held, .cl_cluster_node_get n => if held = none then some (some n) else none
  | some held, .cl_cluster_node_put n => if held = some n then some none else none
  | some held, _ => some held

/-- The node ledger of a log. -/
def node_ledger (log : List action) : Option (Option Nat) :=
  log.foldl node_track (some none)

/-! ## Invariants of the engine -/

/-- A live request is coherent: the ledgers agree with the node and the
descriptor the request says it holds, a descriptor is held only together with a
node, the flags `network_set` and `base_hop_set` say what the network event is
pending as, a pending network event watches the request's own descriptor, and a
request that is on the queue or waits for its base hop holds nothing. -/
structure engine_ok (w : engine) : Prop where
  live : w.destroyed = 0
  no_destroy : destroys w.log = 0
  no_callback : callbacks w.log = 0
  fds : fd_ledger w.log = some (if w.req.fd > -1 then some w.req.fd else none)
  nodes : node_ledger w.log = some w.req.node
  fd_node : w.req.fd > -1 → w.req.node ≠ none
  network_set : w.req.network_set = (w.network_event.pending && !w.network_event.base_hop)
  base_hop_set : w.req.base_hop_set = (w.network_event.pending && w.network_event.base_hop)
  watched : w.req.network_set = true → w.network_event.fd = w.req.fd ∧ w.req.fd > -1
  hop_holds : w.req.base_hop_set = true → ¬ w.req.fd > -1 ∧ w.req.node = none
  pending_q : w.network_event.pending = true → w.request_q = 0
  queued : 0 < w.request_q → w.request_q = 1 ∧ ¬ w.req.fd > -1 ∧ w.req.node = none

/-- The request of a start call that returned `OK`, before its destruction: it
is coherent, the cross-thread lock is free, and `timeout_set` tells whether the
timeout event is pending. -/
structure engine_started (w : engine) : Prop where
  ok : engine_ok w
  unlocked : w.req.cross_thread_locked = false
  timer : w.req.timeout_set = w.timeout_event

/-- A destroyed request that got its callback: destroyed once, called back once,
no descriptor out, no node held, no event pending, not on the queue. -/
structure engine_done (w : engine) : Prop where
  destroyed : w.destroyed = 1
  destroy_once : destroys w.log = 1
  callback_once : callbacks w.log = 1
  fds : fd_ledger w.log = some none
  nodes : node_ledger w.log = some none
  no_timer : w.timeout_event = false
  no_network : w.network_event.pending = false
  no_queue : w.request_q = 0

/-- The request of a start call that failed: either destroyed without a
callback, or (cross-threaded, timer armed) left to the timer event with
`timeout_set` cleared; in both cases nothing is held, the network event is not
pending and the request is not on the queue. -/
structure engine_failed (w : engine) : Prop where
  no_callback : callbacks w.log = 0
  fds : fd_ledger w.log = some none
  nodes : node_ledger w.log = some none
  no_network : w.network_event.pending = false
  no_queue : w.request_q = 0
  destroyed_le : w.destroyed ≤ 1
  destroys_eq : destroys w.log = w.destroyed
  doomed : w.destroyed = 0 →
    w.timeout_event = true ∧ w.req.cross_thread_lock = true ∧ w.req.timeout_set = false
      ∧ w.req.cross_thread_locked = false
  dead : w.destroyed = 1 → w.timeout_event = false

/-- The state in which a handler of the network event works: the request is
coherent and holds the descriptor the event was watching, the event has fired
(it is not pending, `network_set` is cleared) and is not a base hop, and the
request is not on the queue. -/
structure engine_held (w : engine) (fd : Int) : Prop where
  ok : engine_ok w
  idle : w.network_event.pending = false
  not_hop : w.network_event.base_hop = false
  off_q : w.request_q = 0
  fd_held : w.req.fd > -1
  fd_eq : fd = w.req.fd
  slot_fd : w.network_event.fd = fd
  unlocked : w.req.cross_thread_locked = false
  timer : w.req.timeout_set = w.timeout_event


/-! ## A sample request -/

/-- Cluster counters at zero. -/
def zero_stats : cluster_stats := ⟨0, 0, 0, 0, 0, 0, 0⟩

/-- Answers for a completion: the identity for the ttl, allocations succeed. -/
def sample_complete : complete_oracle := ⟨fun t => t, true, zero_bin⟩

/-- Answers for a restart at time 10: the cluster hands out `node`, does not
throttle, and the node's pool hands out `fd` at once. -/
def sample_restart (node : Nat) (fd : Int) : restart_oracle :=
  ⟨10, [⟨some node, false, [fd]⟩], true⟩

/-- Answers for a start call at time 0, not cross-threaded and not throttling:
the timer can be armed, node 1 hands out descriptor 5. -/
def sample_start : start_oracle where
  cross_threaded := false
  throttle_reads := false
  throttle_writes := false
  evtimer_add_ok := true
  now := 0
  ripemd160 := no_digest
  mbuf := none
  restart := sample_restart 1 5

/-- Answers for a start call on a cluster that throttles reads, whose node 1
asks to drop the transaction. -/
def throttling_start : start_oracle where
  cross_threaded := false
  throttle_reads := true
  throttle_writes := false
  evtimer_add_ok := true
  now := 0
  ripemd160 := no_digest
  mbuf := none
  restart := ⟨10, [⟨some 1, true, []⟩], true⟩

/-- The call `ev2citrusleaf_get` makes for namespace `test`, set `s`, key `k1`
and a timeout of 200 ms. -/
def get_call (o : start_oracle) : Option start_result :=
  ev2citrusleaf_start aerospike o zero_stats (cl_request_create true 200 none)
    (aerospike.CL_MSG_INFO1_READ ||| aerospike.CL_MSG_INFO1_GET_ALL) 0 [116, 101, 115, 116, 0]
    (some [115, 0]) (some (ev2citrusleaf_object_init_str zero_object [107, 49, 0])) none none []

/-- The result of the sample get. -/
def get_result : start_result := (get_call sample_start).get (by decide)

/-- The request of the sample get after the start call. -/
def get_started : engine := get_result.w.get (by decide)

/-- Answers for a network event whose `send` fails for good; the retry gets
descriptor 6 of node 2. -/
def send_fails : network_oracle where
  send := ⟨-1, false, []⟩
  recv_header := ⟨0, false, []⟩
  rd_malloc := none
  recv_body := ⟨0, false, []⟩
  event_add_ok := true
  complete := sample_complete
  restart := sample_restart 2 6

/-- The life of the sample get: the first `send` fails and the request is
retried on another node, then the timeout event fires. -/
def get_events : List event := [event.network send_fails, event.timer sample_complete]

/-- The request of the sample get after `get_events`. -/
def get_timed_out : engine := (run aerospike get_started get_events).get (by decide)

/-- The result of the sample get on the throttling cluster. -/
def get_throttled_result : start_result := (get_call throttling_start).get (by decide)

/-- The request of the sample get on the throttling cluster after the start
call. -/
def get_throttled : engine := get_throttled_result.w.get (by decide)

/-! ## The public transaction calls

Each call takes what the surroundings answer (`o`, the cluster's counters `asc`
and whether the `malloc` of `cl_request_create` succeeds) and then the arguments
of the C function, less the cluster handle, the callback, its `user_data` and
the event base.  A pointer that may be null is an `Option`. -/

/-- The function `ev2citrusleaf_get_all`. -/
def ev2citrusleaf_get_all (K : proto_h) (o : start_oracle) (asc : cluster_stats)
    (malloc_ok : Bool) (ns : List Nat) (set : Option (List Nat))
    (key : Option ev2citrusleaf_object) (timeout_ms : Int) : Option start_result :=
  ev2citrusleaf_start K o asc (cl_request_create malloc_ok timeout_ms none)
    (K.CL_MSG_INFO1_READ ||| K.CL_MSG_INFO1_GET_ALL) 0 ns set key none none []

/-- The function `ev2citrusleaf_get_all_digest`. -/
def ev2citrusleaf_get_all_digest (K : proto_h) (o : start_oracle) (asc : cluster_stats)
    (malloc_ok : Bool) (ns : List Nat) (digest : Option (List Nat)) (timeout_ms : Int) :
    Option start_result :=
  ev2citrusleaf_start K o asc (cl_request_create malloc_ok timeout_ms none)
    (K.CL_MSG_INFO1_READ ||| K.CL_MSG_INFO1_GET_ALL) 0 ns none none digest none []

/-- The function `ev2citrusleaf_put`. -/
def ev2citrusleaf_put (K : proto_h) (o : start_oracle) (asc : cluster_stats)
    (malloc_ok : Bool) (ns : List Nat) (set : Option (List Nat))
    (key : Option ev2citrusleaf_object) (bins : List ev2citrusleaf_bin)
    (wparam : Option ev2citrusleaf_write_parameters) (timeout_ms : Int) :
    Option start_result :=
  ev2citrusleaf_start K o asc (cl_request_create malloc_ok timeout_ms wparam)
    0 K.CL_MSG_INFO2_WRITE ns set key none wparam bins

/-- The function `ev2citrusleaf_put_digest`. -/
def ev2citrusleaf_put_digest (K : proto_h) (o : start_oracle) (asc : cluster_stats)
    (malloc_ok : Bool) (ns : List Nat) (digest : Option (List Nat))
    (bins : List ev2citrusleaf_bin) (wparam : Option ev2citrusleaf_write_parameters)
    (timeout_ms : Int) : Option start_result :=
  ev2citrusleaf_start K o asc (cl_request_create malloc_ok timeout_ms wparam)
    0 K.CL_MSG_INFO2_WRITE ns none none digest wparam bins

/-- The number of bytes `strcpy(dst, src)` stores at `dst`: the characters of
the string and its terminator. -/
def strcpy_extent (src : List Nat) : Nat := strlen src + 1

/-- The loop of `ev2citrusleaf_get` and `ev2citrusleaf_get_digest` that fills
the bins on the stack (`stack` is what `alloca` hands out for each):
`strcpy(bins[i].bin_name, bin_names[i])`, then `bins[i].object.type = CL_NULL`.
`strcpy` does not look at the size of `bin_name`: a name that with its
terminator needs more than `sizeof_bin_name` bytes is written past the end of
the name buffer, into the object behind it and on.  The program has no defined
behaviour then, and the result is `none`. -/
def get_bins (K : proto_h) (stack : ev2citrusleaf_bin) (bin_names : List (List Nat)) :
    Option (List ev2citrusleaf_bin) :=
  if bin_names.all (fun name => decide (strcpy_extent name ≤ K.sizeof_bin_name)) then
    some (bin_names.map fun name =>
      { bin_name := poke stack.bin_name 0 (cstring name ++ [0])
        object := { stack.object with type := CL_NULL } })
  else none

/-- The function `ev2citrusleaf_get`; `none` also when the copy of a bin name
leaves the name buffer (see `get_bins`). -/
def ev2citrusleaf_get (K : proto_h) (o : start_oracle) (asc : cluster_stats)
    (malloc_ok : Bool) (stack : ev2citrusleaf_bin) (ns : List Nat) (set : Option (List Nat))
    (key : Option ev2citrusleaf_object) (bin_names : List (List Nat)) (timeout_ms : Int) :
    Option start_result :=
  match get_bins K stack bin_names with
  | none => none
  | some bins =>
    ev2citrusleaf_start K o asc (cl_request_create malloc_ok timeout_ms none)
      K.CL_MSG_INFO1_READ 0 ns set key none none bins

/-- The function `ev2citrusleaf_get_digest`; `none` also when the copy of a bin
name leaves the name buffer (see `get_bins`). -/
def ev2citrusleaf_get_digest (K : proto_h) (o : start_oracle) (asc : cluster_stats)
    (malloc_ok : Bool) (stack : ev2citrusleaf_bin) (ns : List Nat)
    (digest : Option (List Nat)) (bin_names : List (List Nat)) (timeout_ms : Int) :
    Option start_result :=
  match get_bins K stack bin_names with
  | none => none
  | some bins =>
    ev2citrusleaf_start K o asc (cl_request_create malloc_ok timeout_ms none)
      K.CL_MSG_INFO1_READ 0 ns none none digest none bins

/-- The function `ev2citrusleaf_delete`. -/
def ev2citrusleaf_delete (K : proto_h) (o : start_oracle) (asc : cluster_stats)
    (malloc_ok : Bool) (ns : List Nat) (set : Option (List Nat))
    (key : Option ev2citrusleaf_object) (wparam : Option ev2citrusleaf_write_parameters)
    (timeout_ms : Int) : Option start_result :=
  ev2citrusleaf_start K o asc (cl_request_create malloc_ok timeout_ms wparam)
    0 (K.CL_MSG_INFO2_WRITE ||| K.CL_MSG_INFO2_DELETE) ns set key none wparam []

/-- The function `ev2citrusleaf_delete_digest`. -/
def ev2citrusleaf_delete_digest (K : proto_h) (o : start_oracle) (asc : cluster_stats)
    (malloc_ok : Bool) (ns : List Nat) (digest : Option (List Nat))
    (wparam : Option ev2citrusleaf_write_parameters) (timeout_ms : Int) :
    Option start_result :=
  ev2citrusleaf_start K o asc (cl_request_create malloc_ok timeout_ms wparam)
    0 (K.CL_MSG_INFO2_WRITE ||| K.CL_MSG_INFO2_DELETE) ns none none digest wparam []

/-- The function `ev2citrusleaf_operate`. -/
def ev2citrusleaf_operate (K : proto_h) (o : start_oracle) (asc : cluster_stats)
    (malloc_ok : Bool) (ns : List Nat) (set : Option (List Nat))
    (key : Option ev2citrusleaf_object) (ops : List ev2citrusleaf_operation)
    (wparam : Option ev2citrusleaf_write_parameters) (timeout_ms : Int) :
    Option start_result :=
  ev2citrusleaf_start_op K o asc (cl_request_create malloc_ok timeout_ms wparam)
    ns set key none ops wparam

/-- The function `ev2citrusleaf_operate_digest`. -/
def ev2citrusleaf_operate_digest (K : proto_h) (o : start_oracle) (asc : cluster_stats)
    (malloc_ok : Bool) (ns : List Nat) (digest : Option (List Nat))
    (ops : List ev2citrusleaf_operation) (wparam : Option ev2citrusleaf_write_parameters)
    (timeout_ms : Int) : Option start_result :=
  ev2citrusleaf_start_op K o asc (cl_request_create malloc_ok timeout_ms wparam)
    ns none none digest ops wparam

/-! ## More sample calls -/

/-- A put of the bin `b` holding a java blob of the two bytes `k1`, into
namespace `test`, set `s`, key `k1`, with a timeout of 200 ms. -/
def put_java_blob : Option start_result :=
  ev2citrusleaf_put aerospike sample_start zero_stats true [116, 101, 115, 116, 0]
    (some [115, 0]) (some (ev2citrusleaf_object_init_str zero_object [107, 49, 0]))
    [⟨[98, 0], java_blob_key aerospike⟩] none 200

/-- An operate call with the single operation "write to the bin `b`" of the
object `v`, into namespace `test`, set `s`, key `k1`, with a timeout of 200 ms. -/
def operate_write (v : ev2citrusleaf_object) : Option start_result :=
  ev2citrusleaf_operate aerospike sample_start zero_stats true [116, 101, 115, 116, 0]
    (some [115, 0]) (some (ev2citrusleaf_object_init_str zero_object [107, 49, 0]))
    [⟨[98, 0], .CL_OP_WRITE, v⟩] none 200

/-- An object whose type tag (200) is none of the value tags. -/
def untyped_object : ev2citrusleaf_object := { zero_object with type := 200 }

/-- The request `cl_request_create` makes for a timeout of -1 ms and no write
parameters. -/
def get_request_neg : cl_request := (cl_request_create true (-1) none).get (by decide)

/-- The C string of 32 letters `a`: with its terminator it needs 33 bytes, one
more than the 32-byte name buffer of a bin has. -/
def name_32 : List Nat := List.replicate 32 97 ++ [0]

/-- A get of the bin named `name_32` (namespace `test`, set `s`, key `k1`,
timeout 200 ms) on the sample cluster. -/
def get_long_name : Option start_result :=
  ev2citrusleaf_get aerospike sample_start zero_stats true zero_bin [116, 101, 115, 116, 0]
    (some [115, 0]) (some (ev2citrusleaf_object_init_str zero_object [107, 49, 0]))
    [name_32] 200

/-- The C string of 31 letters `a`: with its terminator it fills the 32-byte
name buffer of a bin. -/
def name_31 : List Nat := List.replicate 31 97 ++ [0]

/-- The same get of the bin named `name_31`. -/
def get_name_31 : Option start_result :=
  ev2citrusleaf_get aerospike sample_start zero_stats true zero_bin [116, 101, 115, 116, 0]
    (some [115, 0]) (some (ev2citrusleaf_object_init_str zero_object [107, 49, 0]))
    [name_31] 200

/-- A response op of a NULL particle whose name has 33 characters, one more
than the name buffer of a bin has bytes. -/
def long_name_op : cl_msg_op :=
  { op_sz := 37, op := 1, particle_type := 0, version := 0, name_sz := 33
    name := List.replicate 33 97 }

/-- The sample start oracle with a `malloc` that hands out 4096 zeroed bytes. -/
def sample_start_malloc : start_oracle := { sample_start with mbuf := some (List.replicate 4096 0) }

/-! ## More readings of the log -/

/-- How many descriptors the log shows as obtained from a pool: the calls of
`cl_cluster_node_fd_get` that returned a descriptor above -1. -/
def fds_acquired (log : List action) : Nat :=
  log.countP fun a =>
    match a with
    | .cl_cluster_node_fd_get _ fd => decide (fd > -1)
    | _ => false

/-- The request `cl_request_create` makes for a timeout of 200 ms and no write
parameters. -/
def get_request : cl_request := (cl_request_create true 200 none).get (by decide)

/-- Answers for a start call on a cluster that throttles reads and writes, whose
node 1 asks to drop the transaction and would hand out descriptor 5. -/
def throttling_all : start_oracle where
  cross_threaded := false
  throttle_reads := true
  throttle_writes := true
  evtimer_add_ok := true
  now := 0
  ripemd160 := no_digest
  mbuf := none
  restart := ⟨10, [⟨some 1, true, [5]⟩], true⟩

/-- A put of the integer 1 into the bin `b` (namespace `test`, set `s`, key `k1`,
timeout 200 ms) on the cluster that throttles reads and writes. -/
def put_throttling : Option start_result :=
  ev2citrusleaf_put aerospike throttling_all zero_stats true [116, 101, 115, 116, 0]
    (some [115, 0]) (some (ev2citrusleaf_object_init_str zero_object [107, 49, 0]))
    [⟨[98, 0], ev2citrusleaf_object_init_int zero_object 1⟩] none 200

/-- An operate call writing the integer 1 to the bin `b` (namespace `test`, set
`s`, key `k1`, timeout 200 ms) on the cluster that throttles reads and writes. -/
def operate_throttling : Option start_result :=
  ev2citrusleaf_operate aerospike throttling_all zero_stats true [116, 101, 115, 116, 0]
    (some [115, 0]) (some (ev2citrusleaf_object_init_str zero_object [107, 49, 0]))
    [⟨[98, 0], .CL_OP_WRITE, ev2citrusleaf_object_init_int zero_object 1⟩] none 200

/-- The result of `operate_throttling`. -/
def operate_throttling_result : start_result := operate_throttling.get (by decide)

/-- The request of `operate_throttling` after the start call. -/
def operate_throttling_started : engine := operate_throttling_result.w.get (by decide)

/-! ## A sample response -/

/-- The header of a response with result code 2, generation 7 and no field and
no op. -/
def sample_msg : cl_msg :=
  { header_sz := 22, info1 := 0, info2 := 0, info3 := 0, unused := 0, result_code := 2,
    generation := 7, record_ttl := 0, transaction_ttl := 0, n_fields := 0, n_ops := 0 }

/-- Answers for a network event in which `send` takes the whole request. -/
def send_all : network_oracle where
  send := ⟨get_started.req.wr_buf_size, false, []⟩
  recv_header := ⟨0, false, []⟩
  rd_malloc := none
  recv_body := ⟨0, false, []⟩
  event_add_ok := true
  complete := sample_complete
  restart := sample_restart 2 6

/-- Answers for a network event in which `recv` delivers the frame header of a
22-byte body and then the body, which is the header `sample_msg`. -/
def recv_all : network_oracle where
  send := ⟨0, false, []⟩
  recv_header := ⟨8, false, cl_proto_swap ⟨2, 3, 22⟩⟩
  rd_malloc := none
  recv_body := ⟨22, false, cl_msg_swap_header sample_msg⟩
  event_add_ok := true
  complete := sample_complete
  restart := sample_restart 2 6

/-- The request of the sample get after its request was sent. -/
def get_sent : engine := (run aerospike get_started [event.network send_all]).get (by decide)

/-- The request of the sample get inside the handler of the read event, with
the frame header received and the read buffer set up, before the `recv` of the
body. -/
def get_reading : engine :=
  (event_init_rd_buf aerospike
    ((event_recv_header
      { get_sent with
        network_event := { get_sent.network_event with pending := false }
        req := { get_sent.req with network_set := false } } recv_all).get (by decide))
    recv_all).1

/-- The request of the sample get after the response has arrived. -/
def get_answered : engine :=
  (run aerospike get_started [event.network send_all, event.network recv_all]).get (by decide)

/-- How often the log shows the decrement of a node's open-descriptor count. -/
def fd_decrements (log : List action) : Nat :=
  log.countP fun a =>
    match a with
    | .n_fds_open_decr _ => true
    | _ => false

/-- Whether a `send` or `recv` failed for good: it returned 0, or it returned
less and `errno` is neither `EAGAIN` nor `EWOULDBLOCK`. -/
def io_failed (r : io_result) : Prop := r.rv = 0 ∨ (r.rv < 0 ∧ r.again = false)

/-! ## Decoding integers: what the wire format asks for -/

/-- The integer that a big-endian two's-complement byte string denotes: its
magnitude if the top bit of the first byte is clear, else the magnitude less
`256 ^ length`. -/
def sign_extended (bs : List Nat) : Int :=
  if deref bs < 128 then (be_value bs : Int) else (be_value bs : Int) - 256 ^ bs.length

/-- The 64-bit pattern `u` read as an `int64_t`, spelled out. -/
def twos_complement_64 (u : Nat) : Int :=
  if u < 2 ^ 63 then (u : Int) else (u : Int) - 2 ^ 64

/-! ## The bin name of a response op -/

/-- The offsets of `value->bin_name` that `cl_set_value_particular` writes: the
`name_sz` bytes of the `memcpy`, then the offset `name_sz` of the terminating
NUL; nothing when the op is refused. -/
def cl_set_value_particular_writes (K : proto_h) (op : cl_msg_op) : List Nat :=
  if op.name_sz > K.sizeof_bin_name then []
  else List.range op.name_sz ++ [op.name_sz]

/-- A response op of a NULL particle whose name fills the whole of a bin-name
buffer: 32 times the letter `a`. -/
def full_name_op : cl_msg_op :=
  { op_sz := 36, op := 1, particle_type := 0, version := 0, name_sz := 32
    name := List.replicate 32 97 }

/-- A bin whose name buffer holds `sizeof_bin_name` zero bytes. -/
def blank_bin (K : proto_h) : ev2citrusleaf_bin :=
  { zero_bin with bin_name := List.replicate K.sizeof_bin_name 0 }

/-! ## The bytes `parse` looks at -/

/-- The accesses of the loop of `parse` over the fields, each the offset and the
length of what is accessed: for every field the loop does not refuse, the four
bytes of `field_sz`, which `cl_msg_swap_field` swaps and
`cl_msg_field_get_next` reads. -/
def parse_fields_accesses (buf : List Nat) (limit : Nat) : Nat → Nat → List (Nat × Nat)
  | 0, _ => []
  | n + 1, mf =>
    if mf ≥ limit then []
    else
      (mf, 4) :: parse_fields_accesses buf limit n
        (cl_msg_field_get_next mf (be_value ((buf.drop mf).take 4)))

/-- The accesses of the loop of `parse` over the ops: for every op the loop does
not refuse, the four bytes of `op_sz`, which `cl_msg_swap_op` swaps and
`cl_msg_op_get_next` reads, the byte `name_sz`, and for an op that
`cl_set_value_particular` does not refuse the name it copies and the byte
`particle_type` that `set_object` reads.  The reads of the value of the op are
not listed. -/
def parse_ops_accesses (K : proto_h) (buf : List Nat) (limit : Nat) :
    Nat → Nat → List (Nat × Nat)
  | 0, _ => []
  | n + 1, op =>
    if op ≥ limit then []
    else
      let o := cl_msg_op_of_wire buf op
      [(op, 4), (op + 7, 1)]
        ++ (if o.name_sz > K.sizeof_bin_name then []
            else [(op + sizeof_cl_msg_op, o.name_sz), (op + 5, 1)])
        ++ parse_ops_accesses K buf limit n (cl_msg_op_get_next op o)

/-- The accesses of `parse`: the message header from `result_code` to `n_ops`
(the members that `cl_msg_swap_header` swaps and `parse` reads), then those of
the two loops. -/
def parse_accesses (K : proto_h) (buf : List Nat) (buf_len : Nat)
    (values : Option (List ev2citrusleaf_bin)) (n_values : Nat) : List (Nat × Nat) :=
  let limit := buf_len
  let n_fields := be_value ((buf.drop 18).take 2)
  let n_ops := be_value ((buf.drop 20).take 2)
  [(5, 17)] ++ parse_fields_accesses buf limit n_fields sizeof_cl_msg
    ++ match parse_fields buf limit n_fields sizeof_cl_msg with
      | none => []
      | some op =>
        if values = none ∨ n_values = 0 then []
        else parse_ops_accesses K buf limit n_ops op

/-- An access lies inside a buffer of `buf_len` bytes. -/
def in_bounds (buf_len : Nat) (a : Nat × Nat) : Prop := a.1 + a.2 ≤ buf_len

instance (buf_len : Nat) (a : Nat × Nat) : Decidable (in_bounds buf_len a) := by
  unfold in_bounds
  infer_instance

/-- A bounds-checked `parse`: `none` as soon as an access leaves the buffer. -/
def parse_checked (K : proto_h) (void_time_to_ttl : Nat → Nat) (malloc_ok : Bool)
    (buf : List Nat) (buf_len : Nat) (values : Option (List ev2citrusleaf_bin))
    (n_values : Nat) : Option parse_result :=
  if ∀ a ∈ parse_accesses K buf buf_len values n_values, in_bounds buf_len a then
    some (parse K void_time_to_ttl malloc_ok buf buf_len values n_values)
  else none

/-- The parse position behind `n` fields from `mf` on, going by the sizes they
declare. -/
def fields_end (buf : List Nat) : Nat → Nat → Nat
  | 0, mf => mf
  | n + 1, mf =>
    fields_end buf n (cl_msg_field_get_next mf (be_value ((buf.drop mf).take 4)))

/-- The parse position behind `n` ops from `op` on, going by the sizes they
declare. -/
def ops_end (buf : List Nat) : Nat → Nat → Nat
  | 0, op => op
  | n + 1, op => ops_end buf n (cl_msg_op_get_next op (cl_msg_op_of_wire buf op))

/-- The parse position behind all the fields and ops a response declares. -/
def declared_end (buf : List Nat) : Nat :=
  ops_end buf (be_value ((buf.drop 20).take 2))
    (fields_end buf (be_value ((buf.drop 18).take 2)) sizeof_cl_msg)

/-- The header of a response with no field and one op. -/
def one_op_msg : cl_msg :=
  { header_sz := 22, info1 := 0, info2 := 0, info3 := 0, unused := 0, result_code := 0,
    generation := 7, record_ttl := 0, transaction_ttl := 0, n_fields := 0, n_ops := 1 }

/-- The header of a response with one field and no op. -/
def one_field_msg : cl_msg :=
  { header_sz := 22, info1 := 0, info2 := 0, info3 := 0, unused := 0, result_code := 0,
    generation := 7, record_ttl := 0, transaction_ttl := 0, n_fields := 1, n_ops := 0 }

/-- A response of 30 bytes: the header `one_op_msg` and the eight header bytes
of an op that declares `op_sz = 100` (a NULL particle with an empty name). -/
def overlong_op_buf : List Nat := cl_msg_swap_header one_op_msg ++ [0, 0, 0, 100, 1, 0, 0, 0]

/-- A response of 27 bytes: the header `one_field_msg` and the five header bytes
of a field that declares `field_sz = 100`. -/
def overlong_field_buf : List Nat := cl_msg_swap_header one_field_msg ++ [0, 0, 0, 100, 0]

/-- A response of 23 bytes: the header `one_op_msg` and one more byte. -/
def truncated_op_buf : List Nat := cl_msg_swap_header one_op_msg ++ [0]

/-! ## The rounds of a restart -/

/-- The value with which the loop `while (fd == -1) fd = cl_cluster_node_fd_get(node)`
leaves: the first answer of the pool other than -1, `none` if there is none. -/
def first_fd (gets : List Int) : Option Int := gets.find? fun fd => decide (fd ≠ -1)

/-- A round of the loop of `ev2citrusleaf_restart` that fails to get a socket:
the cluster hands out a node, the round is not throttled, and the pool of the
node answers with a value below -1. -/
def no_socket (may_throttle : Bool) (a : restart_attempt) : Prop :=
  a.node ≠ none ∧ ¬ (may_throttle = true ∧ a.throttle_drop = true)
    ∧ ∃ fd, first_fd a.fd_gets = some fd ∧ fd < -1

/-- How often the log shows `cl_cluster_node_get` handing out a node. -/
def node_gets (log : List action) : Nat :=
  log.countP fun a =>
    match a with
    | .cl_cluster_node_get _ => true
    | _ => false

/-- How often the log shows `cl_cluster_node_put`. -/
def node_puts (log : List action) : Nat :=
  log.countP fun a =>
    match a with
    | .cl_cluster_node_put _ => true
    | _ => false

/-- How often the log shows `cf_queue_push`. -/
def queue_pushes (log : List action) : Nat :=
  log.countP fun a =>
    match a with
    | .cf_queue_push => true
    | _ => false

/-- Answers for a restart at time 10 in which node 1 asks to drop the
transaction and would hand out descriptor 5. -/
def dropping_restart : restart_oracle := ⟨10, [⟨some 1, true, [5]⟩], true⟩

/-- Answers for a restart at time 10 in which the pools of nodes 1 to 4 have no
socket (answer -2, the first after answering -1 once) and node 5 hands out
descriptor 9. -/
def fifth_round_restart : restart_oracle :=
  ⟨10, [⟨some 1, false, [-1, -2]⟩, ⟨some 2, false, [-2]⟩, ⟨some 3, false, [-2]⟩,
    ⟨some 4, false, [-2]⟩, ⟨some 5, false, [9]⟩, ⟨some 6, false, [10]⟩], true⟩

/-- Answers for a restart at time 1000, long after the deadline of a request
started at time 0 with a timeout of 200 ms. -/
def late_restart : restart_oracle := ⟨1000, [⟨some 1, false, [5]⟩], true⟩

instance (may_throttle : Bool) (a : restart_attempt) : Decidable (no_socket may_throttle a) :=
  match h : first_fd a.fd_gets with
  | none => isFalse (by unfold no_socket; simp [h])
  | some fd =>
    decidable_of_iff (a.node ≠ none ∧ ¬ (may_throttle = true ∧ a.throttle_drop = true) ∧ fd < -1)
      (by unfold no_socket; simp [h])

/-- A fresh request (timeout 200 ms, started at time 0) after a restart that may
throttle, on the cluster whose node 1 asks to drop the transaction. -/
def dropped_restart : Bool × engine :=
  (ev2citrusleaf_restart (engine_init get_request zero_stats) true dropping_restart).get
    (by decide)

/-! ## What a request holds -/

/-- The coherence of what a request holds: a descriptor only together with a
node; on the cluster's queue neither node nor descriptor, `network_set` false
and the network event not pending; and never `network_set` and `base_hop_set`
at once. -/
structure request_coherent (w : engine) : Prop where
  fd_node : w.req.fd ≠ -1 → w.req.node ≠ none
  queued : 0 < w.request_q →
    w.req.node = none ∧ w.req.fd = -1 ∧ w.req.network_set = false
      ∧ w.network_event.pending = false
  flags : ¬ (w.req.network_set = true ∧ w.req.base_hop_set = true)

/-- Answers for a network event whose `send` fails for good while the cluster
has no node for the retry. -/
def send_fails_no_node : network_oracle := { send_fails with restart := ⟨10, [⟨none, false, []⟩], true⟩ }

/-- The request of the sample get after its `send` failed and the retry found no
node: it is on the cluster's queue. -/
def get_queued : engine :=
  (run aerospike get_started [event.network send_fails_no_node]).get (by decide)

/-! ## A response after a retry -/

/-- Answers for a network event in which `recv` delivers the frame header of a
40-byte body and then finds the connection closed; the retry gets descriptor 6
of node 2. -/
def recv_cut : network_oracle where
  send := ⟨0, false, []⟩
  recv_header := ⟨8, false, cl_proto_swap ⟨2, 3, 40⟩⟩
  rd_malloc := none
  recv_body := ⟨0, false, []⟩
  event_add_ok := true
  complete := sample_complete
  restart := sample_restart 2 6

/-- The request of the sample get after its request was sent, the frame header
of a 40-byte body arrived, the connection broke and the request was restarted
on node 2. -/
def get_retried : engine :=
  (run aerospike get_started [event.network send_all, event.network recv_cut]).get (by decide)

/-- The request of the sample get after the retry: the request was sent again
and the whole response of `recv_all` arrived, a frame header declaring 22 bytes
and the 22 bytes. -/
def get_retried_answered : engine :=
  (run aerospike get_retried [event.network send_all, event.network recv_all]).get (by decide)

/-! ## The end of a request -/

/-- Answers for a start call on a cross-threaded cluster that throttles reads,
whose node 1 asks to drop the transaction. -/
def cross_threaded_throttling : start_oracle := { throttling_start with cross_threaded := true }

/-- The request of the sample get on the cross-threaded throttling cluster
after the start call: the call failed with the timer armed. -/
def get_doomed : engine :=
  ((get_call cross_threaded_throttling).get (by decide)).w.get (by decide)

/-- The request `get_doomed` after its timer event fired. -/
def get_doomed_fired : engine :=
  (run aerospike get_doomed [event.timer sample_complete]).get (by decide)

/-! ## The wire format of fields and ops, as the protocol describes it -/

/-- Spec side: a field on the wire, `field_size:32` big-endian (the length of
the type byte plus the data), `type:8`, then the data. -/
def field_wire (type : Nat) (data : List Nat) : List Nat :=
  be_bytes 4 (data.length + 1) ++ [type % 256] ++ data

/-- Spec side: the payload of a KEY field, `particle_type:8 || key_bytes`: the
bytes of a string or blob key, the 8-byte big-endian value of an integer
key. -/
def key_wire (key : ev2citrusleaf_object) : List Nat :=
  if key.type = CL_INT then [CL_PARTICLE_TYPE_INTEGER] ++ be_bytes 8 (to_u64 key.i64)
  else [key.type] ++ key.ptr.take key.size

/-- Spec side: the fields of a request in the order namespace, set, key,
digest, each present one as `field_wire`. -/
def fields_wire (K : proto_h) (ns : List Nat) (set : Option (List Nat))
    (key : Option ev2citrusleaf_object) (d : Option (List Nat)) : List Nat :=
  field_wire K.CL_MSG_FIELD_TYPE_NAMESPACE (cstring ns)
    ++ (match set with
      | some s => field_wire K.CL_MSG_FIELD_TYPE_SET (cstring s)
      | none => [])
    ++ (match key with
      | some k => field_wire K.CL_MSG_FIELD_TYPE_KEY (key_wire k)
      | none => [])
    ++ (match d with
      | some d => field_wire K.CL_MSG_FIELD_TYPE_DIGEST_RIPE (d.take sizeof_cf_digest)
      | none => [])

/-- The number of fields among namespace, set, key and digest that are
present. -/
def fields_count (set : Option (List Nat)) (key : Option ev2citrusleaf_object)
    (d : Option (List Nat)) : Nat :=
  1 + (if set.isSome then 1 else 0) + (if key.isSome then 1 else 0)
    + (if d.isSome then 1 else 0)

/-! ## The header of a request -/

/-- The `info2` that `compile` and `compile_ops` hand to `cl_write_header`: the
GENERATION bit is or-ed in when write parameters ask to use the generation. -/
def wparam_info2 (K : proto_h) (wparam : Option ev2citrusleaf_write_parameters)
    (info2 : Nat) : Nat :=
  match wparam with
  | some w => if w.use_generation then info2 ||| K.CL_MSG_INFO2_GENERATION else info2
  | none => info2

/-- The `generation` that `compile` and `compile_ops` hand to `cl_write_header`. -/
def wparam_generation (wparam : Option ev2citrusleaf_write_parameters) : Nat :=
  match wparam with
  | some w => if w.use_generation then w.generation else 0
  | none => 0

/-- The `expiration` that `compile` and `compile_ops` hand to `cl_write_header`. -/
def wparam_expiration (wparam : Option ev2citrusleaf_write_parameters) : Nat :=
  match wparam with
  | some w => w.expiration
  | none => 0

/-- Spec side: the 30 bytes that open a request: the frame header (version 2,
type 3, 48-bit size of what follows it), then the message header with its
multi-byte members big-endian. -/
def request_header (msg_size : Nat) (info1 info2 generation record_ttl transaction_ttl
    n_fields n_ops : Nat) : List Nat :=
  [2, 3] ++ be_bytes 6 (((msg_size : Int) - 8) % 2 ^ 48).toNat
    ++ [22, info1 % 256, info2 % 256, 0, 0, 0]
    ++ be_bytes 4 generation ++ be_bytes 4 record_ttl ++ be_bytes 4 transaction_ttl
    ++ be_bytes 2 n_fields ++ be_bytes 2 n_ops

/-- Whether some operation of the list is a read. -/
def any_read (ops : List ev2citrusleaf_operation) : Bool :=
  ops.any fun v => decide (v.op = .CL_OP_READ)

/-- Whether some operation of the list is a write or an add. -/
def any_write (ops : List ev2citrusleaf_operation) : Bool :=
  ops.any fun v => decide (v.op = .CL_OP_WRITE ∨ v.op = .CL_OP_ADD)

/-- Spec side: the fields of a request as type and data, in the order
namespace, set, key, digest. -/
def request_fields (K : proto_h) (ns : List Nat) (set : Option (List Nat))
    (key : Option ev2citrusleaf_object) (d : Option (List Nat)) : List (Nat × List Nat) :=
  [(K.CL_MSG_FIELD_TYPE_NAMESPACE, cstring ns)]
    ++ (match set with
      | some s => [(K.CL_MSG_FIELD_TYPE_SET, cstring s)]
      | none => [])
    ++ (match key with
      | some k => [(K.CL_MSG_FIELD_TYPE_KEY, key_wire k)]
      | none => [])
    ++ (match d with
      | some d => [(K.CL_MSG_FIELD_TYPE_DIGEST_RIPE, d.take sizeof_cf_digest)]
      | none => [])

/-- Spec side: a list of fields on the wire, one `field_wire` after the
other. -/
def fields_wire_of : List (Nat × List Nat) → List Nat
  | [] => []
  | f :: fs => field_wire f.1 f.2 ++ fields_wire_of fs

/-- A blob key of `2 ^ 32 - 2` zero bytes. -/
def key_4GiB : ev2citrusleaf_object :=
  ev2citrusleaf_object_init_blob zero_object (List.replicate (2 ^ 32 - 2) 0) (2 ^ 32 - 2)

/-- The string key `k1`. -/
def key_k1 : ev2citrusleaf_object := ev2citrusleaf_object_init_str zero_object [107, 49, 0]

/-! ## Reading the header of a request -/

/-- The byte `info1` of an encoded request. -/
def request_info1 (buf : List Nat) : Nat := buf.getD 9 0

/-- The byte `info2` of an encoded request. -/
def request_info2 (buf : List Nat) : Nat := buf.getD 10 0

/-- The 32-bit big-endian `generation` of an encoded request. -/
def request_generation (buf : List Nat) : Nat := be_value ((buf.drop 14).take 4)

/-- The 32-bit big-endian `record_ttl` of an encoded request. -/
def request_record_ttl (buf : List Nat) : Nat := be_value ((buf.drop 18).take 4)

/-- The 32-bit big-endian `transaction_ttl` of an encoded request. -/
def request_transaction_ttl (buf : List Nat) : Nat := be_value ((buf.drop 22).take 4)

/-- The 16-bit big-endian `n_fields` of an encoded request. -/
def request_n_fields (buf : List Nat) : Nat := be_value ((buf.drop 26).take 2)

/-- The 16-bit big-endian `n_ops` of an encoded request. -/
def request_n_ops (buf : List Nat) : Nat := be_value ((buf.drop 28).take 2)

/-- Whether write parameters are given and ask to use the generation. -/
def uses_generation (wparam : Option ev2citrusleaf_write_parameters) : Bool :=
  match wparam with
  | some w => w.use_generation
  | none => false

/-- Write parameters that ask for generation 7 and an expiration of 60 s. -/
def wparam_gen7 : ev2citrusleaf_write_parameters := ⟨true, 7, 60, .CL_WRITE_RETRY⟩

/-- The request `ev2citrusleaf_put` compiles for namespace `test`, set `s`, the
string key `k1` and the bin `bin_hi`, with timeout 200 and the write parameters
`wparam_gen7`, into a zeroed write buffer of 80 bytes. -/
def put_gen7 : compile_result :=
  compile aerospike no_digest 0 aerospike.CL_MSG_INFO2_WRITE [116, 101, 115, 116, 0]
    (some [115, 0]) (some key_k1) none (some wparam_gen7) 200 [bin_hi] (List.replicate 80 0) 80
    none []

/-- The operation "write the string `hi` to the bin `v`". -/
def op_write_hi : ev2citrusleaf_operation := ⟨bin_hi.bin_name, .CL_OP_WRITE, bin_hi.object⟩

/-- The operation "read the bin `v`". -/
def op_read_v : ev2citrusleaf_operation := ⟨bin_hi.bin_name, .CL_OP_READ, zero_object⟩

/-- The operation "add 1 to the bin `v`". -/
def op_add_1 : ev2citrusleaf_operation :=
  ⟨bin_hi.bin_name, .CL_OP_ADD, ev2citrusleaf_object_init_int zero_object 1⟩

/-- The request of an operate call that writes the string `hi` to the bin `b`
(namespace `test`, set `s`, key `k1`, no write parameters, timeout 200 ms),
after the start call. -/
def operate_hi_started : engine :=
  ((operate_write bin_hi.object).get (by decide)).w.get (by decide)

/-- The request of the same operate call with the write parameters
`wparam_gen7` (expiration 60 s) and a timeout of 200 ms, after the start
call. -/
def operate_gen7_started : engine :=
  ((ev2citrusleaf_operate aerospike sample_start zero_stats true [116, 101, 115, 116, 0]
    (some [115, 0]) (some key_k1) [op_write_hi] (some wparam_gen7) 200).get
      (by decide)).w.get (by decide)

/-- The request `ev2citrusleaf_operate` compiles for namespace `test`, set `s`,
the string key `k1` and the operations read, write, add on the bin `v`, without
write parameters, into a zeroed write buffer of 128 bytes. -/
def operate_three : compile_result :=
  (compile_ops aerospike no_digest [116, 101, 115, 116, 0] (some [115, 0]) (some key_k1) none
    [op_read_v, op_write_hi, op_add_1] none (List.replicate 128 0) 128 none []).get (by decide)

/-- Spec side: the fields of a request behind namespace and set, as type and
data: the key, then the digest. -/
def key_fields (K : proto_h) (key : Option ev2citrusleaf_object) (d : Option (List Nat)) :
    List (Nat × List Nat) :=
  (match key with
    | some k => [(K.CL_MSG_FIELD_TYPE_KEY, key_wire k)]
    | none => [])
  ++ (match d with
    | some d => [(K.CL_MSG_FIELD_TYPE_DIGEST_RIPE, d.take sizeof_cf_digest)]
    | none => [])

/-- The request `ev2citrusleaf_get_all` compiles for namespace `test`, the set
given, the string key `k1` and timeout 200, into a zeroed write buffer of 80
bytes. -/
def get_all_of_set (set : Option (List Nat)) : compile_result :=
  compile aerospike no_digest (aerospike.CL_MSG_INFO1_READ ||| aerospike.CL_MSG_INFO1_GET_ALL) 0
    [116, 101, 115, 116, 0] set (some key_k1) none none 200 [] (List.replicate 80 0) 80 none []

/-- A bin named `b` holding a java blob of the two bytes `k1`. -/
def bin_java : ev2citrusleaf_bin := ⟨[98, 0], java_blob_key aerospike⟩

/-- A bin named `b` holding a plain blob of the two bytes `k1`. -/
def bin_blob : ev2citrusleaf_bin :=
  ⟨[98, 0], ev2citrusleaf_object_init_blob zero_object [107, 49] 2⟩

/-- The request `ev2citrusleaf_put` compiles for namespace `test`, set `s`, the
string key `k1` and the single bin `b`, with timeout 200 and no write
parameters, into a zeroed write buffer of 80 bytes. -/
def put_of_bin (b : ev2citrusleaf_bin) : compile_result :=
  compile aerospike no_digest 0 aerospike.CL_MSG_INFO2_WRITE [116, 101, 115, 116, 0]
    (some [115, 0]) (some key_k1) none none 200 [b] (List.replicate 80 0) 80 none []

/-- A plain blob of 1000 zero bytes. -/
def blob_1000 : ev2citrusleaf_object :=
  ev2citrusleaf_object_init_blob zero_object (List.replicate 1000 0) 1000

/-- A block of 1062 bytes as `malloc` may hand it out: not zeroed, every byte
is `0xAA`. -/
def malloc_block : List Nat := List.replicate 1062 170

set_option maxRecDepth 100000 in
/-- The request `ev2citrusleaf_operate` compiles for namespace `test`, set `s`,
the string key `k1` and the single operation "write `blob_1000` to the bin `b`",
as `ev2citrusleaf_start_op` calls `compile_ops`: the zeroed 1024 bytes of
`wr_tmp` are too small for the 1062 bytes of the request, so `malloc_block` is
used. -/
def operate_long : compile_result :=
  (compile_ops aerospike no_digest [116, 101, 115, 116, 0] (some [115, 0]) (some key_k1) none
    [⟨[98, 0], .CL_OP_WRITE, blob_1000⟩] none (List.replicate 1024 0) 1024 (some malloc_block)
    []).get (by decide)

/-- The request `ev2citrusleaf_put` compiles for the same bin, as
`ev2citrusleaf_start` calls `compile`, with the same block from `malloc`. -/
def put_long : compile_result :=
  compile aerospike no_digest 0 aerospike.CL_MSG_INFO2_WRITE [116, 101, 115, 116, 0]
    (some [115, 0]) (some key_k1) none none 200 [⟨[98, 0], blob_1000⟩] (List.replicate 1024 0)
    1024 (some malloc_block) []

/-! ## The hash table of the test client (`shash.c`)

The table is used single-threaded (no lock flag is set), so the locks the
functions take are left out.  A key and a value are the bytes at the pointers
handed in; the table copies `key_len` and `value_len` of them. -/

/-- The constant `SHASH_OK`. -/
def SHASH_OK : Int := 0

/-- The constant `SHASH_ERR`. -/
def SHASH_ERR : Int := -1

/-- The constant `SHASH_ERR_NOTFOUND`. -/
def SHASH_ERR_NOTFOUND : Int := -3

/-- The constant `SHASH_ERR_FOUND`. -/
def SHASH_ERR_FOUND : Int := -4

/-- The constant `SHASH_REDUCE_DELETE`. -/
def SHASH_REDUCE_DELETE : Int := 1

/-- The flag `SHASH_CR_MT_BIGLOCK`. -/
def SHASH_CR_MT_BIGLOCK : Nat := 0x04

/-- The flag `SHASH_CR_MT_MANYLOCK`. -/
def SHASH_CR_MT_MANYLOCK : Nat := 0x08

/-- The struct `shash_elem` without its `next` pointer: `data` is split into
the `key_len` bytes of the key and the `value_len` bytes of the value. -/
structure shash_elem where
  in_use : Bool
  key : List Nat
  value : List Nat
deriving DecidableEq, Repr

/-- One slot of the head table: the head element, which lives in the table
itself, and the elements its `next` pointers lead to, each obtained from
`malloc` and in use. -/
structure shash_bucket where
  head : shash_elem
  chain : List (List Nat × List Nat)
deriving DecidableEq, Repr

/-- The struct `shash`, less the locks; `elements` is a `uint`. -/
structure shash where
  elements : Nat
  key_len : Nat
  value_len : Nat
  flags : Nat
  h_fn : List Nat → Nat
  table_len : Nat
  table : List shash_bucket

/-- The function `shash_create` with both allocations succeeding: `none` stands
for the return code `SHASH_ERR`.  The data of an unused head is what `malloc`
left there; it is not read before it is written, and the model holds no bytes
for it. -/
def shash_create (h_fn : List Nat → Nat) (key_len value_len sz flags : Nat) : Option shash :=
  if flags &&& SHASH_CR_MT_BIGLOCK ≠ 0 ∧ flags &&& SHASH_CR_MT_MANYLOCK ≠ 0 then none
  else
    some
      { elements := 0, table_len := sz, key_len := key_len, value_len := value_len,
        flags := flags, h_fn := h_fn,
        table := List.replicate sz ⟨⟨false, [], []⟩, []⟩ }

/-- The function `shash_get_size`. -/
def shash_get_size (h : shash) : Nat := h.elements

/-- The slot a key hashes to: `h->h_fn(key) % h->table_len` in 32-bit unsigned
arithmetic. -/
def shash_slot (h : shash) (key : List Nat) : Nat := h.h_fn key % 2 ^ 32 % h.table_len

/-- The test `memcmp(SHASH_ELEM_KEY_PTR(h, e), key, h->key_len) == 0`. -/
def shash_key_eq (h : shash) (stored key : List Nat) : Bool :=
  decide (stored.take h.key_len = key.take h.key_len)

/-- The walk of `shash_put` along the chain: the value of the first element
with the key is overwritten; `none` when no element has the key. -/
def shash_chain_update (h : shash) (key value : List Nat) :
    List (List Nat × List Nat) → Option (List (List Nat × List Nat))
  | [] => none
  | e :: es =>
    if shash_key_eq h e.1 key then some ((e.1, memcpy_src value h.value_len) :: es)
    else (shash_chain_update h key value es).map fun es => e :: es

/-- The function `shash_put`: the table afterwards and the return code. -/
def shash_put (h : shash) (key value : List Nat) : shash × Int :=
  let hash := shash_slot h key
  let e := h.table.getD hash ⟨⟨false, [], []⟩, []⟩
  let copy : shash_elem := ⟨true, memcpy_src key h.key_len, memcpy_src value h.value_len⟩
  -- most common case should be insert into empty bucket, special case
  if e.head.in_use = false then
    ({ h with table := h.table.set hash ({ e with head := copy }),
              elements := (h.elements + 1) % 2 ^ 32 }, SHASH_OK)
  else if shash_key_eq h e.head.key key then
    ({ h with
        table := h.table.set hash
          ({ e with head := { e.head with value := memcpy_src value h.value_len } }) },
      SHASH_OK)
  else
    match shash_chain_update h key value e.chain with
    | some chain => ({ h with table := h.table.set hash ({ e with chain := chain }) }, SHASH_OK)
    | none =>
      -- a new element behind the head
      ({ h with table := h.table.set hash ({ e with chain := (copy.key, copy.value) :: e.chain }),
                elements := (h.elements + 1) % 2 ^ 32 }, SHASH_OK)

/-- The function `shash_put_unique`: the table afterwards and the return
code. -/
def shash_put_unique (h : shash) (key value : List Nat) : shash × Int :=
  let hash := shash_slot h key
  let e := h.table.getD hash ⟨⟨false, [], []⟩, []⟩
  let copy : shash_elem := ⟨true, memcpy_src key h.key_len, memcpy_src value h.value_len⟩
  if e.head.in_use = false then
    ({ h with table := h.table.set hash ({ e with head := copy }),
              elements := (h.elements + 1) % 2 ^ 32 }, SHASH_OK)
  else if shash_key_eq h e.head.key key ∨ e.chain.any (fun c => shash_key_eq h c.1 key) then
    (h, SHASH_ERR_FOUND)
  else
    ({ h with table := h.table.set hash ({ e with chain := (copy.key, copy.value) :: e.chain }),
              elements := (h.elements + 1) % 2 ^ 32 }, SHASH_OK)

/-- The function `shash_get`: the return code and the bytes copied to `value`
when it is `SHASH_OK`. -/
def shash_get (h : shash) (key : List Nat) : Int × Option (List Nat) :=
  let hash := shash_slot h key
  let e := h.table.getD hash ⟨⟨false, [], []⟩, []⟩
  if e.head.in_use = false then (SHASH_ERR_NOTFOUND, none)
  else if shash_key_eq h e.head.key key then (SHASH_OK, some e.head.value)
  else
    match e.chain.find? (fun c => shash_key_eq h c.1 key) with
    | some c => (SHASH_OK, some c.2)
    | none => (SHASH_ERR_NOTFOUND, none)

/-- The walk of `shash_delete` along the chain: the first element with the key
is unlinked and freed; `none` when no element has the key. -/
def shash_chain_delete (h : shash) (key : List Nat) :
    List (List Nat × List Nat) → Option (List (List Nat × List Nat))
  | [] => none
  | e :: es =>
    if shash_key_eq h e.1 key then some es
    else (shash_chain_delete h key es).map fun es => e :: es

/-- The function `shash_delete`: the table afterwards and the return code. -/
def shash_delete (h : shash) (key : List Nat) : shash × Int :=
  let hash := shash_slot h key
  let e := h.table.getD hash ⟨⟨false, [], []⟩, []⟩
  -- If bucket empty, def can't delete
  if e.head.in_use = false then (h, SHASH_ERR_NOTFOUND)
  else if shash_key_eq h e.head.key key then
    -- am at head
    match e.chain with
    | [] =>
      ({ h with table := h.table.set hash ({ e with head := { e.head with in_use := false } }),
                elements := (h.elements + 2 ^ 32 - 1) % 2 ^ 32 }, SHASH_OK)
    | c :: cs =>
      ({ h with table := h.table.set hash ⟨⟨true, c.1, c.2⟩, cs⟩,
                elements := (h.elements + 2 ^ 32 - 1) % 2 ^ 32 }, SHASH_OK)
  else
    match shash_chain_delete h key e.chain with
    | some chain =>
      ({ h with table := h.table.set hash ({ e with chain := chain }),
                elements := (h.elements + 2 ^ 32 - 1) % 2 ^ 32 }, SHASH_OK)
    | none => (h, SHASH_ERR_NOTFOUND)

/-- The function `shash_get_and_delete`: the table afterwards, the return code
and the bytes copied to `value` when it is `SHASH_OK`. -/
def shash_get_and_delete (h : shash) (key : List Nat) : shash × Int × Option (List Nat) :=
  let hash := shash_slot h key
  let e := h.table.getD hash ⟨⟨false, [], []⟩, []⟩
  if e.head.in_use = false then (h, SHASH_ERR_NOTFOUND, none)
  else if shash_key_eq h e.head.key key then
    match e.chain with
    | [] =>
      ({ h with table := h.table.set hash ({ e with head := { e.head with in_use := false } }),
                elements := (h.elements + 2 ^ 32 - 1) % 2 ^ 32 }, SHASH_OK, some e.head.value)
    | c :: cs =>
      ({ h with table := h.table.set hash ⟨⟨true, c.1, c.2⟩, cs⟩,
                elements := (h.elements + 2 ^ 32 - 1) % 2 ^ 32 }, SHASH_OK, some e.head.value)
  else
    match shash_chain_delete h key e.chain, e.chain.find? (fun c => shash_key_eq h c.1 key) with
    | some chain, some c =>
      ({ h with table := h.table.set hash ({ e with chain := chain }),
                elements := (h.elements + 2 ^ 32 - 1) % 2 ^ 32 }, SHASH_OK, some c.2)
    | _, _ => (h, SHASH_ERR_NOTFOUND, none)

/-- The loop of `shash_reduce_delete` behind the head of a slot (`prev_he` is
set): an element for which `reduce_fn` returns `SHASH_REDUCE_DELETE` is unlinked
and freed, any other non-zero result ends the reduce.  The chain afterwards and
`rv`. -/
def shash_reduce_chain (reduce_fn : List Nat → List Nat → Int) :
    List (List Nat × List Nat) → List (List Nat × List Nat) × Int
  | [] => ([], 0)
  | e :: es =>
    if reduce_fn e.1 e.2 = SHASH_REDUCE_DELETE then shash_reduce_chain reduce_fn es
    else if reduce_fn e.1 e.2 ≠ 0 then (e :: es, reduce_fn e.1 e.2)
    else ((e :: (shash_reduce_chain reduce_fn es).1), (shash_reduce_chain reduce_fn es).2)

/-- The loop of `shash_reduce_delete` on one slot, from its head on: while the
head is to be deleted its successor is copied into it (or, without a successor,
it is marked unused).  The slot afterwards and `rv`. -/
def shash_reduce_slot (reduce_fn : List Nat → List Nat → Int) :
    shash_elem → List (List Nat × List Nat) → shash_bucket × Int
  | head, [] =>
    if head.in_use = false then (⟨head, []⟩, 0)
    else if reduce_fn head.key head.value = SHASH_REDUCE_DELETE then
      (⟨{ head with in_use := false }, []⟩, 0)
    else (⟨head, []⟩, reduce_fn head.key head.value)
  | head, c :: cs =>
    if head.in_use = false then (⟨head, c :: cs⟩, 0)
    else if reduce_fn head.key head.value = SHASH_REDUCE_DELETE then
      shash_reduce_slot reduce_fn ⟨true, c.1, c.2⟩ cs
    else if reduce_fn head.key head.value ≠ 0 then
      (⟨head, c :: cs⟩, reduce_fn head.key head.value)
    else (⟨head, (shash_reduce_chain reduce_fn (c :: cs)).1⟩,
      (shash_reduce_chain reduce_fn (c :: cs)).2)

/-- The loop of `shash_reduce_delete` over the slots: a non-zero `rv` ends
it. -/
def shash_reduce_table (reduce_fn : List Nat → List Nat → Int) :
    List shash_bucket → List shash_bucket × Int
  | [] => ([], 0)
  | b :: bs =>
    if (shash_reduce_slot reduce_fn b.head b.chain).2 ≠ 0 then
      ((shash_reduce_slot reduce_fn b.head b.chain).1 :: bs,
        (shash_reduce_slot reduce_fn b.head b.chain).2)
    else ((shash_reduce_slot reduce_fn b.head b.chain).1 :: (shash_reduce_table reduce_fn bs).1,
      (shash_reduce_table reduce_fn bs).2)

/-- The function `shash_reduce_delete`: the table afterwards and the return
code.  `reduce_fn` is the callback with its `udata`, a function of the key and
the value of the element. -/
def shash_reduce_delete (h : shash) (reduce_fn : List Nat → List Nat → Int) : shash × Int :=
  ({ h with table := (shash_reduce_table reduce_fn (h.table.take h.table_len)).1
              ++ h.table.drop h.table_len },
    (shash_reduce_table reduce_fn (h.table.take h.table_len)).2)

/-! ### A sample table -/

/-- A hash function: the first byte of the key. -/
def first_byte (key : List Nat) : Nat := key.getD 0 0

/-- A reduce function that asks to delete every element. -/
def delete_all (_key _value : List Nat) : Int := SHASH_REDUCE_DELETE

/-- A single-threaded table of 4 slots for keys and values of one byte. -/
def table_4 : shash := (shash_create first_byte 1 1 4 0).get (by decide)

/-- The table `table_4` after the keys 1 and 2 were put with the values 10 and
20. -/
def table_4_two : shash := (shash_put (shash_put table_4 [1] [10]).1 [2] [20]).1

/-- The table `table_4_two` after `shash_reduce_delete` with `delete_all`. -/
def table_4_reduced : shash := (shash_reduce_delete table_4_two delete_all).1

/-! ### Counting the elements of a table -/

/-- The number of elements a slot holds. -/
def shash_bucket_count (b : shash_bucket) : Nat :=
  (if b.head.in_use then 1 else 0) + b.chain.length

/-- The number of elements stored in the table. -/
def shash_stored (h : shash) : Nat := (h.table.map shash_bucket_count).sum

/-- A call of one of the functions that count what they store and remove. -/
inductive shash_call where
  | put (key value : List Nat)
  | put_unique (key value : List Nat)
  | delete (key : List Nat)
  | get_and_delete (key : List Nat)

/-- The table after a call. -/
def shash_apply (h : shash) : shash_call → shash
  | .put key value => (shash_put h key value).1
  | .put_unique key value => (shash_put_unique h key value).1
  | .delete key => (shash_delete h key).1
  | .get_and_delete key => (shash_get_and_delete h key).1

/-! ## The buffer positions of a request -/

/-- The three positions of a request are inside their buffers. -/
@[reducible] def positions_ok (w : engine) : Prop :=
  w.req.wr_buf_pos ≤ w.req.wr_buf_size ∧ w.req.rd_header_pos ≤ sizeof_cl_proto
    ∧ w.req.rd_buf_pos ≤ w.req.rd_buf_size

/-- The state in which `ev2citrusleaf_event` makes its calls of `send` and
`recv`: the network event has fired and `network_set` is cleared. -/
def io_state (w : engine) : engine :=
  { w with
    network_event := { w.network_event with pending := false }
    req := { w.req with network_set := false } }

/-- The answers of `send` and `recv` in a network event on the request `w`
report no more bytes than the handler asks for: `send` at most
`wr_buf_size - wr_buf_pos` when the event fired for writing and the request is
not fully written; otherwise `recv` at most `sizeof(cl_proto) - rd_header_pos`
when the frame header is incomplete, and at most `rd_buf_size - rd_buf_pos`, as
they are once the header is complete and the read buffer set up, when the body
is incomplete. -/
def io_bounded (K : proto_h) (w : engine) (o : network_oracle) : Bool :=
  if w.network_event.ev_write then
    !decide (w.req.wr_buf_pos < w.req.wr_buf_size)
      || decide (o.send.rv ≤ (w.req.wr_buf_size : Int) - w.req.wr_buf_pos)
  else
    (!decide (w.req.rd_header_pos < sizeof_cl_proto)
        || decide (o.recv_header.rv ≤ (sizeof_cl_proto : Int) - w.req.rd_header_pos))
      && match event_recv_header (io_state w) o with
        | some w1 =>
          !decide (w1.req.rd_header_pos = sizeof_cl_proto)
            || !decide ((event_init_rd_buf K w1 o).1.req.rd_buf_pos
                < (event_init_rd_buf K w1 o).1.req.rd_buf_size)
            || decide (o.recv_body.rv
                ≤ ((event_init_rd_buf K w1 o).1.req.rd_buf_size : Int)
                  - (event_init_rd_buf K w1 o).1.req.rd_buf_pos)
        | none => true

/-- Along the events `es` on the request `w`, `send` and `recv` never report
more bytes than were requested. -/
def bounded_run (K : proto_h) : engine → List event → Bool
  | _, [] => true
  | w, e :: es =>
    (match e with
      | .network o => io_bounded K w o
      | _ => true)
    && match step K w e with
      | some w1 => bounded_run K w1 es
      | none => true

/-! ## Lemmas on bytes and machine integers -/

theorem be_value_append_singleton (bs : List Nat) (b : Nat) :
    be_value (bs ++ [b]) = be_value bs * 256 + b := by
  simp [be_value, List.foldl_append]

theorem be_bytes_length (n x : Nat) : (be_bytes n x).length = n := by
  induction n with
  | zero => rfl
  | succ n ih => simp [be_bytes, ih]

theorem be_bytes_lt (n x b : Nat) (h : b ∈ be_bytes n x) : b < 256 := by
  induction n with
  | zero => simp [be_bytes] at h
  | succ n ih =>
    simp only [be_bytes, List.mem_cons] at h
    rcases h with h | h
    · subst h; exact Nat.mod_lt _ (by norm_num)
    · exact ih h

theorem foldl_be_acc (bs : List Nat) (a : Nat) :
    bs.foldl (fun v b => v * 256 + b) a
      = a * 256 ^ bs.length + bs.foldl (fun v b => v * 256 + b) 0 := by
  induction bs generalizing a with
  | nil => simp
  | cons b bs ih =>
    simp only [List.foldl_cons, List.length_cons]
    rw [ih (a * 256 + b), ih (0 * 256 + b)]
    ring

theorem be_value_cons (b : Nat) (bs : List Nat) :
    be_value (b :: bs) = b * 256 ^ bs.length + be_value bs := by
  unfold be_value
  rw [List.foldl_cons, foldl_be_acc]
  simp

theorem be_value_be_bytes (n x : Nat) : be_value (be_bytes n x) = x % 256 ^ n := by
  induction n with
  | zero => simp [be_bytes, be_value, Nat.mod_one]
  | succ n ih =>
    rw [be_bytes, be_value_cons, ih, be_bytes_length]
    have h1 : x % 256 ^ (n + 1) = x % 256 ^ n + 256 ^ n * (x / 256 ^ n % 256) := by
      rw [pow_succ]; exact Nat.mod_mul
    rw [h1]; ring

theorem to_i64_to_u64 (v : Int) (h : is_i64 v) : to_i64 (to_u64 v) = v := by
  unfold is_i64 at h
  unfold to_i64 to_u64
  have hm : ((v % 2 ^ 64).toNat : Int) = v % 2 ^ 64 :=
    Int.toNat_of_nonneg (Int.emod_nonneg _ (by norm_num))
  have hlt : (v % 2 ^ 64).toNat < 2 ^ 64 := by
    have := Int.emod_lt_of_pos v (show (0 : Int) < 2 ^ 64 by norm_num)
    omega
  rw [Nat.mod_eq_of_lt hlt]
  split <;> omega

theorem land_0x80 (b : Nat) : b &&& 0x80 = (b / 128 % 2) * 128 := by
  have h := Nat.and_two_pow b 7
  simp only [Nat.testBit_to_div_mod] at h
  norm_num at h
  rw [h]
  rcases Nat.mod_two_eq_zero_or_one (b / 128) with h2 | h2 <;> simp [h2]

theorem shl8_or (a b : Nat) (h : b < 256) : (a * 2 ^ 8) ||| b = a * 256 + b := by
  have := Nat.mul_add_lt_is_or (i := 8) (b := b) (by simpa using h) a
  rw [show a * 2 ^ 8 = 2 ^ 8 * a by ring, ← this]; ring

/-! ## Integer values: encoder against decoder -/

theorem op_to_value_int_pos_fold (bs : List Nat) (hb : ∀ b ∈ bs, b < 256) (a k : Nat)
    (ha : a < 256 ^ k) (hlen : k + bs.length ≤ 8) :
    bs.foldl (fun v b => (v * 2 ^ 8 % 2 ^ 64) ||| b) a
      = bs.foldl (fun v b => v * 256 + b) a := by
  induction bs generalizing a k with
  | nil => rfl
  | cons b bs ih =>
    simp only [List.foldl_cons]
    have hb0 : b < 256 := hb b (List.mem_cons_self _ _)
    simp only [List.length_cons] at hlen
    have hk : (256 : Nat) ^ k ≤ 256 ^ 7 := Nat.pow_le_pow_right (by norm_num) (by omega)
    have h1 : a * 2 ^ 8 < 2 ^ 64 := by
      norm_num at hk ⊢; omega
    rw [Nat.mod_eq_of_lt h1, shl8_or a b hb0]
    refine ih (fun c hc => hb c (List.mem_cons_of_mem _ hc)) (a * 256 + b) (k + 1) ?_ (by omega)
    rw [pow_succ]; omega

theorem op_to_value_int_pos_value (bs : List Nat) (hb : ∀ b ∈ bs, b < 256)
    (hlen : bs.length ≤ 8) :
    bs.foldl (fun v b => (v * 2 ^ 8 % 2 ^ 64) ||| b) 0 = be_value bs := by
  rw [op_to_value_int_pos_fold bs hb 0 0 (by norm_num) (by omega)]
  rfl

theorem be_value_lt (bs : List Nat) (hb : ∀ b ∈ bs, b < 256) :
    be_value bs < 256 ^ bs.length := by
  induction bs with
  | nil => simp [be_value]
  | cons b bs ih =>
    rw [be_value_cons, List.length_cons, pow_succ]
    have h1 := ih (fun c hc => hb c (List.mem_cons_of_mem _ hc))
    have h2 : b < 256 := hb b (List.mem_cons_self _ _)
    have h3 : b * 256 ^ bs.length ≤ 255 * 256 ^ bs.length := Nat.mul_le_mul_right _ (by omega)
    omega

theorem to_i64_small (u : Nat) (h : u < 2 ^ 63) : to_i64 u = (u : Int) := by
  unfold to_i64
  have : u % 2 ^ 64 = u := Nat.mod_eq_of_lt (by omega)
  rw [this, if_pos h]

/-- A short byte string whose first byte has the top bit clear decodes to its
unsigned big-endian magnitude. -/
theorem op_to_value_int_magnitude (bs : List Nat) (hb : ∀ b ∈ bs, b < 256)
    (h1 : 1 ≤ bs.length) (h7 : bs.length ≤ 7) (htop : deref bs < 128) (value : Int) :
    op_to_value_int bs bs.length value = (0, (be_value bs : Int)) := by
  have hlt := be_value_lt bs hb
  have hp : (256 : Nat) ^ bs.length ≤ 256 ^ 7 := Nat.pow_le_pow_right (by norm_num) h7
  have hv : be_value bs < 2 ^ 63 := by norm_num at hp ⊢; omega
  unfold op_to_value_int
  rw [if_neg (by omega), if_neg (by omega), if_neg (by omega)]
  split
  · rename_i h
    match bs, h with
    | [b], _ => simp [deref, be_value]
  · have hz : deref bs &&& 0x80 = 0 := by rw [land_0x80]; omega
    rw [if_neg (by rw [hz]; simp)]
    simp only [Int.toNat_ofNat, List.take_length]
    rw [op_to_value_int_pos_value bs hb (by omega), to_i64_small _ hv]

theorem deref_be_bytes (k x : Nat) : deref (be_bytes (k + 1) x) = x / 256 ^ k % 256 := rfl

/-- What `value_to_op_int` writes, `op_to_value_int` reads back. -/
theorem value_to_op_int_roundtrip (v : Int) (hv : is_i64 v) (value : Int) :
    op_to_value_int (value_to_op_int v).1 (value_to_op_int v).2 value = (0, v) := by
  unfold value_to_op_int
  split
  · -- eight bytes
    simp only [op_to_value_int, store_htonll, load_ntohll]
    have hl : (be_bytes 8 (to_u64 v)).take 8 = be_bytes 8 (to_u64 v) :=
      List.take_of_length_le (by rw [be_bytes_length])
    rw [hl, be_value_be_bytes]
    have hlt : to_u64 v < 256 ^ 8 := by
      unfold to_u64
      have := Int.emod_lt_of_pos v (show (0 : Int) < 2 ^ 64 by norm_num)
      have := Int.emod_nonneg v (show (2 : Int) ^ 64 ≠ 0 by norm_num)
      norm_num; omega
    rw [Nat.mod_eq_of_lt hlt, to_i64_to_u64 v hv]
    simp
  · rename_i h1
    have h0 : 0 ≤ v := by omega
    obtain ⟨n, rfl⟩ := Int.eq_ofNat_of_zero_le h0
    have hn : n < 0x7FFFFFFF := by omega
    split
    · -- one byte
      have hu : to_u8 (n : Int) = n := by unfold to_u8; omega
      have := op_to_value_int_magnitude [n] (by simp; omega) (by simp) (by simp)
        (by simp [deref]; omega) value
      simpa [hu, be_value] using this
    · split
      · -- two bytes
        have hu : to_u16 (n : Int) = n := by unfold to_u16; omega
        have := op_to_value_int_magnitude (be_bytes 2 n) (be_bytes_lt 2 n)
          (by simp [be_bytes_length]) (by simp [be_bytes_length])
          (by rw [deref_be_bytes]; omega) value
        rw [be_bytes_length, be_value_be_bytes] at this
        simp only [hu, store_htons]
        rw [show ((2 : Nat) : Int) = 2 from rfl] at this
        rw [this]
        congr 1
        have : n % 256 ^ 2 = n := Nat.mod_eq_of_lt (by norm_num; omega)
        rw [this]
      · -- four bytes
        have hu : to_u32 (n : Int) = n := by unfold to_u32; omega
        have := op_to_value_int_magnitude (be_bytes 4 n) (be_bytes_lt 4 n)
          (by simp [be_bytes_length]) (by simp [be_bytes_length])
          (by rw [deref_be_bytes]; omega) value
        rw [be_bytes_length, be_value_be_bytes] at this
        simp only [hu, store_htonl]
        rw [show ((4 : Nat) : Int) = 4 from rfl] at this
        rw [this]
        congr 1
        have : n % 256 ^ 4 = n := Nat.mod_eq_of_lt (by norm_num; omega)
        rw [this]

/-- C1. For every 64-bit signed integer `v`, the bytes `value_to_op_int` writes
for `v`, decoded by `op_to_value_int` with the width `value_to_op_int` returned,
give return code 0 and the value `v`. -/
theorem value_to_op_int_decodes (v : Int) (hv : is_i64 v) (value : Int) :
    op_to_value_int (value_to_op_int v).1 (value_to_op_int v).2 value = (0, v) :=
  value_to_op_int_roundtrip v hv value

theorem value_to_op_int_decodes_witness :
    is_i64 (-5) ∧ op_to_value_int (value_to_op_int (-5)).1 (value_to_op_int (-5)).2 0
      = (0, -5) :=
  ⟨by unfold is_i64; norm_num, value_to_op_int_decodes (-5) (by unfold is_i64; norm_num) 0⟩

/-! ## Integer values: the width written against the width announced -/

/-- C9. At `v = 0x7FFF` the encoder `value_to_op_int` writes two bytes and
returns 2, while `value_to_op_int_size`, which the source says must match it
exactly, announces 4. -/
theorem value_to_op_int_size_mismatch :
    (value_to_op_int 0x7FFF).2 = 2 ∧ (value_to_op_int 0x7FFF).1.length = 2
      ∧ value_to_op_int_size 0x7FFF = 4 := by
  decide

/-- The width `value_to_op_int_size` announces is the one of the
integer-encoding table. -/
theorem value_to_op_int_size_table (v : Int) :
    value_to_op_int_size v =
      if v < 0 then 8 else if v ≤ 0x7F then 1 else if v ≤ 0x7FFE then 2
      else if v ≤ 0x7FFFFFFE then 4 else 8 := by
  unfold value_to_op_int_size
  split_ifs <;> first | rfl | omega

/-- Away from `0x7FFF` the two functions agree: the returned width is the
number of bytes written and is the announced width. -/
theorem value_to_op_int_size_agrees (v : Int) (h : v ≠ 0x7FFF) :
    (value_to_op_int v).2 = value_to_op_int_size v
      ∧ ((value_to_op_int v).1.length : Int) = (value_to_op_int v).2 := by
  unfold value_to_op_int value_to_op_int_size
  split_ifs <;>
    first
      | omega
      | simp [store_htonll, store_htonl, store_htons, be_bytes_length]

/-! ## The message header -/

theorem be_bytes_mod (n x : Nat) : be_bytes n (x % 256 ^ n) = be_bytes n x := by
  induction n generalizing x with
  | zero => rfl
  | succ n ih =>
    have h1 : x % 256 ^ (n + 1) / 256 ^ n % 256 = x / 256 ^ n % 256 := by
      rw [pow_succ, Nat.mod_mul_right_div_self, Nat.mod_mod]
    have h2 : be_bytes n (x % 256 ^ (n + 1)) = be_bytes n x := by
      rw [← ih (x % 256 ^ (n + 1)), ← ih x]
      congr 1
      rw [pow_succ]
      exact Nat.mod_mul_right_mod x (256 ^ n) 256
    simp only [be_bytes, h1, h2]

theorem poke_zero_take (buf bytes : List Nat) :
    (poke buf 0 bytes).take bytes.length = bytes := by
  simp [poke]

/-- The 30 bytes `cl_write_header` leaves at the start of the buffer, and the
position it returns. -/
theorem cl_write_header_bytes (buf : List Nat) (msg_size : Nat) (info1 info2 : Int)
    (generation expiration timeout n_fields n_ops : Nat) :
    (cl_write_header buf msg_size info1 info2 generation expiration timeout
        n_fields n_ops).2 = 30
      ∧ (cl_write_header buf msg_size info1 info2 generation expiration timeout
          n_fields n_ops).1.take 30
        = [2, 3] ++ be_bytes 6 (((msg_size : Int) - 8) % 2 ^ 48).toNat
            ++ [22, to_u8 info1, to_u8 info2, 0, 0, 0]
            ++ be_bytes 4 generation ++ be_bytes 4 expiration ++ be_bytes 4 timeout
            ++ be_bytes 2 n_fields ++ be_bytes 2 n_ops := by
  refine ⟨rfl, ?_⟩
  have hsz : be_bytes 6 (to_u64 ((msg_size : Int) - sizeof_cl_proto) % 2 ^ 48)
      = be_bytes 6 (((msg_size : Int) - 8) % 2 ^ 48).toNat := by
    congr 1
    unfold to_u64 sizeof_cl_proto
    omega
  have h8 : ∀ x : Int, to_u8 x % 256 = to_u8 x := by
    intro x; unfold to_u8; omega
  have hb4 : ∀ x : Nat, be_bytes 4 (x % 2 ^ 32) = be_bytes 4 x := fun x => be_bytes_mod 4 x
  have hb2 : ∀ x : Nat, be_bytes 2 (x % 2 ^ 16) = be_bytes 2 x := fun x => be_bytes_mod 2 x
  have hlen : (cl_proto_swap
          { version := CL_PROTO_VERSION, type := CL_PROTO_TYPE_CL_MSG,
            sz := to_u64 ((msg_size : Int) - sizeof_cl_proto) % 2 ^ 48 } ++
        cl_msg_swap_header
          { header_sz := sizeof_cl_msg, info1 := to_u8 info1, info2 := to_u8 info2,
            info3 := 0, unused := 0, result_code := 0, generation := generation % 2 ^ 32,
            record_ttl := expiration % 2 ^ 32, transaction_ttl := timeout % 2 ^ 32,
            n_fields := n_fields % 2 ^ 16, n_ops := n_ops % 2 ^ 16 }).length = 30 := by
    simp [cl_proto_swap, cl_msg_swap_header, be_bytes_length]
  unfold cl_write_header
  simp only []
  rw [← hlen, poke_zero_take]
  simp only [cl_proto_swap, cl_msg_swap_header, hsz, h8, hb4, hb2, CL_PROTO_VERSION,
    CL_PROTO_TYPE_CL_MSG, sizeof_cl_msg]
  simp

/-- C10. For every argument tuple `cl_write_header` returns the position 30 bytes
past the start of the buffer and leaves there the 30 bytes: version 2, type 3,
the 48-bit big-endian value of `msg_size - 8`, header size 22, the bytes
`info1`, `info2`, three zero bytes for `info3`, `unused`, `result_code`, then
`generation`, `expiration`, `timeout` as 32-bit big-endian and `n_fields`,
`n_ops` as 16-bit big-endian. -/
theorem cl_write_header_layout (buf : List Nat) (msg_size : Nat) (info1 info2 : Int)
    (generation expiration timeout n_fields n_ops : Nat) :
    (cl_write_header buf msg_size info1 info2 generation expiration timeout
        n_fields n_ops).2 = 30
      ∧ (cl_write_header buf msg_size info1 info2 generation expiration timeout
          n_fields n_ops).1.take 30
        = [2, 3] ++ be_bytes 6 (((msg_size : Int) - 8) % 2 ^ 48).toNat
            ++ [22, to_u8 info1, to_u8 info2, 0, 0, 0]
            ++ be_bytes 4 generation ++ be_bytes 4 expiration ++ be_bytes 4 timeout
            ++ be_bytes 2 n_fields ++ be_bytes 2 n_ops :=
  cl_write_header_bytes buf msg_size info1 info2 generation expiration timeout n_fields n_ops

/-! ## Digests -/

theorem proto_h.java_ne (K : proto_h) :
    K.CL_PARTICLE_TYPE_JAVA_BLOB ≠ 0 ∧ K.CL_PARTICLE_TYPE_JAVA_BLOB ≠ 1
      ∧ K.CL_PARTICLE_TYPE_JAVA_BLOB ≠ 2 ∧ K.CL_PARTICLE_TYPE_JAVA_BLOB ≠ 3
      ∧ K.CL_PARTICLE_TYPE_JAVA_BLOB ≠ 4 := by
  have h := K.particle_types_nodup
  simp only [CL_PARTICLE_TYPE_NULL, CL_PARTICLE_TYPE_INTEGER, CL_PARTICLE_TYPE_FLOAT,
    CL_PARTICLE_TYPE_STRING, CL_PARTICLE_TYPE_BLOB, List.nodup_cons, List.mem_cons,
    not_or] at h
  omega

theorem proto_h.csharp_ne (K : proto_h) :
    K.CL_PARTICLE_TYPE_CSHARP_BLOB ≠ 0 ∧ K.CL_PARTICLE_TYPE_CSHARP_BLOB ≠ 1
      ∧ K.CL_PARTICLE_TYPE_CSHARP_BLOB ≠ 2 ∧ K.CL_PARTICLE_TYPE_CSHARP_BLOB ≠ 3
      ∧ K.CL_PARTICLE_TYPE_CSHARP_BLOB ≠ 4 := by
  have h := K.particle_types_nodup
  simp only [CL_PARTICLE_TYPE_NULL, CL_PARTICLE_TYPE_INTEGER, CL_PARTICLE_TYPE_FLOAT,
    CL_PARTICLE_TYPE_STRING, CL_PARTICLE_TYPE_BLOB, List.nodup_cons, List.mem_cons,
    not_or] at h
  omega

theorem proto_h.python_ne (K : proto_h) :
    K.CL_PARTICLE_TYPE_PYTHON_BLOB ≠ 0 ∧ K.CL_PARTICLE_TYPE_PYTHON_BLOB ≠ 1
      ∧ K.CL_PARTICLE_TYPE_PYTHON_BLOB ≠ 2 ∧ K.CL_PARTICLE_TYPE_PYTHON_BLOB ≠ 3
      ∧ K.CL_PARTICLE_TYPE_PYTHON_BLOB ≠ 4 := by
  have h := K.particle_types_nodup
  simp only [CL_PARTICLE_TYPE_NULL, CL_PARTICLE_TYPE_INTEGER, CL_PARTICLE_TYPE_FLOAT,
    CL_PARTICLE_TYPE_STRING, CL_PARTICLE_TYPE_BLOB, List.nodup_cons, List.mem_cons,
    not_or] at h
  omega

theorem proto_h.ruby_ne (K : proto_h) :
    K.CL_PARTICLE_TYPE_RUBY_BLOB ≠ 0 ∧ K.CL_PARTICLE_TYPE_RUBY_BLOB ≠ 1
      ∧ K.CL_PARTICLE_TYPE_RUBY_BLOB ≠ 2 ∧ K.CL_PARTICLE_TYPE_RUBY_BLOB ≠ 3
      ∧ K.CL_PARTICLE_TYPE_RUBY_BLOB ≠ 4 := by
  have h := K.particle_types_nodup
  simp only [CL_PARTICLE_TYPE_NULL, CL_PARTICLE_TYPE_INTEGER, CL_PARTICLE_TYPE_FLOAT,
    CL_PARTICLE_TYPE_STRING, CL_PARTICLE_TYPE_BLOB, List.nodup_cons, List.mem_cons,
    not_or] at h
  omega

/-- The bytes of the set name that enter the digest: the C string at `set`,
nothing for an absent set. -/
theorem set_prefix (set : Option (List Nat)) :
    memcpy_src (chars set) (match set with | some s => strlen s | none => 0)
      = match set with
        | some s => cstring s
        | none => [] := by
  cases set with
  | none => rfl
  | some s =>
    simp only [chars, Option.getD_some, memcpy_src, strlen, cstring]
    have h := List.takeWhile_prefix (fun c => decide (c ≠ 0)) (l := s)
    exact (List.prefix_iff_eq_take.mp h).symm

theorem take_cons_take (t : Nat) (l : List Nat) (n : Nat) :
    (t :: l.take n).take (n + 1) = t :: l.take n := by
  simp [List.take_take]

/-- C8. For every set and every string, integer or blob key (as the
`ev2citrusleaf_object_init_*` functions build them) `ev2citrusleaf_calculate_digest`
returns 0 and the digest is the digest function applied to the set bytes
followed by the particle-type byte followed by the key bytes - the string or
blob bytes, or the 8-byte big-endian integer; an absent set contributes no
bytes; for a null or a float key it returns -1 and leaves the digest alone. -/
theorem ev2citrusleaf_calculate_digest_spec (K : proto_h) (ripemd160 : List Nat → List Nat)
    (set : Option (List Nat)) (o : ev2citrusleaf_object) (digest : List Nat) :
    (∀ (str : List Nat) (len : Nat),
      ev2citrusleaf_calculate_digest K ripemd160 set (ev2citrusleaf_object_init_str2 o str len)
          digest
        = (0, ripemd160 ((match set with | some s => cstring s | none => [])
            ++ ([CL_PARTICLE_TYPE_STRING] ++ str.take len))))
    ∧ (∀ i : Int,
      ev2citrusleaf_calculate_digest K ripemd160 set (ev2citrusleaf_object_init_int o i) digest
        = (0, ripemd160 ((match set with | some s => cstring s | none => [])
            ++ ([CL_PARTICLE_TYPE_INTEGER] ++ be_bytes 8 (to_u64 i)))))
    ∧ (∀ (blob : List Nat) (len : Nat),
      ev2citrusleaf_calculate_digest K ripemd160 set (ev2citrusleaf_object_init_blob o blob len)
          digest
        = (0, ripemd160 ((match set with | some s => cstring s | none => [])
            ++ ([CL_PARTICLE_TYPE_BLOB] ++ blob.take len))))
    ∧ ev2citrusleaf_calculate_digest K ripemd160 set (ev2citrusleaf_object_init o) digest
        = (-1, digest)
    ∧ (∀ f : Nat,
      ev2citrusleaf_calculate_digest K ripemd160 set (ev2citrusleaf_object_init_float o f)
          digest
        = (-1, digest)) := by
  have hset := set_prefix set
  obtain ⟨j0, j1, j2, j3, j4⟩ := K.java_ne
  obtain ⟨c0, c1, c2, c3, c4⟩ := K.csharp_ne
  obtain ⟨p0, p1, p2, p3, p4⟩ := K.python_ne
  obtain ⟨r0, r1, r2, r3, r4⟩ := K.ruby_ne
  refine ⟨?_, ?_, ?_, ?_, ?_⟩
  · intro str len
    simp only [ev2citrusleaf_calculate_digest, ev2citrusleaf_object_init_str2, CL_STR,
      CL_PARTICLE_TYPE_STRING, if_true, cf_digest_compute2, hset]
    simp [memcpy_src, List.take_take]
  · intro i
    simp only [ev2citrusleaf_calculate_digest, ev2citrusleaf_object_init_int, CL_STR, CL_INT,
      CL_PARTICLE_TYPE_STRING, CL_PARTICLE_TYPE_INTEGER, cf_digest_compute2, hset]
    have h8 : (be_bytes 8 (to_u64 i)).take 8 = be_bytes 8 (to_u64 i) :=
      List.take_of_length_le (by rw [be_bytes_length])
    simp [memcpy_src, store_htonll, h8]
  · intro blob len
    simp only [ev2citrusleaf_calculate_digest, ev2citrusleaf_object_init_blob, CL_STR, CL_INT,
      CL_BLOB, CL_PARTICLE_TYPE_STRING, CL_PARTICLE_TYPE_INTEGER, CL_PARTICLE_TYPE_BLOB,
      cf_digest_compute2, hset]
    simp [memcpy_src, List.take_take]
  · simp only [ev2citrusleaf_calculate_digest, ev2citrusleaf_object_init, CL_STR, CL_INT,
      CL_BLOB, CL_NULL, CL_JAVA_BLOB, CL_CSHARP_BLOB, CL_PYTHON_BLOB, CL_RUBY_BLOB,
      CL_PARTICLE_TYPE_STRING, CL_PARTICLE_TYPE_INTEGER, CL_PARTICLE_TYPE_BLOB,
      CL_PARTICLE_TYPE_NULL]
    simp [Ne.symm j0, Ne.symm c0, Ne.symm p0, Ne.symm r0]
  · intro f
    simp only [ev2citrusleaf_calculate_digest, ev2citrusleaf_object_init_float, CL_STR, CL_INT,
      CL_BLOB, CL_FLOAT, CL_JAVA_BLOB, CL_CSHARP_BLOB, CL_PYTHON_BLOB, CL_RUBY_BLOB,
      CL_PARTICLE_TYPE_STRING, CL_PARTICLE_TYPE_INTEGER, CL_PARTICLE_TYPE_BLOB,
      CL_PARTICLE_TYPE_FLOAT]
    simp [Ne.symm j2, Ne.symm c2, Ne.symm p2, Ne.symm r2]

/-! ## The digest helper against the request encoder -/

theorem write_fields_rejects_java_blob (K : proto_h) (ripemd160 : List Nat → List Nat)
    (buf : List Nat) (pos : Nat) (ns : List Nat) (ns_len : Nat) (set : Option (List Nat))
    (set_len : Nat) (o : ev2citrusleaf_object) (blob : List Nat) (len : Nat)
    (d : Option (List Nat)) (d_ret : List Nat) :
    (write_fields K ripemd160 buf pos ns ns_len set set_len
      (some (ev2citrusleaf_object_init_blob2 (CL_JAVA_BLOB K) o blob len)) d d_ret).ret
      = none := by
  obtain ⟨j0, j1, j2, j3, j4⟩ := K.java_ne
  simp only [write_fields, ev2citrusleaf_object_init_blob2, CL_JAVA_BLOB, CL_STR, CL_BLOB, CL_INT,
    CL_PARTICLE_TYPE_STRING, CL_PARTICLE_TYPE_BLOB, CL_PARTICLE_TYPE_INTEGER, if_neg j3,
    if_neg j4, if_neg j1]

/-- C7. A key that is a java blob: `ev2citrusleaf_calculate_digest` succeeds on
it (returns 0), while the request encoder rejects it, `write_fields` returning
the null pointer and `compile` returning -1 whatever the rest of the request. -/
theorem calculate_digest_accepts_key_compile_rejects (K : proto_h)
    (ripemd160 : List Nat → List Nat) (set : Option (List Nat)) (o : ev2citrusleaf_object)
    (blob : List Nat) (len : Nat) (digest : List Nat) (info1 info2 : Nat) (ns : List Nat)
    (d : Option (List Nat)) (wparam : Option ev2citrusleaf_write_parameters) (timeout : Nat)
    (values : List ev2citrusleaf_bin) (buf_r : List Nat) (buf_size_r : Nat)
    (mbuf : Option (List Nat)) (digest_r : List Nat) :
    (ev2citrusleaf_calculate_digest K ripemd160 set
        (ev2citrusleaf_object_init_blob2 (CL_JAVA_BLOB K) o blob len) digest).1 = 0
      ∧ (compile K ripemd160 info1 info2 ns set
          (some (ev2citrusleaf_object_init_blob2 (CL_JAVA_BLOB K) o blob len)) d wparam timeout
          values buf_r buf_size_r mbuf digest_r).rc = -1 := by
  obtain ⟨j0, j1, j2, j3, j4⟩ := K.java_ne
  constructor
  · simp only [ev2citrusleaf_calculate_digest, ev2citrusleaf_object_init_blob2, CL_JAVA_BLOB,
      CL_STR, CL_BLOB, CL_INT, CL_PARTICLE_TYPE_STRING, CL_PARTICLE_TYPE_BLOB,
      CL_PARTICLE_TYPE_INTEGER, if_neg j3, if_neg j4, if_neg j1]
    simp
  · unfold compile
    simp only []
    split
    · rfl
    · split
      · rfl
      · rw [write_fields_rejects_java_blob]

/-- The failing input of C7 evaluated: the digest helper returns 0 on a java blob
key of two bytes, the encoder returns -1. -/
theorem calculate_digest_java_blob_example :
    (ev2citrusleaf_calculate_digest aerospike no_digest (some [115, 0])
        (java_blob_key aerospike) []).1 = 0
      ∧ (compile aerospike no_digest aerospike.CL_MSG_INFO1_READ 0 [116, 0] (some [115, 0])
          (some (java_blob_key aerospike)) none none 200 [] (List.replicate 64 0) 64 none
          []).rc = -1 := by
  decide

/-! ## The size announced against the bytes laid out -/

/-- C3. A put of one bin with the integer value `0x7FFF` (namespace `test`, set
`s`, key `k1`, bin `value`): `compile` succeeds and reports a message of 70
bytes, the frame's size field announces 62 bytes after the 8-byte frame header,
but the last op ends at offset 68: two of the announced bytes were never
laid out. -/
theorem compile_size_exceeds_layout :
    put_0x7FFF.rc = 0 ∧ put_0x7FFF.buf_size = 70
      ∧ be_value ((put_0x7FFF.buf.take 8).drop 2) = 62
      ∧ put_0x7FFF.end_pos = some 68 := by
  decide

/-! ## A bin through `bin_to_op` and back through `cl_set_value_particular` -/

theorem poke_zero (buf bytes : List Nat) :
    poke buf 0 bytes = bytes ++ buf.drop bytes.length := by
  simp [poke]

theorem poke_at_length (pre rest val : List Nat) :
    poke (pre ++ rest) pre.length val = pre ++ val ++ rest.drop val.length := by
  simp [poke, List.take_append_eq_append_take, List.drop_append_eq_append_drop]

theorem cstring_length_eq_strlen (s : List Nat) : (cstring s).length = strlen s := rfl

theorem memcpy_src_strlen (s : List Nat) : memcpy_src s (strlen s) = cstring s := by
  simp only [memcpy_src, strlen, cstring]
  have h := List.takeWhile_prefix (fun c => decide (c ≠ 0)) (l := s)
  exact (List.prefix_iff_eq_take.mp h).symm

theorem cstring_terminated (s rest : List Nat) : cstring (cstring s ++ 0 :: rest) = cstring s := by
  unfold cstring
  induction s with
  | nil => simp
  | cons c s ih =>
    by_cases hc : c = 0
    · subst hc; simp
    · have hd : decide (c ≠ 0) = true := by simp [hc]
      simp only [List.takeWhile_cons, hd, if_true, List.cons_append]
      rw [ih]

theorem value_to_op_int_length (v : Int) :
    ((value_to_op_int v).1.length : Int) = (value_to_op_int v).2 := by
  unfold value_to_op_int
  split_ifs <;> simp [store_htonll, store_htonl, store_htons, be_bytes_length]

theorem value_to_op_int_width (v : Int) :
    (value_to_op_int v).2 = 1 ∨ (value_to_op_int v).2 = 2 ∨ (value_to_op_int v).2 = 4
      ∨ (value_to_op_int v).2 = 8 := by
  unfold value_to_op_int
  split_ifs <;> simp

/-- The decoder looks at no byte beyond the announced size. -/
theorem op_to_value_int_append (val rest : List Nat) (value : Int) (h1 : 1 ≤ val.length) :
    op_to_value_int (val ++ rest) val.length value = op_to_value_int val val.length value := by
  have hd : deref (val ++ rest) = deref val := by
    cases val with
    | nil => simp at h1
    | cons a l => rfl
  have ht : (val ++ rest).take val.length = val.take val.length := by
    rw [List.take_append_of_le_length (le_refl _)]
  unfold op_to_value_int
  simp only [hd, Int.toNat_ofNat, ht]
  by_cases h8 : (val.length : Int) = 8
  · have hl : load_ntohll (val ++ rest) = load_ntohll val := by
      unfold load_ntohll
      rw [List.take_append_of_le_length (by omega)]
    rw [hl]
  · simp only [if_neg h8]

theorem bin_to_op_fields (K : proto_h) (b : ev2citrusleaf_bin) (op : cl_msg_op)
    (hname : strlen b.bin_name < K.sizeof_bin_name) :
    bin_to_op K K.CL_MSG_OP_WRITE b op
      = value_to_op b.object
          { op with
            op_sz := strlen b.bin_name + 4
            op := to_u8 K.CL_MSG_OP_WRITE
            version := 0
            name_sz := strlen b.bin_name
            name := cstring b.bin_name ++ op.name.drop (strlen b.bin_name) } := by
  have hle := K.bin_name_le
  have h1 : (sizeof_cl_msg_op + strlen b.bin_name - 4) % 2 ^ 32 = strlen b.bin_name + 4 := by
    unfold sizeof_cl_msg_op; omega
  have h2 : strlen b.bin_name % 256 = strlen b.bin_name := by omega
  unfold bin_to_op
  simp only [if_neg K.write_ne_read, h1, h2, memcpy_src_strlen, poke_zero,
    cstring_length_eq_strlen]

/-- The memory of an op behind the name after the value has been copied in. -/
theorem poke_value (name mem val : List Nat) :
    poke (name ++ mem) name.length val = name ++ (val ++ mem.drop val.length) := by
  rw [poke_at_length, List.append_assoc]

theorem name_roundtrip (name tail old : List Nat) (n : Nat) (hn : n = (cstring name).length) :
    cstring (poke (poke old 0 (memcpy_src (cstring name ++ tail) n)) n [0]) = cstring name := by
  subst hn
  have h1 : memcpy_src (cstring name ++ tail) (cstring name).length = cstring name := by
    simp [memcpy_src]
  rw [h1, poke_zero, poke_at_length]
  simp only [List.append_assoc, List.singleton_append]
  exact cstring_terminated name _


theorem value_to_op_of_int (object : ev2citrusleaf_object) (op : cl_msg_op)
    (name tail : List Nat) (h : object.type = CL_INT) (hname : op.name = name ++ tail)
    (hnsz : op.name_sz = name.length) (hsz : op.op_sz + 8 < 2 ^ 32) :
    value_to_op object op
      = { op with
          particle_type := CL_PARTICLE_TYPE_INTEGER
          op_sz := op.op_sz + (value_to_op_int object.i64).1.length
          name := name ++ ((value_to_op_int object.i64).1
            ++ tail.drop (value_to_op_int object.i64).1.length) } := by
  have hw := value_to_op_int_width object.i64
  have hl := value_to_op_int_length object.i64
  have h0 : object.type ≠ CL_NULL := by rw [h]; decide
  have hu : to_u32 ((op.op_sz : Int) + (value_to_op_int object.i64).2)
      = op.op_sz + (value_to_op_int object.i64).1.length := by
    unfold to_u32; omega
  unfold value_to_op
  rw [if_neg h0, if_pos h, hu, cl_msg_op_get_value_p, hname, hnsz, poke_value]

theorem value_to_op_of_float (object : ev2citrusleaf_object) (op : cl_msg_op)
    (name tail : List Nat) (h : object.type = CL_FLOAT) (hname : op.name = name ++ tail)
    (hnsz : op.name_sz = name.length) (hsz : op.op_sz + 8 < 2 ^ 32) :
    value_to_op object op
      = { op with
          particle_type := CL_PARTICLE_TYPE_FLOAT
          op_sz := op.op_sz + 8
          name := name ++ (be_bytes 8 object.f64 ++ tail.drop 8) } := by
  have h0 : object.type ≠ CL_NULL := by rw [h]; decide
  have h1 : object.type ≠ CL_INT := by rw [h]; decide
  have hu : to_u32 ((op.op_sz : Int) + (value_to_op_float object.f64).2) = op.op_sz + 8 := by
    unfold to_u32 value_to_op_float; simp only; omega
  unfold value_to_op
  rw [if_neg h0, if_neg h1, if_pos h, hu, cl_msg_op_get_value_p, hname, hnsz]
  simp only [value_to_op_float, store_htonll]
  rw [poke_value, be_bytes_length]

theorem value_to_op_of_bytes (object : ev2citrusleaf_object) (op : cl_msg_op)
    (name tail : List Nat) (h : object.type = CL_STR ∨ object.type = CL_BLOB)
    (hname : op.name = name ++ tail) (hnsz : op.name_sz = name.length)
    (hptr : object.size ≤ object.ptr.length) :
    value_to_op object op
      = { op with
          particle_type := object.type
          op_sz := (op.op_sz + object.size) % 2 ^ 32
          name := name ++ (object.ptr.take object.size ++ tail.drop object.size) } := by
  have hu : (op.op_sz + object.size % 2 ^ 32) % 2 ^ 32 = (op.op_sz + object.size) % 2 ^ 32 := by
    omega
  have hlen : (memcpy_src object.ptr object.size).length = object.size := by
    simp [memcpy_src, hptr]
  unfold value_to_op
  rcases h with h | h
  · have h0 : object.type ≠ CL_NULL := by rw [h]; decide
    have h1 : object.type ≠ CL_INT := by rw [h]; decide
    have h2 : object.type ≠ CL_FLOAT := by rw [h]; decide
    rw [if_neg h0, if_neg h1, if_neg h2, if_pos h, hu, cl_msg_op_get_value_p, hname, hnsz,
      poke_value, hlen, h]
    rfl
  · have h0 : object.type ≠ CL_NULL := by rw [h]; decide
    have h1 : object.type ≠ CL_INT := by rw [h]; decide
    have h2 : object.type ≠ CL_FLOAT := by rw [h]; decide
    have h3 : object.type ≠ CL_STR := by rw [h]; decide
    rw [if_neg h0, if_neg h1, if_neg h2, if_neg h3, if_pos h, hu, cl_msg_op_get_value_p, hname,
      hnsz, poke_value, hlen, h]
    rfl

theorem cl_msg_op_value (op : cl_msg_op) (name val rest : List Nat)
    (hname : op.name = name ++ (val ++ rest)) (hnsz : op.name_sz = name.length)
    (hopsz : op.op_sz = (name.length + 4 + val.length) % 2 ^ 32) (hn : name.length < 256)
    (hlt : val.length < 2 ^ 32) :
    cl_msg_op_get_value_sz op = val.length
      ∧ op.name.drop (cl_msg_op_get_value_p op) = val ++ rest := by
  constructor
  · unfold cl_msg_op_get_value_sz; omega
  · rw [cl_msg_op_get_value_p, hname, hnsz, List.drop_left]

theorem to_i32_small (n : Nat) (h : n < 2 ^ 31) : to_i32 n = (n : Int) := by
  unfold to_i32
  have : n % 2 ^ 32 = n := Nat.mod_eq_of_lt (by omega)
  rw [this, if_pos h]

theorem set_object_of_int (K : proto_h) (op : cl_msg_op) (obj : ev2citrusleaf_object)
    (m : Bool) (name val rest : List Nat) (hpt : op.particle_type = CL_PARTICLE_TYPE_INTEGER)
    (hname : op.name = name ++ (val ++ rest)) (hnsz : op.name_sz = name.length)
    (hopsz : op.op_sz = (name.length + 4 + val.length) % 2 ^ 32) (hn : name.length < 256)
    (h1 : 1 ≤ val.length) (h8 : val.length ≤ 8) :
    (set_object K op obj m).2.type = CL_PARTICLE_TYPE_INTEGER
      ∧ (set_object K op obj m).2.i64 = (op_to_value_int val val.length obj.i64).2 := by
  obtain ⟨hs, hv⟩ := cl_msg_op_value op name val rest hname hnsz hopsz hn (by omega)
  unfold set_object
  simp only [hpt, hs, hv, to_i32_small val.length (by omega),
    op_to_value_int_append val rest _ h1]
  simp [CL_PARTICLE_TYPE_NULL, CL_PARTICLE_TYPE_INTEGER]

theorem set_object_of_float (K : proto_h) (op : cl_msg_op) (obj : ev2citrusleaf_object)
    (m : Bool) (name val rest : List Nat) (hpt : op.particle_type = CL_PARTICLE_TYPE_FLOAT)
    (hname : op.name = name ++ (val ++ rest)) (hnsz : op.name_sz = name.length)
    (hopsz : op.op_sz = (name.length + 4 + val.length) % 2 ^ 32) (hn : name.length < 256)
    (h8 : val.length = 8) :
    (set_object K op obj m).2.type = CL_PARTICLE_TYPE_FLOAT
      ∧ (set_object K op obj m).2.f64 = be_value val := by
  obtain ⟨hs, hv⟩ := cl_msg_op_value op name val rest hname hnsz hopsz hn (by omega)
  have ht : (val ++ rest).take 8 = val := by
    rw [← h8, List.take_left]
  unfold set_object
  have h32 : to_i32 8 = 8 := by decide
  simp only [hpt, hs, hv, op_to_value_float, h8, load_ntohll, ht]
  simp [CL_PARTICLE_TYPE_NULL, CL_PARTICLE_TYPE_INTEGER, CL_PARTICLE_TYPE_FLOAT, h32]

theorem set_object_of_bytes (K : proto_h) (op : cl_msg_op) (obj : ev2citrusleaf_object)
    (name val rest : List Nat)
    (hpt : op.particle_type = CL_PARTICLE_TYPE_STRING ∨ op.particle_type = CL_PARTICLE_TYPE_BLOB)
    (hname : op.name = name ++ (val ++ rest)) (hnsz : op.name_sz = name.length)
    (hopsz : op.op_sz = (name.length + 4 + val.length) % 2 ^ 32) (hn : name.length < 256)
    (hlt : val.length < 2 ^ 32) :
    (set_object K op obj true).2.type = op.particle_type
      ∧ (set_object K op obj true).2.size = val.length
      ∧ (set_object K op obj true).2.ptr.take val.length = val := by
  obtain ⟨hs, hv⟩ := cl_msg_op_value op name val rest hname hnsz hopsz hn hlt
  unfold set_object
  rcases hpt with hpt | hpt
  · simp only [hpt, hs, hv, memcpy_src]
    simp [CL_PARTICLE_TYPE_NULL, CL_PARTICLE_TYPE_INTEGER, CL_PARTICLE_TYPE_FLOAT,
      CL_PARTICLE_TYPE_STRING, List.take_append_of_le_length]
  · simp only [hpt, hs, hv]
    simp [CL_PARTICLE_TYPE_NULL, CL_PARTICLE_TYPE_INTEGER, CL_PARTICLE_TYPE_FLOAT,
      CL_PARTICLE_TYPE_STRING, CL_PARTICLE_TYPE_BLOB]

/-- The round trip of a bin through `bin_to_op` and `cl_set_value_particular`,
for a value the 32-bit op size can announce and a decoder whose allocation
succeeds. -/
theorem bin_roundtrip (K : proto_h) (b : ev2citrusleaf_bin) (op : cl_msg_op)
    (value : ev2citrusleaf_bin)
    (hname : strlen b.bin_name < K.sizeof_bin_name)
    (htype : b.object.type = CL_NULL ∨ b.object.type = CL_INT ∨ b.object.type = CL_FLOAT
      ∨ b.object.type = CL_STR ∨ b.object.type = CL_BLOB)
    (hint : b.object.type = CL_INT → is_i64 b.object.i64)
    (hflt : b.object.type = CL_FLOAT → b.object.f64 < 2 ^ 64)
    (hptr : b.object.type = CL_STR ∨ b.object.type = CL_BLOB →
      b.object.size ≤ b.object.ptr.length ∧ b.object.size < 2 ^ 32) :
    cstring (cl_set_value_particular K (bin_to_op K K.CL_MSG_OP_WRITE b op) value true).bin_name
        = cstring b.bin_name
      ∧ (cl_set_value_particular K (bin_to_op K K.CL_MSG_OP_WRITE b op) value true).object.type
        = b.object.type
      ∧ (b.object.type = CL_INT →
        (cl_set_value_particular K (bin_to_op K K.CL_MSG_OP_WRITE b op) value true).object.i64
          = b.object.i64)
      ∧ (b.object.type = CL_FLOAT →
        (cl_set_value_particular K (bin_to_op K K.CL_MSG_OP_WRITE b op) value true).object.f64
          = b.object.f64)
      ∧ (b.object.type = CL_STR ∨ b.object.type = CL_BLOB →
        (cl_set_value_particular K (bin_to_op K K.CL_MSG_OP_WRITE b op) value true).object.size
            = b.object.size
          ∧ (cl_set_value_particular K (bin_to_op K K.CL_MSG_OP_WRITE b op) value
                true).object.ptr.take b.object.size
            = b.object.ptr.take b.object.size) := by
  have hle := K.bin_name_le
  have hn : strlen b.bin_name = (cstring b.bin_name).length := rfl
  rw [bin_to_op_fields K b op hname]
  rcases htype with ht | ht | ht | ht | ht
  · -- null
    have hop : value_to_op b.object
        { op with
          op_sz := strlen b.bin_name + 4, op := to_u8 K.CL_MSG_OP_WRITE, version := 0,
          name_sz := strlen b.bin_name,
          name := cstring b.bin_name ++ op.name.drop (strlen b.bin_name) }
        = { op with
          op_sz := strlen b.bin_name + 4, op := to_u8 K.CL_MSG_OP_WRITE, version := 0,
          name_sz := strlen b.bin_name, particle_type := CL_PARTICLE_TYPE_NULL,
          name := cstring b.bin_name ++ op.name.drop (strlen b.bin_name) } := by
      simp [value_to_op, ht]
    rw [hop]
    simp only [cl_set_value_particular, if_neg (show ¬ strlen b.bin_name > K.sizeof_bin_name by omega)]
    refine ⟨name_roundtrip _ _ _ _ hn, ?_, ?_, ?_, ?_⟩
    · simp [set_object, ht, CL_NULL]
    · intro h; rw [ht] at h; simp [CL_NULL, CL_INT, CL_PARTICLE_TYPE_NULL, CL_PARTICLE_TYPE_INTEGER] at h
    · intro h; rw [ht] at h; simp [CL_NULL, CL_FLOAT, CL_PARTICLE_TYPE_NULL, CL_PARTICLE_TYPE_FLOAT] at h
    · intro h; rw [ht] at h
      simp [CL_NULL, CL_STR, CL_BLOB, CL_PARTICLE_TYPE_NULL, CL_PARTICLE_TYPE_STRING,
        CL_PARTICLE_TYPE_BLOB] at h
  · -- integer
    have hw := value_to_op_int_width b.object.i64
    have hl := value_to_op_int_length b.object.i64
    have hr := value_to_op_int_roundtrip b.object.i64 (hint ht) value.object.i64
    rw [value_to_op_of_int b.object _ (cstring b.bin_name) (op.name.drop (strlen b.bin_name))
      ht rfl rfl (by simp only; omega)]
    simp only [cl_set_value_particular,
      if_neg (show ¬ strlen b.bin_name > K.sizeof_bin_name by omega)]
    obtain ⟨h1, h2⟩ := set_object_of_int K
      { op with
        op_sz := strlen b.bin_name + 4 + (value_to_op_int b.object.i64).1.length,
        op := to_u8 K.CL_MSG_OP_WRITE, version := 0,
        name_sz := strlen b.bin_name, particle_type := CL_PARTICLE_TYPE_INTEGER,
        name := cstring b.bin_name
          ++ ((value_to_op_int b.object.i64).1
            ++ (op.name.drop (strlen b.bin_name)).drop (value_to_op_int b.object.i64).1.length) }
      value.object true (cstring b.bin_name) (value_to_op_int b.object.i64).1
      ((op.name.drop (strlen b.bin_name)).drop (value_to_op_int b.object.i64).1.length)
      rfl rfl rfl (by simp only; rw [← hn]; omega) (by omega) (by omega) (by omega)
    refine ⟨name_roundtrip _ _ _ _ hn, ?_, ?_, ?_, ?_⟩
    · rw [h1, ht]; rfl
    · intro _
      rw [h2, hl, hr]
    · intro h; rw [ht] at h; exact absurd h (by decide)
    · intro h; rw [ht] at h; exact absurd h (by decide)
  · -- float
    have hl : (be_bytes 8 b.object.f64).length = 8 := be_bytes_length 8 _
    rw [value_to_op_of_float b.object _ (cstring b.bin_name) (op.name.drop (strlen b.bin_name))
      ht rfl rfl (by simp only; omega)]
    simp only [cl_set_value_particular,
      if_neg (show ¬ strlen b.bin_name > K.sizeof_bin_name by omega)]
    obtain ⟨h1, h2⟩ := set_object_of_float K
      { op with
        op_sz := strlen b.bin_name + 4 + 8, op := to_u8 K.CL_MSG_OP_WRITE, version := 0,
        name_sz := strlen b.bin_name, particle_type := CL_PARTICLE_TYPE_FLOAT,
        name := cstring b.bin_name
          ++ (be_bytes 8 b.object.f64 ++ (op.name.drop (strlen b.bin_name)).drop 8) }
      value.object true (cstring b.bin_name) (be_bytes 8 b.object.f64)
      ((op.name.drop (strlen b.bin_name)).drop 8) rfl rfl rfl
      (by simp only [hl]; rw [← hn]; omega) (by omega) hl
    refine ⟨name_roundtrip _ _ _ _ hn, ?_, ?_, ?_, ?_⟩
    · rw [h1, ht]; rfl
    · intro h; rw [ht] at h; exact absurd h (by decide)
    · intro _
      rw [h2, be_value_be_bytes]
      exact Nat.mod_eq_of_lt (by have := hflt ht; norm_num; omega)
    · intro h; rw [ht] at h; exact absurd h (by decide)
  · -- string
    obtain ⟨hp1, hp2⟩ := hptr (Or.inl ht)
    have hl : (b.object.ptr.take b.object.size).length = b.object.size := by
      simp [hp1]
    rw [value_to_op_of_bytes b.object _ (cstring b.bin_name) (op.name.drop (strlen b.bin_name))
      (Or.inl ht) rfl rfl hp1]
    simp only [cl_set_value_particular,
      if_neg (show ¬ strlen b.bin_name > K.sizeof_bin_name by omega)]
    obtain ⟨h1, h2, h3⟩ := set_object_of_bytes K
      { op with
        op_sz := (strlen b.bin_name + 4 + b.object.size) % 2 ^ 32, op := to_u8 K.CL_MSG_OP_WRITE,
        version := 0, name_sz := strlen b.bin_name, particle_type := b.object.type,
        name := cstring b.bin_name
          ++ (b.object.ptr.take b.object.size
            ++ (op.name.drop (strlen b.bin_name)).drop b.object.size) }
      value.object (cstring b.bin_name) (b.object.ptr.take b.object.size)
      ((op.name.drop (strlen b.bin_name)).drop b.object.size) (Or.inl ht) rfl rfl
      (by simp only [hl]; rw [← hn]) (by omega) (by omega)
    rw [hl] at h2 h3
    refine ⟨name_roundtrip _ _ _ _ hn, h1, ?_, ?_, ?_⟩
    · intro h; rw [ht] at h; exact absurd h (by decide)
    · intro h; rw [ht] at h; exact absurd h (by decide)
    · intro _; exact ⟨h2, h3⟩
  · -- blob
    obtain ⟨hp1, hp2⟩ := hptr (Or.inr ht)
    have hl : (b.object.ptr.take b.object.size).length = b.object.size := by
      simp [hp1]
    rw [value_to_op_of_bytes b.object _ (cstring b.bin_name) (op.name.drop (strlen b.bin_name))
      (Or.inr ht) rfl rfl hp1]
    simp only [cl_set_value_particular,
      if_neg (show ¬ strlen b.bin_name > K.sizeof_bin_name by omega)]
    obtain ⟨h1, h2, h3⟩ := set_object_of_bytes K
      { op with
        op_sz := (strlen b.bin_name + 4 + b.object.size) % 2 ^ 32, op := to_u8 K.CL_MSG_OP_WRITE,
        version := 0, name_sz := strlen b.bin_name, particle_type := b.object.type,
        name := cstring b.bin_name
          ++ (b.object.ptr.take b.object.size
            ++ (op.name.drop (strlen b.bin_name)).drop b.object.size) }
      value.object (cstring b.bin_name) (b.object.ptr.take b.object.size)
      ((op.name.drop (strlen b.bin_name)).drop b.object.size) (Or.inr ht) rfl rfl
      (by simp only [hl]; rw [← hn]) (by omega) (by omega)
    rw [hl] at h2 h3
    refine ⟨name_roundtrip _ _ _ _ hn, h1, ?_, ?_, ?_⟩
    · intro h; rw [ht] at h; exact absurd h (by decide)
    · intro h; rw [ht] at h; exact absurd h (by decide)
    · intro _; exact ⟨h2, h3⟩

/-- C2, as stated, fails: a plain blob of `2 ^ 32` bytes in a bin named `a` is a
well-formed bin whose name fits the buffer, yet the op `bin_to_op` writes for it
announces a value of no bytes (the 32-bit `op_sz` wraps), so the bin decoded by
`cl_set_value_particular` has length 0 instead of `2 ^ 32`. -/
theorem bin_to_op_wraps_long_value :
    strlen bin_4GiB.bin_name < aerospike.sizeof_bin_name
      ∧ bin_4GiB.object.type = CL_BLOB
      ∧ bin_4GiB.object.size ≤ bin_4GiB.object.ptr.length
      ∧ bin_4GiB.object.size = 2 ^ 32
      ∧ (cl_set_value_particular aerospike
          (bin_to_op aerospike aerospike.CL_MSG_OP_WRITE bin_4GiB zero_op) zero_bin
          true).object.size = 0 := by
  refine ⟨by decide, rfl, ?_, rfl, ?_⟩
  · show 2 ^ 32 ≤ (List.replicate (2 ^ 32) 0).length
    rw [List.length_replicate]
  · simp only [bin_to_op, cl_set_value_particular, value_to_op, set_object,
      cl_msg_op_get_value_sz, ev2citrusleaf_object_init_blob, bin_4GiB, zero_op, zero_bin,
      zero_object]
    decide

/-- C2, amended. For every bin whose name fits the bin-name buffer and whose
value is null, an integer, a float, or a string or plain blob shorter than
`2 ^ 32` bytes, the op `bin_to_op` writes for a write, decoded by
`cl_set_value_particular` (the allocation of the string copy succeeding), gives a
bin with the same name, the same type tag and the same value: the same integer,
the same float bit pattern, the same length and bytes. -/
theorem bin_to_op_decodes (K : proto_h) (b : ev2citrusleaf_bin) (op : cl_msg_op)
    (value : ev2citrusleaf_bin)
    (hname : strlen b.bin_name < K.sizeof_bin_name)
    (htype : b.object.type = CL_NULL ∨ b.object.type = CL_INT ∨ b.object.type = CL_FLOAT
      ∨ b.object.type = CL_STR ∨ b.object.type = CL_BLOB)
    (hint : b.object.type = CL_INT → is_i64 b.object.i64)
    (hflt : b.object.type = CL_FLOAT → b.object.f64 < 2 ^ 64)
    (hptr : b.object.type = CL_STR ∨ b.object.type = CL_BLOB →
      b.object.size ≤ b.object.ptr.length ∧ b.object.size < 2 ^ 32) :
    cstring (cl_set_value_particular K (bin_to_op K K.CL_MSG_OP_WRITE b op) value true).bin_name
        = cstring b.bin_name
      ∧ (cl_set_value_particular K (bin_to_op K K.CL_MSG_OP_WRITE b op) value true).object.type
        = b.object.type
      ∧ (b.object.type = CL_INT →
        (cl_set_value_particular K (bin_to_op K K.CL_MSG_OP_WRITE b op) value true).object.i64
          = b.object.i64)
      ∧ (b.object.type = CL_FLOAT →
        (cl_set_value_particular K (bin_to_op K K.CL_MSG_OP_WRITE b op) value true).object.f64
          = b.object.f64)
      ∧ (b.object.type = CL_STR ∨ b.object.type = CL_BLOB →
        (cl_set_value_particular K (bin_to_op K K.CL_MSG_OP_WRITE b op) value true).object.size
            = b.object.size
          ∧ (cl_set_value_particular K (bin_to_op K K.CL_MSG_OP_WRITE b op) value
                true).object.ptr.take b.object.size
            = b.object.ptr.take b.object.size) :=
  bin_roundtrip K b op value hname htype hint hflt hptr

theorem bin_to_op_decodes_witness :
    (cl_set_value_particular aerospike
        (bin_to_op aerospike aerospike.CL_MSG_OP_WRITE bin_hi zero_op) zero_bin
        true).object.size = 2
      ∧ (cl_set_value_particular aerospike
        (bin_to_op aerospike aerospike.CL_MSG_OP_WRITE bin_hi zero_op) zero_bin
        true).object.ptr.take 2 = [104, 105] :=
  (bin_to_op_decodes aerospike bin_hi zero_op zero_bin (by decide) (by decide) (by decide)
    (by decide) (by decide)).2.2.2.2 (Or.inl rfl)

/-! ## The request engine: reading the log -/

@[simp]
theorem callbacks_append (l₁ l₂ : List action) :
    callbacks (l₁ ++ l₂) = callbacks l₁ + callbacks l₂ := by
  simp [callbacks, List.countP_append]

@[simp]
theorem destroys_append (l₁ l₂ : List action) :
    destroys (l₁ ++ l₂) = destroys l₁ + destroys l₂ := by
  simp [destroys, List.countP_append]

@[simp]
theorem fd_ledger_append (l₁ l₂ : List action) :
    fd_ledger (l₁ ++ l₂) = l₂.foldl fd_track (fd_ledger l₁) := by
  simp [fd_ledger, List.foldl_append]

@[simp]
theorem node_ledger_append (l₁ l₂ : List action) :
    node_ledger (l₁ ++ l₂) = l₂.foldl node_track (node_ledger l₁) := by
  simp [node_ledger, List.foldl_append]

@[simp]
theorem callbacks_nil : callbacks [] = 0 := rfl

@[simp]
theorem destroys_nil : destroys [] = 0 := rfl

@[simp]
theorem callbacks_cons (a : action) (l : List action) :
    callbacks (a :: l)
      = callbacks l + (match a with
        | .user_cb _ _ _ _ _ => 1
        | _ => 0) := by
  cases a <;> simp [callbacks, List.countP_cons]

@[simp]
theorem destroys_cons (a : action) (l : List action) :
    destroys (a :: l)
      = destroys l + (match a with
        | .cl_request_destroy => 1
        | _ => 0) := by
  cases a <;> simp [destroys, List.countP_cons]

/-! ### The ledgers, action by action -/

@[simp]
theorem fd_track_user_cb (held : Option Int) (rc : Int) (b : Option (List ev2citrusleaf_bin)) (n g e : Nat) :
    fd_track (some held) (action.user_cb rc b n g e) = some held := rfl

@[simp]
theorem fd_track_cl_cluster_node_get (held : Option Int) (n : Nat) :
    fd_track (some held) (action.cl_cluster_node_get n) = some held := rfl

@[simp]
theorem fd_track_cl_cluster_node_put (held : Option Int) (n : Nat) :
    fd_track (some held) (action.cl_cluster_node_put n) = some held := rfl

@[simp]
theorem fd_track_cl_cluster_node_fd_get (held : Option Int) (n : Nat) (fd : Int) :
    fd_track (some held) (action.cl_cluster_node_fd_get n fd) = if fd > -1 then (if held = none then some (some fd) else none) else some held := rfl

@[simp]
theorem fd_track_cl_cluster_node_fd_put (held : Option Int) (n : Nat) (fd : Int) :
    fd_track (some held) (action.cl_cluster_node_fd_put n fd) = if held = some fd then some none else none := rfl

@[simp]
theorem fd_track_cf_close (held : Option Int) (fd : Int) :
    fd_track (some held) (action.cf_close fd) = if held = some fd then some none else none := rfl

@[simp]
theorem fd_track_n_fds_open_decr (held : Option Int) (n : Nat) :
    fd_track (some held) (action.n_fds_open_decr n) = some held := rfl

@[simp]
theorem fd_track_cl_cluster_node_had_failure (held : Option Int) (n : Nat) :
    fd_track (some held) (action.cl_cluster_node_had_failure n) = some held := rfl

@[simp]
theorem fd_track_cl_cluster_node_had_success (held : Option Int) (n : Nat) :
    fd_track (some held) (action.cl_cluster_node_had_success n) = some held := rfl

@[simp]
theorem fd_track_cf_queue_push (held : Option Int)  :
    fd_track (some held) action.cf_queue_push = some held := rfl

@[simp]
theorem fd_track_cf_queue_delete (held : Option Int)  :
    fd_track (some held) action.cf_queue_delete = some held := rfl

@[simp]
theorem fd_track_cl_request_destroy (held : Option Int)  :
    fd_track (some held) action.cl_request_destroy = some held := rfl

@[simp]
theorem node_track_user_cb (held : Option Nat) (rc : Int) (b : Option (List ev2citrusleaf_bin)) (n g e : Nat) :
    node_track (some held) (action.user_cb rc b n g e) = some held := rfl

@[simp]
theorem node_track_cl_cluster_node_get (held : Option Nat) (n : Nat) :
    node_track (some held) (action.cl_cluster_node_get n) = if held = none then some (some n) else none := rfl

@[simp]
theorem node_track_cl_cluster_node_put (held : Option Nat) (n : Nat) :
    node_track (some held) (action.cl_cluster_node_put n) = if held = some n then some none else none := rfl

@[simp]
theorem node_track_cl_cluster_node_fd_get (held : Option Nat) (n : Nat) (fd : Int) :
    node_track (some held) (action.cl_cluster_node_fd_get n fd) = some held := rfl

@[simp]
theorem node_track_cl_cluster_node_fd_put (held : Option Nat) (n : Nat) (fd : Int) :
    node_track (some held) (action.cl_cluster_node_fd_put n fd) = some held := rfl

@[simp]
theorem node_track_cf_close (held : Option Nat) (fd : Int) :
    node_track (some held) (action.cf_close fd) = some held := rfl

@[simp]
theorem node_track_n_fds_open_decr (held : Option Nat) (n : Nat) :
    node_track (some held) (action.n_fds_open_decr n) = some held := rfl

@[simp]
theorem node_track_cl_cluster_node_had_failure (held : Option Nat) (n : Nat) :
    node_track (some held) (action.cl_cluster_node_had_failure n) = some held := rfl

@[simp]
theorem node_track_cl_cluster_node_had_success (held : Option Nat) (n : Nat) :
    node_track (some held) (action.cl_cluster_node_had_success n) = some held := rfl

@[simp]
theorem node_track_cf_queue_push (held : Option Nat)  :
    node_track (some held) action.cf_queue_push = some held := rfl

@[simp]
theorem node_track_cf_queue_delete (held : Option Nat)  :
    node_track (some held) action.cf_queue_delete = some held := rfl

@[simp]
theorem node_track_cl_request_destroy (held : Option Nat)  :
    node_track (some held) action.cl_request_destroy = some held := rfl

/-- A timeout completion of a coherent request leaves it destroyed once and
called back once, with nothing held and nothing pending. -/
theorem engine_done_of_complete_timedout (K : proto_h) (w : engine) (o : complete_oracle)
    (h : engine_ok w) (ht : w.req.timeout_set = w.timeout_event) :
    engine_done (ev2citrusleaf_request_complete K w true o) := by
  obtain ⟨h1, h2, h3, h4, h5, h6, h7, h8, h9, h10, h11, h12⟩ := h
  obtain ⟨req, destroyed, tev, slot, q, asc, log⟩ := w
  obtain ⟨sfd, sw, shop, spend⟩ := slot
  obtain ⟨tms, wpol, ctl, ctld, node, fd, ts, ns, bhs, wr, st, nsp, d, wb, wbs, wbp, wbm, rhb, rhp,
    rb, rbs, rbp⟩ := req
  simp only at h1 h2 h3 h4 h5 h6 h7 h8 h9 h10 h11 h12 ht
  subst h1 ht h7 h8
  have hq : q - 1 = 0 := by
    by_cases hq0 : 0 < q
    · have := (h12 hq0).1; omega
    · omega
  by_cases hfd : fd > -1
  · rw [if_pos hfd] at h4
    cases node with
    | none => exact absurd rfl (h6 hfd)
    | some n =>
      cases ts <;> cases spend <;> cases shop <;>
      constructor <;>
        simp [ev2citrusleaf_request_complete, cl_request_destroy, hfd, callbacks_append,
          destroys_append, fd_ledger_append, node_ledger_append, h2, h3, h4, h5, hq,
          callbacks_cons, callbacks_nil, destroys_cons, destroys_nil]
  · rw [if_neg hfd] at h4
    cases node with
    | none =>
      cases ts <;> cases spend <;> cases shop <;>
      constructor <;>
        simp [ev2citrusleaf_request_complete, cl_request_destroy, hfd, callbacks_append,
          destroys_append, fd_ledger_append, node_ledger_append, h2, h3, h4, h5, hq,
          callbacks_cons, callbacks_nil, destroys_cons, destroys_nil]
    | some n =>
      cases ts <;> cases spend <;> cases shop <;>
      constructor <;>
        simp [ev2citrusleaf_request_complete, cl_request_destroy, hfd, callbacks_append,
          destroys_append, fd_ledger_append, node_ledger_append, h2, h3, h4, h5, hq,
          callbacks_cons, callbacks_nil, destroys_cons, destroys_nil]

/-- A completion with a response, of a coherent request whose network event is
idle and which is not on the queue, leaves it destroyed once and called back
once, with nothing held and nothing pending. -/
theorem engine_done_of_complete_response (K : proto_h) (w : engine) (o : complete_oracle)
    (h : engine_ok w) (ht : w.req.timeout_set = w.timeout_event)
    (hp : w.network_event.pending = false) (hq : w.request_q = 0) :
    engine_done (ev2citrusleaf_request_complete K w false o) := by
  obtain ⟨h1, h2, h3, h4, h5, h6, h7, h8, h9, h10, h11, h12⟩ := h
  obtain ⟨req, destroyed, tev, slot, q, asc, log⟩ := w
  obtain ⟨sfd, sw, shop, spend⟩ := slot
  obtain ⟨tms, wpol, ctl, ctld, node, fd, ts, ns, bhs, wr, st, nsp, d, wb, wbs, wbp, wbm, rhb, rhp,
    rb, rbs, rbp⟩ := req
  simp only at h1 h2 h3 h4 h5 h6 h7 h8 h9 h10 h11 h12 ht hp hq
  subst h1 ht h7 h8 hp hq
  by_cases hfd : fd > -1
  · rw [if_pos hfd] at h4
    cases node with
    | none => exact absurd rfl (h6 hfd)
    | some n =>
      cases ts <;>
      constructor <;>
        simp [ev2citrusleaf_request_complete, cl_request_destroy, hfd, callbacks_append,
          destroys_append, fd_ledger_append, node_ledger_append, h2, h3, h4, h5,
          callbacks_cons,
          callbacks_nil, destroys_cons, destroys_nil] <;>
        split_ifs <;>
        simp [callbacks_append, destroys_append, fd_ledger_append, node_ledger_append, h2, h3,
          h4, h5, callbacks_cons, callbacks_nil, destroys_cons, destroys_nil]
  · rw [if_neg hfd] at h4
    cases node with
    | none =>
      cases ts <;>
      constructor <;>
        simp [ev2citrusleaf_request_complete, cl_request_destroy, hfd, callbacks_append,
          destroys_append, fd_ledger_append, node_ledger_append, h2, h3, h4, h5,
          callbacks_cons,
          callbacks_nil, destroys_cons, destroys_nil]
    | some n =>
      cases ts <;>
      constructor <;>
        simp [ev2citrusleaf_request_complete, cl_request_destroy, hfd, callbacks_append,
          destroys_append, fd_ledger_append, node_ledger_append, h2, h3, h4, h5,
          callbacks_cons,
          callbacks_nil, destroys_cons, destroys_nil] <;>
        split_ifs <;>
        simp [callbacks_append, destroys_append, fd_ledger_append, node_ledger_append, h2, h3,
          h4, h5, callbacks_cons, callbacks_nil, destroys_cons, destroys_nil]

/-! ### Restart -/

/-- The loop over `cl_cluster_node_fd_get` leaves with a value that is not -1;
it calls nobody back, destroys nothing, touches no node reference, and takes a
descriptor out of the pool exactly when it leaves with one. -/
theorem fd_get_loop_spec (node : Nat) (gets : List Int) (log log' : List action) (fd : Int)
    (h : fd_get_loop node gets log = some (log', fd)) :
    fd ≠ -1 ∧ callbacks log' = callbacks log ∧ destroys log' = destroys log
      ∧ node_ledger log' = node_ledger log
      ∧ (fd_ledger log = some none →
          fd_ledger log' = some (if fd > -1 then some fd else none)) := by
  induction gets generalizing log with
  | nil => simp [fd_get_loop] at h
  | cons g gets ih =>
    unfold fd_get_loop at h
    split_ifs at h with hg
    · obtain ⟨h1, h2, h3, h4, h5⟩ := ih _ h
      subst hg
      refine ⟨h1, ?_, ?_, ?_, ?_⟩
      · simpa using h2
      · simpa using h3
      · rw [h4]
        cases hn : node_ledger log <;> simp [hn, node_track]
      · intro hl
        apply h5
        simp [hl]
    · simp only [Option.some.injEq, Prod.mk.injEq] at h
      obtain ⟨rfl, rfl⟩ := h
      refine ⟨hg, by simp, by simp, ?_, ?_⟩
      · cases hn : node_ledger log <;> simp [hn, node_track]
      · intro hl
        by_cases hp : g > -1 <;> simp [hl, hp]

/-- What the loop of `ev2citrusleaf_restart` does to a request that holds
nothing: it leaves the request and both events alone, calls nobody back and
destroys nothing; it leaves with a node and a descriptor out exactly when it
ends with a good socket, and it has put the request on the queue exactly when
it ends for want of a node. -/
theorem restart_loop_spec (may_throttle : Bool) (n : Nat) (attempts : List restart_attempt)
    (w w' : engine) (e : restart_exit)
    (h : restart_loop may_throttle n attempts w = some (w', e))
    (hf : fd_ledger w.log = some none) (hn : node_ledger w.log = some none) :
    w'.req = w.req ∧ w'.destroyed = w.destroyed ∧ w'.timeout_event = w.timeout_event
      ∧ w'.network_event = w.network_event
      ∧ callbacks w'.log = callbacks w.log ∧ destroys w'.log = destroys w.log
      ∧ (∀ node fd, e = .got node fd →
          fd > -1 ∧ fd_ledger w'.log = some (some fd) ∧ node_ledger w'.log = some (some node)
            ∧ w'.request_q = w.request_q)
      ∧ (e = .no_node →
          fd_ledger w'.log = some none ∧ node_ledger w'.log = some none
            ∧ w'.request_q = w.request_q + 1)
      ∧ (e = .throttled →
          fd_ledger w'.log = some none ∧ node_ledger w'.log = some none
            ∧ w'.request_q = w.request_q ∧ may_throttle = true)
      ∧ (e = .gave_up →
          fd_ledger w'.log = some none ∧ node_ledger w'.log = some none
            ∧ w'.request_q = w.request_q) := by
  induction n generalizing attempts w with
  | zero =>
    simp only [restart_loop, Option.some.injEq, Prod.mk.injEq] at h
    obtain ⟨rfl, rfl⟩ := h
    simp [hf, hn]
  | succ n ih =>
    cases attempts with
    | nil => simp [restart_loop] at h
    | cons a attempts =>
      unfold restart_loop at h
      cases hnode : a.node with
      | none =>
        simp only [hnode, Option.some.injEq, Prod.mk.injEq] at h
        obtain ⟨rfl, rfl⟩ := h
        simp [hf, hn]
      | some node =>
        simp only [hnode] at h
        split_ifs at h with hth
        · simp only [Option.some.injEq, Prod.mk.injEq] at h
          obtain ⟨rfl, rfl⟩ := h
          simp [hf, hn, hth.1]
        · cases hloop : fd_get_loop node a.fd_gets (w.log ++ [action.cl_cluster_node_get node]) with
          | none => simp [hloop] at h
          | some r =>
            obtain ⟨log, fd⟩ := r
            obtain ⟨g1, g2, g3, g4, g5⟩ := fd_get_loop_spec _ _ _ _ _ hloop
            have g5' := g5 (by simp [hf])
            simp only [hloop] at h
            split_ifs at h with hfd
            · simp only [Option.some.injEq, Prod.mk.injEq] at h
              obtain ⟨rfl, rfl⟩ := h
              simp only [hfd, if_true] at g5'
              simp [g2, g3, g4, g5', hn, hfd]
            · simp only [hfd, if_false] at g5'
              have := ih attempts _ h (by simp [g5']) (by simp [g4, hn])
              simpa [g2, g3] using this

/-- A request that holds nothing, whose network event is idle and which is not
on the queue, is still coherent after `ev2citrusleaf_restart`; if the restart
was throttled it still holds nothing, is idle and off the queue.  The restart
leaves alone the timeout event, `timeout_set` and the cross-thread lock. -/
theorem restart_spec (w w' : engine) (may_throttle b : Bool) (o : restart_oracle)
    (h : ev2citrusleaf_restart w may_throttle o = some (b, w'))
    (hok : engine_ok w) (hidle : w.network_event.pending = false) (hq : w.request_q = 0)
    (hfd : ¬ w.req.fd > -1) (hnode : w.req.node = none) :
    engine_ok w'
      ∧ (b = false → may_throttle = true ∧ w'.network_event.pending = false ∧ w'.request_q = 0
          ∧ ¬ w'.req.fd > -1 ∧ w'.req.node = none)
      ∧ w'.timeout_event = w.timeout_event ∧ w'.req.timeout_set = w.req.timeout_set
      ∧ w'.req.cross_thread_lock = w.req.cross_thread_lock
      ∧ w'.req.cross_thread_locked = w.req.cross_thread_locked := by
  unfold ev2citrusleaf_restart at h
  split_ifs at h with hlate
  · simp only [Option.some.injEq, Prod.mk.injEq] at h
    obtain ⟨rfl, rfl⟩ := h
    simp [hok]
  · obtain ⟨h1, h2, h3, h4, h5, h6, h7, h8, h9, h10, h11, h12⟩ := hok
    rw [if_neg hfd] at h4
    rw [hnode] at h5
    rw [hidle] at h7 h8
    simp only [Bool.false_and] at h7 h8
    cases hloop : restart_loop may_throttle 5 o.attempts
        { w with req := { w.req with
            wr_buf_pos := 0, rd_buf_pos := 0, rd_header_pos := 0, node := none, fd := -1 } } with
    | none => simp [hloop] at h
    | some r =>
      obtain ⟨w2, e⟩ := r
      obtain ⟨s1, s2, s3, s4, s5, s6, s7, s8, s9, s10⟩ :=
        restart_loop_spec _ _ _ _ _ _ hloop (by simpa using h4) (by simpa using h5)
      simp only at s1 s2 s3 s4 s5 s6 s7 s8 s9 s10
      simp only [hloop] at h
      cases e with
      | no_node =>
        simp only [Option.some.injEq, Prod.mk.injEq] at h
        obtain ⟨rfl, rfl⟩ := h
        obtain ⟨t1, t2, t3⟩ := s8 rfl
        refine ⟨?_, by simp, by simp [s3], by simp [s1], by simp [s1], by simp [s1]⟩
        constructor <;> simp [s1, s2, s4, s5, s6, t1, t2, t3, h1, h2, h3, h7, h8, hidle, hq]
      | throttled =>
        simp only [Option.some.injEq, Prod.mk.injEq] at h
        obtain ⟨rfl, rfl⟩ := h
        obtain ⟨t1, t2, t3, t4⟩ := s9 rfl
        refine ⟨?_, by simp [s1, s4, t3, t4, hidle, hq], by simp [s3], by simp [s1],
          by simp [s1], by simp [s1]⟩
        constructor <;> simp [s1, s2, s4, s5, s6, t1, t2, t3, h1, h2, h3, h7, h8, hidle, hq]
      | gave_up =>
        simp only [Option.some.injEq, Prod.mk.injEq] at h
        obtain ⟨rfl, rfl⟩ := h
        obtain ⟨t1, t2, t3⟩ := s10 rfl
        refine ⟨?_, by simp, by simp [s3], by simp [s1], by simp [s1], by simp [s1]⟩
        constructor <;> simp [s1, s2, s4, s5, s6, t1, t2, t3, h1, h2, h3, h7, h8, hidle, hq]
      | got node fd =>
        simp only [Option.some.injEq, Prod.mk.injEq] at h
        obtain ⟨rfl, rfl⟩ := h
        obtain ⟨t1, t2, t3, t4⟩ := s7 node fd rfl
        refine ⟨?_, by simp, by simp [s3], by simp [s1], by simp [s1], by simp [s1]⟩
        constructor <;>
          simp [s1, s2, s4, s5, s6, t1, t2, t3, t4, h1, h2, h3, h7, h8, hidle, hq]

/-! ### The network event -/

/-- Coherence looks only at the log, the node, the descriptor, the two flags of
the network event, the network event itself and the queue. -/
theorem engine_ok_congr (w w' : engine) (h : engine_ok w)
    (e1 : w'.destroyed = w.destroyed) (e2 : w'.log = w.log) (e3 : w'.req.fd = w.req.fd)
    (e4 : w'.req.node = w.req.node) (e5 : w'.req.network_set = w.req.network_set)
    (e6 : w'.req.base_hop_set = w.req.base_hop_set)
    (e7 : w'.network_event.fd = w.network_event.fd)
    (e8 : w'.network_event.base_hop = w.network_event.base_hop)
    (e9 : w'.network_event.pending = w.network_event.pending)
    (e10 : w'.request_q = w.request_q) : engine_ok w' := by
  obtain ⟨h1, h2, h3, h4, h5, h6, h7, h8, h9, h10, h11, h12⟩ := h
  constructor
  · rw [e1]; exact h1
  · rw [e2]; exact h2
  · rw [e2]; exact h3
  · rw [e2, e3]; exact h4
  · rw [e2, e4]; exact h5
  · rw [e3, e4]; exact h6
  · rw [e5, e8, e9]; exact h7
  · rw [e6, e8, e9]; exact h8
  · rw [e5, e7, e3]; exact h9
  · rw [e6, e3, e4]; exact h10
  · rw [e9, e10]; exact h11
  · rw [e10, e3, e4]; exact h12

theorem engine_held_congr (w w' : engine) (fd : Int) (h : engine_held w fd)
    (e1 : w'.destroyed = w.destroyed) (e2 : w'.log = w.log) (e3 : w'.req.fd = w.req.fd)
    (e4 : w'.req.node = w.req.node) (e5 : w'.req.network_set = w.req.network_set)
    (e6 : w'.req.base_hop_set = w.req.base_hop_set)
    (e7 : w'.network_event.fd = w.network_event.fd)
    (e8 : w'.network_event.base_hop = w.network_event.base_hop)
    (e9 : w'.network_event.pending = w.network_event.pending)
    (e10 : w'.request_q = w.request_q)
    (e11 : w'.req.cross_thread_locked = w.req.cross_thread_locked)
    (e12 : w'.req.timeout_set = w.req.timeout_set)
    (e13 : w'.timeout_event = w.timeout_event) : engine_held w' fd := by
  obtain ⟨h1, h2, h3, h4, h5, h6, h7, h8, h9⟩ := h
  exact ⟨engine_ok_congr w w' h1 e1 e2 e3 e4 e5 e6 e7 e8 e9 e10, by rw [e9]; exact h2,
    by rw [e8]; exact h3, by rw [e10]; exact h4, by rw [e3]; exact h5, by rw [e3]; exact h6,
    by rw [e7]; exact h7, by rw [e11]; exact h8, by rw [e12, e13]; exact h9⟩

/-- When the network event of a started request fires, its handler starts from
a held state. -/
theorem engine_held_of_fired (w : engine) (hs : engine_started w)
    (hp : w.network_event.pending = true) (hh : w.network_event.base_hop = false) :
    engine_held
      { w with
        network_event := { w.network_event with pending := false }
        req := { w.req with network_set := false } } w.network_event.fd := by
  obtain ⟨⟨h1, h2, h3, h4, h5, h6, h7, h8, h9, h10, h11, h12⟩, hu, ht⟩ := hs
  rw [hp, hh] at h7 h8
  simp only [Bool.not_false, Bool.and_self, Bool.and_false] at h7 h8
  obtain ⟨w1, w2⟩ := h9 h7
  have hq := h11 hp
  refine ⟨?_, rfl, hh, hq, w2, w1, rfl, hu, ht⟩
  constructor <;> simp [h1, h2, h3, h4, h5, h6, h8, hq, w2]

/-- Adding the network event again after the handler leaves a started request. -/
theorem engine_started_of_rearm (w : engine) (fd : Int) (o : network_oracle)
    (h : engine_held w fd) : engine_started (ev2citrusleaf_event_rearm w o) := by
  obtain ⟨⟨h1, h2, h3, h4, h5, h6, h7, h8, h9, h10, h11, h12⟩, i1, i2, i3, i4, i5, i6, i7, i8⟩ := h
  rw [i1, i2] at h7 h8
  simp only [Bool.false_and] at h7 h8
  refine ⟨?_, by simpa [ev2citrusleaf_event_rearm] using i7,
    by simpa [ev2citrusleaf_event_rearm] using i8⟩
  constructor <;>
    simp [ev2citrusleaf_event_rearm, h1, h2, h3, h4, h5, h6, h8, i2, i3, i4, i6, ← i5]
  · intro hf; exact h6 i4
  · intro _; exact i5 ▸ i4

/-- The fail path of the network handler, from a held state, ends either in a
started request (after the restart) or in a request that is done. -/
theorem event_fail_spec (K : proto_h) (w w' : engine) (fd : Int) (o : network_oracle)
    (h : engine_held w fd) (hf : ev2citrusleaf_event_fail K w fd o = some w') :
    engine_started w' ∨ engine_done w' := by
  obtain ⟨⟨h1, h2, h3, h4, h5, h6, h7, h8, h9, h10, h11, h12⟩, i1, i2, i3, i4, i5, i6, i7, i8⟩ := h
  rw [i1, i2] at h7 h8
  simp only [Bool.false_and] at h7 h8
  rw [if_pos i4] at h4
  cases hn : w.req.node with
  | none => exact absurd hn (h6 i4)
  | some n =>
    rw [hn] at h5
    unfold ev2citrusleaf_event_fail at hf
    simp only [hn] at hf
    split_ifs at hf with hw
    · -- one shot: finalize as timed out
      right
      simp only [Option.some.injEq] at hf
      subst hf
      apply engine_done_of_complete_timedout
      · constructor <;> simp [h1, h2, h3, h4, h5, h7, h8, i1, i3, i5, hn]
      · exact i8
    · -- retry
      left
      split at hf
      · exact absurd hf (by simp)
      · rename_i b w2 hr
        simp only [Option.some.injEq] at hf
        subst hf
        obtain ⟨r1, r2, r3, r4, r5, r6⟩ := restart_spec _ _ _ _ _ hr
          (by constructor <;> simp [h1, h2, h3, h4, h5, h7, h8, i1, i3, i5])
          i1 i3 (by simp) rfl
        exact ⟨r1, by rw [r6]; exact i7, by rw [r4, r3]; exact i8⟩
theorem event_send_spec (K : proto_h) (w w' : engine) (fd : Int) (o : network_oracle)
    (hh : engine_held w fd) (h : event_send K w fd o = some w') :
    engine_started w' ∨ engine_done w' := by
  unfold event_send at h
  simp only at h
  split_ifs at h <;>
  first
  | exact event_fail_spec K _ _ fd o hh h
  | (simp only [Option.some.injEq] at h
     subst h
     left
     apply engine_started_of_rearm _ fd
     exact engine_held_congr _ _ fd hh rfl rfl rfl rfl rfl rfl
       (by first | rfl | exact hh.slot_fd.symm) (by first | rfl | exact hh.not_hop.symm)
       rfl rfl rfl rfl rfl)

theorem event_recv_header_spec (w w' : engine) (fd : Int) (o : network_oracle)
    (hh : engine_held w fd) (h : event_recv_header w o = some w') : engine_held w' fd := by
  unfold event_recv_header at h
  simp only at h
  split_ifs at h <;> simp only [Option.some.injEq] at h <;> subst h
  · exact engine_held_congr _ _ fd hh rfl rfl rfl rfl rfl rfl rfl rfl rfl rfl rfl rfl rfl
  · exact hh
  · exact hh

theorem event_init_rd_buf_spec (K : proto_h) (w : engine) (fd : Int) (o : network_oracle)
    (hh : engine_held w fd) : engine_held (event_init_rd_buf K w o).1 fd := by
  unfold event_init_rd_buf
  simp only
  split_ifs
  · exact engine_held_congr _ _ fd hh rfl rfl rfl rfl rfl rfl rfl rfl rfl rfl rfl rfl rfl
  · cases o.rd_malloc <;>
      exact engine_held_congr _ _ fd hh rfl rfl rfl rfl rfl rfl rfl rfl rfl rfl rfl rfl rfl
  · exact hh

theorem event_recv_body_spec (K : proto_h) (w w' : engine) (fd : Int) (o : network_oracle)
    (hh : engine_held w fd) (h : event_recv_body K w fd o = some w') :
    engine_started w' ∨ engine_done w' := by
  unfold event_recv_body at h
  simp only at h
  split_ifs at h <;>
  first
  | exact event_fail_spec K _ _ fd o hh h
  | (simp only [Option.some.injEq] at h
     subst h
     left
     apply engine_started_of_rearm _ fd
     exact engine_held_congr _ _ fd hh rfl rfl rfl rfl rfl rfl rfl rfl rfl rfl rfl rfl rfl)
  | (simp only [Option.some.injEq] at h
     subst h
     right
     have hh2 := engine_held_congr _
       { w with
         req := { w.req with
           rd_buf := poke w.req.rd_buf w.req.rd_buf_pos
             (o.recv_body.data.take o.recv_body.rv.toNat)
           rd_buf_pos := w.req.rd_buf_pos + o.recv_body.rv.toNat } }
       fd hh rfl rfl rfl rfl rfl rfl rfl rfl rfl rfl rfl rfl rfl
     exact engine_done_of_complete_response K _ o.complete hh2.ok hh2.timer hh2.idle hh2.off_q)

/-- The handler of the network event, entered with the event fired, ends either
in a started request or in a request that is done. -/
theorem event_spec (K : proto_h) (w w' : engine) (fd : Int) (ev_write : Bool)
    (o : network_oracle)
    (hh : engine_held { w with req := { w.req with network_set := false } } fd)
    (h : ev2citrusleaf_event K w fd ev_write o = some w') :
    engine_started w' ∨ engine_done w' := by
  unfold ev2citrusleaf_event at h
  simp only at h
  cases ev_write with
  | true =>
    simp only [if_true] at h
    exact event_send_spec K _ _ fd o hh h
  | false =>
    simp only [Bool.false_eq_true, if_false] at h
    split at h
    · exact event_fail_spec K _ _ fd o hh h
    · rename_i w1 hw1
      have h1 := event_recv_header_spec _ _ fd o hh hw1
      split_ifs at h
      · have h2 := event_init_rd_buf_spec K w1 fd o h1
        split at h
        · rename_i w2 hw2
          rw [hw2] at h2
          exact event_fail_spec K _ _ fd o h2 h
        · rename_i w2 hw2
          rw [hw2] at h2
          exact event_recv_body_spec K _ _ fd o h2 h
      · simp only [Option.some.injEq] at h
        subst h
        left
        exact engine_started_of_rearm _ fd o h1

/-! ### Timer, queue and base hop -/

theorem timer_spec (K : proto_h) (w : engine) (o : complete_oracle) (hs : engine_started w)
    (ht : w.timeout_event = true) :
    engine_done (ev2citrusleaf_timer_expired K { w with timeout_event := false } o) := by
  obtain ⟨hok, hu, htm⟩ := hs
  rw [ht] at htm
  unfold ev2citrusleaf_timer_expired
  simp only [htm, not_true_eq_false, and_false, if_false]
  apply engine_done_of_complete_timedout
  · exact engine_ok_congr _ _ hok rfl rfl rfl rfl rfl rfl rfl rfl rfl rfl
  · rfl

theorem cluster_pop_spec (w : engine) (ok : Bool) (hs : engine_started w)
    (hq : 0 < w.request_q) :
    engine_started (ev2citrusleaf_base_hop { w with request_q := w.request_q - 1 } ok) := by
  obtain ⟨⟨h1, h2, h3, h4, h5, h6, h7, h8, h9, h10, h11, h12⟩, hu, htm⟩ := hs
  obtain ⟨q1, q2, q3⟩ := h12 hq
  have hp : w.network_event.pending = false := by
    cases hpp : w.network_event.pending with
    | false => rfl
    | true => have := h11 hpp; omega
  rw [hp] at h7 h8
  simp only [Bool.false_and] at h7 h8
  rw [if_neg q2] at h4
  rw [q3] at h5
  unfold ev2citrusleaf_base_hop
  cases ok with
  | false =>
    refine ⟨?_, by simpa using hu, by simpa using htm⟩
    constructor <;> simp [h1, h2, h3, h4, h5, h7, h8, hp, q1, q2, q3]
  | true =>
    refine ⟨?_, by simpa using hu, by simpa using htm⟩
    constructor <;> simp [h1, h2, h3, h4, h5, h7, h8, hp, q1, q2, q3]

theorem base_hop_event_spec (w w' : engine) (o : restart_oracle) (hs : engine_started w)
    (hp : w.network_event.pending = true) (hh : w.network_event.base_hop = true)
    (h : ev2citrusleaf_base_hop_event
      { w with network_event := { w.network_event with pending := false } } o = some w') :
    engine_started w' := by
  obtain ⟨⟨h1, h2, h3, h4, h5, h6, h7, h8, h9, h10, h11, h12⟩, hu, htm⟩ := hs
  rw [hp, hh] at h7 h8
  simp only [Bool.not_true, Bool.and_false, Bool.and_self] at h7 h8
  obtain ⟨g1, g2⟩ := h10 h8
  have hq := h11 hp
  rw [if_neg g1] at h4
  rw [g2] at h5
  unfold ev2citrusleaf_base_hop_event at h
  simp only at h
  split at h
  · exact absurd h (by simp)
  · rename_i b w2 hr
    simp only [Option.some.injEq] at h
    subst h
    obtain ⟨r1, r2, r3, r4, r5, r6⟩ := restart_spec _ _ _ _ _ hr
      (by constructor <;> simp [h1, h2, h3, h4, h5, h7, hq, g1, g2])
      rfl hq g1 g2
    exact ⟨r1, by rw [r6]; exact hu, by rw [r4, r3]; exact htm⟩

/-- One event on a started request leaves it started or done. -/
theorem step_started (K : proto_h) (w w' : engine) (e : event) (hs : engine_started w)
    (h : step K w e = some w') : engine_started w' ∨ engine_done w' := by
  cases e with
  | network o =>
    simp only [step] at h
    split_ifs at h with hc
    obtain ⟨c1, c2, c3, c4⟩ := hc
    simp only [Bool.not_eq_true] at c4
    exact event_spec K _ _ _ _ o (engine_held_of_fired w hs c3 c4) h
  | timer o =>
    simp only [step] at h
    split_ifs at h with hc
    obtain ⟨c1, c2, c3⟩ := hc
    simp only [Option.some.injEq] at h
    subst h
    exact Or.inr (timer_spec K w o hs c3)
  | cluster_pop ok =>
    simp only [step] at h
    split_ifs at h with hc
    simp only [Option.some.injEq] at h
    subst h
    exact Or.inl (cluster_pop_spec w ok hs hc.2)
  | base_hop o =>
    simp only [step] at h
    split_ifs at h with hc
    obtain ⟨c1, c2, c3, c4⟩ := hc
    exact Or.inl (base_hop_event_spec w w' o hs c3 c4 h)

/-- No event happens to a destroyed request. -/
theorem step_destroyed (K : proto_h) (w : engine) (e : event) (h : w.destroyed ≠ 0) :
    step K w e = none := by
  cases e <;> simp [step, h]

/-- A run from a started request ends in a started request or in a request
that is done. -/
theorem run_started (K : proto_h) (es : List event) (w w' : engine) (hs : engine_started w)
    (h : run K w es = some w') : engine_started w' ∨ engine_done w' := by
  induction es generalizing w with
  | nil =>
    simp only [run, Option.some.injEq] at h
    subst h
    exact Or.inl hs
  | cons e es ih =>
    simp only [run] at h
    split at h
    · exact absurd h (by simp)
    · rename_i w1 hw1
      rcases step_started K w w1 e hs hw1 with h1 | h1
      · exact ih w1 h1 h
      · cases es with
        | nil =>
          simp only [run, Option.some.injEq] at h
          subst h
          exact Or.inr h1
        | cons e2 es2 =>
          simp only [run, step_destroyed K w1 e2 (by rw [h1.destroyed]; decide)] at h
          exact absurd h (by simp)

/-! ### The start calls -/

/-- The state in which a start call works before the first restart: coherent,
nothing held, network event idle, not on the queue, nothing logged as destroyed,
and `timeout_set` telling whether the timeout event is pending. -/
theorem start_failed_spec (w : engine) (hok : engine_ok w)
    (hidle : w.network_event.pending = false) (hq : w.request_q = 0)
    (hfd : ¬ w.req.fd > -1) (hnode : w.req.node = none)
    (htm : w.req.timeout_set = w.timeout_event) : engine_failed (start_failed w) := by
  obtain ⟨h1, h2, h3, h4, h5, h6, h7, h8, h9, h10, h11, h12⟩ := hok
  rw [if_neg hfd] at h4
  rw [hnode] at h5
  unfold start_failed cl_request_destroy
  cases c1 : w.req.timeout_set <;> cases c2 : w.req.cross_thread_lock <;>
    rw [c1] at htm <;>
    constructor <;> simp [h1, h2, h3, h4, h5, hidle, hq, ← htm, c2]

theorem start_timer_spec (t : Int) (wparam : Option ev2citrusleaf_write_parameters)
    (req : cl_request) (asc : cluster_stats) (o : start_oracle)
    (hreq : cl_request_create true t wparam = some req) :
    ((start_timer (engine_init req asc) o).1 = false →
        engine_failed (start_timer (engine_init req asc) o).2)
      ∧ ((start_timer (engine_init req asc) o).1 = true →
        engine_ok (start_timer (engine_init req asc) o).2
          ∧ (start_timer (engine_init req asc) o).2.network_event.pending = false
          ∧ (start_timer (engine_init req asc) o).2.request_q = 0
          ∧ ¬ (start_timer (engine_init req asc) o).2.req.fd > -1
          ∧ (start_timer (engine_init req asc) o).2.req.node = none
          ∧ (start_timer (engine_init req asc) o).2.req.timeout_set
            = (start_timer (engine_init req asc) o).2.timeout_event) := by
  simp only [cl_request_create, if_true, Option.some.injEq] at hreq
  subst hreq
  unfold start_timer engine_init
  cases hc : o.cross_threaded <;> simp only [if_true, if_false, Bool.false_eq_true]
  all_goals
    split_ifs
    all_goals
      refine ⟨fun hb => ?_, fun hb => ?_⟩
      all_goals first
        | (simp at hb; done)
        | (simp only [cl_request_destroy]
           constructor <;> simp [fd_ledger, node_ledger])
        | (refine ⟨?_, by simp, by simp, by simp, by simp, by simp⟩
           constructor <;> simp [fd_ledger, node_ledger])

theorem start_finish_spec (K : proto_h) (w : engine) (o : start_oracle) (c : compile_result)
    (write may_throttle : Bool) (r : start_result) (hok : engine_ok w)
    (hidle : w.network_event.pending = false) (hq : w.request_q = 0)
    (hfd : ¬ w.req.fd > -1) (hnode : w.req.node = none)
    (htm : w.req.timeout_set = w.timeout_event)
    (h : start_finish K w o c write may_throttle = some r) :
    ∃ w0, r.w = some w0 ∧ ((r.rc = EV2CITRUSLEAF_OK ∧ engine_started w0)
      ∨ ((r.rc = K.EV2CITRUSLEAF_FAIL_CLIENT_ERROR ∨ r.rc = K.EV2CITRUSLEAF_FAIL_THROTTLED)
          ∧ engine_failed w0)) := by
  unfold start_finish at h
  simp only at h
  have hok1 : engine_ok { w with req := { w.req with
      wr_buf := c.buf, wr_buf_size := c.buf_size, wr_buf_malloced := c.malloced,
      d := c.digest, write := write } } :=
    engine_ok_congr w _ hok rfl rfl rfl rfl rfl rfl rfl rfl rfl rfl
  split_ifs at h with hc
  · simp only [Option.some.injEq] at h
    subst h
    exact ⟨_, rfl, Or.inr ⟨Or.inl rfl,
      start_failed_spec _ hok1 hidle hq hfd hnode htm⟩⟩
  · split at h
    · exact absurd h (by simp)
    · rename_i w1 hr
      simp only [Option.some.injEq] at h
      subst h
      obtain ⟨h1, h2, h3, h4, h5, h6⟩ := restart_spec _ _ _ _ _ hr hok1 hidle hq hfd hnode
      obtain ⟨-, g2, g3, g4, g5⟩ := h2 rfl
      refine ⟨_, rfl, Or.inr ⟨Or.inr rfl, start_failed_spec _ h1 g2 g3 g4 g5 ?_⟩⟩
      rw [h3, h4]
      exact htm
    · rename_i w1 hr
      simp only [Option.some.injEq] at h
      subst h
      obtain ⟨h1, h2, h3, h4, h5, h6⟩ := restart_spec _ _ _ _ _ hr hok1 hidle hq hfd hnode
      refine ⟨_, rfl, Or.inl ⟨rfl, ?_, rfl, ?_⟩⟩
      · exact engine_ok_congr w1 _ h1 rfl rfl rfl rfl rfl rfl rfl rfl rfl rfl
      · show w1.req.timeout_set = w1.timeout_event
        rw [h3, h4]
        exact htm

/-- What a start call leaves behind, by its return code. -/
theorem start_spec (K : proto_h) (o : start_oracle) (asc : cluster_stats) (malloc_ok : Bool)
    (timeout_ms : Int) (wp : Option ev2citrusleaf_write_parameters) (info1 info2 : Nat)
    (ns : List Nat) (set : Option (List Nat)) (key : Option ev2citrusleaf_object)
    (digest : Option (List Nat)) (wparam : Option ev2citrusleaf_write_parameters)
    (bins : List ev2citrusleaf_bin) (r : start_result)
    (h : ev2citrusleaf_start K o asc (cl_request_create malloc_ok timeout_ms wp) info1 info2 ns
      set key digest wparam bins = some r) :
    (r.w = none ∧ r.rc = K.EV2CITRUSLEAF_FAIL_CLIENT_ERROR)
      ∨ ∃ w0, r.w = some w0 ∧ ((r.rc = EV2CITRUSLEAF_OK ∧ engine_started w0)
        ∨ ((r.rc = K.EV2CITRUSLEAF_FAIL_CLIENT_ERROR ∨ r.rc = K.EV2CITRUSLEAF_FAIL_THROTTLED)
          ∧ engine_failed w0)) := by
  cases malloc_ok
  · simp only [cl_request_create, ev2citrusleaf_start, Bool.false_eq_true, if_false,
      Option.some.injEq] at h
    subst h
    exact Or.inl ⟨rfl, rfl⟩
  · right
    obtain ⟨req, hreq⟩ : ∃ req, cl_request_create true timeout_ms wp = some req :=
      ⟨_, rfl⟩
    rw [hreq] at h
    obtain ⟨hF, hT⟩ := start_timer_spec timeout_ms wp req asc o hreq
    unfold ev2citrusleaf_start at h
    simp only at h
    split at h
    · rename_i w1 hst
      simp only [Option.some.injEq] at h
      subst h
      rw [hst] at hF
      exact ⟨_, rfl, Or.inr ⟨Or.inl rfl, hF rfl⟩⟩
    · rename_i w1 hst
      rw [hst] at hT
      obtain ⟨t1, t2, t3, t4, t5, t6⟩ := hT rfl
      refine start_finish_spec K _ o _ _ _ r ?_ ?_ ?_ ?_ ?_ ?_ h
      · exact engine_ok_congr w1 _ t1 rfl rfl rfl rfl rfl rfl rfl rfl rfl rfl
      · exact t2
      · exact t3
      · exact t4
      · exact t5
      · exact t6

/-- What an operate start call leaves behind, by its return code. -/
theorem start_op_spec (K : proto_h) (o : start_oracle) (asc : cluster_stats) (malloc_ok : Bool)
    (timeout_ms : Int) (wp : Option ev2citrusleaf_write_parameters)
    (ns : List Nat) (set : Option (List Nat)) (key : Option ev2citrusleaf_object)
    (digest : Option (List Nat)) (ops : List ev2citrusleaf_operation)
    (wparam : Option ev2citrusleaf_write_parameters) (r : start_result)
    (h : ev2citrusleaf_start_op K o asc (cl_request_create malloc_ok timeout_ms wp) ns
      set key digest ops wparam = some r) :
    (r.w = none ∧ r.rc = K.EV2CITRUSLEAF_FAIL_CLIENT_ERROR)
      ∨ ∃ w0, r.w = some w0 ∧ ((r.rc = EV2CITRUSLEAF_OK ∧ engine_started w0)
        ∨ ((r.rc = K.EV2CITRUSLEAF_FAIL_CLIENT_ERROR ∨ r.rc = K.EV2CITRUSLEAF_FAIL_THROTTLED)
          ∧ engine_failed w0)) := by
  cases malloc_ok
  · simp only [cl_request_create, ev2citrusleaf_start_op, Bool.false_eq_true, if_false,
      Option.some.injEq] at h
    subst h
    exact Or.inl ⟨rfl, rfl⟩
  · right
    obtain ⟨req, hreq⟩ : ∃ req, cl_request_create true timeout_ms wp = some req :=
      ⟨_, rfl⟩
    rw [hreq] at h
    obtain ⟨hF, hT⟩ := start_timer_spec timeout_ms wp req asc o hreq
    unfold ev2citrusleaf_start_op at h
    simp only at h
    split at h
    · rename_i w1 hst
      simp only [Option.some.injEq] at h
      subst h
      rw [hst] at hF
      exact ⟨_, rfl, Or.inr ⟨Or.inl rfl, hF rfl⟩⟩
    · rename_i w1 hst
      rw [hst] at hT
      obtain ⟨t1, t2, t3, t4, t5, t6⟩ := hT rfl
      split at h
      · exact absurd h (by simp)
      · refine start_finish_spec K _ o _ _ _ r ?_ ?_ ?_ ?_ ?_ ?_ h
        · exact engine_ok_congr w1 _ t1 rfl rfl rfl rfl rfl rfl rfl rfl rfl rfl
        · exact t2
        · exact t3
        · exact t4
        · exact t5
        · exact t6

/-! ### After a start call that failed -/

theorem step_failed (K : proto_h) (w w' : engine) (e : event) (hf : engine_failed w)
    (h : step K w e = some w') : engine_failed w' := by
  obtain ⟨f1, f2, f3, f4, f5, f6, f7, f8, f9⟩ := hf
  cases e with
  | network o =>
    simp only [step, f4, Bool.false_eq_true, false_and, and_false, if_false] at h
    exact absurd h (by simp)
  | base_hop o =>
    simp only [step, f4, Bool.false_eq_true, false_and, and_false, if_false] at h
    exact absurd h (by simp)
  | cluster_pop ok =>
    simp only [step, f5, Nat.lt_irrefl, and_false, if_false] at h
    exact absurd h (by simp)
  | timer o =>
    simp only [step] at h
    split_ifs at h with hc
    obtain ⟨c1, c2, c3⟩ := hc
    obtain ⟨d1, d2, d3, d4⟩ := f8 c1
    simp only [Option.some.injEq] at h
    subst h
    unfold ev2citrusleaf_timer_expired cl_request_destroy
    simp only [d2, d3, Bool.false_eq_true, not_false_eq_true, and_self, if_true]
    constructor <;> simp [f1, f2, f3, f4, f5, f7, c1]

theorem run_failed (K : proto_h) (es : List event) (w w' : engine) (hf : engine_failed w)
    (h : run K w es = some w') : engine_failed w' := by
  induction es generalizing w with
  | nil =>
    simp only [run, Option.some.injEq] at h
    subst h
    exact hf
  | cons e es ih =>
    simp only [run] at h
    split at h
    · exact absurd h (by simp)
    · rename_i w1 hstep
      exact ih w1 (step_failed K w w1 e hf hstep) h

/-! ### The three ledgers over the life of a request -/

theorem callbacks_of_started (w : engine) (h : engine_started w ∨ engine_done w) :
    (w.destroyed = 0 → callbacks w.log = 0) ∧ (w.destroyed ≠ 0 → callbacks w.log = 1) := by
  rcases h with h | h
  · exact ⟨fun _ => h.ok.no_callback, fun hd => absurd h.ok.live hd⟩
  · exact ⟨fun hd => by rw [h.destroyed] at hd; exact absurd hd (by decide),
      fun _ => h.callback_once⟩

theorem fd_ledger_of_started (w : engine) (h : engine_started w ∨ engine_done w) :
    fd_ledger w.log ≠ none ∧ (w.destroyed ≠ 0 → fd_ledger w.log = some none) := by
  rcases h with h | h
  · refine ⟨?_, fun hd => absurd h.ok.live hd⟩
    rw [h.ok.fds]
    exact Option.some_ne_none _
  · refine ⟨?_, fun _ => h.fds⟩
    rw [h.fds]
    exact Option.some_ne_none _

theorem node_ledger_of_started (w : engine) (h : engine_started w ∨ engine_done w) :
    node_ledger w.log ≠ none ∧ (w.destroyed ≠ 0 → node_ledger w.log = some none) := by
  rcases h with h | h
  · refine ⟨?_, fun hd => absurd h.ok.live hd⟩
    rw [h.ok.nodes]
    exact Option.some_ne_none _
  · refine ⟨?_, fun _ => h.nodes⟩
    rw [h.nodes]
    exact Option.some_ne_none _

theorem ok_ne_fail (K : proto_h) :
    EV2CITRUSLEAF_OK ≠ K.EV2CITRUSLEAF_FAIL_CLIENT_ERROR
      ∧ EV2CITRUSLEAF_OK ≠ K.EV2CITRUSLEAF_FAIL_THROTTLED := by
  have h := K.result_codes_nodup
  simp only [List.nodup_cons, List.mem_cons, not_or] at h
  exact ⟨h.1.2.1, h.1.2.2.1⟩

/-! ### The contracts of the request engine -/

theorem value_to_op_get_size_rc (K : proto_h) (v : ev2citrusleaf_object) (sz : Nat) :
    (value_to_op_get_size K v sz).1 = (value_to_op_get_size K v 0).1 := by
  unfold value_to_op_get_size
  split_ifs <;> rfl

theorem compile_size_ops_unknown (K : proto_h) (info2 : Nat)
    (hw : info2 &&& K.CL_MSG_INFO2_WRITE ≠ 0) (values : List ev2citrusleaf_bin)
    (hv : ∃ v ∈ values, (value_to_op_get_size K v.object 0).1 ≠ 0) (sz : Nat) :
    compile_size_ops K info2 values sz = none := by
  induction values generalizing sz with
  | nil => simp at hv
  | cons v values ih =>
    simp only [compile_size_ops, hw, ne_eq, not_false_eq_true, if_true]
    by_cases hrc : (value_to_op_get_size K v.object 0).1 = 0
    · rw [value_to_op_get_size_rc, hrc]
      simp only [not_true_eq_false, if_false]
      apply ih
      obtain ⟨u, hu, hne⟩ := hv
      rcases List.mem_cons.mp hu with rfl | hu
      · exact absurd hrc hne
      · exact ⟨u, hu, hne⟩
    · rw [value_to_op_get_size_rc]
      simp only [hrc, not_false_eq_true, if_true]

/-- A put of a value whose type `value_to_op_get_size` does not know is refused
by `compile`, so `ev2citrusleaf_start` returns `CLIENT_ERROR`. -/
theorem start_unknown_type (K : proto_h) (o : start_oracle) (asc : cluster_stats)
    (req : Option cl_request) (info1 info2 : Nat) (ns : List Nat) (set : Option (List Nat))
    (key : Option ev2citrusleaf_object) (digest : Option (List Nat))
    (wparam : Option ev2citrusleaf_write_parameters) (bins : List ev2citrusleaf_bin)
    (r : start_result) (hw : info2 &&& K.CL_MSG_INFO2_WRITE ≠ 0)
    (hv : ∃ v ∈ bins, (value_to_op_get_size K v.object 0).1 ≠ 0)
    (h : ev2citrusleaf_start K o asc req info1 info2 ns set key digest wparam bins = some r) :
    r.rc = K.EV2CITRUSLEAF_FAIL_CLIENT_ERROR := by
  unfold ev2citrusleaf_start at h
  split at h
  · simp only [Option.some.injEq] at h
    subst h
    rfl
  · split at h
    · simp only [Option.some.injEq] at h
      subst h
      rfl
    · simp only [compile, compile_size_ops_unknown K info2 hw bins hv, start_finish] at h
      simp only [ne_eq, Int.reduceNeg, neg_eq_zero, one_ne_zero, not_false_eq_true, if_true,
        Option.some.injEq] at h
      subst h
      rfl

/-- C11. The op encoder leaves the op untouched for a java blob and for a value
of no known type.  All the same a put of a java blob, an operate call writing a
java blob and an operate call writing a value of no known type (each to
namespace `test`, set `s`, key `k1`, bin `b`, on a cluster that hands out a node
and a socket) return `OK`, not `CLIENT_ERROR`: the request is started. -/
theorem unencodable_write_is_started :
    value_to_op (java_blob_key aerospike) zero_op = zero_op
      ∧ value_to_op untyped_object zero_op = zero_op
      ∧ Option.map start_result.rc put_java_blob = some EV2CITRUSLEAF_OK
      ∧ Option.map start_result.rc (operate_write (java_blob_key aerospike))
        = some EV2CITRUSLEAF_OK
      ∧ Option.map start_result.rc (operate_write untyped_object) = some EV2CITRUSLEAF_OK := by
  decide

/-- C12. For every request `cl_request_create` made with a negative
`timeout_ms`, `ev2citrusleaf_start` and `ev2citrusleaf_start_op` return
`CLIENT_ERROR` and leave the same request behind: its log holds the call of
`cl_request_destroy` and nothing else (no node was asked for, nothing was pushed
on the queue, the callback was not invoked), it is destroyed once, the timeout
event is not pending and `timeout_set` is clear, the network event is not
pending, the request is not on the queue and the cluster's counters are as
before. -/
theorem negative_timeout_is_rejected (K : proto_h) (o : start_oracle) (asc : cluster_stats)
    (timeout_ms : Int) (wp : Option ev2citrusleaf_write_parameters) (req : cl_request)
    (info1 info2 : Nat) (ns : List Nat) (set : Option (List Nat))
    (key : Option ev2citrusleaf_object) (digest : Option (List Nat))
    (wparam : Option ev2citrusleaf_write_parameters) (bins : List ev2citrusleaf_bin)
    (ops : List ev2citrusleaf_operation)
    (hreq : cl_request_create true timeout_ms wp = some req) (hneg : timeout_ms < 0) :
    ∃ w : engine,
      ev2citrusleaf_start K o asc (some req) info1 info2 ns set key digest wparam bins
          = some ⟨K.EV2CITRUSLEAF_FAIL_CLIENT_ERROR, some w⟩
        ∧ ev2citrusleaf_start_op K o asc (some req) ns set key digest ops wparam
          = some ⟨K.EV2CITRUSLEAF_FAIL_CLIENT_ERROR, some w⟩
        ∧ w.log = [action.cl_request_destroy] ∧ w.destroyed = 1
        ∧ w.timeout_event = false ∧ w.req.timeout_set = false
        ∧ w.network_event.pending = false ∧ w.request_q = 0
        ∧ w.req.node = none ∧ w.req.fd = -1 ∧ w.asc = asc := by
  have hne : timeout_ms ≠ 0 := by omega
  refine ⟨(start_timer (engine_init req asc) o).2, ?_, ?_, ?_⟩ <;>
    simp only [cl_request_create, if_true, Option.some.injEq] at hreq <;>
    subst hreq
  · cases hc : o.cross_threaded <;>
      simp [ev2citrusleaf_start, start_timer, engine_init, hne, hneg, hc]
  · cases hc : o.cross_threaded <;>
      simp [ev2citrusleaf_start_op, start_timer, engine_init, hne, hneg, hc]
  · cases hc : o.cross_threaded <;>
      simp [start_timer, engine_init, cl_request_destroy, hne, hneg, hc]

/-- The sample get with a timeout of -1 ms returns `CLIENT_ERROR`. -/
theorem negative_timeout_is_rejected_witness :
    cl_request_create true (-1) none = some get_request_neg ∧ (-1 : Int) < 0
      ∧ Option.map start_result.rc
          (ev2citrusleaf_start aerospike sample_start zero_stats (some get_request_neg) 1 0
            [116, 101, 115, 116, 0] none none none none [])
        = some aerospike.EV2CITRUSLEAF_FAIL_CLIENT_ERROR := by
  refine ⟨rfl, by decide, ?_⟩
  obtain ⟨w, h1, -⟩ := negative_timeout_is_rejected aerospike sample_start zero_stats (-1) none
    get_request_neg 1 0 [116, 101, 115, 116, 0] none none none none [] [] rfl (by decide)
  rw [h1]
  rfl

/-! ### Bin names and the return code -/

theorem write_fields_ret_isSome (K : proto_h) (r r' : List Nat → List Nat)
    (buf buf' : List Nat) (pos pos' : Nat) (ns ns' : List Nat) (nl nl' : Nat)
    (set set' : Option (List Nat)) (sl sl' : Nat) (key : Option ev2citrusleaf_object)
    (d d' : Option (List Nat)) (dr dr' : List Nat) :
    (write_fields K r buf pos ns nl set sl key d dr).ret.isSome
      = (write_fields K r' buf' pos' ns' nl' set' sl' key d' dr').ret.isSome := by
  unfold write_fields
  cases key with
  | none => cases set <;> cases set' <;> cases d <;> cases d' <;> rfl
  | some k =>
    by_cases h1 : k.type = CL_STR
    · simp only [if_pos h1]
      cases set <;> cases set' <;> cases d <;> cases d' <;> rfl
    · by_cases h2 : k.type = CL_BLOB
      · simp only [if_neg h1, if_pos h2]
        cases set <;> cases set' <;> cases d <;> cases d' <;> rfl
      · by_cases h3 : k.type = CL_INT
        · simp only [if_neg h1, if_neg h2, if_pos h3]
          cases set <;> cases set' <;> cases d <;> cases d' <;> rfl
        · simp only [if_neg h1, if_neg h2, if_neg h3]

theorem compile_size_ops_isSome (K : proto_h) (info2 : Nat)
    (values values' : List ev2citrusleaf_bin)
    (h : values.map ev2citrusleaf_bin.object = values'.map ev2citrusleaf_bin.object)
    (s s' : Nat) :
    (compile_size_ops K info2 values s).isSome = (compile_size_ops K info2 values' s').isSome := by
  induction values generalizing values' s s' with
  | nil =>
    cases values' with
    | nil => rfl
    | cons v vs => simp at h
  | cons v vs ih =>
    cases values' with
    | nil => simp at h
    | cons v' vs' =>
      simp only [List.map_cons, List.cons.injEq] at h
      obtain ⟨hv, hvs⟩ := h
      simp only [compile_size_ops]
      rw [← hv]
      by_cases hw : info2 &&& K.CL_MSG_INFO2_WRITE ≠ 0
      · simp only [if_pos hw]
        rw [value_to_op_get_size_rc K v.object
          ((s + (sizeof_cl_msg_op + strlen v.bin_name)) % 2 ^ 64),
          value_to_op_get_size_rc K v.object
          ((s' + (sizeof_cl_msg_op + strlen v'.bin_name)) % 2 ^ 64)]
        by_cases hrc : (value_to_op_get_size K v.object 0).1 ≠ 0
        · simp only [if_pos hrc]
        · simp only [if_neg hrc]
          exact ih vs' hvs _ _
      · simp only [if_neg hw]
        exact ih vs' hvs _ _

theorem compile_rc_names (K : proto_h) (r : List Nat → List Nat) (info1 info2 : Nat)
    (ns : List Nat) (set : Option (List Nat)) (key : Option ev2citrusleaf_object)
    (digest : Option (List Nat)) (wparam : Option ev2citrusleaf_write_parameters)
    (timeout : Nat) (values values' : List ev2citrusleaf_bin) (buf_r : List Nat)
    (buf_size_r : Nat) (m : List Nat) (d : List Nat)
    (h : values.map ev2citrusleaf_bin.object = values'.map ev2citrusleaf_bin.object) :
    (compile K r info1 info2 ns set key digest wparam timeout values buf_r buf_size_r
        (some m) d).rc
      = (compile K r info1 info2 ns set key digest wparam timeout values' buf_r buf_size_r
        (some m) d).rc := by
  have h1 := compile_size_ops_isSome K info2 values values' h
  unfold compile
  simp only
  generalize compile_size_fields (strlen ns)
    set (match set with | some s => strlen s | none => 0) key digest = s0 at *
  have h2 := h1 s0 s0
  cases hA : compile_size_ops K info2 values s0 with
  | none =>
    cases hB : compile_size_ops K info2 values' s0 with
    | none => rfl
    | some b => rw [hA, hB] at h2; simp at h2
  | some a =>
    cases hB : compile_size_ops K info2 values' s0 with
    | none => rw [hA, hB] at h2; simp at h2
    | some b =>
      simp only
      have hc (x : Nat) : (if x > buf_size_r then
          (match (some m : Option (List Nat)) with
            | some m => some (m, true)
            | none => none)
          else some (buf_r, false))
          = some (if x > buf_size_r then (m, true) else (buf_r, false)) := by
        split_ifs <;> rfl
      simp only [hc]
      have h3 (buf : List Nat) (pos : Nat) (ns : List Nat) (nl : Nat) (set : Option (List Nat))
          (sl : Nat) (d : Option (List Nat)) (dr : List Nat) :
          (write_fields K r buf pos ns nl set sl key d dr).ret.isSome
            = (write_fields K r [] 0 [] 0 none 0 key none []).ret.isSome :=
        write_fields_ret_isSome K r r buf [] pos 0 ns [] nl 0 set none sl 0 key d none dr []
      generalize hwA : write_fields K r _ _ ns (strlen ns) set _ key digest d = wfA
      generalize hwB : write_fields K r _ _ ns (strlen ns) set _ key digest d = wfB
      have e1 : wfA.ret.isSome = (write_fields K r [] 0 [] 0 none 0 key none []).ret.isSome := by
        rw [← hwA, h3]
      have e2 : wfB.ret.isSome = (write_fields K r [] 0 [] 0 none 0 key none []).ret.isSome := by
        rw [← hwB, h3]
      rw [← e2] at e1
      cases hX : wfA.ret <;> cases hY : wfB.ret <;> rw [hX, hY] at e1 <;>
        first
          | rfl
          | (simp at e1)

theorem compile_ops_rc_names (K : proto_h) (r : List Nat → List Nat)
    (ns : List Nat) (set : Option (List Nat)) (key : Option ev2citrusleaf_object)
    (digest : Option (List Nat)) (ops ops' : List ev2citrusleaf_operation)
    (wparam : Option ev2citrusleaf_write_parameters) (buf_r : List Nat)
    (buf_size_r : Nat) (m : List Nat) (d : List Nat) :
    Option.map compile_result.rc
        (compile_ops K r ns set key digest ops wparam buf_r buf_size_r (some m) d)
      = Option.map compile_result.rc
        (compile_ops K r ns set key digest ops' wparam buf_r buf_size_r (some m) d) := by
  unfold compile_ops
  cases set with
  | none => rfl
  | some s =>
    simp only
    have hc (x : Nat) : (if x > buf_size_r then
        (match (some m : Option (List Nat)) with
          | some m => some (m, true)
          | none => none)
        else some (buf_r, false))
        = some (if x > buf_size_r then (m, true) else (buf_r, false)) := by
      split_ifs <;> rfl
    simp only [hc]
    have h3 (buf : List Nat) (pos : Nat) (ns : List Nat) (nl : Nat) (set : Option (List Nat))
        (sl : Nat) (d : Option (List Nat)) (dr : List Nat) :
        (write_fields K r buf pos ns nl set sl key d dr).ret.isSome
          = (write_fields K r [] 0 [] 0 none 0 key none []).ret.isSome :=
      write_fields_ret_isSome K r r buf [] pos 0 ns [] nl 0 set none sl 0 key d none dr []
    generalize hwA : write_fields K r _ _ ns (strlen ns) (some s) _ key digest d = wfA
    generalize hwB : write_fields K r _ _ ns (strlen ns) (some s) _ key digest d = wfB
    have e1 : wfA.ret.isSome = (write_fields K r [] 0 [] 0 none 0 key none []).ret.isSome := by
      rw [← hwA, h3]
    have e2 : wfB.ret.isSome = (write_fields K r [] 0 [] 0 none 0 key none []).ret.isSome := by
      rw [← hwB, h3]
    rw [← e2] at e1
    cases hX : wfA.ret <;> cases hY : wfB.ret <;> rw [hX, hY] at e1 <;>
      first
        | rfl
        | (simp at e1)

theorem fd_get_loop_fd (node : Nat) (fds : List Int) (log log' : List action) :
    Option.map Prod.snd (fd_get_loop node fds log)
      = Option.map Prod.snd (fd_get_loop node fds log') := by
  induction fds generalizing log log' with
  | nil => rfl
  | cons fd fds ih =>
    simp only [fd_get_loop]
    split_ifs
    · exact ih _ _
    · rfl

theorem restart_loop_exit (may_throttle : Bool) (n : Nat) (attempts : List restart_attempt)
    (w w' : engine) :
    Option.map Prod.snd (restart_loop may_throttle n attempts w)
      = Option.map Prod.snd (restart_loop may_throttle n attempts w') := by
  induction n generalizing attempts w w' with
  | zero => rfl
  | succ n ih =>
    cases attempts with
    | nil => rfl
    | cons a attempts =>
      simp only [restart_loop]
      cases a.node with
      | none => rfl
      | some node =>
        simp only
        split_ifs
        · rfl
        · have hfd := fd_get_loop_fd node a.fd_gets (w.log ++ [action.cl_cluster_node_get node])
            (w'.log ++ [action.cl_cluster_node_get node])
          cases hA : fd_get_loop node a.fd_gets (w.log ++ [action.cl_cluster_node_get node]) with
          | none =>
            cases hB : fd_get_loop node a.fd_gets
                (w'.log ++ [action.cl_cluster_node_get node]) with
            | none => rfl
            | some q => rw [hA, hB] at hfd; simp at hfd
          | some p =>
            cases hB : fd_get_loop node a.fd_gets
                (w'.log ++ [action.cl_cluster_node_get node]) with
            | none => rw [hA, hB] at hfd; simp at hfd
            | some q =>
              rw [hA, hB] at hfd
              simp only [Option.map_some', Option.some.injEq] at hfd
              obtain ⟨l1, fd1⟩ := p
              obtain ⟨l2, fd2⟩ := q
              simp only at hfd
              subst hfd
              simp only
              split_ifs
              · rfl
              · exact ih _ _ _

theorem restart_flag (w w' : engine) (may_throttle : Bool) (o : restart_oracle)
    (h1 : w'.req.timeout_ms = w.req.timeout_ms) (h2 : w'.req.start_time = w.req.start_time) :
    Option.map Prod.fst (ev2citrusleaf_restart w may_throttle o)
      = Option.map Prod.fst (ev2citrusleaf_restart w' may_throttle o) := by
  unfold ev2citrusleaf_restart
  rw [h1, h2]
  split_ifs
  · rfl
  · simp only
    generalize hA : restart_loop may_throttle 5 o.attempts _ = A
    generalize hB : restart_loop may_throttle 5 o.attempts _ = B
    have he : Option.map Prod.snd A = Option.map Prod.snd B := by
      rw [← hA, ← hB]
      exact restart_loop_exit _ _ _ _ _
    cases A with
    | none =>
      cases B with
      | none => rfl
      | some q => simp at he
    | some p =>
      cases B with
      | none => simp at he
      | some q =>
        obtain ⟨wa, ea⟩ := p
        obtain ⟨wb, eb⟩ := q
        simp only [Option.map_some', Option.some.injEq] at he
        subst he
        cases ea <;> rfl

theorem start_finish_rc (K : proto_h) (w w' : engine) (o : start_oracle)
    (c c' : compile_result) (write write' may_throttle : Bool)
    (h1 : w'.req.timeout_ms = w.req.timeout_ms) (h2 : w'.req.start_time = w.req.start_time)
    (hc : c.rc = c'.rc) :
    Option.map start_result.rc (start_finish K w o c write may_throttle)
      = Option.map start_result.rc (start_finish K w' o c' write' may_throttle) := by
  unfold start_finish
  simp only
  rw [← hc]
  split_ifs
  · rfl
  · generalize hA : ev2citrusleaf_restart _ may_throttle o.restart = A
    generalize hB : ev2citrusleaf_restart _ may_throttle o.restart = B
    have he : Option.map Prod.fst A = Option.map Prod.fst B := by
      rw [← hA, ← hB]
      exact restart_flag _ _ _ _ h1 h2
    cases A with
    | none =>
      cases B with
      | none => rfl
      | some q => simp at he
    | some p =>
      cases B with
      | none => simp at he
      | some q =>
        obtain ⟨fa, wa⟩ := p
        obtain ⟨fb, wb⟩ := q
        simp only [Option.map_some', Option.some.injEq] at he
        subst he
        cases fa <;> rfl

/-- A get with a bin name that with its terminator needs more than the name
buffer holds has no defined result: the `strcpy` of `ev2citrusleaf_get` and of
`ev2citrusleaf_get_digest` writes it past the end of the buffer, and nothing
before it looks at the length. -/
theorem get_overflows (K : proto_h) (o : start_oracle) (asc : cluster_stats)
    (malloc_ok : Bool) (stack : ev2citrusleaf_bin) (ns : List Nat) (set : Option (List Nat))
    (key : Option ev2citrusleaf_object) (digest : Option (List Nat))
    (bin_names : List (List Nat)) (timeout_ms : Int) (name : List Nat)
    (hn : name ∈ bin_names) (hlong : K.sizeof_bin_name < strcpy_extent name) :
    get_bins K stack bin_names = none
      ∧ ev2citrusleaf_get K o asc malloc_ok stack ns set key bin_names timeout_ms = none
      ∧ ev2citrusleaf_get_digest K o asc malloc_ok stack ns digest bin_names timeout_ms
        = none := by
  have hg : get_bins K stack bin_names = none := by
    unfold get_bins
    rw [if_neg]
    intro hall
    have hle := List.all_eq_true.mp hall name hn
    simp only [decide_eq_true_eq] at hle
    omega
  refine ⟨hg, ?_, ?_⟩
  · unfold ev2citrusleaf_get
    rw [hg]
  · unfold ev2citrusleaf_get_digest
    rw [hg]

/-- The get of the bin named `name_32` has no defined result. -/
theorem get_overflows_witness :
    name_32 ∈ [name_32] ∧ aerospike.sizeof_bin_name < strcpy_extent name_32
      ∧ get_long_name = none :=
  ⟨by decide, by decide,
    (get_overflows aerospike sample_start zero_stats true zero_bin [116, 101, 115, 116, 0]
      (some [115, 0]) (some (ev2citrusleaf_object_init_str zero_object [107, 49, 0])) none
      [name_32] 200 name_32 (by decide) (by decide)).2.1⟩

/-- A get whose call returns has filled its bins and gone through
`ev2citrusleaf_start`. -/
theorem get_as_start (K : proto_h) (o : start_oracle) (asc : cluster_stats)
    (malloc_ok : Bool) (stack : ev2citrusleaf_bin) (ns : List Nat) (set : Option (List Nat))
    (key : Option ev2citrusleaf_object) (digest : Option (List Nat))
    (bin_names : List (List Nat)) (timeout_ms : Int) (r : start_result)
    (h : ev2citrusleaf_get K o asc malloc_ok stack ns set key bin_names timeout_ms = some r
      ∨ ev2citrusleaf_get_digest K o asc malloc_ok stack ns digest bin_names timeout_ms
        = some r) :
    ∃ bins set' key' digest',
      ev2citrusleaf_start K o asc (cl_request_create malloc_ok timeout_ms none)
        K.CL_MSG_INFO1_READ 0 ns set' key' digest' none bins = some r := by
  rcases h with h | h
  · unfold ev2citrusleaf_get at h
    cases hb : get_bins K stack bin_names with
    | none => rw [hb] at h; exact absurd h (by simp)
    | some bins => rw [hb] at h; exact ⟨bins, set, key, none, h⟩
  · unfold ev2citrusleaf_get_digest at h
    cases hb : get_bins K stack bin_names with
    | none => rw [hb] at h; exact absurd h (by simp)
    | some bins => rw [hb] at h; exact ⟨bins, none, none, digest, h⟩

/-- C13 fails for get: a get of a bin whose name has 32 characters is not
refused with `CLIENT_ERROR`.  `ev2citrusleaf_get` copies the name with `strcpy`
into the 32-byte name buffer of the bin without looking at its length: the copy
stores 33 bytes, the last of them outside the buffer, and the call has no
defined result, so it does not return `CLIENT_ERROR`.  The name of 31
characters fills the buffer and its get returns `OK`.  The response decoder
`cl_set_value_particular` does look at the length: it leaves the bin as it is
for an op whose name has 33 characters. -/
theorem long_bin_name_overflows :
    strlen name_32 = 32 ∧ aerospike.sizeof_bin_name = 32
      ∧ strcpy_extent name_32 = 33
      ∧ Option.map List.length (get_bins aerospike zero_bin [name_32]) = none
      ∧ Option.map start_result.rc get_long_name = none
      ∧ Option.map start_result.rc get_long_name
        ≠ some aerospike.EV2CITRUSLEAF_FAIL_CLIENT_ERROR
      ∧ strcpy_extent name_31 = 32
      ∧ Option.map start_result.rc get_name_31 = some EV2CITRUSLEAF_OK
      ∧ cl_set_value_particular aerospike long_name_op zero_bin true = zero_bin := by
  decide

/-- The request encoder does not look at the length of a bin name: with a
`malloc` that succeeds, `ev2citrusleaf_start` returns the same code for two
lists of bins that hold the same values under whatever names, and
`ev2citrusleaf_start_op` returns the same code for any two lists of
operations. -/
theorem bin_names_do_not_decide_the_code (K : proto_h) (o : start_oracle)
    (asc : cluster_stats) (req : Option cl_request) (info1 info2 : Nat) (ns : List Nat)
    (set : Option (List Nat)) (key : Option ev2citrusleaf_object)
    (digest : Option (List Nat)) (wparam : Option ev2citrusleaf_write_parameters)
    (bins bins' : List ev2citrusleaf_bin) (ops ops' : List ev2citrusleaf_operation)
    (m : List Nat) (hm : o.mbuf = some m)
    (hb : bins.map ev2citrusleaf_bin.object = bins'.map ev2citrusleaf_bin.object) :
    Option.map start_result.rc
        (ev2citrusleaf_start K o asc req info1 info2 ns set key digest wparam bins)
      = Option.map start_result.rc
        (ev2citrusleaf_start K o asc req info1 info2 ns set key digest wparam bins')
    ∧ Option.map start_result.rc
        (ev2citrusleaf_start_op K o asc req ns set key digest ops wparam)
      = Option.map start_result.rc
        (ev2citrusleaf_start_op K o asc req ns set key digest ops' wparam) := by
  constructor
  · unfold ev2citrusleaf_start
    cases req with
    | none => rfl
    | some req =>
      simp only
      split
      · rfl
      · simp only [hm]
        exact start_finish_rc K _ _ o _ _ _ _ _ rfl rfl
          (compile_rc_names K o.ripemd160 info1 info2 ns set key digest wparam _ bins bins' _ _ m
            _ hb)
  · unfold ev2citrusleaf_start_op
    cases req with
    | none => rfl
    | some req =>
      simp only
      split
      · rfl
      · rename_i w hst
        simp only [hm]
        have hc := compile_ops_rc_names K o.ripemd160 ns set key digest ops ops' wparam
          (List.replicate K.sizeof_wr_tmp 0) K.sizeof_wr_tmp m w.req.d
        cases hA : compile_ops K o.ripemd160 ns set key digest ops wparam
            (List.replicate K.sizeof_wr_tmp 0) K.sizeof_wr_tmp (some m) w.req.d with
        | none =>
          cases hB : compile_ops K o.ripemd160 ns set key digest ops' wparam
              (List.replicate K.sizeof_wr_tmp 0) K.sizeof_wr_tmp (some m) w.req.d with
          | none => rfl
          | some cb => rw [hA, hB] at hc; simp at hc
        | some ca =>
          cases hB : compile_ops K o.ripemd160 ns set key digest ops' wparam
              (List.replicate K.sizeof_wr_tmp 0) K.sizeof_wr_tmp (some m) w.req.d with
          | none => rw [hA, hB] at hc; simp at hc
          | some cb =>
            rw [hA, hB] at hc
            simp only [Option.map_some', Option.some.injEq] at hc
            exact start_finish_rc K _ _ o _ _ _ _ _ rfl rfl hc

/-- With a `malloc` that succeeds, a put under the name `a` and a put under the
name `bb` return the same code. -/
theorem bin_names_do_not_decide_the_code_witness :
    sample_start_malloc.mbuf = some (List.replicate 4096 0)
      ∧ Option.map start_result.rc
          (ev2citrusleaf_start aerospike sample_start_malloc zero_stats
            (cl_request_create true 200 none) 0 1 [116, 101, 115, 116, 0] (some [115, 0]) none
            none none [⟨[97, 0], ev2citrusleaf_object_init zero_object⟩])
        = Option.map start_result.rc
          (ev2citrusleaf_start aerospike sample_start_malloc zero_stats
            (cl_request_create true 200 none) 0 1 [116, 101, 115, 116, 0] (some [115, 0]) none
            none none [⟨[98, 98, 0], ev2citrusleaf_object_init zero_object⟩]) :=
  ⟨rfl, (bin_names_do_not_decide_the_code aerospike sample_start_malloc zero_stats
    (cl_request_create true 200 none) 0 1 [116, 101, 115, 116, 0] (some [115, 0]) none none none
    [⟨[97, 0], ev2citrusleaf_object_init zero_object⟩]
    [⟨[98, 98, 0], ev2citrusleaf_object_init zero_object⟩] [] []
    (List.replicate 4096 0) rfl rfl).1⟩

/-! ### The throttled start -/

@[simp] theorem fds_acquired_nil : fds_acquired [] = 0 := rfl

@[simp] theorem fds_acquired_append (l1 l2 : List action) :
    fds_acquired (l1 ++ l2) = fds_acquired l1 + fds_acquired l2 := by
  simp [fds_acquired]

@[simp] theorem fds_acquired_cons_cons (a b : action) (l : List action) :
    fds_acquired (a :: b :: l) = fds_acquired [a] + fds_acquired (b :: l) := by
  simp only [fds_acquired, List.countP_cons, List.countP_nil]
  omega

@[simp] theorem fds_acquired_node_get (n : Nat) :
    fds_acquired [action.cl_cluster_node_get n] = 0 := rfl

@[simp] theorem fds_acquired_node_put (n : Nat) :
    fds_acquired [action.cl_cluster_node_put n] = 0 := rfl

@[simp] theorem fds_acquired_queue_push : fds_acquired [action.cf_queue_push] = 0 := rfl

@[simp] theorem fds_acquired_destroy : fds_acquired [action.cl_request_destroy] = 0 := rfl

@[simp] theorem fds_acquired_fd_get (n : Nat) (fd : Int) :
    fds_acquired [action.cl_cluster_node_fd_get n fd] = if fd > -1 then 1 else 0 := by
  by_cases h : fd > -1 <;> simp [fds_acquired, h]

theorem fd_get_loop_acquired (node : Nat) (gets : List Int) (log log' : List action) (fd : Int)
    (h : fd_get_loop node gets log = some (log', fd)) :
    fds_acquired log' = fds_acquired log + (if fd > -1 then 1 else 0) := by
  induction gets generalizing log with
  | nil => simp [fd_get_loop] at h
  | cons g gets ih =>
    unfold fd_get_loop at h
    split_ifs at h with hg
    · rw [ih _ h]
      subst hg
      simp
    · simp only [Option.some.injEq, Prod.mk.injEq] at h
      obtain ⟨rfl, rfl⟩ := h
      simp

/-- What the loop of `ev2citrusleaf_restart` does to the cluster's counters and
to the number of descriptors obtained: the throttled exit counts one throttle,
the exit with a good socket one descriptor, and nothing else changes. -/
theorem restart_loop_counts (may_throttle : Bool) (n : Nat) (attempts : List restart_attempt)
    (w w' : engine) (e : restart_exit)
    (h : restart_loop may_throttle n attempts w = some (w', e)) :
    (e = .throttled →
        w'.asc = { w.asc with n_req_throttles := w.asc.n_req_throttles + 1 })
      ∧ (e ≠ .throttled → w'.asc = w.asc)
      ∧ ((∀ node fd, e ≠ .got node fd) → fds_acquired w'.log = fds_acquired w.log)
      ∧ (∀ node fd, e = .got node fd → fds_acquired w'.log = fds_acquired w.log + 1) := by
  induction n generalizing attempts w with
  | zero =>
    simp only [restart_loop, Option.some.injEq, Prod.mk.injEq] at h
    obtain ⟨rfl, rfl⟩ := h
    simp
  | succ n ih =>
    cases attempts with
    | nil => simp [restart_loop] at h
    | cons a attempts =>
      unfold restart_loop at h
      cases hnode : a.node with
      | none =>
        simp only [hnode, Option.some.injEq, Prod.mk.injEq] at h
        obtain ⟨rfl, rfl⟩ := h
        simp
      | some node =>
        simp only [hnode] at h
        split_ifs at h with hth
        · simp only [Option.some.injEq, Prod.mk.injEq] at h
          obtain ⟨rfl, rfl⟩ := h
          simp
        · cases hloop : fd_get_loop node a.fd_gets (w.log ++ [action.cl_cluster_node_get node]) with
          | none => simp [hloop] at h
          | some r =>
            obtain ⟨log, fd⟩ := r
            have g := fd_get_loop_acquired _ _ _ _ _ hloop
            simp only [hloop] at h
            split_ifs at h with hfd
            · simp only [Option.some.injEq, Prod.mk.injEq] at h
              obtain ⟨rfl, rfl⟩ := h
              simp only [hfd, if_true] at g
              simp [g]
            · simp only [hfd, if_false] at g
              have := ih attempts _ h
              simpa [g] using this

theorem start_timer_armed (t : Int) (wparam : Option ev2citrusleaf_write_parameters)
    (req : cl_request) (asc : cluster_stats) (o : start_oracle)
    (hreq : cl_request_create true t wparam = some req) (ht : 0 ≤ t)
    (htim : t = 0 ∨ o.evtimer_add_ok = true) :
    (start_timer (engine_init req asc) o).1 = true
      ∧ (start_timer (engine_init req asc) o).2.asc = asc
      ∧ (start_timer (engine_init req asc) o).2.log = []
      ∧ (start_timer (engine_init req asc) o).2.req.timeout_ms = t
      ∧ (start_timer (engine_init req asc) o).2.req.d = List.replicate sizeof_cf_digest 0
      ∧ (start_timer (engine_init req asc) o).2.req.network_set = false
      ∧ (start_timer (engine_init req asc) o).2.req.wpol = req.wpol := by
  simp only [cl_request_create, if_true, Option.some.injEq] at hreq
  subst hreq
  have hneg : ¬ t < 0 := by omega
  unfold start_timer engine_init
  by_cases h0 : t = 0
  · cases hc : o.cross_threaded <;> simp [h0]
  · have hadd : o.evtimer_add_ok = true := by
      rcases htim with h | h
      · exact absurd h h0
      · exact h
    cases hc : o.cross_threaded <;> simp [h0, hneg, hadd]

theorem start_failed_frame (w : engine) :
    (start_failed w).asc = w.asc ∧ fds_acquired (start_failed w).log = fds_acquired w.log
      ∧ (start_failed w).req.fd = w.req.fd ∧ (start_failed w).req.node = w.req.node
      ∧ (start_failed w).req.network_set = w.req.network_set
      ∧ (start_failed w).network_event = w.network_event
      ∧ (start_failed w).request_q = w.request_q := by
  unfold start_failed cl_request_destroy
  split_ifs <;> simp

theorem restart_loop_frame (may_throttle : Bool) (n : Nat) (attempts : List restart_attempt)
    (w w' : engine) (e : restart_exit)
    (h : restart_loop may_throttle n attempts w = some (w', e)) :
    w'.req = w.req ∧ w'.network_event = w.network_event
      ∧ w'.timeout_event = w.timeout_event ∧ w'.destroyed = w.destroyed
      ∧ (e ≠ .no_node → w'.request_q = w.request_q) := by
  induction n generalizing attempts w with
  | zero =>
    simp only [restart_loop, Option.some.injEq, Prod.mk.injEq] at h
    obtain ⟨rfl, rfl⟩ := h
    simp
  | succ n ih =>
    cases attempts with
    | nil => simp [restart_loop] at h
    | cons a attempts =>
      unfold restart_loop at h
      cases hnode : a.node with
      | none =>
        simp only [hnode, Option.some.injEq, Prod.mk.injEq] at h
        obtain ⟨rfl, rfl⟩ := h
        simp
      | some node =>
        simp only [hnode] at h
        split_ifs at h with hth
        · simp only [Option.some.injEq, Prod.mk.injEq] at h
          obtain ⟨rfl, rfl⟩ := h
          simp
        · cases hloop : fd_get_loop node a.fd_gets (w.log ++ [action.cl_cluster_node_get node]) with
          | none => simp [hloop] at h
          | some r =>
            obtain ⟨log, fd⟩ := r
            simp only [hloop] at h
            split_ifs at h with hfd
            · simp only [Option.some.injEq, Prod.mk.injEq] at h
              obtain ⟨rfl, rfl⟩ := h
              simp
            · simpa using ih attempts _ h

/-- A restart that is not late and whose loop ends in the throttle branch
returns false; it counts one throttle, obtains no descriptor and leaves the
request without node and descriptor and the network event as it was. -/
theorem restart_throttled (w w0 : engine) (may_throttle : Bool) (o : restart_oracle)
    (hlate : ¬ (w.req.timeout_ms > 0 ∧ w.req.start_time + w.req.timeout_ms < o.now))
    (hexit : Option.map Prod.snd (restart_loop may_throttle 5 o.attempts w0)
      = some restart_exit.throttled) :
    ∃ w', ev2citrusleaf_restart w may_throttle o = some (false, w')
      ∧ w'.asc = { w.asc with n_req_throttles := w.asc.n_req_throttles + 1 }
      ∧ fds_acquired w'.log = fds_acquired w.log
      ∧ w'.req.fd = -1 ∧ w'.req.node = none ∧ w'.req.network_set = w.req.network_set
      ∧ w'.network_event = w.network_event ∧ w'.request_q = w.request_q := by
  unfold ev2citrusleaf_restart
  rw [if_neg hlate]
  simp only
  generalize hw1 : ({ w with req := { w.req with
    wr_buf_pos := 0, rd_buf_pos := 0, rd_header_pos := 0, node := none, fd := -1 } } : engine)
    = w1
  rw [restart_loop_exit may_throttle 5 o.attempts w0 w1] at hexit
  cases hloop : restart_loop may_throttle 5 o.attempts w1 with
  | none => rw [hloop] at hexit; simp at hexit
  | some p =>
    obtain ⟨w2, e⟩ := p
    rw [hloop] at hexit
    simp only [Option.map_some', Option.some.injEq] at hexit
    subst hexit
    obtain ⟨c1, -, c3, -⟩ := restart_loop_counts _ _ _ _ _ _ hloop
    obtain ⟨f1, f2, -, -, f5⟩ := restart_loop_frame _ _ _ _ _ _ hloop
    subst hw1
    refine ⟨w2, rfl, ?_, ?_, ?_, ?_, ?_, ?_, ?_⟩
    · rw [c1 rfl]
    · rw [c3 (by simp)]
    · rw [f1]
    · rw [f1]
    · rw [f1]
    · rw [f2]
    · rw [f5 (by simp)]

/-- The end of a start call whose initial restart may throttle, is not late
and ends in the throttle branch. -/
theorem start_finish_throttled (K : proto_h) (w w0 : engine) (o : start_oracle)
    (c : compile_result) (write : Bool) (hc : c.rc = 0)
    (hlate : ¬ (w.req.timeout_ms > 0 ∧ w.req.start_time + w.req.timeout_ms < o.restart.now))
    (hexit : Option.map Prod.snd (restart_loop true 5 o.restart.attempts w0)
      = some restart_exit.throttled) :
    ∃ w5, start_finish K w o c write true
        = some ⟨K.EV2CITRUSLEAF_FAIL_THROTTLED, some (start_failed w5)⟩
      ∧ w5.asc = { w.asc with n_req_throttles := w.asc.n_req_throttles + 1 }
      ∧ fds_acquired w5.log = fds_acquired w.log
      ∧ w5.req.fd = -1 ∧ w5.req.node = none ∧ w5.req.network_set = w.req.network_set := by
  obtain ⟨w5, r1, r2, r3, r4, r5, r6, -, -⟩ := restart_throttled
    { w with req := { w.req with
        wr_buf := c.buf, wr_buf_size := c.buf_size, wr_buf_malloced := c.malloced,
        d := c.digest, write := write } } w0 true o.restart hlate hexit
  refine ⟨w5, ?_, r2, r3, r4, r5, r6⟩
  unfold start_finish
  simp only [hc, ne_eq, not_true_eq_false, if_false]
  rw [r1]

/-- What a start call leaves behind whose initial restart is reached, may
throttle and ends in the throttle branch. -/
theorem start_throttled_spec (K : proto_h) (o : start_oracle) (asc : cluster_stats)
    (timeout_ms : Int) (wp : Option ev2citrusleaf_write_parameters) (req : cl_request)
    (info1 info2 : Nat) (ns : List Nat) (set : Option (List Nat))
    (key : Option ev2citrusleaf_object) (digest : Option (List Nat))
    (wparam : Option ev2citrusleaf_write_parameters) (bins : List ev2citrusleaf_bin)
    (hreq : cl_request_create true timeout_ms wp = some req) (ht : 0 ≤ timeout_ms)
    (htim : timeout_ms = 0 ∨ o.evtimer_add_ok = true)
    (hc : (compile K o.ripemd160 info1 info2 ns set key digest wparam (to_u32 timeout_ms) bins
      (List.replicate K.sizeof_wr_tmp 0) K.sizeof_wr_tmp o.mbuf
      (List.replicate sizeof_cf_digest 0)).rc = 0)
    (hlate : ¬ (timeout_ms > 0 ∧ o.now + timeout_ms < o.restart.now))
    (hmt : (if info2 &&& K.CL_MSG_INFO2_WRITE ≠ 0 then o.throttle_writes
      else o.throttle_reads) = true)
    (hexit : Option.map Prod.snd (restart_loop true 5 o.restart.attempts (engine_init req asc))
      = some restart_exit.throttled) :
    ∃ w : engine,
      ev2citrusleaf_start K o asc (some req) info1 info2 ns set key digest wparam bins
          = some ⟨K.EV2CITRUSLEAF_FAIL_THROTTLED, some w⟩
        ∧ node_ledger w.log = some none ∧ w.req.node = none
        ∧ w.asc.n_req_throttles = asc.n_req_throttles + 1
        ∧ fds_acquired w.log = 0 ∧ w.req.fd = -1
        ∧ w.network_event.pending = false ∧ w.req.network_set = false
        ∧ w.asc.requests_in_progress = asc.requests_in_progress
        ∧ ∀ (es : List event) (w' : engine), run K w es = some w' → callbacks w'.log = 0 := by
  obtain ⟨a1, a2, a3, a4, a5, a6, -⟩ := start_timer_armed timeout_ms wp req asc o hreq ht htim
  obtain ⟨-, hT⟩ := start_timer_spec timeout_ms wp req asc o hreq
  obtain ⟨-, t2, -, -, -, -⟩ := hT a1
  have hmt' : (if decide (info2 &&& K.CL_MSG_INFO2_WRITE ≠ 0) = true then o.throttle_writes
      else o.throttle_reads) = true := by
    by_cases hw : info2 &&& K.CL_MSG_INFO2_WRITE ≠ 0
    · simpa [hw] using hmt
    · simpa [hw] using hmt
  cases hS : start_timer (engine_init req asc) o with
  | mk b w1 =>
    rw [hS] at a1 a2 a3 a4 a5 a6 t2
    simp only at a1 a2 a3 a4 a5 a6 t2
    subst a1
    have hc' : (compile K o.ripemd160 info1 info2 ns set key digest wparam
        (to_u32 w1.req.timeout_ms) bins (List.replicate K.sizeof_wr_tmp 0) K.sizeof_wr_tmp
        o.mbuf w1.req.d).rc = 0 := by
      rw [a4, a5]
      exact hc
    obtain ⟨w5, r1, r2, r3, r4, r5, r6⟩ := start_finish_throttled K
      { w1 with req := { w1.req with start_time := o.now, ns := ns } } (engine_init req asc) o
      (compile K o.ripemd160 info1 info2 ns set key digest wparam
        (to_u32 w1.req.timeout_ms) bins (List.replicate K.sizeof_wr_tmp 0) K.sizeof_wr_tmp
        o.mbuf w1.req.d)
      (decide (info2 &&& K.CL_MSG_INFO2_WRITE ≠ 0)) hc' (by simpa [a4] using hlate) hexit
    have hcall : ev2citrusleaf_start K o asc (some req) info1 info2 ns set key digest wparam bins
        = some ⟨K.EV2CITRUSLEAF_FAIL_THROTTLED, some (start_failed w5)⟩ := by
      unfold ev2citrusleaf_start
      simp only [hS, hmt']
      exact r1
    obtain ⟨s1, s2, s3, s4, s5, s6, s7⟩ := start_failed_frame w5
    have hspec := start_spec K o asc true timeout_ms wp info1 info2 ns set key digest wparam bins
      ⟨K.EV2CITRUSLEAF_FAIL_THROTTLED, some (start_failed w5)⟩ (by rw [hreq]; exact hcall)
    have hfail : engine_failed (start_failed w5) := by
      rcases hspec with ⟨hn, -⟩ | ⟨w0, hw0, hs⟩
      · simp at hn
      · simp only [Option.some.injEq] at hw0
        subst hw0
        rcases hs with ⟨hrc, -⟩ | ⟨-, hf⟩
        · exact absurd hrc.symm (ok_ne_fail K).2
        · exact hf
    refine ⟨start_failed w5, hcall, hfail.nodes, ?_, ?_, ?_, ?_, hfail.no_network, ?_, ?_, ?_⟩
    · rw [s4, r5]
    · rw [s1, r2]
      simp [a2]
    · rw [s2, r3]
      simp [a3]
    · rw [s3, r4]
    · rw [s5, r6]
      simp [a6]
    · rw [s1, r2]
      simp [a2]
    · intro es w' hrun
      exact (run_failed K es _ w' hfail hrun).no_callback

theorem restart_loop_unthrottled (n : Nat) (attempts : List restart_attempt) (w w' : engine)
    (e : restart_exit) (h : restart_loop false n attempts w = some (w', e)) :
    e ≠ .throttled := by
  induction n generalizing attempts w with
  | zero =>
    simp only [restart_loop, Option.some.injEq, Prod.mk.injEq] at h
    obtain ⟨-, rfl⟩ := h
    simp
  | succ n ih =>
    cases attempts with
    | nil => simp [restart_loop] at h
    | cons a attempts =>
      unfold restart_loop at h
      cases hnode : a.node with
      | none =>
        simp only [hnode, Option.some.injEq, Prod.mk.injEq] at h
        obtain ⟨-, rfl⟩ := h
        simp
      | some node =>
        simp only [hnode, Bool.false_eq_true, false_and, if_false] at h
        cases hloop : fd_get_loop node a.fd_gets (w.log ++ [action.cl_cluster_node_get node]) with
        | none => simp [hloop] at h
        | some r =>
          obtain ⟨log, fd⟩ := r
          simp only [hloop] at h
          split_ifs at h with hfd
          · simp only [Option.some.injEq, Prod.mk.injEq] at h
            obtain ⟨-, rfl⟩ := h
            simp
          · exact ih attempts _ h

/-- The flag `ev2citrusleaf_restart` returns and the throttle counter: the
restart returns false only if it may throttle, and then it has counted one
throttle; otherwise the cluster's counters are as before. -/
theorem restart_throttles (w w' : engine) (may_throttle b : Bool) (o : restart_oracle)
    (h : ev2citrusleaf_restart w may_throttle o = some (b, w')) :
    (b = false → may_throttle = true
        ∧ w'.asc = { w.asc with n_req_throttles := w.asc.n_req_throttles + 1 })
      ∧ (b = true → w'.asc = w.asc) := by
  unfold ev2citrusleaf_restart at h
  split_ifs at h with hlate
  · simp only [Option.some.injEq, Prod.mk.injEq] at h
    obtain ⟨rfl, rfl⟩ := h
    simp
  · simp only at h
    split at h
    · exact absurd h (by simp)
    · rename_i w2 hloop
      simp only [Option.some.injEq, Prod.mk.injEq] at h
      obtain ⟨rfl, rfl⟩ := h
      obtain ⟨-, c2, -, -⟩ := restart_loop_counts _ _ _ _ _ _ hloop
      simpa using c2 (by simp)
    · rename_i w2 hloop
      simp only [Option.some.injEq, Prod.mk.injEq] at h
      obtain ⟨rfl, rfl⟩ := h
      obtain ⟨c1, -, -, -⟩ := restart_loop_counts _ _ _ _ _ _ hloop
      refine ⟨fun _ => ⟨?_, by simpa using c1 rfl⟩, fun hb => absurd hb (by simp)⟩
      cases may_throttle with
      | true => rfl
      | false => exact absurd rfl (restart_loop_unthrottled _ _ _ _ _ hloop)
    · rename_i w2 hloop
      simp only [Option.some.injEq, Prod.mk.injEq] at h
      obtain ⟨rfl, rfl⟩ := h
      obtain ⟨-, c2, -, -⟩ := restart_loop_counts _ _ _ _ _ _ hloop
      simpa using c2 (by simp)
    · rename_i w2 node fd hloop
      simp only [Option.some.injEq, Prod.mk.injEq] at h
      obtain ⟨rfl, rfl⟩ := h
      obtain ⟨-, c2, -, -⟩ := restart_loop_counts _ _ _ _ _ _ hloop
      simpa using c2 (by simp)

theorem start_timer_asc (w : engine) (o : start_oracle) :
    (start_timer w o).2.asc = w.asc := by
  unfold start_timer cl_request_destroy
  cases o.cross_threaded <;> simp only [if_true, if_false, Bool.false_eq_true] <;>
    split_ifs <;> rfl

/-- The end of a start call and the throttle counter: the call returns
`THROTTLED` only if its restart may throttle, and then one throttle was
counted; otherwise the counter is as before. -/
theorem start_finish_throttles (K : proto_h) (w : engine) (o : start_oracle)
    (c : compile_result) (write may_throttle : Bool) (r : start_result)
    (h : start_finish K w o c write may_throttle = some r) :
    (r.rc = K.EV2CITRUSLEAF_FAIL_THROTTLED → may_throttle = true)
      ∧ ∀ w0, r.w = some w0 →
        w0.asc.n_req_throttles = w.asc.n_req_throttles
            + (if r.rc = K.EV2CITRUSLEAF_FAIL_THROTTLED then 1 else 0) := by
  have hne := K.result_codes_nodup
  simp only [List.nodup_cons, List.mem_cons, not_or] at hne
  have h1 : K.EV2CITRUSLEAF_FAIL_CLIENT_ERROR ≠ K.EV2CITRUSLEAF_FAIL_THROTTLED :=
    hne.2.2.1.1
  have h2 : EV2CITRUSLEAF_OK ≠ K.EV2CITRUSLEAF_FAIL_THROTTLED := (ok_ne_fail K).2
  unfold start_finish at h
  simp only at h
  split_ifs at h with hc
  · simp only [Option.some.injEq] at h
    subst h
    refine ⟨fun hb => absurd hb h1, fun w0 hw0 => ?_⟩
    simp only [Option.some.injEq] at hw0
    subst hw0
    simp [(start_failed_frame _).1, h1]
  · split at h
    · exact absurd h (by simp)
    · rename_i w1 hr
      simp only [Option.some.injEq] at h
      subst h
      obtain ⟨g1, -⟩ := restart_throttles _ _ _ _ _ hr
      obtain ⟨g2, g3⟩ := g1 rfl
      refine ⟨fun _ => g2, fun w0 hw0 => ?_⟩
      simp only [Option.some.injEq] at hw0
      subst hw0
      simp [(start_failed_frame _).1, g3]
    · rename_i w1 hr
      simp only [Option.some.injEq] at h
      subst h
      obtain ⟨-, g1⟩ := restart_throttles _ _ _ _ _ hr
      have g2 := g1 rfl
      refine ⟨fun hb => absurd hb h2, fun w0 hw0 => ?_⟩
      simp only [Option.some.injEq] at hw0
      subst hw0
      simp [g2, h2]

theorem start_throttles (K : proto_h) (o : start_oracle) (asc : cluster_stats)
    (req : Option cl_request) (info1 info2 : Nat) (ns : List Nat) (set : Option (List Nat))
    (key : Option ev2citrusleaf_object) (digest : Option (List Nat))
    (wparam : Option ev2citrusleaf_write_parameters) (bins : List ev2citrusleaf_bin)
    (r : start_result)
    (h : ev2citrusleaf_start K o asc req info1 info2 ns set key digest wparam bins = some r) :
    (r.rc = K.EV2CITRUSLEAF_FAIL_THROTTLED →
        (if info2 &&& K.CL_MSG_INFO2_WRITE ≠ 0 then o.throttle_writes else o.throttle_reads)
          = true)
      ∧ ∀ w0, r.w = some w0 →
        w0.asc.n_req_throttles = asc.n_req_throttles
            + (if r.rc = K.EV2CITRUSLEAF_FAIL_THROTTLED then 1 else 0) := by
  have hne := K.result_codes_nodup
  simp only [List.nodup_cons, List.mem_cons, not_or] at hne
  have h1 : K.EV2CITRUSLEAF_FAIL_CLIENT_ERROR ≠ K.EV2CITRUSLEAF_FAIL_THROTTLED :=
    hne.2.2.1.1
  unfold ev2citrusleaf_start at h
  split at h
  · simp only [Option.some.injEq] at h
    subst h
    exact ⟨fun hb => absurd hb h1, fun w0 hw0 => absurd hw0 (by simp)⟩
  · rename_i req
    have hasc := start_timer_asc (engine_init req asc) o
    split at h
    · rename_i w1 hst
      simp only [Option.some.injEq] at h
      subst h
      refine ⟨fun hb => absurd hb h1, fun w0 hw0 => ?_⟩
      simp only [Option.some.injEq] at hw0
      subst hw0
      rw [hst] at hasc
      simp only at hasc
      simp [hasc, h1, engine_init]
    · rename_i w1 hst
      rw [hst] at hasc
      simp only [engine_init] at hasc
      obtain ⟨g1, g2⟩ := start_finish_throttles K _ o _ _ _ r h
      refine ⟨fun hb => ?_, fun w0 hw0 => ?_⟩
      · have := g1 hb
        by_cases hw : info2 &&& K.CL_MSG_INFO2_WRITE ≠ 0
        · simpa [hw] using this
        · simpa [hw] using this
      · have := g2 w0 hw0
        simpa [hasc] using this

theorem start_op_throttles (K : proto_h) (o : start_oracle) (asc : cluster_stats)
    (req : Option cl_request) (ns : List Nat) (set : Option (List Nat))
    (key : Option ev2citrusleaf_object) (digest : Option (List Nat))
    (ops : List ev2citrusleaf_operation) (wparam : Option ev2citrusleaf_write_parameters)
    (r : start_result)
    (h : ev2citrusleaf_start_op K o asc req ns set key digest ops wparam = some r) :
    r.rc ≠ K.EV2CITRUSLEAF_FAIL_THROTTLED
      ∧ ∀ w0, r.w = some w0 → w0.asc.n_req_throttles = asc.n_req_throttles := by
  have hne := K.result_codes_nodup
  simp only [List.nodup_cons, List.mem_cons, not_or] at hne
  have h1 : K.EV2CITRUSLEAF_FAIL_CLIENT_ERROR ≠ K.EV2CITRUSLEAF_FAIL_THROTTLED :=
    hne.2.2.1.1
  unfold ev2citrusleaf_start_op at h
  split at h
  · simp only [Option.some.injEq] at h
    subst h
    exact ⟨h1, fun w0 hw0 => absurd hw0 (by simp)⟩
  · rename_i req
    have hasc := start_timer_asc (engine_init req asc) o
    split at h
    · rename_i w1 hst
      simp only [Option.some.injEq] at h
      subst h
      refine ⟨h1, fun w0 hw0 => ?_⟩
      simp only [Option.some.injEq] at hw0
      subst hw0
      rw [hst] at hasc
      simp only at hasc
      simp [hasc, engine_init]
    · rename_i w1 hst
      rw [hst] at hasc
      simp only [engine_init] at hasc
      simp only at h
      split at h
      · exact absurd h (by simp)
      · obtain ⟨g1, g2⟩ := start_finish_throttles K _ o _ _ _ r h
        have hrc : r.rc ≠ K.EV2CITRUSLEAF_FAIL_THROTTLED := fun hb => by
          have := g1 hb
          simp at this
        refine ⟨hrc, fun w0 hw0 => ?_⟩
        have := g2 w0 hw0
        simpa [hasc, hrc] using this

theorem request_complete_throttles (K : proto_h) (w : engine) (timedout : Bool)
    (o : complete_oracle) :
    (ev2citrusleaf_request_complete K w timedout o).asc.n_req_throttles
      = w.asc.n_req_throttles := by
  obtain ⟨req, ds, te, ne, q, asc, log⟩ := w
  obtain ⟨tms, wpol, ctl, ctld, node, fd, ts, ns, bhs, wr, st, nsp, d, wb, wbs, wbp, wbm, rhb, rhp,
    rb, rbs, rbp⟩ := req
  by_cases hfd : fd > -1 <;> cases timedout <;> cases node <;> cases ts <;> cases ns <;>
    cases bhs <;>
    simp [ev2citrusleaf_request_complete, cl_request_destroy, hfd] <;>
    split_ifs <;> rfl

theorem restart_unthrottled (w w' : engine) (b : Bool) (o : restart_oracle)
    (h : ev2citrusleaf_restart w false o = some (b, w')) :
    b = true ∧ w'.asc = w.asc := by
  obtain ⟨g1, g2⟩ := restart_throttles _ _ _ _ _ h
  cases b with
  | false => exact absurd (g1 rfl).1 (by simp)
  | true => exact ⟨rfl, g2 rfl⟩

theorem event_fail_throttles (K : proto_h) (w w' : engine) (fd : Int) (o : network_oracle)
    (h : ev2citrusleaf_event_fail K w fd o = some w') :
    w'.asc.n_req_throttles = w.asc.n_req_throttles := by
  unfold ev2citrusleaf_event_fail at h
  simp only at h
  split_ifs at h with hw
  · simp only [Option.some.injEq] at h
    subst h
    rw [request_complete_throttles]
    cases w.req.node <;> rfl
  · split at h
    · exact absurd h (by simp)
    · rename_i b w1 hr
      simp only [Option.some.injEq] at h
      subst h
      rw [(restart_unthrottled _ _ _ _ hr).2]
      cases w.req.node <;> rfl

theorem event_recv_body_throttles (K : proto_h) (w w' : engine) (fd : Int)
    (o : network_oracle) (h : event_recv_body K w fd o = some w') :
    w'.asc.n_req_throttles = w.asc.n_req_throttles := by
  unfold event_recv_body at h
  simp only at h
  split_ifs at h
  all_goals first
    | exact event_fail_throttles K w w' fd o h
    | (simp only [Option.some.injEq] at h
       subst h
       first
         | rfl
         | (rw [request_complete_throttles]))

theorem event_send_throttles (K : proto_h) (w w' : engine) (fd : Int)
    (o : network_oracle) (h : event_send K w fd o = some w') :
    w'.asc.n_req_throttles = w.asc.n_req_throttles := by
  unfold event_send at h
  simp only at h
  split_ifs at h
  all_goals first
    | exact event_fail_throttles K w w' fd o h
    | (simp only [Option.some.injEq] at h
       subst h
       rfl)

theorem event_recv_header_asc (w w' : engine) (o : network_oracle)
    (h : event_recv_header w o = some w') : w'.asc = w.asc := by
  unfold event_recv_header at h
  simp only at h
  split_ifs at h
  all_goals
    simp only [Option.some.injEq] at h
    subst h
    rfl

theorem event_init_rd_buf_asc (K : proto_h) (w : engine) (o : network_oracle) :
    (event_init_rd_buf K w o).1.asc = w.asc := by
  unfold event_init_rd_buf
  simp only
  split_ifs
  · rfl
  · cases o.rd_malloc <;> rfl
  · rfl

theorem event_throttles (K : proto_h) (w w' : engine) (fd : Int) (ev_write : Bool)
    (o : network_oracle) (h : ev2citrusleaf_event K w fd ev_write o = some w') :
    w'.asc.n_req_throttles = w.asc.n_req_throttles := by
  unfold ev2citrusleaf_event at h
  simp only at h
  split_ifs at h with hw
  · have := event_send_throttles K _ w' fd o h
    exact this
  · split at h
    · have := event_fail_throttles K _ w' fd o h
      exact this
    · rename_i w1 hh
      have e1 := event_recv_header_asc _ _ _ hh
      split_ifs at h
      · have e2 := event_init_rd_buf_asc K w1 o
        split at h
        · rename_i w2 hi
          rw [hi] at e2
          rw [event_fail_throttles K _ w' fd o h, e2, e1]
        · rename_i w2 hi
          rw [hi] at e2
          rw [event_recv_body_throttles K _ w' fd o h, e2, e1]
      · simp only [Option.some.injEq] at h
        subst h
        show w1.asc.n_req_throttles = _
        rw [e1]

/-- No event changes the throttle counter: the restarts of the fail path and of
the base-hop event never throttle. -/
theorem step_throttles (K : proto_h) (w w' : engine) (e : event)
    (h : step K w e = some w') : w'.asc.n_req_throttles = w.asc.n_req_throttles := by
  cases e with
  | network o =>
    simp only [step] at h
    split_ifs at h
    have := event_throttles K _ w' _ _ o h
    exact this
  | timer o =>
    simp only [step] at h
    split_ifs at h
    simp only [Option.some.injEq] at h
    subst h
    unfold ev2citrusleaf_timer_expired
    split_ifs
    · rfl
    · rw [request_complete_throttles]
  | cluster_pop ok =>
    simp only [step] at h
    split_ifs at h
    simp only [Option.some.injEq] at h
    subst h
    unfold ev2citrusleaf_base_hop
    cases ok <;> rfl
  | base_hop o =>
    simp only [step] at h
    split_ifs at h
    unfold ev2citrusleaf_base_hop_event at h
    simp only at h
    split at h
    · exact absurd h (by simp)
    · rename_i b w1 hr
      simp only [Option.some.injEq] at h
      subst h
      rw [(restart_unthrottled _ _ _ _ hr).2]

theorem or_and_self_left (a b : Nat) : (a ||| b) &&& a = a := by
  apply Nat.eq_of_testBit_eq
  intro i
  simp only [Nat.testBit_and, Nat.testBit_or]
  cases a.testBit i <;> cases b.testBit i <;> rfl

/-- C15 fails for operate.  On a cluster whose runtime options throttle reads
and writes and whose node asks to drop the transaction, a restart that may
throttle returns false and the put returns `THROTTLED`; the operate call writing
the same value returns `OK` and no throttle is counted: its initial restart was
called with `may_throttle` false, although the request is a write and
`throttle_writes` is set. -/
theorem operate_is_not_throttled :
    throttling_all.throttle_reads = true ∧ throttling_all.throttle_writes = true
      ∧ Option.map Prod.fst
          (ev2citrusleaf_restart (engine_init get_request zero_stats) true throttling_all.restart)
        = some false
      ∧ Option.map start_result.rc put_throttling
        = some aerospike.EV2CITRUSLEAF_FAIL_THROTTLED
      ∧ Option.map start_result.rc operate_throttling = some EV2CITRUSLEAF_OK
      ∧ operate_throttling_started.asc.n_req_throttles = 0 := by
  decide

/-- How the calls throttle.  (1) `ev2citrusleaf_start`, which get, get_all,
put, delete and their digest variants call, returns `THROTTLED` only if the
runtime option matching the kind of the request is set (`throttle_writes` when
`info2` has the write bit, else `throttle_reads`), and it counts a throttle
exactly then.  (2) With that option set, a created request whose timer is armed,
whose request `compile` accepts and whose deadline has not passed is throttled
as soon as the restart loop, run with `may_throttle` true, ends in its throttle
branch.  (3) `ev2citrusleaf_start_op`, which operate and operate_digest call,
hands the literal `false` to its initial restart: its `return THROTTLED` is
not reached and it counts no throttle, whatever the options are.  (4) No
event -- network, timer, queue pop or base hop -- counts a throttle: the later
restarts are called with `may_throttle` false.  (5) `info2` is 0 for get and
get_all, the write bit for put, the write and the delete bit for delete: reads
go by `throttle_reads`, writes by `throttle_writes`. -/
theorem may_throttle_by_call (K : proto_h) :
    (∀ (o : start_oracle) (asc : cluster_stats) (req : Option cl_request) (info1 info2 : Nat)
        (ns : List Nat) (set : Option (List Nat)) (key : Option ev2citrusleaf_object)
        (digest : Option (List Nat)) (wparam : Option ev2citrusleaf_write_parameters)
        (bins : List ev2citrusleaf_bin) (r : start_result),
        ev2citrusleaf_start K o asc req info1 info2 ns set key digest wparam bins = some r →
        (r.rc = K.EV2CITRUSLEAF_FAIL_THROTTLED →
            (if info2 &&& K.CL_MSG_INFO2_WRITE ≠ 0 then o.throttle_writes
              else o.throttle_reads) = true)
          ∧ ∀ w0, r.w = some w0 →
            w0.asc.n_req_throttles = asc.n_req_throttles
              + (if r.rc = K.EV2CITRUSLEAF_FAIL_THROTTLED then 1 else 0))
      ∧ (∀ (o : start_oracle) (asc : cluster_stats) (timeout_ms : Int)
        (wp : Option ev2citrusleaf_write_parameters) (req : cl_request) (info1 info2 : Nat)
        (ns : List Nat) (set : Option (List Nat)) (key : Option ev2citrusleaf_object)
        (digest : Option (List Nat)) (wparam : Option ev2citrusleaf_write_parameters)
        (bins : List ev2citrusleaf_bin),
        cl_request_create true timeout_ms wp = some req → 0 ≤ timeout_ms →
        (timeout_ms = 0 ∨ o.evtimer_add_ok = true) →
        (compile K o.ripemd160 info1 info2 ns set key digest wparam (to_u32 timeout_ms) bins
          (List.replicate K.sizeof_wr_tmp 0) K.sizeof_wr_tmp o.mbuf
          (List.replicate sizeof_cf_digest 0)).rc = 0 →
        ¬ (timeout_ms > 0 ∧ o.now + timeout_ms < o.restart.now) →
        (if info2 &&& K.CL_MSG_INFO2_WRITE ≠ 0 then o.throttle_writes
          else o.throttle_reads) = true →
        Option.map Prod.snd (restart_loop true 5 o.restart.attempts (engine_init req asc))
          = some restart_exit.throttled →
        Option.map start_result.rc
            (ev2citrusleaf_start K o asc (some req) info1 info2 ns set key digest wparam bins)
          = some K.EV2CITRUSLEAF_FAIL_THROTTLED)
      ∧ (∀ (o : start_oracle) (asc : cluster_stats) (req : Option cl_request) (ns : List Nat)
        (set : Option (List Nat)) (key : Option ev2citrusleaf_object)
        (digest : Option (List Nat)) (ops : List ev2citrusleaf_operation)
        (wparam : Option ev2citrusleaf_write_parameters) (r : start_result),
        ev2citrusleaf_start_op K o asc req ns set key digest ops wparam = some r →
        r.rc ≠ K.EV2CITRUSLEAF_FAIL_THROTTLED
          ∧ ∀ w0, r.w = some w0 → w0.asc.n_req_throttles = asc.n_req_throttles)
      ∧ (∀ (w w' : engine) (e : event), step K w e = some w' →
        w'.asc.n_req_throttles = w.asc.n_req_throttles)
      ∧ (∀ (o : start_oracle),
        (if 0 &&& K.CL_MSG_INFO2_WRITE ≠ 0 then o.throttle_writes else o.throttle_reads)
            = o.throttle_reads
          ∧ (K.CL_MSG_INFO2_WRITE ≠ 0 →
            (if K.CL_MSG_INFO2_WRITE &&& K.CL_MSG_INFO2_WRITE ≠ 0 then o.throttle_writes
                else o.throttle_reads) = o.throttle_writes
              ∧ (if (K.CL_MSG_INFO2_WRITE ||| K.CL_MSG_INFO2_DELETE) &&& K.CL_MSG_INFO2_WRITE ≠ 0
                then o.throttle_writes else o.throttle_reads) = o.throttle_writes)) := by
  refine ⟨?_, ?_, ?_, ?_, ?_⟩
  · intro o asc req info1 info2 ns set key digest wparam bins r h
    exact start_throttles K o asc req info1 info2 ns set key digest wparam bins r h
  · intro o asc timeout_ms wp req info1 info2 ns set key digest wparam bins hreq ht htim hc
      hlate hmt hexit
    obtain ⟨w, h1, -⟩ := start_throttled_spec K o asc timeout_ms wp req info1 info2 ns set key
      digest wparam bins hreq ht htim hc hlate hmt hexit
    rw [h1]
    rfl
  · intro o asc req ns set key digest ops wparam r h
    exact start_op_throttles K o asc req ns set key digest ops wparam r h
  · intro w w' e h
    exact step_throttles K w w' e h
  · intro o
    refine ⟨by simp, fun hW => ⟨?_, ?_⟩⟩
    · rw [Nat.and_self, if_pos hW]
    · rw [or_and_self_left, if_pos hW]

/-- The operate call on the cluster that throttles reads and writes does not
return `THROTTLED`. -/
theorem may_throttle_by_call_witness :
    operate_throttling_result.rc ≠ aerospike.EV2CITRUSLEAF_FAIL_THROTTLED :=
  ((may_throttle_by_call aerospike).2.2.1 throttling_all zero_stats
    (cl_request_create true 200 none) [116, 101, 115, 116, 0] (some [115, 0])
    (some (ev2citrusleaf_object_init_str zero_object [107, 49, 0])) none
    [⟨[98, 0], .CL_OP_WRITE, ev2citrusleaf_object_init_int zero_object 1⟩] none
    operate_throttling_result (Option.some_get _).symm).1

/-! ### The timeout -/

/-- What the timeout event does to a started request on which it is pending. -/
theorem timer_fires_spec (K : proto_h) (w : engine) (o : complete_oracle)
    (hs : engine_started w) (ht : w.timeout_event = true) :
    ∃ w', step K w (event.timer o) = some w'
      ∧ (w.req.node = none →
          w'.log = w.log ++ [action.cf_queue_delete,
            action.user_cb K.EV2CITRUSLEAF_FAIL_TIMEOUT none 0 0 0, action.cl_request_destroy])
      ∧ (∀ node, w.req.node = some node → ¬ w.req.fd > -1 →
          w'.log = w.log ++ [action.cf_queue_delete,
            action.user_cb K.EV2CITRUSLEAF_FAIL_TIMEOUT none 0 0 0,
            action.cl_cluster_node_had_failure node, action.cl_cluster_node_put node,
            action.cl_request_destroy])
      ∧ (∀ node, w.req.node = some node → w.req.fd > -1 →
          w'.log = w.log ++ [action.cf_close w.req.fd, action.n_fds_open_decr node,
            action.cf_queue_delete, action.user_cb K.EV2CITRUSLEAF_FAIL_TIMEOUT none 0 0 0,
            action.cl_cluster_node_had_failure node, action.cl_cluster_node_put node,
            action.cl_request_destroy])
      ∧ w'.request_q = 0 ∧ w'.network_event.pending = false ∧ w'.timeout_event = false
      ∧ w'.destroyed = 1 ∧ ¬ w'.req.fd > -1 ∧ w'.req.node = none
      ∧ w'.asc.n_req_timeouts = w.asc.n_req_timeouts + 1
      ∧ w'.asc.n_req_failures = w.asc.n_req_failures + 1
      ∧ w'.asc.n_req_successes = w.asc.n_req_successes := by
  refine ⟨ev2citrusleaf_timer_expired K { w with timeout_event := false } o, ?_, ?_⟩
  · simp [step, hs.ok.live, hs.unlocked, ht]
  obtain ⟨⟨h1, h2, h3, h4, h5, h6, h7, h8, h9, h10, h11, h12⟩, hu, htm⟩ := hs
  obtain ⟨req, destroyed, tev, slot, q, asc, log⟩ := w
  obtain ⟨sfd, sw, shop, spend⟩ := slot
  obtain ⟨tms, wpol, ctl, ctld, node, fd, ts, ns, bhs, wr, st, nsp, d, wb, wbs, wbp, wbm, rhb, rhp,
    rb, rbs, rbp⟩ := req
  simp only at h1 h2 h3 h4 h5 h6 h7 h8 h9 h10 h11 h12 ht hu htm
  subst h1 ht h7 h8 hu htm
  have hq : q - 1 = 0 := by
    by_cases hq0 : 0 < q
    · have := (h12 hq0).1; omega
    · omega
  by_cases hfd : fd > -1
  · cases node with
    | none => exact absurd rfl (h6 hfd)
    | some n =>
      cases spend <;> cases shop <;>
        simp [ev2citrusleaf_timer_expired, ev2citrusleaf_request_complete, cl_request_destroy,
          hfd, hq]
  · cases node with
    | none =>
      cases spend <;> cases shop <;>
        simp [ev2citrusleaf_timer_expired, ev2citrusleaf_request_complete, cl_request_destroy,
          hfd, hq]
    | some n =>
      cases spend <;> cases shop <;>
        simp [ev2citrusleaf_timer_expired, ev2citrusleaf_request_complete, cl_request_destroy,
          hfd, hq]

/-- The request a start call that returned `OK` leaves behind is in its started
state, and so is it after any events as long as it is not destroyed. -/
theorem started_of_start (K : proto_h) (o : start_oracle) (asc : cluster_stats)
    (malloc_ok : Bool) (timeout_ms : Int) (wp : Option ev2citrusleaf_write_parameters)
    (info1 info2 : Nat) (ns : List Nat) (set : Option (List Nat))
    (key : Option ev2citrusleaf_object) (digest : Option (List Nat))
    (wparam : Option ev2citrusleaf_write_parameters) (bins : List ev2citrusleaf_bin)
    (ops : List ev2citrusleaf_operation) (r : start_result) (w0 : engine) (es : List event)
    (w : engine)
    (hstart :
      ev2citrusleaf_start K o asc (cl_request_create malloc_ok timeout_ms wp) info1 info2 ns
          set key digest wparam bins = some r
        ∨ ev2citrusleaf_start_op K o asc (cl_request_create malloc_ok timeout_ms wp) ns
          set key digest ops wparam = some r)
    (hrc : r.rc = EV2CITRUSLEAF_OK) (hw : r.w = some w0) (hrun : run K w0 es = some w) :
    engine_started w ∨ engine_done w := by
  obtain ⟨hce, hth⟩ := ok_ne_fail K
  have hs := hstart.elim (start_spec K o asc malloc_ok timeout_ms wp info1 info2 ns set key
    digest wparam bins r) (start_op_spec K o asc malloc_ok timeout_ms wp ns set key digest ops
    wparam r)
  rcases hs with ⟨hn, -⟩ | ⟨w1, hw1, hs⟩
  · rw [hn] at hw
    exact absurd hw (by simp)
  · rw [hw1, Option.some.injEq] at hw
    subst hw
    rcases hs with ⟨-, hst⟩ | ⟨hbad, -⟩
    · exact run_started K es w1 w hst hrun
    · rw [hrc] at hbad
      rcases hbad with hbad | hbad
      · exact absurd hbad hce
      · exact absurd hbad hth

theorem drop_be_bytes_append (n x : Nat) (l : List Nat) : (be_bytes n x ++ l).drop n = l := by
  have h := be_bytes_length n x
  rw [List.drop_append_of_le_length (by omega), List.drop_of_length_le (by omega)]
  rfl

theorem take_be_bytes_append (n x : Nat) (l : List Nat) :
    (be_bytes n x ++ l).take n = be_bytes n x := by
  have h := be_bytes_length n x
  rw [List.take_append_of_le_length (by omega), List.take_of_length_le (by omega)]

theorem header_result_code (m : cl_msg) (rest : List Nat) :
    (cl_msg_swap_header m ++ rest).getD 5 0 = m.result_code % 256 := by
  simp [cl_msg_swap_header]

theorem header_generation (m : cl_msg) (rest : List Nat) :
    be_value (((cl_msg_swap_header m ++ rest).drop 6).take 4) = m.generation % 2 ^ 32 := by
  simp only [cl_msg_swap_header, List.append_assoc, List.cons_append, List.nil_append,
    List.drop_succ_cons, List.drop_zero]
  rw [take_be_bytes_append, be_value_be_bytes]
  norm_num

theorem header_n_ops (m : cl_msg) (rest : List Nat) :
    be_value (((cl_msg_swap_header m ++ rest).drop 20).take 2) = m.n_ops % 2 ^ 16 := by
  simp only [cl_msg_swap_header, List.append_assoc, List.cons_append, List.nil_append,
    List.drop_succ_cons, List.drop_zero]
  have h : ∀ l : List Nat, l.drop 14 = (((l.drop 4).drop 4).drop 4).drop 2 := by
    intro l
    simp [List.drop_drop]
  rw [h, drop_be_bytes_append, drop_be_bytes_append, drop_be_bytes_append,
    drop_be_bytes_append, take_be_bytes_append, be_value_be_bytes]
  norm_num

theorem parse_header (K : proto_h) (f : Nat → Nat) (malloc_ok : Bool) (buf : List Nat)
    (buf_len : Nat) (values : Option (List ev2citrusleaf_bin)) (n_values : Nat) :
    (parse K f malloc_ok buf buf_len values n_values).result_code = (buf.getD 5 0 : Nat)
      ∧ (parse K f malloc_ok buf buf_len values n_values).generation
        = be_value ((buf.drop 6).take 4) := by
  unfold parse
  simp only
  split
  · exact ⟨rfl, rfl⟩
  · split
    · exact ⟨rfl, rfl⟩
    · split_ifs <;> exact ⟨rfl, rfl⟩

/-- What the parsing part of a completion hands to the callback when the read
buffer starts with the message header `m`. -/
theorem response_callback_header (K : proto_h) (req : cl_request) (o : complete_oracle)
    (m : cl_msg) (rest : List Nat) (hbuf : req.rd_buf = cl_msg_swap_header m ++ rest)
    (hrc : m.result_code < 256) (hgen : m.generation < 2 ^ 32) (hops : m.n_ops < 2 ^ 16) :
    (response_callback K req o).return_code
        = (if (m.result_code : Int) = K.EV2CITRUSLEAF_FAIL_SERVERSIDE_TIMEOUT then
            K.EV2CITRUSLEAF_FAIL_TIMEOUT else m.result_code)
      ∧ (response_callback K req o).n_bins = m.n_ops
      ∧ (response_callback K req o).generation = m.generation := by
  have h1 := header_result_code m rest
  have h2 := header_generation m rest
  have h3 := header_n_ops m rest
  rw [Nat.mod_eq_of_lt hrc] at h1
  rw [Nat.mod_eq_of_lt hgen] at h2
  rw [Nat.mod_eq_of_lt hops] at h3
  unfold response_callback
  simp only
  obtain ⟨p1, p2⟩ := parse_header K o.void_time_to_ttl o.malloc_ok req.rd_buf req.rd_buf_size
    (if parse_get_maxbins req.rd_buf ≠ 0 then
      some (List.replicate (parse_get_maxbins req.rd_buf) o.stack_bin) else none)
    (parse_get_maxbins req.rd_buf)
  rw [p1, p2, hbuf, h1, h2]
  refine ⟨rfl, ?_, rfl⟩
  unfold parse_get_maxbins
  rw [h3]

/-- A completion with a response invokes the callback once, with the arguments
`response_callback` computes from the read buffer. -/
theorem complete_response_callback (K : proto_h) (w : engine) (o : complete_oracle) :
    action.user_cb (response_callback K w.req o).return_code (response_callback K w.req o).bins
        (response_callback K w.req o).n_bins (response_callback K w.req o).generation
        (response_callback K w.req o).expiration
        ∈ (ev2citrusleaf_request_complete K w false o).log
      ∧ callbacks (ev2citrusleaf_request_complete K w false o).log = callbacks w.log + 1 := by
  obtain ⟨req, ds, te, ne, q, asc, log⟩ := w
  obtain ⟨tms, wpol, ctl, ctld, node, fd, ts, ns, bhs, wr, st, nsp, d, wb, wbs, wbp, wbm, rhb, rhp,
    rb, rbs, rbp⟩ := req
  have hcb (fd' : Int) (ns' : Bool) : response_callback K
      { timeout_ms := tms, wpol := wpol, cross_thread_lock := ctl, cross_thread_locked := ctld,
        node := node, fd := fd', timeout_set := ts, network_set := ns', base_hop_set := bhs,
        write := wr, start_time := st, ns := nsp, d := d, wr_buf := wb, wr_buf_size := wbs,
        wr_buf_pos := wbp, wr_buf_malloced := wbm, rd_header_buf := rhb, rd_header_pos := rhp,
        rd_buf := rb, rd_buf_size := rbs, rd_buf_pos := rbp } o
      = response_callback K
      { timeout_ms := tms, wpol := wpol, cross_thread_lock := ctl, cross_thread_locked := ctld,
        node := node, fd := fd, timeout_set := ts, network_set := ns, base_hop_set := bhs,
        write := wr, start_time := st, ns := nsp, d := d, wr_buf := wb, wr_buf_size := wbs,
        wr_buf_pos := wbp, wr_buf_malloced := wbm, rd_header_buf := rhb, rd_header_pos := rhp,
        rd_buf := rb, rd_buf_size := rbs, rd_buf_pos := rbp } o := rfl
  by_cases hfd : fd > -1 <;> cases node <;> cases ts <;> cases ns <;>
    simp [ev2citrusleaf_request_complete, cl_request_destroy, hfd, hcb] <;>
    split_ifs <;> simp

/-- C17. The `recv` of `ev2citrusleaf_event` that completes the body (the read
buffer then starts with the message header `m`, whose fields have their wire
widths) ends in a completion that invokes the callback once: with the result
code of `m`, or `TIMEOUT` where that is `SERVERSIDE_TIMEOUT`, with `n_bins`
equal to the `n_ops` of `m` and the generation of `m`.  `TIMEOUT` being a
different code, `SERVERSIDE_TIMEOUT` is not what the callback gets. -/
theorem response_is_delivered (K : proto_h) (w : engine) (fd : Int) (o : network_oracle)
    (m : cl_msg) (rest : List Nat)
    (hpos : w.req.rd_buf_pos < w.req.rd_buf_size) (hrv : o.recv_body.rv > 0)
    (hfull : w.req.rd_buf_pos + o.recv_body.rv.toNat = w.req.rd_buf_size)
    (hbuf : poke w.req.rd_buf w.req.rd_buf_pos (o.recv_body.data.take o.recv_body.rv.toNat)
      = cl_msg_swap_header m ++ rest)
    (hrc : m.result_code < 256) (hgen : m.generation < 2 ^ 32) (hops : m.n_ops < 2 ^ 16)
    (hcodes : K.EV2CITRUSLEAF_FAIL_TIMEOUT ≠ K.EV2CITRUSLEAF_FAIL_SERVERSIDE_TIMEOUT) :
    ∃ (w' : engine) (bins : Option (List ev2citrusleaf_bin)) (expiration : Nat),
      event_recv_body K w fd o = some w'
        ∧ action.user_cb
            (if (m.result_code : Int) = K.EV2CITRUSLEAF_FAIL_SERVERSIDE_TIMEOUT then
              K.EV2CITRUSLEAF_FAIL_TIMEOUT else m.result_code)
            bins m.n_ops m.generation expiration ∈ w'.log
        ∧ callbacks w'.log = callbacks w.log + 1
        ∧ (if (m.result_code : Int) = K.EV2CITRUSLEAF_FAIL_SERVERSIDE_TIMEOUT then
              K.EV2CITRUSLEAF_FAIL_TIMEOUT else (m.result_code : Int))
            ≠ K.EV2CITRUSLEAF_FAIL_SERVERSIDE_TIMEOUT := by
  obtain ⟨c1, c2, c3⟩ := response_callback_header K
    { w.req with
      rd_buf := poke w.req.rd_buf w.req.rd_buf_pos (o.recv_body.data.take o.recv_body.rv.toNat)
      rd_buf_pos := w.req.rd_buf_pos + o.recv_body.rv.toNat } o.complete m rest hbuf hrc hgen
    hops
  obtain ⟨d1, d2⟩ := complete_response_callback K
    { w with req := { w.req with
      rd_buf := poke w.req.rd_buf w.req.rd_buf_pos (o.recv_body.data.take o.recv_body.rv.toNat)
      rd_buf_pos := w.req.rd_buf_pos + o.recv_body.rv.toNat } } o.complete
  simp only at d1 d2
  rw [c1, c2, c3] at d1
  refine ⟨_, _, _, ?_, d1, d2, ?_⟩
  · unfold event_recv_body
    simp only [hpos, hrv, hfull, if_true]
  · split_ifs with h
    · exact hcodes
    · exact h

set_option maxRecDepth 100000 in
/-- The read event of the sample get: the body of 22 bytes arrives, the callback
gets result code 2, no bins and generation 7. -/
theorem response_is_delivered_witness :
    Option.map engine.log (event_recv_body aerospike get_reading 5 recv_all)
        = some get_answered.log
      ∧ action.user_cb 2 none 0 7 0 ∈ get_answered.log := by
  obtain ⟨w', bins, expiration, h1, h2, -, -⟩ := response_is_delivered aerospike get_reading 5
    recv_all sample_msg (List.replicate 1002 0) (by decide) (by decide) (by decide)
    rfl
    (by decide) (by decide) (by decide) (by decide)
  exact ⟨rfl, by decide⟩

/-! ### Completion with a response -/

/-- What a completion with a response does to a request that holds the
descriptor `w.req.fd` of the node `node`. -/
theorem complete_response_spec (K : proto_h) (w : engine) (o : complete_oracle) (node : Nat)
    (hfd : w.req.fd > -1) (hnode : w.req.node = some node) :
    (ev2citrusleaf_request_complete K w false o).log
        = w.log ++ [action.cl_cluster_node_fd_put node w.req.fd,
          action.user_cb (response_callback K w.req o).return_code
            (response_callback K w.req o).bins (response_callback K w.req o).n_bins
            (response_callback K w.req o).generation (response_callback K w.req o).expiration,
          if (response_callback K w.req o).return_code = K.EV2CITRUSLEAF_FAIL_TIMEOUT then
            action.cl_cluster_node_had_failure node
          else action.cl_cluster_node_had_success node,
          action.cl_cluster_node_put node, action.cl_request_destroy]
      ∧ ((response_callback K w.req o).return_code = K.EV2CITRUSLEAF_FAIL_TIMEOUT →
          (ev2citrusleaf_request_complete K w false o).asc
            = { w.asc with
                n_req_timeouts := w.asc.n_req_timeouts + 1
                n_req_failures := w.asc.n_req_failures + 1
                requests_in_progress := w.asc.requests_in_progress - 1 })
      ∧ ((response_callback K w.req o).return_code ≠ K.EV2CITRUSLEAF_FAIL_TIMEOUT →
          (ev2citrusleaf_request_complete K w false o).asc
            = { w.asc with
                n_req_successes := w.asc.n_req_successes + 1
                requests_in_progress := w.asc.requests_in_progress - 1 })
      ∧ (ev2citrusleaf_request_complete K w false o).req.fd = -1
      ∧ (ev2citrusleaf_request_complete K w false o).req.node = none
      ∧ (ev2citrusleaf_request_complete K w false o).destroyed = w.destroyed + 1 := by
  obtain ⟨req, ds, te, ne, q, asc, log⟩ := w
  obtain ⟨tms, wpol, ctl, ctld, nd, fd, ts, ns, bhs, wr, st, nsp, d, wb, wbs, wbp, wbm, rhb, rhp,
    rb, rbs, rbp⟩ := req
  simp only at hfd hnode
  subst hnode
  have hcb (fd' : Int) (ns' : Bool) : response_callback K
      { timeout_ms := tms, wpol := wpol, cross_thread_lock := ctl, cross_thread_locked := ctld,
        node := some node, fd := fd', timeout_set := ts, network_set := ns', base_hop_set := bhs,
        write := wr, start_time := st, ns := nsp, d := d, wr_buf := wb, wr_buf_size := wbs,
        wr_buf_pos := wbp, wr_buf_malloced := wbm, rd_header_buf := rhb, rd_header_pos := rhp,
        rd_buf := rb, rd_buf_size := rbs, rd_buf_pos := rbp } o
      = response_callback K
      { timeout_ms := tms, wpol := wpol, cross_thread_lock := ctl, cross_thread_locked := ctld,
        node := some node, fd := fd, timeout_set := ts, network_set := ns, base_hop_set := bhs,
        write := wr, start_time := st, ns := nsp, d := d, wr_buf := wb, wr_buf_size := wbs,
        wr_buf_pos := wbp, wr_buf_malloced := wbm, rd_header_buf := rhb, rd_header_pos := rhp,
        rd_buf := rb, rd_buf_size := rbs, rd_buf_pos := rbp } o := rfl
  cases ts <;> cases ns <;>
    simp [ev2citrusleaf_request_complete, cl_request_destroy, hfd, hcb] <;>
    split_ifs <;> simp_all

/-- C18. The `recv` of `ev2citrusleaf_event` that completes the body, on a
request that holds the descriptor `w.req.fd` of the node `node`, ends in a
completion whose log is: `cl_cluster_node_fd_put` of the descriptor (no
`cf_close`), the callback with some code, `cl_cluster_node_had_failure` if that
code is `TIMEOUT` and `cl_cluster_node_had_success` otherwise, the release of
the node and the destruction.  If the code is `TIMEOUT`, `n_req_timeouts` and
`n_req_failures` go up by one and `n_req_successes` stays; otherwise
`n_req_successes` goes up by one and the other two stay. -/
theorem response_returns_descriptor (K : proto_h) (w : engine) (fd : Int)
    (o : network_oracle) (node : Nat)
    (hpos : w.req.rd_buf_pos < w.req.rd_buf_size) (hrv : o.recv_body.rv > 0)
    (hfull : w.req.rd_buf_pos + o.recv_body.rv.toNat = w.req.rd_buf_size)
    (hfd : w.req.fd > -1) (hnode : w.req.node = some node) :
    ∃ (w' : engine) (code : Int) (bins : Option (List ev2citrusleaf_bin))
      (n_bins generation expiration : Nat),
      event_recv_body K w fd o = some w'
        ∧ w'.log = w.log ++ [action.cl_cluster_node_fd_put node w.req.fd,
            action.user_cb code bins n_bins generation expiration,
            if code = K.EV2CITRUSLEAF_FAIL_TIMEOUT then action.cl_cluster_node_had_failure node
            else action.cl_cluster_node_had_success node,
            action.cl_cluster_node_put node, action.cl_request_destroy]
        ∧ (code = K.EV2CITRUSLEAF_FAIL_TIMEOUT →
            w'.asc.n_req_timeouts = w.asc.n_req_timeouts + 1
              ∧ w'.asc.n_req_failures = w.asc.n_req_failures + 1
              ∧ w'.asc.n_req_successes = w.asc.n_req_successes)
        ∧ (code ≠ K.EV2CITRUSLEAF_FAIL_TIMEOUT →
            w'.asc.n_req_successes = w.asc.n_req_successes + 1
              ∧ w'.asc.n_req_timeouts = w.asc.n_req_timeouts
              ∧ w'.asc.n_req_failures = w.asc.n_req_failures)
        ∧ w'.req.fd = -1 ∧ w'.req.node = none ∧ w'.destroyed = w.destroyed + 1 := by
  obtain ⟨c1, c2, c3, c4, c5, c6⟩ := complete_response_spec K
    { w with req := { w.req with
      rd_buf := poke w.req.rd_buf w.req.rd_buf_pos (o.recv_body.data.take o.recv_body.rv.toNat)
      rd_buf_pos := w.req.rd_buf_pos + o.recv_body.rv.toNat } } o.complete node hfd hnode
  refine ⟨_, _, _, _, _, _, ?_, c1, ?_, ?_, c4, c5, c6⟩
  · unfold event_recv_body
    simp only [hpos, hrv, hfull, if_true]
  · intro hc
    rw [c2 hc]
    exact ⟨rfl, rfl, rfl⟩
  · intro hc
    rw [c3 hc]
    exact ⟨rfl, rfl, rfl⟩

/-- The read event of the sample get appends five actions to the log, the
first of which hands descriptor 5 back to the pool of node 1. -/
theorem response_returns_descriptor_witness :
    Option.map List.length
        (Option.map engine.log (event_recv_body aerospike get_reading 5 recv_all))
      = some (get_reading.log.length + 5) := by
  obtain ⟨w', code, bins, n_bins, generation, expiration, h1, h2, -⟩ :=
    response_returns_descriptor aerospike get_reading 5 recv_all 1 (by decide) (by decide)
      (by decide) (by decide) (by decide)
  rw [h1, Option.map_some', Option.map_some', h2, List.length_append]
  rfl

/-! ### The fail path -/

@[simp] theorem fd_decrements_nil : fd_decrements [] = 0 := rfl

@[simp] theorem fd_decrements_append (l1 l2 : List action) :
    fd_decrements (l1 ++ l2) = fd_decrements l1 + fd_decrements l2 := by
  simp [fd_decrements]

@[simp] theorem fd_decrements_cons_cons (a b : action) (l : List action) :
    fd_decrements (a :: b :: l) = fd_decrements [a] + fd_decrements (b :: l) := by
  simp only [fd_decrements, List.countP_cons, List.countP_nil]
  omega

@[simp] theorem fd_decrements_node_get (n : Nat) :
    fd_decrements [action.cl_cluster_node_get n] = 0 := rfl

@[simp] theorem fd_decrements_node_put (n : Nat) :
    fd_decrements [action.cl_cluster_node_put n] = 0 := rfl

@[simp] theorem fd_decrements_queue_push : fd_decrements [action.cf_queue_push] = 0 := rfl

@[simp] theorem fd_decrements_fd_get (n : Nat) (fd : Int) :
    fd_decrements [action.cl_cluster_node_fd_get n fd] = 0 := rfl

@[simp] theorem fd_decrements_close (fd : Int) : fd_decrements [action.cf_close fd] = 0 := rfl

@[simp] theorem fd_decrements_decr (n : Nat) :
    fd_decrements [action.n_fds_open_decr n] = 1 := rfl

theorem fd_get_loop_decrements (node : Nat) (gets : List Int) (log log' : List action)
    (fd : Int) (h : fd_get_loop node gets log = some (log', fd)) :
    fd_decrements log' = fd_decrements log := by
  induction gets generalizing log with
  | nil => simp [fd_get_loop] at h
  | cons g gets ih =>
    unfold fd_get_loop at h
    split_ifs at h with hg
    · rw [ih _ h]
      simp
    · simp only [Option.some.injEq, Prod.mk.injEq] at h
      obtain ⟨rfl, rfl⟩ := h
      simp

theorem restart_loop_decrements (may_throttle : Bool) (n : Nat)
    (attempts : List restart_attempt) (w w' : engine) (e : restart_exit)
    (h : restart_loop may_throttle n attempts w = some (w', e)) :
    fd_decrements w'.log = fd_decrements w.log := by
  induction n generalizing attempts w with
  | zero =>
    simp only [restart_loop, Option.some.injEq, Prod.mk.injEq] at h
    obtain ⟨rfl, rfl⟩ := h
    rfl
  | succ n ih =>
    cases attempts with
    | nil => simp [restart_loop] at h
    | cons a attempts =>
      unfold restart_loop at h
      cases hnode : a.node with
      | none =>
        simp only [hnode, Option.some.injEq, Prod.mk.injEq] at h
        obtain ⟨rfl, rfl⟩ := h
        simp
      | some node =>
        simp only [hnode] at h
        split_ifs at h with hth
        · simp only [Option.some.injEq, Prod.mk.injEq] at h
          obtain ⟨rfl, rfl⟩ := h
          simp
        · cases hloop : fd_get_loop node a.fd_gets (w.log ++ [action.cl_cluster_node_get node]) with
          | none => simp [hloop] at h
          | some r =>
            obtain ⟨log, fd⟩ := r
            have g := fd_get_loop_decrements _ _ _ _ _ hloop
            simp only [hloop] at h
            split_ifs at h with hfd
            · simp only [Option.some.injEq, Prod.mk.injEq] at h
              obtain ⟨rfl, rfl⟩ := h
              simpa using g
            · have := ih attempts _ h
              simpa [g] using this

/-- A restart decrements no open-descriptor count. -/
theorem restart_decrements (w w' : engine) (may_throttle b : Bool) (o : restart_oracle)
    (h : ev2citrusleaf_restart w may_throttle o = some (b, w')) :
    fd_decrements w'.log = fd_decrements w.log := by
  unfold ev2citrusleaf_restart at h
  split_ifs at h with hlate
  · simp only [Option.some.injEq, Prod.mk.injEq] at h
    obtain ⟨-, rfl⟩ := h
    rfl
  · simp only at h
    split at h
    · exact absurd h (by simp)
    all_goals
      rename_i hloop
      simp only [Option.some.injEq, Prod.mk.injEq] at h
      obtain ⟨-, rfl⟩ := h
      have := restart_loop_decrements _ _ _ _ _ _ hloop
      simpa using this

theorem restart_loop_callbacks (may_throttle : Bool) (n : Nat)
    (attempts : List restart_attempt) (w w' : engine) (e : restart_exit)
    (h : restart_loop may_throttle n attempts w = some (w', e)) :
    callbacks w'.log = callbacks w.log := by
  induction n generalizing attempts w with
  | zero =>
    simp only [restart_loop, Option.some.injEq, Prod.mk.injEq] at h
    obtain ⟨rfl, rfl⟩ := h
    rfl
  | succ n ih =>
    cases attempts with
    | nil => simp [restart_loop] at h
    | cons a attempts =>
      unfold restart_loop at h
      cases hnode : a.node with
      | none =>
        simp only [hnode, Option.some.injEq, Prod.mk.injEq] at h
        obtain ⟨rfl, rfl⟩ := h
        simp
      | some node =>
        simp only [hnode] at h
        split_ifs at h with hth
        · simp only [Option.some.injEq, Prod.mk.injEq] at h
          obtain ⟨rfl, rfl⟩ := h
          simp
        · cases hloop : fd_get_loop node a.fd_gets (w.log ++ [action.cl_cluster_node_get node]) with
          | none => simp [hloop] at h
          | some r =>
            obtain ⟨log, fd⟩ := r
            obtain ⟨-, g, -, -, -⟩ := fd_get_loop_spec _ _ _ _ _ hloop
            simp only [hloop] at h
            split_ifs at h with hfd
            · simp only [Option.some.injEq, Prod.mk.injEq] at h
              obtain ⟨rfl, rfl⟩ := h
              simpa using g
            · have := ih attempts _ h
              simpa [g] using this

/-- A restart invokes no callback and destroys nothing. -/
theorem restart_quiet (w w' : engine) (may_throttle b : Bool) (o : restart_oracle)
    (h : ev2citrusleaf_restart w may_throttle o = some (b, w')) :
    callbacks w'.log = callbacks w.log ∧ w'.destroyed = w.destroyed := by
  unfold ev2citrusleaf_restart at h
  split_ifs at h with hlate
  · simp only [Option.some.injEq, Prod.mk.injEq] at h
    obtain ⟨-, rfl⟩ := h
    exact ⟨rfl, rfl⟩
  · simp only at h
    split at h
    · exact absurd h (by simp)
    all_goals
      rename_i hloop
      simp only [Option.some.injEq, Prod.mk.injEq] at h
      obtain ⟨-, rfl⟩ := h
      have h1 := restart_loop_callbacks _ _ _ _ _ _ hloop
      have h2 := (restart_loop_frame _ _ _ _ _ _ hloop).2.2.2.1
      exact ⟨by simpa using h1, by simpa using h2⟩

/-- The fail path of a request with the one-shot write policy that holds the
node `node`. -/
theorem fail_oneshot_spec (K : proto_h) (w : engine) (fd : Int) (o : network_oracle)
    (node : Nat) (hnode : w.req.node = some node)
    (hw : w.req.wpol = ev2citrusleaf_write_policy.CL_WRITE_ONESHOT) :
    ∃ w', ev2citrusleaf_event_fail K w fd o = some w'
      ∧ w'.log = w.log ++ [action.cf_close fd, action.n_fds_open_decr node,
          action.cf_queue_delete, action.user_cb K.EV2CITRUSLEAF_FAIL_TIMEOUT none 0 0 0,
          action.cl_cluster_node_had_failure node, action.cl_cluster_node_put node,
          action.cl_request_destroy]
      ∧ w'.req.fd = -1 ∧ w'.req.node = none ∧ w'.destroyed = w.destroyed + 1
      ∧ w'.asc.n_req_failures = w.asc.n_req_failures + 1
      ∧ w'.asc.n_internal_retries = w.asc.n_internal_retries := by
  have heq : ev2citrusleaf_event_fail K w fd o
      = some (ev2citrusleaf_request_complete K
        { w with
          log := w.log ++ [action.cf_close fd, action.n_fds_open_decr node]
          req := { w.req with fd := -1 } } true o.complete) := by
    unfold ev2citrusleaf_event_fail
    simp only [hnode, hw, if_true, List.append_assoc, List.cons_append, List.nil_append]
  refine ⟨_, heq, ?_⟩
  obtain ⟨req, ds, te, ne, q, asc, log⟩ := w
  obtain ⟨tms, wpol, ctl, ctld, nd, rfd, ts, ns, bhs, wr, st, nsp, d, wb, wbs, wbp, wbm, rhb, rhp,
    rb, rbs, rbp⟩ := req
  simp only at hnode hw
  subst hnode hw
  cases ts <;> cases ns <;> cases bhs <;>
    simp [ev2citrusleaf_request_complete, cl_request_destroy]

/-- The fail path of a request with another write policy that holds the node
`node`: the restart it ends in, and the state it enters it with. -/
theorem fail_retry_spec (K : proto_h) (w : engine) (fd : Int) (o : network_oracle)
    (node : Nat) (hnode : w.req.node = some node)
    (hw : w.req.wpol ≠ ev2citrusleaf_write_policy.CL_WRITE_ONESHOT) :
    ev2citrusleaf_event_fail K w fd o
        = Option.map Prod.snd (ev2citrusleaf_restart
          { w with
            log := w.log ++ [action.cf_close fd, action.n_fds_open_decr node,
              action.cl_cluster_node_put node]
            req := { w.req with fd := -1, node := none }
            asc := { w.asc with n_internal_retries := w.asc.n_internal_retries + 1 } }
          false o.restart)
      ∧ ∀ w', ev2citrusleaf_event_fail K w fd o = some w' →
        fd_decrements w'.log = fd_decrements w.log + 1
          ∧ w'.asc.n_internal_retries = w.asc.n_internal_retries + 1
          ∧ callbacks w'.log = callbacks w.log ∧ w'.destroyed = w.destroyed := by
  have heq : ev2citrusleaf_event_fail K w fd o
      = Option.map Prod.snd (ev2citrusleaf_restart
        { w with
          log := w.log ++ [action.cf_close fd, action.n_fds_open_decr node,
            action.cl_cluster_node_put node]
          req := { w.req with fd := -1, node := none }
          asc := { w.asc with n_internal_retries := w.asc.n_internal_retries + 1 } }
        false o.restart) := by
    unfold ev2citrusleaf_event_fail
    simp only [hnode, hw, if_false, List.append_assoc, List.cons_append, List.nil_append]
    split <;> rename_i hr <;> simp [hr]
  refine ⟨heq, fun w' h => ?_⟩
  rw [heq] at h
  cases hr : ev2citrusleaf_restart
      { w with
        log := w.log ++ [action.cf_close fd, action.n_fds_open_decr node,
          action.cl_cluster_node_put node]
        req := { w.req with fd := -1, node := none }
        asc := { w.asc with n_internal_retries := w.asc.n_internal_retries + 1 } }
      false o.restart with
  | none => rw [hr] at h; simp at h
  | some p =>
    obtain ⟨b, w2⟩ := p
    rw [hr] at h
    simp only [Option.map_some', Option.some.injEq] at h
    subst h
    obtain ⟨q1, q2⟩ := restart_quiet _ _ _ _ _ hr
    have q3 := restart_decrements _ _ _ _ _ hr
    have q4 := (restart_unthrottled _ _ _ _ hr).2
    refine ⟨?_, ?_, ?_, ?_⟩
    · rw [q3]
      simp
    · rw [q4]
    · rw [q1]
      simp
    · rw [q2]

/-- C19.  The fail path is taken by the handler of the network event when the
`send` of a request not fully written fails for good, when the `recv` into an
incomplete frame header does, and when the `recv` into an incomplete body does.
On a request that holds the node `node` it closes the descriptor of the event,
forgets it and decrements the node's open-descriptor count.  Then, with the
one-shot write policy, the request is completed as timed out: taken off the
queue, called back with `TIMEOUT`, the node marked failed and released, the
request destroyed, `n_req_failures` counted, with no further decrement and no
retry.  With another write policy the node is released, `n_internal_retries`
counted and `ev2citrusleaf_restart` entered with `may_throttle` false; whatever
that restart does, the count was decremented once, one retry was counted, the
callback was not invoked and the request was not destroyed. -/
theorem fail_path (K : proto_h) :
    (∀ (w : engine) (fd : Int) (o : network_oracle),
        w.req.wr_buf_pos < w.req.wr_buf_size → io_failed o.send →
        ev2citrusleaf_event K w fd true o
          = ev2citrusleaf_event_fail K
            { w with req := { w.req with network_set := false } } fd o)
      ∧ (∀ (w : engine) (fd : Int) (o : network_oracle),
        w.req.rd_header_pos < sizeof_cl_proto → io_failed o.recv_header →
        ev2citrusleaf_event K w fd false o
          = ev2citrusleaf_event_fail K
            { w with req := { w.req with network_set := false } } fd o)
      ∧ (∀ (w : engine) (fd : Int) (o : network_oracle),
        w.req.rd_buf_pos < w.req.rd_buf_size → io_failed o.recv_body →
        event_recv_body K w fd o = ev2citrusleaf_event_fail K w fd o)
      ∧ (∀ (w : engine) (fd : Int) (o : network_oracle) (node : Nat),
        w.req.node = some node →
        w.req.wpol = ev2citrusleaf_write_policy.CL_WRITE_ONESHOT →
        ∃ w', ev2citrusleaf_event_fail K w fd o = some w'
          ∧ w'.log = w.log ++ [action.cf_close fd, action.n_fds_open_decr node,
              action.cf_queue_delete, action.user_cb K.EV2CITRUSLEAF_FAIL_TIMEOUT none 0 0 0,
              action.cl_cluster_node_had_failure node, action.cl_cluster_node_put node,
              action.cl_request_destroy]
          ∧ w'.req.fd = -1 ∧ w'.req.node = none ∧ w'.destroyed = w.destroyed + 1
          ∧ w'.asc.n_req_failures = w.asc.n_req_failures + 1
          ∧ w'.asc.n_internal_retries = w.asc.n_internal_retries)
      ∧ (∀ (w : engine) (fd : Int) (o : network_oracle) (node : Nat),
        w.req.node = some node →
        w.req.wpol ≠ ev2citrusleaf_write_policy.CL_WRITE_ONESHOT →
        ev2citrusleaf_event_fail K w fd o
            = Option.map Prod.snd (ev2citrusleaf_restart
              { w with
                log := w.log ++ [action.cf_close fd, action.n_fds_open_decr node,
                  action.cl_cluster_node_put node]
                req := { w.req with fd := -1, node := none }
                asc := { w.asc with n_internal_retries := w.asc.n_internal_retries + 1 } }
              false o.restart)
          ∧ ∀ w', ev2citrusleaf_event_fail K w fd o = some w' →
            fd_decrements w'.log = fd_decrements w.log + 1
              ∧ w'.asc.n_internal_retries = w.asc.n_internal_retries + 1
              ∧ callbacks w'.log = callbacks w.log ∧ w'.destroyed = w.destroyed) := by
  refine ⟨?_, ?_, ?_, ?_, ?_⟩
  · intro w fd o hpos hio
    unfold ev2citrusleaf_event event_send
    simp only [if_true]
    rw [if_pos hpos]
    rcases hio with h0 | ⟨hneg, hag⟩
    · simp [h0]
    · have h1 : ¬ o.send.rv > 0 := by omega
      have h2 : ¬ o.send.rv = 0 := by omega
      simp [h1, h2, hag]
  · intro w fd o hpos hio
    unfold ev2citrusleaf_event event_recv_header
    simp only [Bool.false_eq_true, if_false]
    rw [if_pos hpos]
    rcases hio with h0 | ⟨hneg, hag⟩
    · simp [h0]
    · have h1 : ¬ o.recv_header.rv > 0 := by omega
      have h2 : ¬ o.recv_header.rv = 0 := by omega
      simp [h1, h2, hag]
  · intro w fd o hpos hio
    unfold event_recv_body
    rw [if_pos hpos]
    rcases hio with h0 | ⟨hneg, hag⟩
    · simp [h0]
    · have h1 : ¬ o.recv_body.rv > 0 := by omega
      have h2 : ¬ o.recv_body.rv = 0 := by omega
      simp [h1, h2, hag]
  · intro w fd o node hnode hw
    exact fail_oneshot_spec K w fd o node hnode hw
  · intro w fd o node hnode hw
    exact fail_retry_spec K w fd o node hnode hw

/-- The write event of the sample get whose `send` fails for good: descriptor 5
is closed, the count of node 1 decremented, node 1 released, and the restart
gets descriptor 6 of node 2. -/
theorem fail_path_witness :
    Option.map engine.log (ev2citrusleaf_event aerospike get_started 5 true send_fails)
      = some [action.cl_cluster_node_get 1, action.cl_cluster_node_fd_get 1 5,
          action.cf_close 5, action.n_fds_open_decr 1, action.cl_cluster_node_put 1,
          action.cl_cluster_node_get 2, action.cl_cluster_node_fd_get 2 6] := by
  rw [(fail_path aerospike).1 get_started 5 send_fails (by decide)
    (Or.inr ⟨by decide, rfl⟩)]
  rfl

/-! ### The write policy -/

theorem restart_wpol (w w' : engine) (may_throttle b : Bool) (o : restart_oracle)
    (h : ev2citrusleaf_restart w may_throttle o = some (b, w')) :
    w'.req.wpol = w.req.wpol := by
  unfold ev2citrusleaf_restart at h
  split_ifs at h with hlate
  · simp only [Option.some.injEq, Prod.mk.injEq] at h
    obtain ⟨-, rfl⟩ := h
    rfl
  · simp only at h
    split at h
    · exact absurd h (by simp)
    all_goals
      rename_i hloop
      simp only [Option.some.injEq, Prod.mk.injEq] at h
      obtain ⟨-, rfl⟩ := h
      have h1 := (restart_loop_frame _ _ _ _ _ _ hloop).1
      simp [h1]

theorem request_complete_wpol (K : proto_h) (w : engine) (timedout : Bool)
    (o : complete_oracle) :
    (ev2citrusleaf_request_complete K w timedout o).req.wpol = w.req.wpol := by
  obtain ⟨req, ds, te, ne, q, asc, log⟩ := w
  obtain ⟨tms, wpol, ctl, ctld, node, fd, ts, ns, bhs, wr, st, nsp, d, wb, wbs, wbp, wbm, rhb, rhp,
    rb, rbs, rbp⟩ := req
  by_cases hfd : fd > -1 <;> cases timedout <;> cases node <;> cases ts <;> cases ns <;>
    cases bhs <;>
    simp [ev2citrusleaf_request_complete, cl_request_destroy, hfd] <;>
    split_ifs <;> rfl

theorem event_fail_wpol (K : proto_h) (w w' : engine) (fd : Int) (o : network_oracle)
    (h : ev2citrusleaf_event_fail K w fd o = some w') : w'.req.wpol = w.req.wpol := by
  unfold ev2citrusleaf_event_fail at h
  simp only at h
  split_ifs at h with hw
  · simp only [Option.some.injEq] at h
    subst h
    rw [request_complete_wpol]
    cases w.req.node <;> rfl
  · split at h
    · exact absurd h (by simp)
    · rename_i b w1 hr
      simp only [Option.some.injEq] at h
      subst h
      rw [restart_wpol _ _ _ _ _ hr]
      cases w.req.node <;> rfl

theorem event_recv_body_wpol (K : proto_h) (w w' : engine) (fd : Int)
    (o : network_oracle) (h : event_recv_body K w fd o = some w') :
    w'.req.wpol = w.req.wpol := by
  unfold event_recv_body at h
  simp only at h
  split_ifs at h
  all_goals first
    | exact event_fail_wpol K w w' fd o h
    | (simp only [Option.some.injEq] at h
       subst h
       first
         | rfl
         | (rw [request_complete_wpol]))

theorem event_send_wpol (K : proto_h) (w w' : engine) (fd : Int)
    (o : network_oracle) (h : event_send K w fd o = some w') :
    w'.req.wpol = w.req.wpol := by
  unfold event_send at h
  simp only at h
  split_ifs at h
  all_goals first
    | exact event_fail_wpol K w w' fd o h
    | (simp only [Option.some.injEq] at h
       subst h
       rfl)

theorem event_recv_header_wpol (w w' : engine) (o : network_oracle)
    (h : event_recv_header w o = some w') : w'.req.wpol = w.req.wpol := by
  unfold event_recv_header at h
  simp only at h
  split_ifs at h
  all_goals
    simp only [Option.some.injEq] at h
    subst h
    rfl

theorem event_init_rd_buf_wpol (K : proto_h) (w : engine) (o : network_oracle) :
    (event_init_rd_buf K w o).1.req.wpol = w.req.wpol := by
  unfold event_init_rd_buf
  simp only
  split_ifs
  · rfl
  · cases o.rd_malloc <;> rfl
  · rfl

theorem event_wpol (K : proto_h) (w w' : engine) (fd : Int) (ev_write : Bool)
    (o : network_oracle) (h : ev2citrusleaf_event K w fd ev_write o = some w') :
    w'.req.wpol = w.req.wpol := by
  unfold ev2citrusleaf_event at h
  simp only at h
  split_ifs at h with hw
  · have := event_send_wpol K _ w' fd o h
    exact this
  · split at h
    · have := event_fail_wpol K _ w' fd o h
      exact this
    · rename_i w1 hh
      have e1 := event_recv_header_wpol _ _ _ hh
      split_ifs at h
      · have e2 := event_init_rd_buf_wpol K w1 o
        split at h
        · rename_i w2 hi
          rw [hi] at e2
          rw [event_fail_wpol K _ w' fd o h, e2, e1]
        · rename_i w2 hi
          rw [hi] at e2
          rw [event_recv_body_wpol K _ w' fd o h, e2, e1]
      · simp only [Option.some.injEq] at h
        subst h
        show w1.req.wpol = _
        rw [e1]

/-- No event changes the write policy of a request. -/
theorem step_wpol (K : proto_h) (w w' : engine) (e : event)
    (h : step K w e = some w') : w'.req.wpol = w.req.wpol := by
  cases e with
  | network o =>
    simp only [step] at h
    split_ifs at h
    have := event_wpol K _ w' _ _ o h
    exact this
  | timer o =>
    simp only [step] at h
    split_ifs at h
    simp only [Option.some.injEq] at h
    subst h
    unfold ev2citrusleaf_timer_expired
    split_ifs
    · rfl
    · rw [request_complete_wpol]
  | cluster_pop ok =>
    simp only [step] at h
    split_ifs at h
    simp only [Option.some.injEq] at h
    subst h
    unfold ev2citrusleaf_base_hop
    cases ok <;> rfl
  | base_hop o =>
    simp only [step] at h
    split_ifs at h
    unfold ev2citrusleaf_base_hop_event at h
    simp only at h
    split at h
    · exact absurd h (by simp)
    · rename_i b w1 hr
      simp only [Option.some.injEq] at h
      subst h
      rw [restart_wpol _ _ _ _ _ hr]

theorem run_wpol (K : proto_h) (es : List event) (w w' : engine)
    (h : run K w es = some w') : w'.req.wpol = w.req.wpol := by
  induction es generalizing w with
  | nil =>
    simp only [run, Option.some.injEq] at h
    subst h
    rfl
  | cons e es ih =>
    simp only [run] at h
    split at h
    · exact absurd h (by simp)
    · rename_i w1 hstep
      rw [ih w1 h, step_wpol K w w1 e hstep]

theorem start_timer_wpol (w : engine) (o : start_oracle) :
    (start_timer w o).2.req.wpol = w.req.wpol := by
  unfold start_timer cl_request_destroy
  cases o.cross_threaded <;> simp only [if_true, if_false, Bool.false_eq_true] <;>
    split_ifs <;> rfl

theorem start_failed_wpol (w : engine) : (start_failed w).req.wpol = w.req.wpol := by
  unfold start_failed cl_request_destroy
  split_ifs <;> rfl

theorem start_finish_wpol (K : proto_h) (w : engine) (o : start_oracle)
    (c : compile_result) (write may_throttle : Bool) (r : start_result) (w0 : engine)
    (h : start_finish K w o c write may_throttle = some r) (hw : r.w = some w0) :
    w0.req.wpol = w.req.wpol := by
  unfold start_finish at h
  simp only at h
  split_ifs at h with hc
  · simp only [Option.some.injEq] at h
    subst h
    simp only [Option.some.injEq] at hw
    subst hw
    rw [start_failed_wpol]
  · split at h
    · exact absurd h (by simp)
    · rename_i w1 hr
      simp only [Option.some.injEq] at h
      subst h
      simp only [Option.some.injEq] at hw
      subst hw
      rw [start_failed_wpol, restart_wpol _ _ _ _ _ hr]
    · rename_i w1 hr
      simp only [Option.some.injEq] at h
      subst h
      simp only [Option.some.injEq] at hw
      subst hw
      show w1.req.wpol = _
      rw [restart_wpol _ _ _ _ _ hr]

/-- A start call leaves the write policy of the request as `cl_request_create`
set it. -/
theorem start_wpol (K : proto_h) (o : start_oracle) (asc : cluster_stats) (req : cl_request)
    (info1 info2 : Nat) (ns : List Nat) (set : Option (List Nat))
    (key : Option ev2citrusleaf_object) (digest : Option (List Nat))
    (wparam : Option ev2citrusleaf_write_parameters) (bins : List ev2citrusleaf_bin)
    (ops : List ev2citrusleaf_operation) (r : start_result) (w0 : engine)
    (h : ev2citrusleaf_start K o asc (some req) info1 info2 ns set key digest wparam bins
        = some r
      ∨ ev2citrusleaf_start_op K o asc (some req) ns set key digest ops wparam = some r)
    (hw : r.w = some w0) : w0.req.wpol = req.wpol := by
  have ht := start_timer_wpol (engine_init req asc) o
  rcases h with h | h
  · unfold ev2citrusleaf_start at h
    simp only at h
    split at h
    · rename_i w1 hst
      simp only [Option.some.injEq] at h
      subst h
      simp only [Option.some.injEq] at hw
      subst hw
      rw [hst] at ht
      exact ht
    · rename_i w1 hst
      rw [hst] at ht
      rw [start_finish_wpol K _ o _ _ _ r w0 h hw]
      exact ht
  · unfold ev2citrusleaf_start_op at h
    simp only at h
    split at h
    · rename_i w1 hst
      simp only [Option.some.injEq] at h
      subst h
      simp only [Option.some.injEq] at hw
      subst hw
      rw [hst] at ht
      exact ht
    · rename_i w1 hst
      rw [hst] at ht
      split at h
      · exact absurd h (by simp)
      · rw [start_finish_wpol K _ o _ _ _ r w0 h hw]
        exact ht

/-- A request created without write parameters goes through the retry branch
of the fail path, whatever events came before. -/
theorem retry_of_start (K : proto_h) (o : start_oracle) (asc : cluster_stats)
    (malloc_ok : Bool) (timeout_ms : Int) (info1 info2 : Nat) (ns : List Nat)
    (set : Option (List Nat)) (key : Option ev2citrusleaf_object)
    (digest : Option (List Nat)) (wparam : Option ev2citrusleaf_write_parameters)
    (bins : List ev2citrusleaf_bin) (ops : List ev2citrusleaf_operation) (r : start_result)
    (w0 : engine) (es : List event) (w : engine)
    (h : ev2citrusleaf_start K o asc (cl_request_create malloc_ok timeout_ms none) info1 info2
          ns set key digest wparam bins = some r
      ∨ ev2citrusleaf_start_op K o asc (cl_request_create malloc_ok timeout_ms none) ns set key
          digest ops wparam = some r)
    (hw : r.w = some w0) (hrun : run K w0 es = some w) :
    w.req.wpol = ev2citrusleaf_write_policy.CL_WRITE_RETRY
      ∧ ∀ (fd : Int) (ne : network_oracle) (node : Nat), w.req.node = some node →
        ev2citrusleaf_event_fail K w fd ne
            = Option.map Prod.snd (ev2citrusleaf_restart
              { w with
                log := w.log ++ [action.cf_close fd, action.n_fds_open_decr node,
                  action.cl_cluster_node_put node]
                req := { w.req with fd := -1, node := none }
                asc := { w.asc with n_internal_retries := w.asc.n_internal_retries + 1 } }
              false ne.restart)
          ∧ ∀ w', ev2citrusleaf_event_fail K w fd ne = some w' →
            callbacks w'.log = callbacks w.log ∧ w'.destroyed = w.destroyed
              ∧ w'.asc.n_internal_retries = w.asc.n_internal_retries + 1 := by
  have hpol : w.req.wpol = ev2citrusleaf_write_policy.CL_WRITE_RETRY := by
    cases malloc_ok with
    | false =>
      rcases h with h | h
      · simp only [cl_request_create, ev2citrusleaf_start, Bool.false_eq_true, if_false,
          Option.some.injEq] at h
        subst h
        simp at hw
      · simp only [cl_request_create, ev2citrusleaf_start_op, Bool.false_eq_true, if_false,
          Option.some.injEq] at h
        subst h
        simp at hw
    | true =>
      obtain ⟨req, hreq⟩ : ∃ req, cl_request_create true timeout_ms none = some req :=
        ⟨_, rfl⟩
      rw [hreq] at h
      rw [run_wpol K es w0 w hrun,
        start_wpol K o asc req info1 info2 ns set key digest wparam bins ops r w0 h hw]
      simp only [cl_request_create, if_true, Option.some.injEq] at hreq
      subst hreq
      rfl
  refine ⟨hpol, fun fd ne node hnode => ?_⟩
  have hne : w.req.wpol ≠ ev2citrusleaf_write_policy.CL_WRITE_ONESHOT := by
    rw [hpol]
    exact fun hbad => by cases hbad
  obtain ⟨f1, f2⟩ := fail_retry_spec K w fd ne node hnode hne
  refine ⟨f1, fun w' hf => ?_⟩
  obtain ⟨-, g2, g3, g4⟩ := f2 w' hf
  exact ⟨g3, g4, g2⟩

theorem ntohll_byte (b : Nat) (hb : b < 256) : ntohll b = b * 2 ^ 56 := by
  unfold ntohll
  simp only [be_bytes]
  have h0 : ∀ k, 1 ≤ k → b / 256 ^ k % 256 = 0 := by
    intro k hk
    have : (256 : Nat) ^ 1 ≤ 256 ^ k := Nat.pow_le_pow_right (by norm_num) hk
    rw [Nat.div_eq_of_lt (by omega)]
  simp only [List.reverse_cons, List.reverse_nil, List.nil_append, List.cons_append,
    List.singleton_append, be_value, List.foldl_cons, List.foldl_nil]
  omega

theorem be_value_take_length (bs : List Nat) (h : bs.length = 8) : load_ntohll bs = be_value bs := by
  unfold load_ntohll
  rw [← h, List.take_length]

theorem to_i64_eq (u : Nat) (h : u < 2 ^ 64) : to_i64 u = twos_complement_64 u := by
  unfold to_i64 twos_complement_64
  rw [Nat.mod_eq_of_lt h]

/-- C21: for a byte string of length at most 8, `op_to_value_int` returns 0;
a string of length 0 gives the value 0, one of length 8 the big-endian
two's-complement 64-bit value, and one of length 1 to 7 whose first byte has
the top bit clear gives the unsigned big-endian magnitude of its bytes. -/
theorem op_to_value_int_contract (bs : List Nat) (hb : ∀ b ∈ bs, b < 256)
    (h8 : bs.length ≤ 8) (value : Int) :
    (op_to_value_int bs bs.length value).1 = 0
      ∧ (bs.length = 0 → (op_to_value_int bs bs.length value).2 = 0)
      ∧ (bs.length = 8 →
          (op_to_value_int bs bs.length value).2 = twos_complement_64 (be_value bs))
      ∧ (1 ≤ bs.length → bs.length ≤ 7 → deref bs < 128 →
          (op_to_value_int bs bs.length value).2 = (be_value bs : Int)) := by
  refine ⟨?_, ?_, ?_, ?_⟩
  · unfold op_to_value_int
    rw [if_neg (by omega)]
    split_ifs <;> rfl
  · intro h0
    unfold op_to_value_int
    rw [if_neg (by omega), if_neg (by omega), if_pos (by omega)]
  · intro h
    have hlt := be_value_lt bs hb
    rw [h] at hlt
    unfold op_to_value_int
    rw [if_neg (by omega), if_pos (by omega)]
    simp only
    rw [be_value_take_length bs h, to_i64_eq _ (by norm_num at hlt ⊢; omega)]
  · intro h1 h7 htop
    rw [op_to_value_int_magnitude bs hb h1 h7 htop value]

theorem op_to_value_int_contract_witness :
    (op_to_value_int [0x12, 0x34, 0x56] ([0x12, 0x34, 0x56] : List Nat).length 0).1 = 0
      ∧ (op_to_value_int [0x12, 0x34, 0x56] ([0x12, 0x34, 0x56] : List Nat).length 0).2
          = (be_value [0x12, 0x34, 0x56] : Int) :=
  ⟨(op_to_value_int_contract [0x12, 0x34, 0x56] (by decide) (by decide) 0).1,
    (op_to_value_int_contract [0x12, 0x34, 0x56] (by decide) (by decide) 0).2.2.2
      (by decide) (by decide) (by decide)⟩

/-- What the sign-extension branch of `op_to_value_int` stores: the first byte
alone, moved to the most significant byte of the value. -/
theorem op_to_value_int_negative (bs : List Nat) (hb : ∀ b ∈ bs, b < 256)
    (h1 : 1 ≤ bs.length) (h7 : bs.length ≤ 7) (htop : 128 ≤ deref bs) (value : Int) :
    op_to_value_int bs bs.length value = (0, ((deref bs : Int) - 256) * 2 ^ 56) := by
  have hd : deref bs < 256 := by
    match bs, h1 with
    | b :: _, _ => exact hb b (List.mem_cons_self _ _)
  have hz : deref bs &&& 0x80 = 128 := by
    rw [land_0x80]
    have : deref bs / 128 = 1 := by omega
    rw [this]
  unfold op_to_value_int
  rw [if_neg (by omega), if_neg (by omega), if_neg (by omega), if_neg (by omega),
    if_pos (by rw [hz]; decide), ntohll_byte _ hd]
  unfold to_i64
  have h2 : deref bs * 2 ^ 56 < 2 ^ 64 := by omega
  rw [Nat.mod_eq_of_lt h2, if_neg (by omega)]
  push_cast
  ring_nf

/-- The sign-extension branch never yields the sign-extended value. -/
theorem op_to_value_int_not_sign_extended (bs : List Nat) (hb : ∀ b ∈ bs, b < 256)
    (h1 : 1 ≤ bs.length) (h7 : bs.length ≤ 7) (htop : 128 ≤ deref bs) (value : Int) :
    (op_to_value_int bs bs.length value).2 < sign_extended bs := by
  rw [op_to_value_int_negative bs hb h1 h7 htop value]
  unfold sign_extended
  rw [if_neg (by omega)]
  match bs, h1, h7, hb, htop with
  | b :: rest, _, h7, hb, htop =>
    simp only [deref, List.headD_cons] at htop ⊢
    simp only [List.length_cons] at h7 ⊢
    have hb0 : b < 256 := hb b (List.mem_cons_self _ _)
    rw [be_value_cons]
    have hp : (256 : Int) ^ rest.length ≤ 256 ^ 6 := pow_le_pow_right₀ (by norm_num) (by omega)
    have hp0 : (0 : Int) < 256 ^ rest.length := by positivity
    have hv : (0 : Int) ≤ (be_value rest : Int) := Int.natCast_nonneg _
    have hm : (0 : Int) ≤ ((b : Int) - 128) * 256 ^ rest.length :=
      mul_nonneg (by omega) hp0.le
    have hb1 : (b : Int) ≤ 255 := by omega
    push_cast
    rw [pow_succ]
    generalize (256 : Int) ^ rest.length = p at hp hp0 hm ⊢
    generalize (be_value rest : Int) = r at hv ⊢
    generalize (b : Int) = c at hm hb1 ⊢
    norm_num at hp ⊢
    nlinarith

/-- C22: the two bytes `FF FE` denote -2, and `op_to_value_int` stores
`-(2 ^ 56)` for them: the first byte alone, moved to the top of the value. -/
theorem op_to_value_int_drops_sign_extension :
    sign_extended [0xFF, 0xFE] = -2
      ∧ op_to_value_int [0xFF, 0xFE] 2 0 = (0, -(2 ^ 56)) := by
  decide

theorem be_bytes_getD (n x i : Nat) (hi : i < n) :
    (be_bytes n x).getD i 0 = x / 256 ^ (n - 1 - i) % 256 := by
  induction n generalizing i with
  | zero => omega
  | succ n ih =>
    cases i with
    | zero => simp [be_bytes]
    | succ i =>
      simp only [be_bytes, List.getD_cons_succ]
      rw [ih i (by omega)]
      congr 3
      omega

/-- C23: `value_to_op_float` writes exactly 8 bytes, the bit pattern of the
value in big-endian order, and reports the width 8; `op_to_value_float` on
those 8 bytes returns 0 with the same bit pattern; and `op_to_value_float`
returns -1 exactly when the given size is not 8. -/
theorem float_roundtrip (x : Nat) (hx : x < 2 ^ 64) (value : Nat) :
    (value_to_op_float x).2 = 8
      ∧ (value_to_op_float x).1.length = 8
      ∧ (∀ i, i < 8 → (value_to_op_float x).1.getD i 0 = x / 256 ^ (7 - i) % 256)
      ∧ op_to_value_float (value_to_op_float x).1 8 value = (0, x)
      ∧ ∀ (buf : List Nat) (size : Int),
          (op_to_value_float buf size value).1 = -1 ↔ size ≠ 8 := by
  refine ⟨rfl, be_bytes_length 8 x, fun i hi => be_bytes_getD 8 x i hi, ?_, ?_⟩
  · unfold op_to_value_float value_to_op_float store_htonll
    rw [if_neg (by simp), be_value_take_length _ (be_bytes_length 8 x), be_value_be_bytes,
      Nat.mod_eq_of_lt (by norm_num at hx ⊢; omega)]
  · intro buf size
    unfold op_to_value_float
    split_ifs with h
    · simp [h]
    · simp only [ne_eq, not_not] at h
      simp [h]

theorem float_roundtrip_witness :
    (value_to_op_float 0x3FF8000000000000).1 = [0x3F, 0xF8, 0, 0, 0, 0, 0, 0]
      ∧ op_to_value_float (value_to_op_float 0x3FF8000000000000).1 8 0
          = (0, 0x3FF8000000000000) :=
  ⟨by decide, (float_roundtrip 0x3FF8000000000000 (by decide) 0).2.2.2.1⟩

/-! ## The bin name of a response op -/

/-- An op whose name is shorter than the bin-name buffer is copied, terminator
included, inside the buffer. -/
theorem cl_set_value_particular_writes_inside (K : proto_h) (op : cl_msg_op)
    (h : op.name_sz < K.sizeof_bin_name) :
    ∀ i ∈ cl_set_value_particular_writes K op, i < K.sizeof_bin_name := by
  intro i hi
  unfold cl_set_value_particular_writes at hi
  rw [if_neg (by omega)] at hi
  simp only [List.mem_append, List.mem_range, List.mem_singleton] at hi
  omega

/-- An op whose name is as long as the bin-name buffer is not refused, and its
terminator is written at the offset just behind the buffer. -/
theorem cl_set_value_particular_writes_outside (K : proto_h) (op : cl_msg_op)
    (value : ev2citrusleaf_bin) (malloc_ok : Bool) (h : op.name_sz = K.sizeof_bin_name)
    (hn : K.sizeof_bin_name ≤ op.name.length)
    (hv : value.bin_name.length = K.sizeof_bin_name) :
    K.sizeof_bin_name ∈ cl_set_value_particular_writes K op
      ∧ (cl_set_value_particular K op value malloc_ok).bin_name
          = op.name.take K.sizeof_bin_name ++ [0] := by
  constructor
  · unfold cl_set_value_particular_writes
    rw [if_neg (by omega)]
    simp [h]
  · unfold cl_set_value_particular
    rw [if_neg (by omega)]
    simp only [poke, memcpy_src, h]
    simp [hv, hn, List.take_of_length_le, List.drop_of_length_le]

/-- C27: an op whose name has 32 bytes, the size of the bin-name buffer, is not
refused: the offsets written include 32, which is not inside the buffer, and
the name buffer of 32 bytes comes back with 33, the last being the NUL. -/
theorem full_name_terminator_outside_buffer :
    aerospike.sizeof_bin_name = 32
      ∧ full_name_op.name_sz = 32
      ∧ cl_set_value_particular_writes aerospike full_name_op
          = List.range 32 ++ [32]
      ∧ (cl_set_value_particular aerospike full_name_op (blank_bin aerospike) true).bin_name
          = List.replicate 32 97 ++ [0] := by
  decide

/-! ## The bounds of `parse` -/

/-- The loop over the ops returns 0 once the last op starts inside the buffer,
whatever size the op declares. -/
theorem parse_ops_last (K : proto_h) (malloc_ok : Bool) (buf : List Nat) (limit i op : Nat)
    (values : List ev2citrusleaf_bin) (h : op < limit) :
    (parse_ops K malloc_ok buf limit 1 i op values).1 = 0 := by
  simp [parse_ops, Nat.not_le.mpr h]

/-- The loop over the fields does not refuse a last field that starts inside
the buffer, whatever size the field declares. -/
theorem parse_fields_last (buf : List Nat) (limit mf : Nat) (h : mf < limit) :
    parse_fields buf limit 1 mf
      = some (cl_msg_field_get_next mf (be_value ((buf.drop mf).take 4))) := by
  simp [parse_fields, Nat.not_le.mpr h]

/-- C24: the op of the 30-byte response `overlong_op_buf` declares 100 bytes and
so ends at offset 126, and the field of the 27-byte response
`overlong_field_buf` ends at offset 126 as well; called with room for `n_ops`
bins as the engine calls it, `parse` returns 0 for both. -/
theorem parse_accepts_overlong_last_element :
    overlong_op_buf.length = 30 ∧ declared_end overlong_op_buf = 126
      ∧ parse_get_maxbins overlong_op_buf = 1
      ∧ (parse aerospike (fun t => t) true overlong_op_buf 30 (some [zero_bin]) 1).rc = 0
      ∧ overlong_field_buf.length = 27 ∧ declared_end overlong_field_buf = 126
      ∧ parse_get_maxbins overlong_field_buf = 0
      ∧ (parse aerospike (fun t => t) true overlong_field_buf 27 none 0).rc = 0 := by
  decide

/-- C26: for the 23-byte response `truncated_op_buf`, whose header announces one
op, `parse` called as the engine calls it swaps the four bytes of `op_sz` at
offsets 22 to 25 and reads `name_sz` at offset 29, outside the buffer; it
returns 0, and the bounds-checked `parse` takes its out-of-bounds branch. -/
theorem parse_reads_past_the_buffer :
    truncated_op_buf.length = 23
      ∧ parse_get_maxbins truncated_op_buf = 1
      ∧ (22, 4) ∈ parse_accesses aerospike truncated_op_buf 23 (some [zero_bin]) 1
      ∧ ¬ in_bounds 23 (22, 4)
      ∧ (29, 1) ∈ parse_accesses aerospike truncated_op_buf 23 (some [zero_bin]) 1
      ∧ ¬ in_bounds 23 (29, 1)
      ∧ (parse aerospike (fun t => t) true truncated_op_buf 23 (some [zero_bin]) 1).rc = 0
      ∧ parse_checked aerospike (fun t => t) true truncated_op_buf 23 (some [zero_bin]) 1
          = none := by
  decide

/-! ## Counting in the log of a restart -/

theorem node_gets_append (l₁ l₂ : List action) :
    node_gets (l₁ ++ l₂) = node_gets l₁ + node_gets l₂ := by
  simp [node_gets, List.countP_append]

theorem node_puts_append (l₁ l₂ : List action) :
    node_puts (l₁ ++ l₂) = node_puts l₁ + node_puts l₂ := by
  simp [node_puts, List.countP_append]

theorem queue_pushes_append (l₁ l₂ : List action) :
    queue_pushes (l₁ ++ l₂) = queue_pushes l₁ + queue_pushes l₂ := by
  simp [queue_pushes, List.countP_append]

theorem fd_get_loop_log (node : Nat) (gets : List Int) (log log' : List action) (fd : Int)
    (h : fd_get_loop node gets log = some (log', fd)) : log.length ≤ log'.length := by
  induction gets generalizing log with
  | nil => simp [fd_get_loop] at h
  | cons g gs ih =>
    unfold fd_get_loop at h
    split_ifs at h
    · have := ih _ h
      simp at this
      omega
    · simp only [Option.some.injEq, Prod.mk.injEq] at h
      obtain ⟨rfl, rfl⟩ := h
      simp

/-- The loop of a restart only adds to the log, and with a round to go it adds
something. -/
theorem restart_loop_log (may_throttle : Bool) (n : Nat) (attempts : List restart_attempt)
    (w w' : engine) (e : restart_exit)
    (h : restart_loop may_throttle n attempts w = some (w', e)) :
    w.log.length ≤ w'.log.length ∧ (0 < n → w.log.length < w'.log.length) := by
  induction n generalizing attempts w with
  | zero =>
    simp only [restart_loop, Option.some.injEq, Prod.mk.injEq] at h
    obtain ⟨rfl, rfl⟩ := h
    simp
  | succ n ih =>
    cases attempts with
    | nil => simp [restart_loop] at h
    | cons a attempts =>
      unfold restart_loop at h
      cases hnode : a.node with
      | none =>
        simp only [hnode, Option.some.injEq, Prod.mk.injEq] at h
        obtain ⟨rfl, rfl⟩ := h
        simp
      | some node =>
        simp only [hnode] at h
        split_ifs at h with hth
        · simp only [Option.some.injEq, Prod.mk.injEq] at h
          obtain ⟨rfl, rfl⟩ := h
          simp
        · cases hloop : fd_get_loop node a.fd_gets (w.log ++ [action.cl_cluster_node_get node]) with
          | none => simp [hloop] at h
          | some r =>
            obtain ⟨log, fd⟩ := r
            have hl := fd_get_loop_log _ _ _ _ _ hloop
            simp only [List.length_append, List.length_singleton] at hl
            simp only [hloop] at h
            split_ifs at h with hfd
            · simp only [Option.some.injEq, Prod.mk.injEq] at h
              obtain ⟨rfl, rfl⟩ := h
              simp
              omega
            · have := (ih attempts _ h).1
              simp at this
              constructor
              · omega
              · intro _
                omega


/-! ## The rounds of a restart -/

theorem first_fd_ne (gets : List Int) (fd : Int) (h : first_fd gets = some fd) : fd ≠ -1 := by
  unfold first_fd at h
  have := List.find?_some h
  simpa using this

/-- The loop over `cl_cluster_node_fd_get` leaves with the first answer other
than -1, and it runs out of answers only if there is none. -/
theorem fd_get_loop_first (node : Nat) (gets : List Int) (log : List action) :
    Option.map Prod.snd (fd_get_loop node gets log) = first_fd gets := by
  induction gets generalizing log with
  | nil => rfl
  | cons g gs ih =>
    unfold fd_get_loop first_fd
    by_cases hg : g = -1
    · rw [if_pos hg, List.find?_cons_of_neg _ (by simp [hg])]
      exact ih _
    · rw [if_neg hg, List.find?_cons_of_pos _ (by simp [hg])]
      rfl

theorem fd_get_loop_nodes (node : Nat) (gets : List Int) (log log' : List action) (fd : Int)
    (h : fd_get_loop node gets log = some (log', fd)) :
    node_gets log' = node_gets log ∧ node_puts log' = node_puts log
      ∧ queue_pushes log' = queue_pushes log := by
  induction gets generalizing log with
  | nil => simp [fd_get_loop] at h
  | cons g gs ih =>
    unfold fd_get_loop at h
    split_ifs at h
    · obtain ⟨h1, h2, h3⟩ := ih _ h
      rw [h1, h2, h3]
      simp [node_gets, node_puts, queue_pushes, List.countP_append]
    · simp only [Option.some.injEq, Prod.mk.injEq] at h
      obtain ⟨rfl, rfl⟩ := h
      simp [node_gets, node_puts, queue_pushes, List.countP_append]

/-- One round of the loop of a restart that fails to get a socket: the node is
obtained and released, and the loop goes on with the next answers. -/
theorem restart_loop_round (may_throttle : Bool) (n : Nat) (a : restart_attempt)
    (attempts : List restart_attempt) (w : engine) (ha : no_socket may_throttle a) :
    ∃ w1, restart_loop may_throttle (n + 1) (a :: attempts) w
          = restart_loop may_throttle n attempts w1
      ∧ w1.req = w.req ∧ w1.network_event = w.network_event ∧ w1.request_q = w.request_q
      ∧ w1.asc = w.asc ∧ w1.timeout_event = w.timeout_event ∧ w1.destroyed = w.destroyed
      ∧ node_gets w1.log = node_gets w.log + 1 ∧ node_puts w1.log = node_puts w.log + 1
      ∧ queue_pushes w1.log = queue_pushes w.log := by
  obtain ⟨hnode, hth, fd, hfd, hlt⟩ := ha
  obtain ⟨node, hn⟩ := Option.ne_none_iff_exists'.mp hnode
  have hf := fd_get_loop_first node a.fd_gets (w.log ++ [action.cl_cluster_node_get node])
  rw [hfd] at hf
  cases hloop : fd_get_loop node a.fd_gets (w.log ++ [action.cl_cluster_node_get node]) with
  | none => rw [hloop] at hf; simp at hf
  | some r =>
    obtain ⟨log, fd'⟩ := r
    rw [hloop] at hf
    simp only [Option.map_some', Option.some.injEq] at hf
    subst hf
    obtain ⟨c1, c2, c3⟩ := fd_get_loop_nodes _ _ _ _ _ hloop
    refine ⟨{ w with log := log ++ [action.cl_cluster_node_put node] }, ?_, rfl, rfl, rfl, rfl,
      rfl, rfl, ?_, ?_, ?_⟩
    · rw [restart_loop]
      simp only [hn, hloop]
      rw [if_neg (by simpa using hth), if_neg (by omega)]
    · simp only [node_gets_append, c1]
      simp [node_gets]
    · simp only [node_puts_append, c2]
      simp [node_puts]
    · simp only [queue_pushes_append, c3]
      simp [queue_pushes]

/-- After `k` rounds that fail to get a socket the loop of a restart stands at
round `k` with `k` nodes obtained and released. -/
theorem restart_loop_skip (may_throttle : Bool) (k n : Nat) (attempts : List restart_attempt)
    (w : engine) (hk : ∀ x ∈ attempts.take k, no_socket may_throttle x)
    (hlen : k ≤ attempts.length) :
    ∃ wk, restart_loop may_throttle (k + n) attempts w
          = restart_loop may_throttle n (attempts.drop k) wk
      ∧ wk.req = w.req ∧ wk.network_event = w.network_event ∧ wk.request_q = w.request_q
      ∧ wk.asc = w.asc ∧ wk.timeout_event = w.timeout_event ∧ wk.destroyed = w.destroyed
      ∧ node_gets wk.log = node_gets w.log + k ∧ node_puts wk.log = node_puts w.log + k
      ∧ queue_pushes wk.log = queue_pushes w.log := by
  induction k generalizing attempts w with
  | zero => exact ⟨w, by simp, rfl, rfl, rfl, rfl, rfl, rfl, rfl, rfl, rfl⟩
  | succ k ih =>
    cases attempts with
    | nil => simp at hlen
    | cons a attempts =>
      simp only [List.take_succ_cons, List.mem_cons, forall_eq_or_imp] at hk
      simp only [List.length_cons, Nat.add_le_add_iff_right] at hlen
      obtain ⟨w1, e1, r1, r2, r3, r4, r5, r6, r7, r8, r9⟩ :=
        restart_loop_round may_throttle (k + n) a attempts w hk.1
      obtain ⟨wk, e2, s1, s2, s3, s4, s5, s6, s7, s8, s9⟩ := ih attempts w1 hk.2 hlen
      refine ⟨wk, ?_, s1.trans r1, s2.trans r2, s3.trans r3, s4.trans r4, s5.trans r5,
        s6.trans r6, ?_, ?_, s9.trans r9⟩
      · rw [show k + 1 + n = k + n + 1 by omega, e1, e2]
        rfl
      · rw [s7, r7]; omega
      · rw [s8, r8]; omega

/-- The loop of a restart looks at no more answers than it has rounds. -/
theorem restart_loop_take (may_throttle : Bool) (n : Nat) (attempts : List restart_attempt)
    (w : engine) :
    restart_loop may_throttle n (attempts.take n) w = restart_loop may_throttle n attempts w := by
  induction n generalizing attempts w with
  | zero => rfl
  | succ n ih =>
    cases attempts with
    | nil => rfl
    | cons a attempts =>
      simp only [List.take_succ_cons, restart_loop]
      cases a.node with
      | none => rfl
      | some node =>
        simp only
        split_ifs
        · rfl
        · cases fd_get_loop node a.fd_gets (w.log ++ [action.cl_cluster_node_get node]) with
          | none => rfl
          | some r =>
            simp only
            split_ifs
            · rfl
            · exact ih _ _

/-- The loop of a restart comes to an end when every round has an answer and
every pool eventually answers something other than -1. -/
theorem restart_loop_terminates (may_throttle : Bool) (n : Nat)
    (attempts : List restart_attempt) (w : engine) (hlen : n ≤ attempts.length)
    (hfuel : ∀ x ∈ attempts.take n, first_fd x.fd_gets ≠ none) :
    restart_loop may_throttle n attempts w ≠ none := by
  induction n generalizing attempts w with
  | zero => simp [restart_loop]
  | succ n ih =>
    cases attempts with
    | nil => simp at hlen
    | cons a attempts =>
      simp only [List.take_succ_cons, List.mem_cons, forall_eq_or_imp] at hfuel
      simp only [List.length_cons, Nat.add_le_add_iff_right] at hlen
      rw [restart_loop]
      cases hnode : a.node with
      | none => simp
      | some node =>
        simp only
        split_ifs
        · simp
        · have hf := fd_get_loop_first node a.fd_gets (w.log ++ [action.cl_cluster_node_get node])
          cases hloop : fd_get_loop node a.fd_gets
              (w.log ++ [action.cl_cluster_node_get node]) with
          | none =>
            rw [hloop] at hf
            exact absurd hf.symm hfuel.1
          | some r =>
            simp only
            split_ifs
            · simp
            · exact ih _ _ hlen hfuel.2

theorem node_gets_get_put (n m : Nat) :
    node_gets [action.cl_cluster_node_get n, action.cl_cluster_node_put m] = 1 := rfl

theorem node_puts_get_put (n m : Nat) :
    node_puts [action.cl_cluster_node_get n, action.cl_cluster_node_put m] = 1 := rfl

theorem queue_pushes_get_put (n m : Nat) :
    queue_pushes [action.cl_cluster_node_get n, action.cl_cluster_node_put m] = 0 := rfl

theorem node_gets_get (n : Nat) : node_gets [action.cl_cluster_node_get n] = 1 := rfl

theorem node_gets_put (n : Nat) : node_gets [action.cl_cluster_node_put n] = 0 := rfl

theorem node_gets_push : node_gets [action.cf_queue_push] = 0 := rfl

theorem node_puts_get (n : Nat) : node_puts [action.cl_cluster_node_get n] = 0 := rfl

theorem node_puts_put (n : Nat) : node_puts [action.cl_cluster_node_put n] = 1 := rfl

theorem node_puts_push : node_puts [action.cf_queue_push] = 0 := rfl

theorem queue_pushes_get (n : Nat) : queue_pushes [action.cl_cluster_node_get n] = 0 := rfl

theorem queue_pushes_put (n : Nat) : queue_pushes [action.cl_cluster_node_put n] = 0 := rfl

theorem queue_pushes_push : queue_pushes [action.cf_queue_push] = 1 := rfl

/-- With the first `k` rounds failing to get a socket, the loop of a restart
stands at the answer of round `k` with at least one round to go. -/
theorem restart_loop_at (may_throttle : Bool) (k : Nat) (a : restart_attempt)
    (attempts : List restart_attempt) (w : engine) (hk : k < 5)
    (hfail : ∀ x ∈ attempts.take k, no_socket may_throttle x) (ha : attempts[k]? = some a) :
    ∃ wk m, restart_loop may_throttle 5 attempts w
          = restart_loop may_throttle (m + 1) (a :: attempts.drop (k + 1)) wk
      ∧ wk.req = w.req ∧ wk.network_event = w.network_event ∧ wk.request_q = w.request_q
      ∧ wk.asc = w.asc ∧ wk.timeout_event = w.timeout_event ∧ wk.destroyed = w.destroyed
      ∧ node_gets wk.log = node_gets w.log + k ∧ node_puts wk.log = node_puts w.log + k
      ∧ queue_pushes wk.log = queue_pushes w.log := by
  obtain ⟨hlen, hget⟩ := List.getElem?_eq_some.mp ha
  obtain ⟨wk, e, r⟩ := restart_loop_skip may_throttle k (4 - k + 1) attempts w hfail (by omega)
  refine ⟨wk, 4 - k, ?_, r⟩
  rw [show k + (4 - k + 1) = 5 by omega] at e
  rw [e, List.drop_eq_getElem_cons hlen, hget]

/-- Round `k` finds no node: the request goes on the queue. -/
theorem restart_no_node (w : engine) (may_throttle : Bool) (o : restart_oracle) (k : Nat)
    (a : restart_attempt)
    (hlate : ¬ (w.req.timeout_ms > 0 ∧ w.req.start_time + w.req.timeout_ms < o.now))
    (hk : k < 5) (hfail : ∀ x ∈ o.attempts.take k, no_socket may_throttle x)
    (ha : o.attempts[k]? = some a) (hnode : a.node = none) :
    ∃ w', ev2citrusleaf_restart w may_throttle o = some (true, w')
      ∧ w'.request_q = w.request_q + 1 ∧ queue_pushes w'.log = queue_pushes w.log + 1
      ∧ w'.req.node = none ∧ w'.req.fd = -1 ∧ w'.network_event = w.network_event
      ∧ w'.req.network_set = w.req.network_set
      ∧ node_gets w'.log = node_gets w.log + k ∧ node_puts w'.log = node_puts w.log + k := by
  obtain ⟨wk, m, e, r1, r2, r3, r4, r5, r6, r7, r8, r9⟩ :=
    restart_loop_at may_throttle k a o.attempts
      { w with req := { w.req with
          wr_buf_pos := 0, rd_buf_pos := 0, rd_header_pos := 0, node := none, fd := -1 } }
      hk hfail ha
  simp only at r1 r2 r3 r7 r8 r9
  unfold ev2citrusleaf_restart
  rw [if_neg hlate]
  simp only [e, restart_loop, hnode]
  refine ⟨_, rfl, ?_⟩
  simp [r1, r2, r3, r7, r8, r9, node_gets_append, node_puts_append, queue_pushes_append,
    node_gets_get, node_gets_put, node_gets_push, node_puts_get, node_puts_put, node_puts_push,
    queue_pushes_get, queue_pushes_put, queue_pushes_push]

/-- All five rounds fail to get a socket: the request goes on the queue, five
nodes obtained and released. -/
theorem restart_gave_up (w : engine) (may_throttle : Bool) (o : restart_oracle)
    (hlate : ¬ (w.req.timeout_ms > 0 ∧ w.req.start_time + w.req.timeout_ms < o.now))
    (hlen : 5 ≤ o.attempts.length)
    (hfail : ∀ x ∈ o.attempts.take 5, no_socket may_throttle x) :
    ∃ w', ev2citrusleaf_restart w may_throttle o = some (true, w')
      ∧ w'.request_q = w.request_q + 1 ∧ queue_pushes w'.log = queue_pushes w.log + 1
      ∧ w'.req.node = none ∧ w'.req.fd = -1 ∧ w'.network_event = w.network_event
      ∧ w'.req.network_set = w.req.network_set
      ∧ node_gets w'.log = node_gets w.log + 5 ∧ node_puts w'.log = node_puts w.log + 5 := by
  obtain ⟨wk, e, r1, r2, r3, r4, r5, r6, r7, r8, r9⟩ :=
    restart_loop_skip may_throttle 5 0 o.attempts
      { w with req := { w.req with
          wr_buf_pos := 0, rd_buf_pos := 0, rd_header_pos := 0, node := none, fd := -1 } }
      hfail hlen
  simp only at r1 r2 r3 r7 r8 r9
  unfold ev2citrusleaf_restart
  rw [if_neg hlate]
  simp only [Nat.add_zero] at e
  simp only [e, restart_loop]
  refine ⟨_, rfl, ?_⟩
  simp [r1, r2, r3, r7, r8, r9, node_gets_append, node_puts_append, queue_pushes_append,
    node_gets_get, node_gets_put, node_gets_push, node_puts_get, node_puts_put, node_puts_push,
    queue_pushes_get, queue_pushes_put, queue_pushes_push]

/-- Round `k` is throttled: the node is released and the restart returns false
with nothing stored and nothing queued. -/
theorem restart_round_throttled (w : engine) (may_throttle : Bool) (o : restart_oracle)
    (k node : Nat) (a : restart_attempt)
    (hlate : ¬ (w.req.timeout_ms > 0 ∧ w.req.start_time + w.req.timeout_ms < o.now))
    (hk : k < 5) (hfail : ∀ x ∈ o.attempts.take k, no_socket may_throttle x)
    (ha : o.attempts[k]? = some a) (hnode : a.node = some node)
    (hth : may_throttle = true ∧ a.throttle_drop = true) :
    ∃ w', ev2citrusleaf_restart w may_throttle o = some (false, w')
      ∧ w'.request_q = w.request_q ∧ queue_pushes w'.log = queue_pushes w.log
      ∧ w'.req.node = none ∧ w'.req.fd = -1 ∧ w'.network_event = w.network_event
      ∧ w'.req.network_set = w.req.network_set
      ∧ w'.asc.n_req_throttles = w.asc.n_req_throttles + 1
      ∧ node_gets w'.log = node_gets w.log + (k + 1)
      ∧ node_puts w'.log = node_puts w.log + (k + 1) := by
  obtain ⟨wk, m, e, r1, r2, r3, r4, r5, r6, r7, r8, r9⟩ :=
    restart_loop_at may_throttle k a o.attempts
      { w with req := { w.req with
          wr_buf_pos := 0, rd_buf_pos := 0, rd_header_pos := 0, node := none, fd := -1 } }
      hk hfail ha
  simp only at r1 r2 r3 r4 r7 r8 r9
  unfold ev2citrusleaf_restart
  rw [if_neg hlate]
  simp only [e, restart_loop, hnode]
  rw [if_pos (by simpa using hth)]
  refine ⟨_, rfl, ?_⟩
  simp [r1, r2, r3, r4, r7, r8, r9, node_gets_append, node_puts_append, queue_pushes_append,
    node_gets_get_put, node_puts_get_put, queue_pushes_get_put, node_gets_get, node_gets_put, node_gets_push, node_puts_get, node_puts_put, node_puts_push,
    queue_pushes_get, queue_pushes_put, queue_pushes_push]
  omega

/-- Round `k` gets a socket: node and descriptor are stored in the request and
the network event is assigned to the descriptor for writing and added. -/
theorem restart_got (w : engine) (may_throttle : Bool) (o : restart_oracle)
    (k node : Nat) (fd : Int) (a : restart_attempt)
    (hlate : ¬ (w.req.timeout_ms > 0 ∧ w.req.start_time + w.req.timeout_ms < o.now))
    (hk : k < 5) (hfail : ∀ x ∈ o.attempts.take k, no_socket may_throttle x)
    (ha : o.attempts[k]? = some a) (hnode : a.node = some node)
    (hth : ¬ (may_throttle = true ∧ a.throttle_drop = true))
    (hfd : first_fd a.fd_gets = some fd) (hgood : fd > -1) :
    ∃ w', ev2citrusleaf_restart w may_throttle o = some (true, w')
      ∧ w'.req.node = some node ∧ w'.req.fd = fd
      ∧ w'.network_event = ⟨fd, true, false, o.event_add_ok⟩
      ∧ w'.req.network_set = o.event_add_ok
      ∧ w'.request_q = w.request_q ∧ queue_pushes w'.log = queue_pushes w.log
      ∧ node_gets w'.log = node_gets w.log + (k + 1)
      ∧ node_puts w'.log = node_puts w.log + k := by
  obtain ⟨wk, m, e, r1, r2, r3, r4, r5, r6, r7, r8, r9⟩ :=
    restart_loop_at may_throttle k a o.attempts
      { w with req := { w.req with
          wr_buf_pos := 0, rd_buf_pos := 0, rd_header_pos := 0, node := none, fd := -1 } }
      hk hfail ha
  simp only at r1 r2 r3 r4 r7 r8 r9
  have hf := fd_get_loop_first node a.fd_gets (wk.log ++ [action.cl_cluster_node_get node])
  rw [hfd] at hf
  cases hloop : fd_get_loop node a.fd_gets (wk.log ++ [action.cl_cluster_node_get node]) with
  | none => rw [hloop] at hf; simp at hf
  | some r =>
    obtain ⟨log, fd'⟩ := r
    rw [hloop] at hf
    simp only [Option.map_some', Option.some.injEq] at hf
    subst hf
    obtain ⟨c1, c2, c3⟩ := fd_get_loop_nodes _ _ _ _ _ hloop
    unfold ev2citrusleaf_restart
    rw [if_neg hlate]
    simp only [e, restart_loop, hnode, hloop]
    rw [if_neg (by simpa using hth), if_pos hgood]
    refine ⟨_, rfl, ?_⟩
    simp [r1, r2, r3, r4, r7, r8, r9, c1, c2, c3, node_gets_append, node_puts_append,
      queue_pushes_append, node_gets_get, node_gets_put, node_gets_push, node_puts_get,
      node_puts_put, node_puts_push, queue_pushes_get, queue_pushes_put, queue_pushes_push]
    omega

/-- Every sequence of answers with which the loop of a restart comes to an end
is of one of four kinds: all rounds fail to get a socket, or after some failing
rounds the cluster has no node, or the round is throttled, or the round gets a
socket. -/
theorem restart_rounds_cases (may_throttle : Bool) (n : Nat) (attempts : List restart_attempt)
    (hlen : n ≤ attempts.length)
    (hfuel : ∀ x ∈ attempts.take n, first_fd x.fd_gets ≠ none) :
    (∀ x ∈ attempts.take n, no_socket may_throttle x)
      ∨ ∃ k a, k < n ∧ (∀ x ∈ attempts.take k, no_socket may_throttle x)
          ∧ attempts[k]? = some a
          ∧ (a.node = none
            ∨ (∃ node, a.node = some node ∧ may_throttle = true ∧ a.throttle_drop = true)
            ∨ ∃ node fd, a.node = some node
                ∧ ¬ (may_throttle = true ∧ a.throttle_drop = true)
                ∧ first_fd a.fd_gets = some fd ∧ fd > -1) := by
  induction n with
  | zero => left; simp
  | succ n ih =>
    have hn : n < attempts.length := by omega
    have ha : attempts[n]? = some attempts[n] := List.getElem?_eq_getElem hn
    have htake : attempts.take (n + 1) = attempts.take n ++ [attempts[n]] := by
      rw [List.take_succ, ha]
      rfl
    rw [htake] at hfuel ⊢
    simp only [List.mem_append, List.mem_singleton] at hfuel ⊢
    rcases ih (by omega) (fun x hx => hfuel x (Or.inl hx)) with hall | ⟨k, a, hk, h1, h2, h3⟩
    · cases hnode : attempts[n].node with
      | none => exact Or.inr ⟨n, _, by omega, hall, ha, Or.inl hnode⟩
      | some node =>
        by_cases hth : may_throttle = true ∧ attempts[n].throttle_drop = true
        · exact Or.inr ⟨n, _, by omega, hall, ha, Or.inr (Or.inl ⟨node, hnode, hth⟩)⟩
        · obtain ⟨fd, hfd⟩ := Option.ne_none_iff_exists'.mp (hfuel _ (Or.inr rfl))
          have hne := first_fd_ne _ _ hfd
          by_cases hgood : fd > -1
          · exact Or.inr ⟨n, _, by omega, hall, ha,
              Or.inr (Or.inr ⟨node, fd, hnode, hth, hfd, hgood⟩)⟩
          · left
            intro x hx
            rcases hx with hx | rfl
            · exact hall x hx
            · exact ⟨by simp [hnode], hth, fd, hfd, by omega⟩
    · exact Or.inr ⟨k, a, by omega, h1, h2, h3⟩

theorem restart_take (w : engine) (may_throttle : Bool) (o : restart_oracle) :
    ev2citrusleaf_restart w may_throttle ⟨o.now, o.attempts.take 5, o.event_add_ok⟩
      = ev2citrusleaf_restart w may_throttle o := by
  unfold ev2citrusleaf_restart
  simp only [restart_loop_take]

theorem restart_terminates (w : engine) (may_throttle : Bool) (o : restart_oracle)
    (hlen : 5 ≤ o.attempts.length)
    (hfuel : ∀ x ∈ o.attempts.take 5, first_fd x.fd_gets ≠ none) :
    ∃ b w', ev2citrusleaf_restart w may_throttle o = some (b, w') := by
  unfold ev2citrusleaf_restart
  split_ifs
  · exact ⟨_, _, rfl⟩
  · simp only
    have h := restart_loop_terminates may_throttle 5 o.attempts
      { w with req := { w.req with
          wr_buf_pos := 0, rd_buf_pos := 0, rd_header_pos := 0, node := none, fd := -1 } }
      hlen hfuel
    split
    · rename_i hnone
      exact absurd hnone h
    all_goals exact ⟨_, _, rfl⟩

/-! ## The deadline shortcut of a restart -/

/-- C30: if `timeout_ms > 0` and `start_time + timeout_ms` is earlier than the
current time, `ev2citrusleaf_restart` returns true and leaves the request, its
events, the queue, the counters and the log as they are; with `timeout_ms = 0`
the shortcut is not taken: whatever the clock says, the three positions are
reset and at least one call is made to the cluster or the queue. -/
theorem restart_after_deadline (w : engine) (may_throttle : Bool) (o : restart_oracle) :
    (w.req.timeout_ms > 0 → w.req.start_time + w.req.timeout_ms < o.now →
        ev2citrusleaf_restart w may_throttle o = some (true, w))
      ∧ (w.req.timeout_ms = 0 →
        ∀ (b : Bool) (w' : engine), ev2citrusleaf_restart w may_throttle o = some (b, w') →
          w'.req.wr_buf_pos = 0 ∧ w'.req.rd_buf_pos = 0 ∧ w'.req.rd_header_pos = 0
            ∧ w.log.length < w'.log.length) := by
  constructor
  · intro h1 h2
    unfold ev2citrusleaf_restart
    rw [if_pos ⟨h1, h2⟩]
  · intro h0 b w' h
    unfold ev2citrusleaf_restart at h
    rw [if_neg (by omega)] at h
    simp only at h
    split at h
    · exact absurd h (by simp)
    all_goals
      rename_i hloop
      simp only [Option.some.injEq, Prod.mk.injEq] at h
      obtain ⟨-, rfl⟩ := h
      obtain ⟨f1, -⟩ := restart_loop_frame _ _ _ _ _ _ hloop
      have f2 := (restart_loop_log _ _ _ _ _ _ hloop).2 (by norm_num)
      simp only at f1 f2
      simp [f1]
      try omega

/-- The sample get, started at time 0 with a timeout of 200 ms, is left alone
by a restart at time 1000. -/
theorem restart_after_deadline_witness :
    ev2citrusleaf_restart get_started false late_restart = some (true, get_started) :=
  (restart_after_deadline get_started false late_restart).1 (by decide) (by decide)

/-! ## The rounds of a restart: the claim -/

/-- The restart of a fresh request on the cluster whose node 1 asks to drop the
transaction, with `may_throttle` true: `cl_cluster_node_get` hands out node 1,
whose pool would hand out descriptor 5, and yet the restart returns false with no
node and no descriptor stored, the network event not pending and the request not
on the queue. -/
theorem throttled_restart_stores_nothing :
    dropping_restart.attempts.map restart_attempt.node = [some 1]
      ∧ dropping_restart.attempts.map restart_attempt.fd_gets = [[5]]
      ∧ first_fd [5] = some 5
      ∧ dropped_restart.1 = false
      ∧ dropped_restart.2.log = [action.cl_cluster_node_get 1, action.cl_cluster_node_put 1]
      ∧ dropped_restart.2.req.node = none ∧ dropped_restart.2.req.fd = -1
      ∧ dropped_restart.2.network_event.pending = false
      ∧ dropped_restart.2.req.network_set = false
      ∧ dropped_restart.2.request_q = 0 := by
  decide

/-- C29, amended: a restart whose deadline has not passed.
(1) It comes to an end when the cluster answers five rounds and every pool
eventually answers something other than -1.
(2) It looks at the answers of at most five calls of `cl_cluster_node_get`.
(3) Such answers are of one of four kinds, which (4) to (7) settle.
(4) After `k < 5` rounds that fail to get a socket the cluster has no node: the
request is pushed on the queue and true returned; nothing is stored, the network
event is left alone, and each of the `k` nodes obtained was released.
(5) All five rounds fail to get a socket: the same, with five nodes obtained and
released.
(6) Round `k` is throttled: the node is released, a throttle counted and false
returned; nothing is stored or queued.
(7) Round `k` gets a socket: true is returned, node and descriptor are stored in
the request, the network event is assigned to the descriptor for writing and
added, and `network_set` tells whether `event_add` succeeded; the nodes of the
`k` rounds before were released. -/
theorem restart_rounds (w : engine) (may_throttle : Bool) (o : restart_oracle)
    (hlate : ¬ (w.req.timeout_ms > 0 ∧ w.req.start_time + w.req.timeout_ms < o.now)) :
    (5 ≤ o.attempts.length → (∀ x ∈ o.attempts.take 5, first_fd x.fd_gets ≠ none) →
        ∃ b w', ev2citrusleaf_restart w may_throttle o = some (b, w'))
      ∧ ev2citrusleaf_restart w may_throttle ⟨o.now, o.attempts.take 5, o.event_add_ok⟩
          = ev2citrusleaf_restart w may_throttle o
      ∧ (5 ≤ o.attempts.length → (∀ x ∈ o.attempts.take 5, first_fd x.fd_gets ≠ none) →
        (∀ x ∈ o.attempts.take 5, no_socket may_throttle x)
          ∨ ∃ k a, k < 5 ∧ (∀ x ∈ o.attempts.take k, no_socket may_throttle x)
              ∧ o.attempts[k]? = some a
              ∧ (a.node = none
                ∨ (∃ node, a.node = some node ∧ may_throttle = true ∧ a.throttle_drop = true)
                ∨ ∃ node fd, a.node = some node
                    ∧ ¬ (may_throttle = true ∧ a.throttle_drop = true)
                    ∧ first_fd a.fd_gets = some fd ∧ fd > -1))
      ∧ (∀ (k : Nat) (a : restart_attempt), k < 5 →
        (∀ x ∈ o.attempts.take k, no_socket may_throttle x) → o.attempts[k]? = some a →
        a.node = none →
        ∃ w', ev2citrusleaf_restart w may_throttle o = some (true, w')
          ∧ w'.request_q = w.request_q + 1 ∧ queue_pushes w'.log = queue_pushes w.log + 1
          ∧ w'.req.node = none ∧ w'.req.fd = -1 ∧ w'.network_event = w.network_event
          ∧ w'.req.network_set = w.req.network_set
          ∧ node_gets w'.log = node_gets w.log + k ∧ node_puts w'.log = node_puts w.log + k)
      ∧ (5 ≤ o.attempts.length → (∀ x ∈ o.attempts.take 5, no_socket may_throttle x) →
        ∃ w', ev2citrusleaf_restart w may_throttle o = some (true, w')
          ∧ w'.request_q = w.request_q + 1 ∧ queue_pushes w'.log = queue_pushes w.log + 1
          ∧ w'.req.node = none ∧ w'.req.fd = -1 ∧ w'.network_event = w.network_event
          ∧ w'.req.network_set = w.req.network_set
          ∧ node_gets w'.log = node_gets w.log + 5 ∧ node_puts w'.log = node_puts w.log + 5)
      ∧ (∀ (k node : Nat) (a : restart_attempt), k < 5 →
        (∀ x ∈ o.attempts.take k, no_socket may_throttle x) → o.attempts[k]? = some a →
        a.node = some node → may_throttle = true ∧ a.throttle_drop = true →
        ∃ w', ev2citrusleaf_restart w may_throttle o = some (false, w')
          ∧ w'.request_q = w.request_q ∧ queue_pushes w'.log = queue_pushes w.log
          ∧ w'.req.node = none ∧ w'.req.fd = -1 ∧ w'.network_event = w.network_event
          ∧ w'.req.network_set = w.req.network_set
          ∧ w'.asc.n_req_throttles = w.asc.n_req_throttles + 1
          ∧ node_gets w'.log = node_gets w.log + (k + 1)
          ∧ node_puts w'.log = node_puts w.log + (k + 1))
      ∧ (∀ (k node : Nat) (fd : Int) (a : restart_attempt), k < 5 →
        (∀ x ∈ o.attempts.take k, no_socket may_throttle x) → o.attempts[k]? = some a →
        a.node = some node → ¬ (may_throttle = true ∧ a.throttle_drop = true) →
        first_fd a.fd_gets = some fd → fd > -1 →
        ∃ w', ev2citrusleaf_restart w may_throttle o = some (true, w')
          ∧ w'.req.node = some node ∧ w'.req.fd = fd
          ∧ w'.network_event = ⟨fd, true, false, o.event_add_ok⟩
          ∧ w'.req.network_set = o.event_add_ok
          ∧ w'.request_q = w.request_q ∧ queue_pushes w'.log = queue_pushes w.log
          ∧ node_gets w'.log = node_gets w.log + (k + 1)
          ∧ node_puts w'.log = node_puts w.log + k) :=
  ⟨fun hlen hfuel => restart_terminates w may_throttle o hlen hfuel,
    restart_take w may_throttle o,
    fun hlen hfuel => restart_rounds_cases may_throttle 5 o.attempts hlen hfuel,
    fun k a hk hfail ha hnode => restart_no_node w may_throttle o k a hlate hk hfail ha hnode,
    fun hlen hfail => restart_gave_up w may_throttle o hlate hlen hfail,
    fun k node a hk hfail ha hnode hth =>
      restart_round_throttled w may_throttle o k node a hlate hk hfail ha hnode hth,
    fun k node fd a hk hfail ha hnode hth hfd hgood =>
      restart_got w may_throttle o k node fd a hlate hk hfail ha hnode hth hfd hgood⟩

/-- The restart of a fresh request in which the pools of nodes 1 to 4 have no
socket and node 5 hands out descriptor 9: it returns true. -/
theorem restart_rounds_witness :
    Option.map Prod.fst
        (ev2citrusleaf_restart (engine_init get_request zero_stats) false fifth_round_restart)
      = some true := by
  obtain ⟨w', h, -⟩ :=
    (restart_rounds (engine_init get_request zero_stats) false fifth_round_restart
      (by decide)).2.2.2.2.2.2 4 5 9 ⟨some 5, false, [9]⟩ (by decide) (by decide) rfl rfl
      (by decide) rfl (by decide)
  rw [h]
  rfl

/-! ## The descriptor of a request is -1 or a descriptor -/

theorem restart_loop_got_fd (may_throttle : Bool) (n : Nat) (attempts : List restart_attempt)
    (w w' : engine) (node : Nat) (fd : Int)
    (h : restart_loop may_throttle n attempts w = some (w', .got node fd)) : fd > -1 := by
  induction n generalizing attempts w with
  | zero => simp [restart_loop] at h
  | succ n ih =>
    cases attempts with
    | nil => simp [restart_loop] at h
    | cons a attempts =>
      unfold restart_loop at h
      cases hnode : a.node with
      | none => simp [hnode] at h
      | some nd =>
        simp only [hnode] at h
        split_ifs at h with hth
        · simp at h
        · cases hloop : fd_get_loop nd a.fd_gets (w.log ++ [action.cl_cluster_node_get nd]) with
          | none => simp [hloop] at h
          | some r =>
            obtain ⟨log, fd'⟩ := r
            simp only [hloop] at h
            split_ifs at h with hfd
            · simp only [Option.some.injEq, Prod.mk.injEq, restart_exit.got.injEq] at h
              obtain ⟨-, -, rfl⟩ := h
              exact hfd
            · exact ih _ _ h

theorem restart_fd_ge (w w' : engine) (may_throttle b : Bool) (o : restart_oracle)
    (h : ev2citrusleaf_restart w may_throttle o = some (b, w')) (h0 : -1 ≤ w.req.fd) :
    -1 ≤ w'.req.fd := by
  unfold ev2citrusleaf_restart at h
  split_ifs at h with hlate
  · simp only [Option.some.injEq, Prod.mk.injEq] at h
    obtain ⟨-, rfl⟩ := h
    exact h0
  · simp only at h
    split at h
    · exact absurd h (by simp)
    all_goals
      rename_i hloop
      simp only [Option.some.injEq, Prod.mk.injEq] at h
      obtain ⟨-, rfl⟩ := h
      have h1 := (restart_loop_frame _ _ _ _ _ _ hloop).1
      first
        | (simp [h1]; done)
        | (have h2 := restart_loop_got_fd _ _ _ _ _ _ _ hloop
           simp only
           omega)

theorem request_complete_fd_ge (K : proto_h) (w : engine) (timedout : Bool)
    (o : complete_oracle) (h0 : -1 ≤ w.req.fd) :
    -1 ≤ (ev2citrusleaf_request_complete K w timedout o).req.fd := by
  obtain ⟨req, ds, te, ne, q, asc, log⟩ := w
  obtain ⟨tms, wpol, ctl, ctld, node, fd, ts, ns, bhs, wr, st, nsp, d, wb, wbs, wbp, wbm, rhb, rhp,
    rb, rbs, rbp⟩ := req
  simp only at h0
  by_cases hfd : fd > -1 <;> cases timedout <;> cases node <;> cases ts <;> cases ns <;>
    cases bhs <;>
    simp [ev2citrusleaf_request_complete, cl_request_destroy, hfd] <;>
    first
      | exact h0
      | omega
      | (split_ifs <;> first | exact h0 | omega | simp)

theorem event_fail_fd_ge (K : proto_h) (w w' : engine) (fd : Int) (o : network_oracle)
    (h : ev2citrusleaf_event_fail K w fd o = some w') : -1 ≤ w'.req.fd := by
  unfold ev2citrusleaf_event_fail at h
  simp only at h
  split_ifs at h with hw
  · simp only [Option.some.injEq] at h
    subst h
    apply request_complete_fd_ge
    cases w.req.node <;> simp
  · split at h
    · exact absurd h (by simp)
    · rename_i b w1 hr
      simp only [Option.some.injEq] at h
      subst h
      apply restart_fd_ge _ _ _ _ _ hr
      cases w.req.node <;> simp

theorem event_recv_body_fd_ge (K : proto_h) (w w' : engine) (fd : Int)
    (o : network_oracle) (h : event_recv_body K w fd o = some w') (h0 : -1 ≤ w.req.fd) :
    -1 ≤ w'.req.fd := by
  unfold event_recv_body at h
  simp only at h
  split_ifs at h
  all_goals first
    | exact event_fail_fd_ge K w w' fd o h
    | (simp only [Option.some.injEq] at h
       subst h
       first
         | exact h0
         | exact request_complete_fd_ge K _ _ _ h0)

theorem event_send_fd_ge (K : proto_h) (w w' : engine) (fd : Int)
    (o : network_oracle) (h : event_send K w fd o = some w') (h0 : -1 ≤ w.req.fd) :
    -1 ≤ w'.req.fd := by
  unfold event_send at h
  simp only at h
  split_ifs at h
  all_goals first
    | exact event_fail_fd_ge K w w' fd o h
    | (simp only [Option.some.injEq] at h
       subst h
       exact h0)

theorem event_recv_header_fd (w w' : engine) (o : network_oracle)
    (h : event_recv_header w o = some w') : w'.req.fd = w.req.fd := by
  unfold event_recv_header at h
  simp only at h
  split_ifs at h
  all_goals
    simp only [Option.some.injEq] at h
    subst h
    rfl

theorem event_init_rd_buf_fd (K : proto_h) (w : engine) (o : network_oracle) :
    (event_init_rd_buf K w o).1.req.fd = w.req.fd := by
  unfold event_init_rd_buf
  simp only
  split_ifs
  · rfl
  · cases o.rd_malloc <;> rfl
  · rfl

theorem event_fd_ge (K : proto_h) (w w' : engine) (fd : Int) (ev_write : Bool)
    (o : network_oracle) (h : ev2citrusleaf_event K w fd ev_write o = some w')
    (h0 : -1 ≤ w.req.fd) : -1 ≤ w'.req.fd := by
  unfold ev2citrusleaf_event at h
  simp only at h
  split_ifs at h with hw
  · have := event_send_fd_ge K _ w' fd o h h0
    exact this
  · split at h
    · have := event_fail_fd_ge K _ w' fd o h
      exact this
    · rename_i w1 hh
      have e1 := event_recv_header_fd _ _ _ hh
      simp only at e1
      split_ifs at h
      · have e2 := event_init_rd_buf_fd K w1 o
        split at h
        · rename_i w2 hi
          have := event_fail_fd_ge K _ w' fd o h
          exact this
        · rename_i w2 hi
          rw [hi] at e2
          simp only at e2
          have := event_recv_body_fd_ge K _ w' fd o h (by rw [e2, e1]; exact h0)
          exact this
      · simp only [Option.some.injEq] at h
        subst h
        show -1 ≤ w1.req.fd
        rw [e1]
        exact h0

/-- No event leaves the request with a descriptor below -1. -/
theorem step_fd_ge (K : proto_h) (w w' : engine) (e : event)
    (h : step K w e = some w') (h0 : -1 ≤ w.req.fd) : -1 ≤ w'.req.fd := by
  cases e with
  | network o =>
    simp only [step] at h
    split_ifs at h
    have := event_fd_ge K _ w' _ _ o h h0
    exact this
  | timer o =>
    simp only [step] at h
    split_ifs at h
    simp only [Option.some.injEq] at h
    subst h
    unfold ev2citrusleaf_timer_expired
    split_ifs
    · exact h0
    · exact request_complete_fd_ge K _ _ _ h0
  | cluster_pop ok =>
    simp only [step] at h
    split_ifs at h
    simp only [Option.some.injEq] at h
    subst h
    unfold ev2citrusleaf_base_hop
    cases ok <;> exact h0
  | base_hop o =>
    simp only [step] at h
    split_ifs at h
    unfold ev2citrusleaf_base_hop_event at h
    simp only at h
    split at h
    · exact absurd h (by simp)
    · rename_i b w1 hr
      simp only [Option.some.injEq] at h
      subst h
      exact restart_fd_ge _ _ _ _ _ hr h0

theorem run_fd_ge (K : proto_h) (es : List event) (w w' : engine)
    (h : run K w es = some w') (h0 : -1 ≤ w.req.fd) : -1 ≤ w'.req.fd := by
  induction es generalizing w with
  | nil =>
    simp only [run, Option.some.injEq] at h
    subst h
    exact h0
  | cons e es ih =>
    simp only [run] at h
    split at h
    · exact absurd h (by simp)
    · rename_i w1 hstep
      exact ih w1 h (step_fd_ge K w w1 e hstep h0)

/-! ## What a request holds -/

theorem start_timer_req (w : engine) (o : start_oracle) :
    (start_timer w o).2.req.fd = w.req.fd
      ∧ (start_timer w o).2.req.network_set = w.req.network_set := by
  unfold start_timer cl_request_destroy
  cases o.cross_threaded <;> simp only [if_true, if_false, Bool.false_eq_true] <;>
    split_ifs <;> exact ⟨rfl, rfl⟩

theorem start_failed_req (w : engine) :
    (start_failed w).req.fd = w.req.fd
      ∧ (start_failed w).req.network_set = w.req.network_set := by
  unfold start_failed cl_request_destroy
  split_ifs <;> exact ⟨rfl, rfl⟩

/-- A restart that returns false leaves the request without a descriptor and
`network_set` as it was. -/
theorem restart_false_req (w w' : engine) (may_throttle : Bool) (o : restart_oracle)
    (h : ev2citrusleaf_restart w may_throttle o = some (false, w')) :
    w'.req.fd = -1 ∧ w'.req.network_set = w.req.network_set := by
  unfold ev2citrusleaf_restart at h
  split_ifs at h with hlate
  · simp at h
  · simp only at h
    split at h
    · exact absurd h (by simp)
    all_goals
      rename_i hloop
      simp only [Option.some.injEq, Prod.mk.injEq] at h
      first
        | (simp at h; done)
        | (obtain ⟨-, rfl⟩ := h
           have h1 := (restart_loop_frame _ _ _ _ _ _ hloop).1
           simp [h1])

theorem start_finish_req (K : proto_h) (w : engine) (o : start_oracle)
    (c : compile_result) (write may_throttle : Bool) (r : start_result) (w0 : engine)
    (h : start_finish K w o c write may_throttle = some r) (hw : r.w = some w0)
    (hfd : w.req.fd = -1) (hns : w.req.network_set = false) :
    -1 ≤ w0.req.fd
      ∧ (r.rc ≠ EV2CITRUSLEAF_OK → w0.req.fd = -1 ∧ w0.req.network_set = false) := by
  unfold start_finish at h
  simp only at h
  split_ifs at h with hc
  · simp only [Option.some.injEq] at h
    subst h
    simp only [Option.some.injEq] at hw
    subst hw
    obtain ⟨f1, f2⟩ := start_failed_req
      { w with req := { w.req with
          wr_buf := c.buf, wr_buf_size := c.buf_size, wr_buf_malloced := c.malloced,
          d := c.digest, write := write } }
    simp only at f1 f2
    rw [f1, f2, hfd, hns]
    simp
  · split at h
    · exact absurd h (by simp)
    · rename_i w1 hr
      simp only [Option.some.injEq] at h
      subst h
      simp only [Option.some.injEq] at hw
      subst hw
      obtain ⟨f1, f2⟩ := start_failed_req w1
      obtain ⟨g1, g2⟩ := restart_false_req _ _ _ _ hr
      simp only at g2
      rw [f1, f2, g1, g2, hns]
      simp
    · rename_i w1 hr
      simp only [Option.some.injEq] at h
      subst h
      simp only [Option.some.injEq] at hw
      subst hw
      refine ⟨?_, fun hne => absurd rfl hne⟩
      show -1 ≤ w1.req.fd
      exact restart_fd_ge _ _ _ _ _ hr (by simp [hfd])

/-- The request a start call leaves behind has the descriptor -1 or a
descriptor; if the call did not return `OK`, it has none and `network_set` is
false. -/
theorem start_req (K : proto_h) (o : start_oracle) (asc : cluster_stats) (malloc_ok : Bool)
    (timeout_ms : Int) (wp : Option ev2citrusleaf_write_parameters)
    (info1 info2 : Nat) (ns : List Nat) (set : Option (List Nat))
    (key : Option ev2citrusleaf_object) (digest : Option (List Nat))
    (wparam : Option ev2citrusleaf_write_parameters) (bins : List ev2citrusleaf_bin)
    (ops : List ev2citrusleaf_operation) (r : start_result) (w0 : engine)
    (h : ev2citrusleaf_start K o asc (cl_request_create malloc_ok timeout_ms wp) info1 info2 ns
          set key digest wparam bins = some r
      ∨ ev2citrusleaf_start_op K o asc (cl_request_create malloc_ok timeout_ms wp) ns
          set key digest ops wparam = some r)
    (hw : r.w = some w0) :
    -1 ≤ w0.req.fd
      ∧ (r.rc ≠ EV2CITRUSLEAF_OK → w0.req.fd = -1 ∧ w0.req.network_set = false) := by
  cases malloc_ok
  · rcases h with h | h
    · simp only [cl_request_create, ev2citrusleaf_start, Bool.false_eq_true, if_false,
        Option.some.injEq] at h
      subst h
      simp at hw
    · simp only [cl_request_create, ev2citrusleaf_start_op, Bool.false_eq_true, if_false,
        Option.some.injEq] at h
      subst h
      simp at hw
  · obtain ⟨req, hreq, hfd, hns⟩ : ∃ req, cl_request_create true timeout_ms wp = some req
        ∧ req.fd = -1 ∧ req.network_set = false := ⟨_, rfl, rfl, rfl⟩
    rw [hreq] at h
    obtain ⟨t1, t2⟩ := start_timer_req (engine_init req asc) o
    rcases h with h | h
    · unfold ev2citrusleaf_start at h
      simp only at h
      split at h
      · rename_i w1 hst
        simp only [Option.some.injEq] at h
        subst h
        simp only [Option.some.injEq] at hw
        subst hw
        rw [hst] at t1 t2
        simp only [engine_init] at t1 t2
        simp [t1, t2, hfd, hns]
      · rename_i w1 hst
        rw [hst] at t1 t2
        simp only [engine_init] at t1 t2
        exact start_finish_req K _ o _ _ _ r w0 h hw (by simp [t1, hfd]) (by simp [t2, hns])
    · unfold ev2citrusleaf_start_op at h
      simp only at h
      split at h
      · rename_i w1 hst
        simp only [Option.some.injEq] at h
        subst h
        simp only [Option.some.injEq] at hw
        subst hw
        rw [hst] at t1 t2
        simp only [engine_init] at t1 t2
        simp [t1, t2, hfd, hns]
      · rename_i w1 hst
        rw [hst] at t1 t2
        simp only [engine_init] at t1 t2
        split at h
        · exact absurd h (by simp)
        · exact start_finish_req K _ o _ _ _ r w0 h hw (by simp [t1, hfd]) (by simp [t2, hns])

/-- A coherent live request with a descriptor that is -1 or above holds what
`request_coherent` says. -/
theorem coherent_of_ok (w : engine) (hok : engine_ok w) (h0 : -1 ≤ w.req.fd) :
    request_coherent w := by
  obtain ⟨h1, h2, h3, h4, h5, h6, h7, h8, h9, h10, h11, h12⟩ := hok
  refine ⟨fun hne => h6 (by omega), fun hq => ?_, ?_⟩
  · obtain ⟨q1, q2, q3⟩ := h12 hq
    have hp : w.network_event.pending = false := by
      cases hp : w.network_event.pending
      · rfl
      · have := h11 hp
        omega
    refine ⟨q3, by omega, ?_, hp⟩
    rw [h7, hp]
    rfl
  · rw [h7, h8]
    cases w.network_event.pending <;> cases w.network_event.base_hop <;> simp

/-- The only event that can happen to the request of a failed start call
destroys it. -/
theorem step_failed_destroys (K : proto_h) (w w' : engine) (e : event) (hf : engine_failed w)
    (h : step K w e = some w') : w'.destroyed ≠ 0 := by
  obtain ⟨f1, f2, f3, f4, f5, f6, f7, f8, f9⟩ := hf
  cases e with
  | network o =>
    simp only [step, f4, Bool.false_eq_true, false_and, and_false, if_false] at h
    exact absurd h (by simp)
  | base_hop o =>
    simp only [step, f4, Bool.false_eq_true, false_and, and_false, if_false] at h
    exact absurd h (by simp)
  | cluster_pop ok =>
    simp only [step, f5, Nat.lt_irrefl, and_false, if_false] at h
    exact absurd h (by simp)
  | timer o =>
    simp only [step] at h
    split_ifs at h with hc
    obtain ⟨c1, c2, c3⟩ := hc
    obtain ⟨d1, d2, d3, d4⟩ := f8 c1
    simp only [Option.some.injEq] at h
    subst h
    unfold ev2citrusleaf_timer_expired cl_request_destroy
    simp [d2, d3]

theorem run_destroyed (K : proto_h) (es : List event) (w w' : engine) (hd : w.destroyed ≠ 0)
    (h : run K w es = some w') : w' = w := by
  cases es with
  | nil =>
    simp only [run, Option.some.injEq] at h
    exact h.symm
  | cons e es =>
    simp only [run, step_destroyed K w e hd] at h
    exact absurd h (by simp)

/-- The request of a failed start call that is still alive after some events is
as the start call left it. -/
theorem run_failed_live (K : proto_h) (es : List event) (w w' : engine) (hf : engine_failed w)
    (h : run K w es = some w') (hlive : w'.destroyed = 0) : w' = w := by
  cases es with
  | nil =>
    simp only [run, Option.some.injEq] at h
    exact h.symm
  | cons e es =>
    simp only [run] at h
    split at h
    · exact absurd h (by simp)
    · rename_i w1 hstep
      have hd := step_failed_destroys K w w1 e hf hstep
      have := run_destroyed K es w1 w' hd h
      rw [this] at hlive
      exact absurd hlive hd

/-- A restart leaves `rd_buf_size` as it is. -/
theorem restart_rd_buf_size (w w' : engine) (may_throttle b : Bool) (o : restart_oracle)
    (h : ev2citrusleaf_restart w may_throttle o = some (b, w')) :
    w'.req.rd_buf_size = w.req.rd_buf_size := by
  unfold ev2citrusleaf_restart at h
  split_ifs at h with hlate
  · simp only [Option.some.injEq, Prod.mk.injEq] at h
    obtain ⟨-, rfl⟩ := h
    rfl
  · simp only at h
    split at h
    · exact absurd h (by simp)
    all_goals
      rename_i hloop
      simp only [Option.some.injEq, Prod.mk.injEq] at h
      obtain ⟨-, rfl⟩ := h
      have h1 := (restart_loop_frame _ _ _ _ _ _ hloop).1
      simp [h1]

/-- With a body size left from before, the frame header just received is not
looked at. -/
theorem event_init_rd_buf_stale (K : proto_h) (w : engine) (o : network_oracle)
    (h : w.req.rd_buf_size ≠ 0) : event_init_rd_buf K w o = (w, true) := by
  unfold event_init_rd_buf
  rw [if_neg h]

set_option maxRecDepth 100000 in
/-- C25: the sample get whose first attempt received the frame header of a
40-byte body before the connection broke.  The restart resets the three
positions and keeps the body size 40.  On the retry the frame header declares 22
bytes and the 22 bytes arrive: the request still waits for 40 bytes and is not
completed, where the same answer to a first attempt completes it. -/
theorem retry_reads_stale_body_size :
    get_retried.req.rd_buf_size = 40
      ∧ get_retried.req.rd_buf_pos = 0 ∧ get_retried.req.rd_header_pos = 0
      ∧ get_retried.req.wr_buf_pos = 0
      ∧ recv_all.recv_header.rv = 8
      ∧ cl_proto_sz (cl_proto_swap_in_place recv_all.recv_header.data) = 22
      ∧ recv_all.recv_body.rv = 22
      ∧ get_retried_answered.req.rd_buf_size = 40
      ∧ get_retried_answered.req.rd_buf_pos = 22
      ∧ callbacks get_retried_answered.log = 0 ∧ get_retried_answered.destroyed = 0
      ∧ callbacks get_answered.log = 1 ∧ get_answered.destroyed = 1 := by
  refine ⟨by decide, by decide, by decide, by decide, by decide, by decide, by decide,
    by decide, by decide, by decide, by decide, by decide, by decide⟩

/-! ## The end of a request -/

/-- After a start call and any events the request was destroyed at most once,
and once it is destroyed nothing is left that could run a handler on it. -/
theorem destroyed_at_most_once (K : proto_h) (o : start_oracle) (asc : cluster_stats)
    (malloc_ok : Bool) (timeout_ms : Int) (wp : Option ev2citrusleaf_write_parameters)
    (info1 info2 : Nat) (ns : List Nat) (set : Option (List Nat))
    (key : Option ev2citrusleaf_object) (digest : Option (List Nat))
    (wparam : Option ev2citrusleaf_write_parameters) (bins : List ev2citrusleaf_bin)
    (ops : List ev2citrusleaf_operation) (r : start_result) (w0 : engine) (es : List event)
    (w : engine)
    (hstart :
      ev2citrusleaf_start K o asc (cl_request_create malloc_ok timeout_ms wp) info1 info2 ns
          set key digest wparam bins = some r
        ∨ ev2citrusleaf_start_op K o asc (cl_request_create malloc_ok timeout_ms wp) ns
          set key digest ops wparam = some r)
    (hw : r.w = some w0) (hrun : run K w0 es = some w) :
    destroys w.log ≤ 1 ∧ w.destroyed = destroys w.log
      ∧ (w.destroyed = 1 →
          w.timeout_event = false ∧ w.network_event.pending = false ∧ w.request_q = 0) := by
  have hs := hstart.elim (start_spec K o asc malloc_ok timeout_ms wp info1 info2 ns set key
    digest wparam bins r) (start_op_spec K o asc malloc_ok timeout_ms wp ns set key digest ops
    wparam r)
  rcases hs with ⟨hn, -⟩ | ⟨w1, hw1, hs⟩
  · rw [hn] at hw
    exact absurd hw (by simp)
  · rw [hw1, Option.some.injEq] at hw
    subst hw
    rcases hs with ⟨-, hst⟩ | ⟨-, hf⟩
    · rcases run_started K es w1 w hst hrun with h1 | h1
      · have a := h1.ok.live
        have b := h1.ok.no_destroy
        refine ⟨by omega, by omega, fun h => by omega⟩
      · have a := h1.destroyed
        have b := h1.destroy_once
        exact ⟨by omega, by omega, fun _ => ⟨h1.no_timer, h1.no_network, h1.no_queue⟩⟩
    · have h1 := run_failed K es w1 w hf hrun
      have a := h1.destroyed_le
      have b := h1.destroys_eq
      exact ⟨by omega, by omega, fun h => ⟨h1.dead h, h1.no_network, h1.no_queue⟩⟩

theorem poke_length (buf : List Nat) (p : Nat) (x : List Nat) :
    (poke buf p x).length = max buf.length (p + x.length) := by
  simp only [poke, List.length_append, List.length_take, List.length_replicate,
    List.length_drop]
  omega

theorem le_poke_length (buf : List Nat) (p n : Nat) (x : List Nat) (h : n ≤ buf.length) :
    n ≤ (poke buf p x).length := by
  rw [poke_length]
  exact le_trans h (le_max_left _ _)

theorem poke_take_of_le (buf : List Nat) (p n : Nat) (x : List Nat) (hn : n ≤ p)
    (hb : n ≤ buf.length) : (poke buf p x).take n = buf.take n := by
  unfold poke
  rw [List.append_assoc, List.append_assoc, List.take_append_of_le_length
    (by rw [List.length_take]; omega), List.take_take]
  congr 1
  omega

theorem poke_of_le (buf : List Nat) (p : Nat) (x : List Nat) (hp : p ≤ buf.length) :
    poke buf p x = buf.take p ++ x ++ buf.drop (p + x.length) := by
  unfold poke
  have e4 : p - buf.length = 0 := by omega
  rw [e4]
  simp

theorem poke_poke_append (buf : List Nat) (p : Nat) (a b : List Nat) (hp : p ≤ buf.length) :
    poke (poke buf p a) (p + a.length) b = poke buf p (a ++ b) := by
  have hT : (buf.take p ++ a).length = p + a.length := by
    rw [List.length_append, List.length_take]
    omega
  have h1 := poke_at_length (buf.take p ++ a) (buf.drop (p + a.length)) b
  rw [hT] at h1
  rw [poke_of_le buf p a hp, poke_of_le buf p (a ++ b) hp, h1, List.drop_drop,
    List.length_append]
  simp only [List.append_assoc]
  congr 4
  omega

theorem poke_poke_adjacent (buf : List Nat) (p : Nat) (a b : List Nat) (hp : p ≤ buf.length) :
    poke (poke buf (p + a.length) b) p a = poke buf p (a ++ b) := by
  have hZ : (buf.take (p + a.length) ++ List.replicate (p + a.length - buf.length) 0).length
      = p + a.length := by
    rw [List.length_append, List.length_take, List.length_replicate]
    omega
  have hZt : (buf.take (p + a.length) ++ List.replicate (p + a.length - buf.length) 0).take p
      = buf.take p := by
    rw [List.take_append_of_le_length (by rw [List.length_take]; omega), List.take_take]
    congr 1
    omega
  have hi : poke buf (p + a.length) b
      = (buf.take (p + a.length) ++ List.replicate (p + a.length - buf.length) 0)
        ++ (b ++ buf.drop (p + a.length + b.length)) := by
    unfold poke
    simp only [List.append_assoc]
  have hl : p ≤ (poke buf (p + a.length) b).length := by
    rw [poke_length]
    omega
  rw [poke_of_le _ p a hl, poke_of_le buf p (a ++ b) hp, hi,
    List.take_append_of_le_length (by rw [hZ]; omega), hZt, List.drop_left' hZ,
    List.length_append]
  simp only [List.append_assoc]
  congr 4
  omega

theorem poke_drop_take (buf : List Nat) (p : Nat) (x : List Nat) (hp : p ≤ buf.length) :
    ((poke buf p x).drop p).take x.length = x := by
  have hT : (buf.take p).length = p := by
    rw [List.length_take]
    omega
  rw [poke_of_le buf p x hp, List.append_assoc, List.drop_left' hT, List.take_left' rfl]

/-! ## The fields of a request -/

theorem swap_field_length (field_sz type : Nat) :
    (cl_msg_swap_field field_sz type).length = sizeof_cl_msg_field := by
  simp [cl_msg_swap_field, be_bytes_length, sizeof_cl_msg_field]

/-- One field laid out by `write_fields`: the data copied behind the field
header, then the header swapped into place. -/
theorem field_store (buf : List Nat) (mf : Nat) (type : Nat) (data : List Nat)
    (hmf : mf ≤ buf.length) (hd : data.length + 1 < 2 ^ 32) :
    poke (poke buf (mf + sizeof_cl_msg_field) data) mf
        (cl_msg_swap_field ((data.length + 1) % 2 ^ 32) type)
      = poke buf mf (field_wire type data)
    ∧ cl_msg_field_get_next mf ((data.length + 1) % 2 ^ 32) = mf + (field_wire type data).length := by
  have hl := swap_field_length ((data.length + 1) % 2 ^ 32) type
  constructor
  · rw [← hl, poke_poke_adjacent buf mf _ data hmf]
    simp only [cl_msg_swap_field, field_wire, Nat.mod_eq_of_lt hd, List.append_assoc]
  · rw [Nat.mod_eq_of_lt hd]
    simp only [cl_msg_field_get_next, field_wire, List.length_append, be_bytes_length,
      List.length_singleton]
    omega

theorem string_field_store (buf : List Nat) (mf : Nat) (type : Nat) (s : List Nat)
    (hmf : mf ≤ buf.length) (hd : strlen s + 1 < 2 ^ 32) :
    poke (poke buf (mf + sizeof_cl_msg_field) (memcpy_src s (strlen s))) mf
        (cl_msg_swap_field ((strlen s + 1) % 2 ^ 32) type)
      = poke buf mf (field_wire type (cstring s))
    ∧ cl_msg_field_get_next mf ((strlen s + 1) % 2 ^ 32)
      = mf + (field_wire type (cstring s)).length := by
  rw [memcpy_src_strlen]
  exact field_store buf mf type (cstring s) hmf hd

theorem bytes_key_store (buf : List Nat) (mf : Nat) (type pt : Nat) (key : ev2citrusleaf_object)
    (hmf : mf ≤ buf.length) (hsz : key.size ≤ key.ptr.length) (hd : key.size + 2 < 2 ^ 32) :
    poke (poke (poke buf (mf + sizeof_cl_msg_field) [pt]) (mf + sizeof_cl_msg_field + 1)
          (memcpy_src key.ptr key.size)) mf
        (cl_msg_swap_field ((key.size % 2 ^ 32 + 2) % 2 ^ 32) type)
      = poke buf mf (field_wire type ([pt] ++ key.ptr.take key.size))
    ∧ cl_msg_field_get_next mf ((key.size % 2 ^ 32 + 2) % 2 ^ 32)
      = mf + (field_wire type ([pt] ++ key.ptr.take key.size)).length := by
  have hlen : ([pt] ++ key.ptr.take key.size).length = key.size + 1 := by
    simp only [List.length_append, List.length_singleton, List.length_take]
    omega
  have h1 : poke (poke buf (mf + sizeof_cl_msg_field) [pt]) (mf + sizeof_cl_msg_field + 1)
      (memcpy_src key.ptr key.size)
      = poke buf (mf + sizeof_cl_msg_field) ([pt] ++ key.ptr.take key.size) := by
    by_cases hb : mf + sizeof_cl_msg_field ≤ buf.length
    · exact poke_poke_append buf (mf + sizeof_cl_msg_field) [pt] _ hb
    · unfold poke memcpy_src
      have e1 : buf.take (mf + sizeof_cl_msg_field) = buf := List.take_of_length_le (by omega)
      have e2 : ∀ n, buf.drop (mf + sizeof_cl_msg_field + n) = [] :=
        fun n => List.drop_of_length_le (by omega)
      have hl : (buf ++ List.replicate (mf + sizeof_cl_msg_field - buf.length) 0).length
          = mf + sizeof_cl_msg_field := by
        rw [List.length_append, List.length_replicate]
        omega
      rw [e1, e2, List.append_nil]
      have e3 : (buf ++ List.replicate (mf + sizeof_cl_msg_field - buf.length) 0 ++ [pt]).length
          = mf + sizeof_cl_msg_field + 1 := by
        rw [List.length_append, hl, List.length_singleton]
      rw [List.take_of_length_le (by rw [e3]), e3, Nat.sub_self,
        List.drop_of_length_le (by rw [e3]; omega), e2]
      simp
  have h2 : (key.size % 2 ^ 32 + 2) % 2 ^ 32
      = (([pt] ++ key.ptr.take key.size).length + 1) % 2 ^ 32 := by
    rw [hlen]
    omega
  rw [h1, h2]
  exact field_store buf mf type _ hmf (by rw [hlen]; omega)

theorem int_key_store (buf : List Nat) (mf : Nat) (type : Nat) (v : Nat)
    (hmf : mf ≤ buf.length) :
    poke (poke (poke buf (mf + sizeof_cl_msg_field) [CL_PARTICLE_TYPE_INTEGER])
          (mf + sizeof_cl_msg_field + 1) (store_htonll v)) mf
        (cl_msg_swap_field (8 + 2) type)
      = poke buf mf (field_wire type ([CL_PARTICLE_TYPE_INTEGER] ++ be_bytes 8 v))
    ∧ cl_msg_field_get_next mf (8 + 2)
      = mf + (field_wire type ([CL_PARTICLE_TYPE_INTEGER] ++ be_bytes 8 v)).length := by
  have h := bytes_key_store buf mf type CL_PARTICLE_TYPE_INTEGER
    ⟨CL_INT, 8, 0, 0, be_bytes 8 v⟩ hmf (by simp [be_bytes_length]) (by norm_num)
  simp only [memcpy_src] at h
  have e : (be_bytes 8 v).take 8 = be_bytes 8 v :=
    List.take_of_length_le (by rw [be_bytes_length])
  rw [e] at h
  exact h

theorem digest_field_store (buf : List Nat) (mf : Nat) (type : Nat) (d : List Nat)
    (hmf : mf ≤ buf.length) (hd : sizeof_cf_digest ≤ d.length) :
    poke (poke buf (mf + sizeof_cl_msg_field) (memcpy_src d sizeof_cf_digest)) mf
        (cl_msg_swap_field (sizeof_cf_digest + 1) type)
      = poke buf mf (field_wire type (d.take sizeof_cf_digest))
    ∧ cl_msg_field_get_next mf (sizeof_cf_digest + 1)
      = mf + (field_wire type (d.take sizeof_cf_digest)).length := by
  have hlen : (d.take sizeof_cf_digest).length = sizeof_cf_digest := by
    rw [List.length_take]
    omega
  have h := field_store buf mf type (d.take sizeof_cf_digest) hmf
    (by rw [hlen]; norm_num [sizeof_cf_digest])
  rw [hlen, Nat.mod_eq_of_lt (by norm_num [sizeof_cf_digest])] at h
  exact h

/-- What `write_fields` leaves in the buffer: from `pos` on the fields namespace,
set (if given), then the key or the digest, each as `field_wire`; the returned
pointer is just behind them. -/
theorem write_fields_layout (K : proto_h) (r : List Nat → List Nat) (buf : List Nat) (pos : Nat)
    (ns : List Nat) (set : Option (List Nat)) (set_len : Nat)
    (key : Option ev2citrusleaf_object) (d : Option (List Nat)) (d_ret : List Nat)
    (hpos : pos ≤ buf.length) (hns : strlen ns + 1 < 2 ^ 32)
    (hset : ∀ s, set = some s → set_len = strlen s ∧ strlen s + 1 < 2 ^ 32)
    (hkd : key.isSome = !d.isSome)
    (hkey : ∀ k, key = some k →
      (k.type = CL_STR ∨ k.type = CL_BLOB ∨ k.type = CL_INT)
        ∧ (k.type ≠ CL_INT → k.size ≤ k.ptr.length ∧ k.size + 2 < 2 ^ 32))
    (hd : ∀ x, d = some x → sizeof_cf_digest ≤ x.length) :
    (write_fields K r buf pos ns (strlen ns) set set_len key d d_ret).buf
        = poke buf pos (fields_wire K ns set key d)
      ∧ (write_fields K r buf pos ns (strlen ns) set set_len key d d_ret).ret
        = some (pos + (fields_wire K ns set key d).length) := by
  obtain ⟨n1, n2⟩ := string_field_store buf pos K.CL_MSG_FIELD_TYPE_NAMESPACE ns hpos hns
  have hB1 : pos + (field_wire K.CL_MSG_FIELD_TYPE_NAMESPACE (cstring ns)).length
      ≤ (poke buf pos (field_wire K.CL_MSG_FIELD_TYPE_NAMESPACE (cstring ns))).length := by
    rw [poke_length]
    omega
  have h34 : CL_STR ≠ CL_BLOB := by decide
  have h31 : CL_STR ≠ CL_INT := by decide
  have h41 : CL_BLOB ≠ CL_INT := by decide
  cases set with
  | none =>
    cases key with
    | none =>
      cases d with
      | none => simp at hkd
      | some x =>
        obtain ⟨d1, d2⟩ := digest_field_store _ _ K.CL_MSG_FIELD_TYPE_DIGEST_RIPE x hB1
          (hd x rfl)
        unfold write_fields
        simp only []
        rw [n1, n2, d1, d2, poke_poke_append buf pos _ _ hpos]
        simp [fields_wire, Nat.add_assoc]
    | some k =>
      cases d with
      | some x => simp at hkd
      | none =>
        obtain ⟨ht, hk⟩ := hkey k rfl
        rcases ht with ht | ht | ht
        · obtain ⟨k1, k2⟩ := bytes_key_store _ _ K.CL_MSG_FIELD_TYPE_KEY CL_PARTICLE_TYPE_STRING
            k hB1 (hk (by rw [ht]; exact h31)).1 (hk (by rw [ht]; exact h31)).2
          unfold write_fields
          simp only [if_pos ht]
          rw [n1, n2, k1, k2, poke_poke_append buf pos _ _ hpos]
          have hw : key_wire k = [CL_PARTICLE_TYPE_STRING] ++ k.ptr.take k.size := by
            unfold key_wire
            rw [if_neg (by rw [ht]; exact h31), ht]
            rfl
          simp [fields_wire, hw, Nat.add_assoc]
        · obtain ⟨k1, k2⟩ := bytes_key_store _ _ K.CL_MSG_FIELD_TYPE_KEY CL_PARTICLE_TYPE_BLOB
            k hB1 (hk (by rw [ht]; exact h41)).1 (hk (by rw [ht]; exact h41)).2
          unfold write_fields
          simp only [if_neg (show ¬ k.type = CL_STR by rw [ht]; exact h34.symm), if_pos ht]
          rw [n1, n2, k1, k2, poke_poke_append buf pos _ _ hpos]
          have hw : key_wire k = [CL_PARTICLE_TYPE_BLOB] ++ k.ptr.take k.size := by
            unfold key_wire
            rw [if_neg (by rw [ht]; exact h41), ht]
            rfl
          simp [fields_wire, hw, Nat.add_assoc]
        · obtain ⟨k1, k2⟩ := int_key_store _ _ K.CL_MSG_FIELD_TYPE_KEY (to_u64 k.i64) hB1
          unfold write_fields
          simp only [if_neg (show ¬ k.type = CL_STR by rw [ht]; exact h31.symm),
            if_neg (show ¬ k.type = CL_BLOB by rw [ht]; exact h41.symm), if_pos ht]
          rw [n1, n2, k1, k2, poke_poke_append buf pos _ _ hpos]
          simp [fields_wire, key_wire, ht, Nat.add_assoc]
  | some s =>
    obtain ⟨hs1, hs2⟩ := hset s rfl
    subst hs1
    obtain ⟨s1, s2⟩ := string_field_store _ _ K.CL_MSG_FIELD_TYPE_SET s hB1 hs2
    have hB2 : pos + (field_wire K.CL_MSG_FIELD_TYPE_NAMESPACE (cstring ns)).length
        + (field_wire K.CL_MSG_FIELD_TYPE_SET (cstring s)).length
        ≤ (poke (poke buf pos (field_wire K.CL_MSG_FIELD_TYPE_NAMESPACE (cstring ns)))
            (pos + (field_wire K.CL_MSG_FIELD_TYPE_NAMESPACE (cstring ns)).length)
            (field_wire K.CL_MSG_FIELD_TYPE_SET (cstring s))).length := by
      rw [poke_length]
      omega
    have e : pos + (field_wire K.CL_MSG_FIELD_TYPE_NAMESPACE (cstring ns)).length
        + (field_wire K.CL_MSG_FIELD_TYPE_SET (cstring s)).length
        = pos + (field_wire K.CL_MSG_FIELD_TYPE_NAMESPACE (cstring ns)
          ++ field_wire K.CL_MSG_FIELD_TYPE_SET (cstring s)).length := by
      rw [List.length_append]
      omega
    cases key with
    | none =>
      cases d with
      | none => simp at hkd
      | some x =>
        obtain ⟨d1, d2⟩ := digest_field_store _ _ K.CL_MSG_FIELD_TYPE_DIGEST_RIPE x hB2
          (hd x rfl)
        unfold write_fields
        simp only []
        rw [n1, n2, s1, s2, d1, d2, poke_poke_append buf pos _ _ hpos, e,
          poke_poke_append buf pos _ _ hpos]
        simp [fields_wire, Nat.add_assoc]
    | some k =>
      cases d with
      | some x => simp at hkd
      | none =>
        obtain ⟨ht, hk⟩ := hkey k rfl
        rcases ht with ht | ht | ht
        · obtain ⟨k1, k2⟩ := bytes_key_store _ _ K.CL_MSG_FIELD_TYPE_KEY CL_PARTICLE_TYPE_STRING
            k hB2 (hk (by rw [ht]; exact h31)).1 (hk (by rw [ht]; exact h31)).2
          unfold write_fields
          simp only [if_pos ht]
          rw [n1, n2, s1, s2, k1, k2, poke_poke_append buf pos _ _ hpos, e,
            poke_poke_append buf pos _ _ hpos]
          have hw : key_wire k = [CL_PARTICLE_TYPE_STRING] ++ k.ptr.take k.size := by
            unfold key_wire
            rw [if_neg (by rw [ht]; exact h31), ht]
            rfl
          simp [fields_wire, hw, Nat.add_assoc]
        · obtain ⟨k1, k2⟩ := bytes_key_store _ _ K.CL_MSG_FIELD_TYPE_KEY CL_PARTICLE_TYPE_BLOB
            k hB2 (hk (by rw [ht]; exact h41)).1 (hk (by rw [ht]; exact h41)).2
          unfold write_fields
          simp only [if_neg (show ¬ k.type = CL_STR by rw [ht]; exact h34.symm), if_pos ht]
          rw [n1, n2, s1, s2, k1, k2, poke_poke_append buf pos _ _ hpos, e,
            poke_poke_append buf pos _ _ hpos]
          have hw : key_wire k = [CL_PARTICLE_TYPE_BLOB] ++ k.ptr.take k.size := by
            unfold key_wire
            rw [if_neg (by rw [ht]; exact h41), ht]
            rfl
          simp [fields_wire, hw, Nat.add_assoc]
        · obtain ⟨k1, k2⟩ := int_key_store _ _ K.CL_MSG_FIELD_TYPE_KEY (to_u64 k.i64) hB2
          unfold write_fields
          simp only [if_neg (show ¬ k.type = CL_STR by rw [ht]; exact h31.symm),
            if_neg (show ¬ k.type = CL_BLOB by rw [ht]; exact h41.symm), if_pos ht]
          rw [n1, n2, s1, s2, k1, k2, poke_poke_append buf pos _ _ hpos, e,
            poke_poke_append buf pos _ _ hpos]
          simp [fields_wire, key_wire, ht, Nat.add_assoc]

/-! ## The header of a laid-out request -/

/-- A write at or behind offset `n` leaves the first `n` bytes alone. -/
theorem prefix_poke (a b : List Nat) (n p : Nat) (x : List Nat)
    (h : n ≤ b.length ∧ b.take n = a.take n) (hp : n ≤ p) :
    n ≤ (poke b p x).length ∧ (poke b p x).take n = a.take n := by
  constructor
  · rw [poke_length]
    omega
  · rw [poke_take_of_le b p n x hp h.1, h.2]

theorem write_fields_prefix (K : proto_h) (r : List Nat → List Nat) (buf : List Nat) (pos : Nat)
    (ns : List Nat) (ns_len : Nat) (set : Option (List Nat)) (set_len : Nat)
    (key : Option ev2citrusleaf_object) (d : Option (List Nat)) (d_ret : List Nat) (n : Nat)
    (hn : n ≤ pos) (hb : n ≤ buf.length) :
    n ≤ (write_fields K r buf pos ns ns_len set set_len key d d_ret).buf.length
      ∧ (write_fields K r buf pos ns ns_len set set_len key d d_ret).buf.take n = buf.take n := by
  have base : n ≤ buf.length ∧ buf.take n = buf.take n := ⟨hb, rfl⟩
  unfold write_fields
  cases key with
  | none =>
    cases set <;> cases d <;> simp only [cl_msg_field_get_next] <;>
      repeat' first
        | apply prefix_poke
        | exact base
        | omega
  | some k =>
    by_cases h1 : k.type = CL_STR
    · simp only [if_pos h1]
      cases set <;> cases d <;> simp only [cl_msg_field_get_next] <;>
        repeat' first
          | apply prefix_poke
          | exact base
          | omega
    · by_cases h2 : k.type = CL_BLOB
      · simp only [if_neg h1, if_pos h2]
        cases set <;> cases d <;> simp only [cl_msg_field_get_next] <;>
          repeat' first
            | apply prefix_poke
            | exact base
            | omega
      · by_cases h3 : k.type = CL_INT
        · simp only [if_neg h1, if_neg h2, if_pos h3]
          cases set <;> cases d <;> simp only [cl_msg_field_get_next] <;>
            repeat' first
              | apply prefix_poke
              | exact base
              | omega
        · simp only [if_neg h1, if_neg h2, if_neg h3]
          cases set <;> cases d <;> simp only [cl_msg_field_get_next] <;>
            repeat' first
              | apply prefix_poke
              | exact base
              | omega

theorem write_fields_ret_ge (K : proto_h) (r : List Nat → List Nat) (buf : List Nat) (pos : Nat)
    (ns : List Nat) (ns_len : Nat) (set : Option (List Nat)) (set_len : Nat)
    (key : Option ev2citrusleaf_object) (d : Option (List Nat)) (d_ret : List Nat) (p : Nat)
    (h : (write_fields K r buf pos ns ns_len set set_len key d d_ret).ret = some p) :
    pos ≤ p := by
  unfold write_fields at h
  cases key with
  | none =>
    cases set <;> cases d <;> simp only [cl_msg_field_get_next, Option.some.injEq] at h <;>
      omega
  | some k =>
    by_cases h1 : k.type = CL_STR
    · simp only [if_pos h1] at h
      cases set <;> cases d <;> simp only [cl_msg_field_get_next, Option.some.injEq] at h <;>
        omega
    · by_cases h2 : k.type = CL_BLOB
      · simp only [if_neg h1, if_pos h2] at h
        cases set <;> cases d <;> simp only [cl_msg_field_get_next, Option.some.injEq] at h <;>
          omega
      · by_cases h3 : k.type = CL_INT
        · simp only [if_neg h1, if_neg h2, if_pos h3] at h
          cases set <;> cases d <;> simp only [cl_msg_field_get_next, Option.some.injEq] at h <;>
            omega
        · simp only [if_neg h1, if_neg h2, if_neg h3] at h
          exact absurd h (by simp)

theorem compile_lay_ops_prefix (K : proto_h) (operation : Int)
    (values : List ev2citrusleaf_bin) (buf : List Nat) (op n : Nat) (hn : n ≤ op)
    (hb : n ≤ buf.length) :
    n ≤ (compile_lay_ops K operation values buf op).1.length
      ∧ (compile_lay_ops K operation values buf op).1.take n = buf.take n := by
  induction values generalizing buf op with
  | nil => exact ⟨hb, rfl⟩
  | cons v values ih =>
    simp only [compile_lay_ops]
    have h1 : n ≤ (cl_msg_op_store buf op (bin_to_op K operation v (cl_msg_op_at buf op))).length
        ∧ (cl_msg_op_store buf op (bin_to_op K operation v (cl_msg_op_at buf op))).take n
          = buf.take n := by
      unfold cl_msg_op_store
      apply prefix_poke _ _ _ _ _ _ hn
      apply prefix_poke _ _ _ _ _ ⟨hb, rfl⟩
      omega
    obtain ⟨i1, i2⟩ := ih _ (cl_msg_op_get_next op (bin_to_op K operation v (cl_msg_op_at buf op)))
      (by unfold cl_msg_op_get_next; omega) h1.1
    exact ⟨i1, i2.trans h1.2⟩

theorem compile_ops_lay_ops_prefix (K : proto_h) (ops : List ev2citrusleaf_operation)
    (buf : List Nat) (op n : Nat) (hn : n ≤ op) (hb : n ≤ buf.length) :
    n ≤ (compile_ops_lay_ops K ops buf op).1.length
      ∧ (compile_ops_lay_ops K ops buf op).1.take n = buf.take n := by
  induction ops generalizing buf op with
  | nil => exact ⟨hb, rfl⟩
  | cons v ops ih =>
    simp only [compile_ops_lay_ops]
    have h1 : n ≤ (cl_msg_op_store buf op (operation_to_op K v (cl_msg_op_at buf op))).length
        ∧ (cl_msg_op_store buf op (operation_to_op K v (cl_msg_op_at buf op))).take n
          = buf.take n := by
      unfold cl_msg_op_store
      apply prefix_poke _ _ _ _ _ _ hn
      apply prefix_poke _ _ _ _ _ ⟨hb, rfl⟩
      omega
    obtain ⟨i1, i2⟩ := ih _ (cl_msg_op_get_next op (operation_to_op K v (cl_msg_op_at buf op)))
      (by unfold cl_msg_op_get_next; omega) h1.1
    exact ⟨i1, i2.trans h1.2⟩

theorem to_u8_natCast (n : Nat) : to_u8 (n : Int) = n % 256 := by
  unfold to_u8
  omega

/-- The bytes `cl_write_header` leaves at the start of a buffer are the
`request_header` of its arguments. -/
theorem cl_write_header_request (buf : List Nat) (msg_size info1 info2 : Nat)
    (generation expiration timeout n_fields n_ops : Nat) :
    30 ≤ (cl_write_header buf msg_size (info1 : Int) (info2 : Int) generation expiration timeout
        n_fields n_ops).1.length
      ∧ (cl_write_header buf msg_size (info1 : Int) (info2 : Int) generation expiration timeout
          n_fields n_ops).1.take 30
        = request_header msg_size info1 info2 generation expiration timeout n_fields n_ops
      ∧ (cl_write_header buf msg_size (info1 : Int) (info2 : Int) generation expiration timeout
          n_fields n_ops).2 = 30 := by
  obtain ⟨h1, h2⟩ := cl_write_header_bytes buf msg_size info1 info2 generation expiration
    timeout n_fields n_ops
  refine ⟨?_, ?_, h1⟩
  · have := congrArg List.length h2
    simp only [List.length_take, List.length_append, be_bytes_length, List.length_cons,
      List.length_nil] at this
    omega
  · rw [h2, to_u8_natCast, to_u8_natCast]
    rfl

/-- The first 30 bytes of a request laid out by `compile` are the header that
`cl_write_header` wrote: fields and ops are laid out behind them. -/
theorem compile_header (K : proto_h) (r : List Nat → List Nat) (info1 info2 : Nat)
    (ns : List Nat) (set : Option (List Nat)) (key : Option ev2citrusleaf_object)
    (digest : Option (List Nat)) (wparam : Option ev2citrusleaf_write_parameters)
    (timeout : Nat) (values : List ev2citrusleaf_bin) (buf_r : List Nat) (buf_size_r : Nat)
    (mbuf : Option (List Nat)) (digest_r : List Nat)
    (h : (compile K r info1 info2 ns set key digest wparam timeout values buf_r buf_size_r mbuf
      digest_r).rc = 0) :
    (compile K r info1 info2 ns set key digest wparam timeout values buf_r buf_size_r mbuf
        digest_r).buf.take 30
      = request_header
          (compile K r info1 info2 ns set key digest wparam timeout values buf_r buf_size_r mbuf
            digest_r).buf_size
          info1 (wparam_info2 K wparam info2) (wparam_generation wparam)
          (wparam_expiration wparam) timeout (fields_count set key digest) values.length := by
  unfold compile at h ⊢
  simp only [] at h ⊢
  generalize hA : compile_size_ops K info2 values _ = A at h ⊢
  cases A with
  | none => exact absurd h (by simp)
  | some msg_size =>
    simp only [] at h ⊢
    generalize hB : (if msg_size > buf_size_r then _ else some (buf_r, false)) = B at h ⊢
    cases B with
    | none => exact absurd h (by simp)
    | some ch =>
      obtain ⟨buf, malloced⟩ := ch
      simp only [] at h ⊢
      obtain ⟨c1, c2, c3⟩ := cl_write_header_request buf msg_size info1
        (wparam_info2 K wparam info2) (wparam_generation wparam) (wparam_expiration wparam)
        timeout (fields_count set key digest) values.length
      generalize hH : cl_write_header buf msg_size _ _ _ _ _ _ _ = H at h ⊢
      have hH' : cl_write_header buf msg_size (info1 : Int) ((wparam_info2 K wparam info2 : Nat) : Int)
          (wparam_generation wparam) (wparam_expiration wparam) timeout
          (fields_count set key digest) values.length = H := hH
      rw [hH'] at c1 c2 c3
      generalize hW : write_fields K r H.1 H.2 ns _ set _ key digest digest_r = W at h ⊢
      cases hret : W.ret with
      | none =>
        simp only [hret] at h
        exact absurd h (by simp)
      | some pos =>
        simp only [hret] at h ⊢
        have hge : H.2 ≤ pos := by
          rw [← hW] at hret
          exact write_fields_ret_ge _ _ _ _ _ _ _ _ _ _ _ _ hret
        have hw : 30 ≤ W.buf.length ∧ W.buf.take 30 = H.1.take 30 := by
          rw [← hW]
          exact write_fields_prefix K r _ _ _ _ _ _ _ _ _ 30 (le_of_eq c3.symm) c1
        obtain ⟨l1, l2⟩ := compile_lay_ops_prefix K
          (if wparam_info2 K wparam info2 &&& K.CL_MSG_INFO2_WRITE ≠ 0 then K.CL_MSG_OP_WRITE
            else K.CL_MSG_OP_READ) values W.buf pos 30
          (le_trans (le_of_eq c3.symm) hge) hw.1
        exact l2.trans (hw.2.trans c2)

theorem or_or_self (a b : Nat) : a ||| b ||| b = a ||| b := by
  rw [Nat.or_assoc, Nat.or_self]

/-- The info bits the size pass of `compile_ops` collects. -/
theorem compile_ops_size_ops_info (K : proto_h) (ops : List ev2citrusleaf_operation)
    (m i1 i2 : Nat) :
    (compile_ops_size_ops K ops (m, i1, i2)).2
      = (if any_read ops then i1 ||| K.CL_MSG_INFO1_READ else i1,
          if any_write ops then i2 ||| K.CL_MSG_INFO2_WRITE else i2) := by
  induction ops generalizing m i1 i2 with
  | nil => rfl
  | cons v ops ih =>
    rw [compile_ops_size_ops]
    simp only [ih, any_read, any_write, List.any_cons]
    by_cases h1 : v.op = .CL_OP_READ <;>
      by_cases h2 : v.op = .CL_OP_WRITE ∨ v.op = .CL_OP_ADD <;>
      rcases Bool.eq_false_or_eq_true (ops.any fun v => decide (v.op = .CL_OP_READ))
        with h3 | h3 <;>
      rcases Bool.eq_false_or_eq_true
        (ops.any fun v => decide (v.op = .CL_OP_WRITE ∨ v.op = .CL_OP_ADD)) with h4 | h4 <;>
      simp [or_or_self, h1, h2, h3, h4]

/-- The first 30 bytes of a request laid out by `compile_ops` are the header
that `cl_write_header` wrote, with the expiration in the place of the
timeout. -/
theorem compile_ops_header (K : proto_h) (r : List Nat → List Nat) (ns : List Nat)
    (set : Option (List Nat)) (key : Option ev2citrusleaf_object)
    (digest : Option (List Nat)) (ops : List ev2citrusleaf_operation)
    (wparam : Option ev2citrusleaf_write_parameters) (buf_r : List Nat) (buf_size_r : Nat)
    (mbuf : Option (List Nat)) (digest_r : List Nat) (c : compile_result)
    (hc : compile_ops K r ns set key digest ops wparam buf_r buf_size_r mbuf digest_r = some c) :
    c.write = decide ((if any_write ops then K.CL_MSG_INFO2_WRITE else 0)
        &&& K.CL_MSG_INFO2_WRITE ≠ 0)
      ∧ (c.rc = 0 →
        c.buf.take 30
          = request_header c.buf_size (if any_read ops then K.CL_MSG_INFO1_READ else 0)
              (wparam_info2 K wparam (if any_write ops then K.CL_MSG_INFO2_WRITE else 0))
              (wparam_generation wparam) (wparam_expiration wparam) (wparam_expiration wparam)
              (fields_count set key digest) ops.length) := by
  unfold compile_ops at hc
  cases set with
  | none => exact absurd hc (by simp)
  | some s =>
    simp only [] at hc
    generalize hS : compile_ops_size_ops K ops _ = S at hc
    obtain ⟨msg_size, i1, i2⟩ := S
    have hinfo := compile_ops_size_ops_info K ops
      (compile_size_fields (strlen ns) (some s) (strlen s) key digest) 0 0
    rw [hS] at hinfo
    simp only [Nat.zero_or, Prod.mk.injEq] at hinfo
    obtain ⟨e1, e2⟩ := hinfo
    subst e1 e2
    simp only [] at hc
    generalize hB : (if msg_size > buf_size_r then _ else some (buf_r, false)) = B at hc
    cases B with
    | none =>
      simp only [Option.some.injEq] at hc
      subst hc
      exact ⟨rfl, fun h => absurd h (by simp)⟩
    | some ch =>
      obtain ⟨buf, malloced⟩ := ch
      simp only [] at hc
      obtain ⟨c1, c2, c3⟩ := cl_write_header_request buf msg_size
        (if any_read ops then K.CL_MSG_INFO1_READ else 0)
        (wparam_info2 K wparam (if any_write ops then K.CL_MSG_INFO2_WRITE else 0))
        (wparam_generation wparam) (wparam_expiration wparam) (wparam_expiration wparam)
        (fields_count (some s) key digest) ops.length
      generalize hH : cl_write_header buf msg_size _ _ _ _ _ _ _ = H at hc
      have hH' : cl_write_header buf msg_size
          (((if any_read ops then K.CL_MSG_INFO1_READ else 0 : Nat)) : Int)
          ((wparam_info2 K wparam (if any_write ops then K.CL_MSG_INFO2_WRITE else 0) : Nat) : Int)
          (wparam_generation wparam) (wparam_expiration wparam) (wparam_expiration wparam)
          (fields_count (some s) key digest) ops.length = H := hH
      rw [hH'] at c1 c2 c3
      generalize hW : write_fields K r H.1 H.2 ns _ (some s) _ key digest digest_r = W at hc
      cases hret : W.ret with
      | none =>
        simp only [hret, Option.some.injEq] at hc
        subst hc
        exact ⟨rfl, fun h => absurd h (by simp)⟩
      | some pos =>
        simp only [hret, Option.some.injEq] at hc
        subst hc
        refine ⟨rfl, fun _ => ?_⟩
        have hge : H.2 ≤ pos := by
          rw [← hW] at hret
          exact write_fields_ret_ge _ _ _ _ _ _ _ _ _ _ _ _ hret
        have hw : 30 ≤ W.buf.length ∧ W.buf.take 30 = H.1.take 30 := by
          rw [← hW]
          exact write_fields_prefix K r _ _ _ _ _ _ _ _ _ 30 (le_of_eq c3.symm) c1
        obtain ⟨l1, l2⟩ := compile_ops_lay_ops_prefix K ops W.buf pos 30
          (le_trans (le_of_eq c3.symm) hge) hw.1
        exact l2.trans (hw.2.trans c2)

theorem fields_wire_eq (K : proto_h) (ns : List Nat) (set : Option (List Nat))
    (key : Option ev2citrusleaf_object) (d : Option (List Nat)) :
    fields_wire K ns set key d = fields_wire_of (request_fields K ns set key d) := by
  cases set <;> cases key <;> cases d <;> simp [fields_wire, request_fields, fields_wire_of]

theorem fields_count_eq (K : proto_h) (ns : List Nat) (set : Option (List Nat))
    (key : Option ev2citrusleaf_object) (d : Option (List Nat)) :
    fields_count set key d = (request_fields K ns set key d).length := by
  cases set <;> cases key <;> cases d <;> simp [fields_count, request_fields]

/-- A key that `write_fields` lays out is a string, a blob or an integer. -/
theorem write_fields_ret_key (K : proto_h) (r : List Nat → List Nat) (buf : List Nat) (pos : Nat)
    (ns : List Nat) (ns_len : Nat) (set : Option (List Nat)) (set_len : Nat)
    (k : ev2citrusleaf_object) (d : Option (List Nat)) (d_ret : List Nat) (p : Nat)
    (h : (write_fields K r buf pos ns ns_len set set_len (some k) d d_ret).ret = some p) :
    k.type = CL_STR ∨ k.type = CL_BLOB ∨ k.type = CL_INT := by
  by_cases h1 : k.type = CL_STR
  · exact Or.inl h1
  · by_cases h2 : k.type = CL_BLOB
    · exact Or.inr (Or.inl h2)
    · by_cases h3 : k.type = CL_INT
      · exact Or.inr (Or.inr h3)
      · exfalso
        unfold write_fields at h
        simp only [if_neg h1, if_neg h2, if_neg h3] at h
        exact absurd h (by simp)

theorem take_poke_end (buf : List Nat) (p : Nat) (x : List Nat) (hp : p ≤ buf.length) :
    (poke buf p x).take (p + x.length) = buf.take p ++ x := by
  rw [poke_of_le buf p x hp]
  exact List.take_left' (by simp [List.length_take, Nat.min_eq_left hp])

/-- The header and the fields of a request laid out by `compile`. -/
theorem compile_fields (K : proto_h) (r : List Nat → List Nat) (info1 info2 : Nat)
    (ns : List Nat) (set : Option (List Nat)) (key : Option ev2citrusleaf_object)
    (digest : Option (List Nat)) (wparam : Option ev2citrusleaf_write_parameters)
    (timeout : Nat) (values : List ev2citrusleaf_bin) (buf_r : List Nat) (buf_size_r : Nat)
    (mbuf : Option (List Nat)) (digest_r : List Nat)
    (hns : strlen ns + 1 < 2 ^ 32)
    (hset : ∀ s, set = some s → strlen s + 1 < 2 ^ 32)
    (hkd : key.isSome = !digest.isSome)
    (hkey : ∀ k, key = some k → k.type ≠ CL_INT → k.size ≤ k.ptr.length ∧ k.size + 2 < 2 ^ 32)
    (hd : ∀ x, digest = some x → sizeof_cf_digest ≤ x.length)
    (h : (compile K r info1 info2 ns set key digest wparam timeout values buf_r buf_size_r mbuf
      digest_r).rc = 0) :
    (compile K r info1 info2 ns set key digest wparam timeout values buf_r buf_size_r mbuf
        digest_r).buf.take (30 + (fields_wire K ns set key digest).length)
      = request_header
          (compile K r info1 info2 ns set key digest wparam timeout values buf_r buf_size_r mbuf
            digest_r).buf_size
          info1 (wparam_info2 K wparam info2) (wparam_generation wparam)
          (wparam_expiration wparam) timeout (fields_count set key digest) values.length
        ++ fields_wire K ns set key digest := by
  unfold compile at h ⊢
  simp only [] at h ⊢
  generalize hA : compile_size_ops K info2 values _ = A at h ⊢
  cases A with
  | none => exact absurd h (by simp)
  | some msg_size =>
    simp only [] at h ⊢
    generalize hB : (if msg_size > buf_size_r then _ else some (buf_r, false)) = B at h ⊢
    cases B with
    | none => exact absurd h (by simp)
    | some ch =>
      obtain ⟨buf, malloced⟩ := ch
      simp only [] at h ⊢
      obtain ⟨c1, c2, c3⟩ := cl_write_header_request buf msg_size info1
        (wparam_info2 K wparam info2) (wparam_generation wparam) (wparam_expiration wparam)
        timeout (fields_count set key digest) values.length
      generalize hH : cl_write_header buf msg_size _ _ _ _ _ _ _ = H at h ⊢
      have hH' : cl_write_header buf msg_size (info1 : Int) ((wparam_info2 K wparam info2 : Nat) : Int)
          (wparam_generation wparam) (wparam_expiration wparam) timeout
          (fields_count set key digest) values.length = H := hH
      rw [hH'] at c1 c2 c3
      generalize hW : write_fields K r H.1 H.2 ns _ set _ key digest digest_r = W at h ⊢
      cases hret : W.ret with
      | none =>
        simp only [hret] at h
        exact absurd h (by simp)
      | some pos =>
        simp only [hret] at h ⊢
        have hty : ∀ k, key = some k → k.type = CL_STR ∨ k.type = CL_BLOB ∨ k.type = CL_INT := by
          intro k hk
          subst hk
          rw [← hW] at hret
          exact write_fields_ret_key _ _ _ _ _ _ _ _ _ _ _ _ hret
        have hw : W.buf = poke H.1 H.2 (fields_wire K ns set key digest)
            ∧ W.ret = some (H.2 + (fields_wire K ns set key digest).length) := by
          rw [← hW]
          refine write_fields_layout K r _ _ _ _ _ _ _ _ (le_of_eq_of_le c3 c1) hns ?_ hkd
            (fun k hk => ⟨hty k hk, hkey k hk⟩) hd
          intro s hs
          subst hs
          exact ⟨rfl, hset s rfl⟩
        rw [hret, c3] at hw
        have hpos : pos = 30 + (fields_wire K ns set key digest).length :=
          Option.some.inj hw.2
        have hlen : 30 + (fields_wire K ns set key digest).length ≤ W.buf.length := by
          rw [hw.1, poke_length]
          exact le_max_right _ _
        obtain ⟨l1, l2⟩ := compile_lay_ops_prefix K
          (if wparam_info2 K wparam info2 &&& K.CL_MSG_INFO2_WRITE ≠ 0 then K.CL_MSG_OP_WRITE
            else K.CL_MSG_OP_READ) values W.buf pos
          (30 + (fields_wire K ns set key digest).length) (le_of_eq hpos.symm) hlen
        refine l2.trans ?_
        rw [hw.1, take_poke_end _ _ _ c1, c2]

/-- The header and the fields of a request laid out by `compile_ops`. -/
theorem compile_ops_fields (K : proto_h) (r : List Nat → List Nat) (ns : List Nat)
    (set : Option (List Nat)) (key : Option ev2citrusleaf_object)
    (digest : Option (List Nat)) (ops : List ev2citrusleaf_operation)
    (wparam : Option ev2citrusleaf_write_parameters) (buf_r : List Nat) (buf_size_r : Nat)
    (mbuf : Option (List Nat)) (digest_r : List Nat) (c : compile_result)
    (hns : strlen ns + 1 < 2 ^ 32)
    (hset : ∀ s, set = some s → strlen s + 1 < 2 ^ 32)
    (hkd : key.isSome = !digest.isSome)
    (hkey : ∀ k, key = some k → k.type ≠ CL_INT → k.size ≤ k.ptr.length ∧ k.size + 2 < 2 ^ 32)
    (hd : ∀ x, digest = some x → sizeof_cf_digest ≤ x.length)
    (hc : compile_ops K r ns set key digest ops wparam buf_r buf_size_r mbuf digest_r = some c)
    (h : c.rc = 0) :
    c.buf.take (30 + (fields_wire K ns set key digest).length)
      = request_header c.buf_size (if any_read ops then K.CL_MSG_INFO1_READ else 0)
          (wparam_info2 K wparam (if any_write ops then K.CL_MSG_INFO2_WRITE else 0))
          (wparam_generation wparam) (wparam_expiration wparam) (wparam_expiration wparam)
          (fields_count set key digest) ops.length
        ++ fields_wire K ns set key digest := by
  unfold compile_ops at hc
  cases set with
  | none => exact absurd hc (by simp)
  | some s =>
    simp only [] at hc
    generalize hS : compile_ops_size_ops K ops _ = S at hc
    obtain ⟨msg_size, i1, i2⟩ := S
    have hinfo := compile_ops_size_ops_info K ops
      (compile_size_fields (strlen ns) (some s) (strlen s) key digest) 0 0
    rw [hS] at hinfo
    simp only [Nat.zero_or, Prod.mk.injEq] at hinfo
    obtain ⟨e1, e2⟩ := hinfo
    subst e1 e2
    simp only [] at hc
    generalize hB : (if msg_size > buf_size_r then _ else some (buf_r, false)) = B at hc
    cases B with
    | none =>
      simp only [Option.some.injEq] at hc
      subst hc
      exact absurd h (by simp)
    | some ch =>
      obtain ⟨buf, malloced⟩ := ch
      simp only [] at hc
      obtain ⟨c1, c2, c3⟩ := cl_write_header_request buf msg_size
        (if any_read ops then K.CL_MSG_INFO1_READ else 0)
        (wparam_info2 K wparam (if any_write ops then K.CL_MSG_INFO2_WRITE else 0))
        (wparam_generation wparam) (wparam_expiration wparam) (wparam_expiration wparam)
        (fields_count (some s) key digest) ops.length
      generalize hH : cl_write_header buf msg_size _ _ _ _ _ _ _ = H at hc
      have hH' : cl_write_header buf msg_size
          (((if any_read ops then K.CL_MSG_INFO1_READ else 0 : Nat)) : Int)
          ((wparam_info2 K wparam (if any_write ops then K.CL_MSG_INFO2_WRITE else 0) : Nat) : Int)
          (wparam_generation wparam) (wparam_expiration wparam) (wparam_expiration wparam)
          (fields_count (some s) key digest) ops.length = H := hH
      rw [hH'] at c1 c2 c3
      generalize hW : write_fields K r H.1 H.2 ns _ (some s) _ key digest digest_r = W at hc
      cases hret : W.ret with
      | none =>
        simp only [hret, Option.some.injEq] at hc
        subst hc
        exact absurd h (by simp)
      | some pos =>
        simp only [hret, Option.some.injEq] at hc
        subst hc
        have hty : ∀ k, key = some k → k.type = CL_STR ∨ k.type = CL_BLOB ∨ k.type = CL_INT := by
          intro k hk
          subst hk
          rw [← hW] at hret
          exact write_fields_ret_key _ _ _ _ _ _ _ _ _ _ _ _ hret
        have hw : W.buf = poke H.1 H.2 (fields_wire K ns (some s) key digest)
            ∧ W.ret = some (H.2 + (fields_wire K ns (some s) key digest).length) := by
          rw [← hW]
          refine write_fields_layout K r _ _ _ _ _ _ _ _ (le_of_eq_of_le c3 c1) hns ?_ hkd
            (fun k hk => ⟨hty k hk, hkey k hk⟩) hd
          intro s' hs
          cases hs
          exact ⟨rfl, hset s rfl⟩
        rw [hret, c3] at hw
        have hpos : pos = 30 + (fields_wire K ns (some s) key digest).length :=
          Option.some.inj hw.2
        have hlen : 30 + (fields_wire K ns (some s) key digest).length ≤ W.buf.length := by
          rw [hw.1, poke_length]
          exact le_max_right _ _
        obtain ⟨l1, l2⟩ := compile_ops_lay_ops_prefix K ops W.buf pos
          (30 + (fields_wire K ns (some s) key digest).length) (le_of_eq hpos.symm) hlen
        refine l2.trans ?_
        rw [hw.1, take_poke_end _ _ _ c1, c2]

/-! ## Reading the header of a request -/

theorem getD_of_take (buf : List Nat) (n i : Nat) (h : i < n) :
    buf.getD i 0 = (buf.take n).getD i 0 := by
  simp [List.getD_eq_getElem?_getD, List.getElem?_take, h]

theorem drop_take_of_take (buf : List Nat) (n i k : Nat) (h : i + k ≤ n) :
    (buf.drop i).take k = ((buf.take n).drop i).take k := by
  rw [List.drop_take, List.take_take, Nat.min_eq_left (by omega)]

/-- What the members of a request header read as. -/
theorem request_header_fields (buf : List Nat) (sz i1 i2 g e t nf no : Nat)
    (h : buf.take 30 = request_header sz i1 i2 g e t nf no) :
    request_info1 buf = i1 % 256 ∧ request_info2 buf = i2 % 256
      ∧ request_generation buf = g % 2 ^ 32 ∧ request_record_ttl buf = e % 2 ^ 32
      ∧ request_transaction_ttl buf = t % 2 ^ 32
      ∧ request_n_fields buf = nf % 2 ^ 16 ∧ request_n_ops buf = no % 2 ^ 16 := by
  have e4 : ∀ x, x % 2 ^ 32 = be_value (be_bytes 4 x) := fun x => (be_value_be_bytes 4 x).symm
  have e2 : ∀ x, x % 2 ^ 16 = be_value (be_bytes 2 x) := fun x => (be_value_be_bytes 2 x).symm
  unfold request_info1 request_info2 request_generation request_record_ttl
    request_transaction_ttl request_n_fields request_n_ops
  rw [getD_of_take buf 30 9 (by omega), getD_of_take buf 30 10 (by omega),
    drop_take_of_take buf 30 14 4 (by omega), drop_take_of_take buf 30 18 4 (by omega),
    drop_take_of_take buf 30 22 4 (by omega), drop_take_of_take buf 30 26 2 (by omega),
    drop_take_of_take buf 30 28 2 (by omega), h, e4, e4, e4, e2, e2]
  simp [request_header, be_bytes]

theorem mod_and_of_lt (x g : Nat) (hg : g < 256) : x % 256 &&& g = x &&& g := by
  apply Nat.eq_of_testBit_eq
  intro i
  rw [Nat.testBit_and, Nat.testBit_and, show (256 : Nat) = 2 ^ 8 from rfl,
    Nat.testBit_mod_two_pow]
  by_cases hi : i < 8
  · simp [hi]
  · have h8 : (2 : Nat) ^ 8 ≤ 2 ^ i := Nat.pow_le_pow_right (by decide) (by omega)
    have : g.testBit i = false := Nat.testBit_lt_two_pow (lt_of_lt_of_le hg h8)
    simp [this]

theorem or_and_self_right (x g : Nat) (h : x &&& g = 0) : (x ||| g) &&& g = g := by
  apply Nat.eq_of_testBit_eq
  intro i
  have := congrArg (fun n => n.testBit i) h
  simp only [Nat.testBit_and, Nat.zero_testBit] at this
  rw [Nat.testBit_and, Nat.testBit_or]
  cases x.testBit i <;> cases g.testBit i <;> simp_all

theorem wparam_info2_eq (K : proto_h) (wparam : Option ev2citrusleaf_write_parameters)
    (info2 : Nat) :
    wparam_info2 K wparam info2
      = if uses_generation wparam then info2 ||| K.CL_MSG_INFO2_GENERATION else info2 := by
  cases wparam <;> rfl

/-- What a request header says about the write parameters. -/
theorem header_wparam_facts (K : proto_h) (buf : List Nat) (sz info1 info2 t nf no : Nat)
    (wparam : Option ev2citrusleaf_write_parameters)
    (h : buf.take 30 = request_header sz info1 (wparam_info2 K wparam info2)
      (wparam_generation wparam) (wparam_expiration wparam) t nf no) :
    request_info1 buf = info1 % 256
      ∧ (∀ i, K.CL_MSG_INFO2_GENERATION.testBit i = false →
        (request_info2 buf).testBit i = (info2 % 256).testBit i)
      ∧ (K.CL_MSG_INFO2_GENERATION ≠ 0 → K.CL_MSG_INFO2_GENERATION < 256 →
        info2 &&& K.CL_MSG_INFO2_GENERATION = 0 →
        (request_info2 buf &&& K.CL_MSG_INFO2_GENERATION ≠ 0 ↔ uses_generation wparam = true))
      ∧ (∀ w, wparam = some w → w.use_generation = true →
        request_generation buf = w.generation % 2 ^ 32)
      ∧ (uses_generation wparam = false → request_generation buf = 0)
      ∧ (∀ w, wparam = some w → request_record_ttl buf = w.expiration % 2 ^ 32)
      ∧ (wparam = none → request_record_ttl buf = 0) := by
  obtain ⟨h1, h2, h3, h4, -⟩ := request_header_fields buf _ _ _ _ _ _ _ _ h
  rw [wparam_info2_eq] at h2
  refine ⟨h1, ?_, ?_, ?_, ?_, ?_, ?_⟩
  · intro i hi
    rw [h2, show (256 : Nat) = 2 ^ 8 from rfl, Nat.testBit_mod_two_pow, Nat.testBit_mod_two_pow]
    cases uses_generation wparam <;> simp [Nat.testBit_or, hi]
  · intro g0 g256 hc
    rw [h2, mod_and_of_lt _ _ g256]
    cases hu : uses_generation wparam
    · simp [hc]
    · simp [or_and_self_right _ _ hc, g0]
  · intro w hw hg
    subst hw
    rw [h3]
    simp [wparam_generation, hg]
  · intro hu
    rw [h3]
    cases wparam with
    | none => rfl
    | some w =>
      have : w.use_generation = false := hu
      simp [wparam_generation, this]
  · intro w hw
    subst hw
    rw [h4]
    rfl
  · intro hw
    subst hw
    rw [h4]
    rfl

theorem or_and_of_disjoint (x g w : Nat) (h : g &&& w = 0) : (x ||| g) &&& w = x &&& w := by
  apply Nat.eq_of_testBit_eq
  intro i
  have := congrArg (fun n => n.testBit i) h
  simp only [Nat.testBit_and, Nat.zero_testBit] at this
  rw [Nat.testBit_and, Nat.testBit_or, Nat.testBit_and]
  generalize x.testBit i = a at *
  generalize g.testBit i = b at *
  generalize w.testBit i = c at *
  cases a <;> cases b <;> cases c <;> simp_all

theorem any_read_iff (ops : List ev2citrusleaf_operation) :
    any_read ops = true ↔ ∃ v ∈ ops, v.op = .CL_OP_READ := by
  simp [any_read]

theorem any_write_iff (ops : List ev2citrusleaf_operation) :
    any_write ops = true ↔ ∃ v ∈ ops, v.op = .CL_OP_WRITE ∨ v.op = .CL_OP_ADD := by
  simp [any_write]

theorem compile_ops_isSome (K : proto_h) (r : List Nat → List Nat) (ns s : List Nat)
    (key : Option ev2citrusleaf_object) (digest : Option (List Nat))
    (ops : List ev2citrusleaf_operation) (wparam : Option ev2citrusleaf_write_parameters)
    (buf_r : List Nat) (buf_size_r : Nat) (mbuf : Option (List Nat)) (digest_r : List Nat) :
    (compile_ops K r ns (some s) key digest ops wparam buf_r buf_size_r mbuf digest_r).isSome
      = true := by
  unfold compile_ops
  simp only []
  split
  · rfl
  · split <;> rfl

/-- The op code `operation_to_op` writes. -/
theorem operation_to_op_code (K : proto_h) (v : ev2citrusleaf_operation) (op : cl_msg_op) :
    (v.op = .CL_OP_READ → (operation_to_op K v op).op = to_u8 K.CL_MSG_OP_READ)
      ∧ (v.op = .CL_OP_WRITE → (operation_to_op K v op).op = to_u8 K.CL_MSG_OP_WRITE)
      ∧ (v.op = .CL_OP_ADD → (operation_to_op K v op).op = to_u8 K.CL_MSG_OP_INCR) := by
  refine ⟨fun h => ?_, fun h => ?_, fun h => ?_⟩ <;>
    simp only [operation_to_op, h, value_to_op] <;> (try split_ifs) <;> simp

theorem swap_op_code (op : cl_msg_op) : (cl_msg_swap_op op).getD 4 0 = op.op % 256 := by
  simp [cl_msg_swap_op, be_bytes]

theorem to_u8_mod (x : Int) : to_u8 x % 256 = to_u8 x := by
  unfold to_u8; omega


theorem fields_wire_no_set (K : proto_h) (ns : List Nat) (key : Option ev2citrusleaf_object)
    (d : Option (List Nat)) :
    fields_wire K ns none key d
        = fields_wire_of ((K.CL_MSG_FIELD_TYPE_NAMESPACE, cstring ns) :: key_fields K key d)
      ∧ fields_count none key d
        = ((K.CL_MSG_FIELD_TYPE_NAMESPACE, cstring ns) :: key_fields K key d).length := by
  cases key <;> cases d <;> simp [fields_wire, fields_wire_of, key_fields, fields_count]

theorem cstring_of_strlen_zero (s : List Nat) (h : strlen s = 0) : cstring s = [] :=
  List.length_eq_zero.mp h

theorem fields_wire_empty_set (K : proto_h) (ns s : List Nat)
    (key : Option ev2citrusleaf_object) (d : Option (List Nat)) (hs : strlen s = 0) :
    fields_wire K ns (some s) key d
        = fields_wire_of ((K.CL_MSG_FIELD_TYPE_NAMESPACE, cstring ns)
            :: (K.CL_MSG_FIELD_TYPE_SET, []) :: key_fields K key d)
      ∧ fields_count (some s) key d
        = ((K.CL_MSG_FIELD_TYPE_NAMESPACE, cstring ns)
            :: (K.CL_MSG_FIELD_TYPE_SET, []) :: key_fields K key d).length := by
  cases key <;> cases d <;>
    simp [fields_wire, fields_wire_of, key_fields, fields_count, cstring_of_strlen_zero s hs]

theorem compile_size_fields_set (nl sl : Nat) (s : List Nat)
    (key : Option ev2citrusleaf_object) (d : Option (List Nat)) :
    compile_size_fields nl none sl key d = compile_size_fields nl none 0 key d
      ∧ compile_size_fields nl (some s) sl key d
        = (compile_size_fields nl none 0 key d + (sl + sizeof_cl_msg_field)) % 2 ^ 64 := by
  cases key <;> cases d <;>
    simp [compile_size_fields, sizeof_cl_msg_field, sizeof_as_msg] <;> omega


theorem poke_getD_after (buf : List Nat) (p i : Nat) (x : List Nat) (hp : p ≤ buf.length)
    (hi : p + x.length ≤ i) : (poke buf p x).getD i 0 = buf.getD i 0 := by
  rw [poke_of_le buf p x hp, List.getD_eq_getElem?_getD, List.getD_eq_getElem?_getD,
    List.getElem?_append_right (by simp [Nat.min_eq_left hp]; omega)]
  simp only [List.length_append, List.length_take, Nat.min_eq_left hp, List.getElem?_drop]
  congr 2
  omega

theorem poke_getD_inside (buf : List Nat) (p i : Nat) (x : List Nat) (hp : p ≤ buf.length)
    (hi : i < x.length) : (poke buf p x).getD (p + i) 0 = x.getD i 0 := by
  rw [poke_of_le buf p x hp, List.append_assoc, List.getD_eq_getElem?_getD,
    List.getD_eq_getElem?_getD,
    List.getElem?_append_right (by simp [Nat.min_eq_left hp])]
  simp only [List.length_take, Nat.min_eq_left hp, Nat.add_sub_cancel_left]
  rw [List.getElem?_append_left hi]

theorem cl_write_header_getD_after (buf : List Nat) (msg_size : Nat) (info1 info2 : Int)
    (generation expiration timeout n_fields n_ops i : Nat) (hi : 30 ≤ i) :
    (cl_write_header buf msg_size info1 info2 generation expiration timeout n_fields
      n_ops).1.getD i 0 = buf.getD i 0 := by
  unfold cl_write_header
  simp only []
  apply poke_getD_after _ _ _ _ (Nat.zero_le _)
  simp [cl_proto_swap, cl_msg_swap_header, be_bytes_length]
  exact hi

theorem cl_write_header_length_ge (buf : List Nat) (msg_size : Nat) (info1 info2 : Int)
    (generation expiration timeout n_fields n_ops : Nat) :
    30 ≤ (cl_write_header buf msg_size info1 info2 generation expiration timeout n_fields
      n_ops).1.length := by
  unfold cl_write_header
  simp only []
  rw [poke_length]
  refine le_trans (le_of_eq ?_) (le_max_right _ _)
  simp [cl_proto_swap, cl_msg_swap_header, be_bytes_length]

theorem swap_op_length (op : cl_msg_op) : (cl_msg_swap_op op).length = 8 := by
  simp [cl_msg_swap_op, be_bytes_length]

theorem swap_op_version (op : cl_msg_op) : (cl_msg_swap_op op).getD 6 0 = op.version % 256 := by
  simp [cl_msg_swap_op, be_bytes]

/-- The version byte of an op stored at `pos`. -/
theorem op_store_version (buf : List Nat) (pos : Nat) (o : cl_msg_op) (h : pos ≤ buf.length) :
    (cl_msg_op_store buf pos o).getD (pos + 6) 0 = o.version % 256 := by
  unfold cl_msg_op_store
  rw [poke_getD_inside _ _ _ _ (le_poke_length _ _ _ _ h) (by rw [swap_op_length]; omega),
    swap_op_version]

/-! ## The layout of an op (C33) -/

/-- The encoder `operation_to_op` does not write the version byte of the op: it
is what the buffer held. -/
theorem operation_to_op_version (K : proto_h) (v : ev2citrusleaf_operation) (op : cl_msg_op) :
    (operation_to_op K v op).version = op.version := by
  unfold operation_to_op value_to_op
  cases v.op <;> simp only [] <;> split_ifs <;> rfl

/-- The encoder `bin_to_op` sets the version byte of the op to 0. -/
theorem bin_to_op_version (K : proto_h) (operation : Int) (v : ev2citrusleaf_bin)
    (op : cl_msg_op) : (bin_to_op K operation v op).version = 0 := by
  unfold bin_to_op value_to_op
  simp only []
  split_ifs <;> rfl

set_option maxRecDepth 100000 in

/-- The version byte of the single op of a request laid out by `compile_ops` is
the byte the buffer held there before: the inline buffer's, or the one of the
block from `malloc`. -/
theorem compile_ops_version_byte (K : proto_h) (r : List Nat → List Nat) (ns : List Nat)
    (set : Option (List Nat)) (key : Option ev2citrusleaf_object)
    (digest : Option (List Nat)) (v : ev2citrusleaf_operation)
    (wparam : Option ev2citrusleaf_write_parameters) (buf_r : List Nat) (buf_size_r : Nat)
    (m : List Nat) (digest_r : List Nat) (c : compile_result)
    (hns : strlen ns + 1 < 2 ^ 32)
    (hset : ∀ s, set = some s → strlen s + 1 < 2 ^ 32)
    (hkd : key.isSome = !digest.isSome)
    (hkey : ∀ k, key = some k → k.type ≠ CL_INT → k.size ≤ k.ptr.length ∧ k.size + 2 < 2 ^ 32)
    (hd : ∀ x, digest = some x → sizeof_cf_digest ≤ x.length)
    (hc : compile_ops K r ns set key digest [v] wparam buf_r buf_size_r (some m) digest_r
      = some c)
    (h : c.rc = 0) :
    c.buf.getD (30 + (fields_wire K ns set key digest).length + 6) 0
      = (if c.malloced then m else buf_r).getD
          (30 + (fields_wire K ns set key digest).length + 6) 0 % 256 := by
  unfold compile_ops at hc
  cases set with
  | none => exact absurd hc (by simp)
  | some s =>
    simp only [] at hc
    generalize hS : compile_ops_size_ops K [v] _ = S at hc
    obtain ⟨msg_size, i1, i2⟩ := S
    simp only [] at hc
    generalize hB : (if msg_size > buf_size_r then _ else some (buf_r, false)) = B at hc
    cases B with
    | none =>
      simp only [Option.some.injEq] at hc
      subst hc
      exact absurd h (by simp)
    | some ch =>
      obtain ⟨buf, malloced⟩ := ch
      have hbuf : buf = if malloced then m else buf_r := by
        split_ifs at hB with hm
        · simp only [Option.some.injEq, Prod.mk.injEq] at hB
          rw [← hB.1, ← hB.2]
          rfl
        · simp only [Option.some.injEq, Prod.mk.injEq] at hB
          rw [← hB.1, ← hB.2]
          rfl
      simp only [] at hc
      generalize hH : cl_write_header buf msg_size _ _ _ _ _ _ _ = H at hc
      have c3 : H.2 = 30 := by rw [← hH]; rfl
      have c1 : 30 ≤ H.1.length := by
        rw [← hH]
        exact cl_write_header_length_ge _ _ _ _ _ _ _ _ _
      have cg : ∀ i, 30 ≤ i → H.1.getD i 0 = buf.getD i 0 := by
        intro i hi
        rw [← hH]
        exact cl_write_header_getD_after _ _ _ _ _ _ _ _ _ i hi
      generalize hW : write_fields K r H.1 H.2 ns _ (some s) _ key digest digest_r = W at hc
      cases hret : W.ret with
      | none =>
        simp only [hret, Option.some.injEq] at hc
        subst hc
        exact absurd h (by simp)
      | some pos =>
        simp only [hret, Option.some.injEq] at hc
        subst hc
        have hty : ∀ k, key = some k → k.type = CL_STR ∨ k.type = CL_BLOB ∨ k.type = CL_INT := by
          intro k hk
          subst hk
          rw [← hW] at hret
          exact write_fields_ret_key _ _ _ _ _ _ _ _ _ _ _ _ hret
        have hw : W.buf = poke H.1 H.2 (fields_wire K ns (some s) key digest)
            ∧ W.ret = some (H.2 + (fields_wire K ns (some s) key digest).length) := by
          rw [← hW]
          refine write_fields_layout K r _ _ _ _ _ _ _ _ (le_of_eq_of_le c3 c1) hns ?_ hkd
            (fun k hk => ⟨hty k hk, hkey k hk⟩) hd
          intro s' hs
          cases hs
          exact ⟨rfl, hset s rfl⟩
        rw [hret, c3] at hw
        have hpos : pos = 30 + (fields_wire K ns (some s) key digest).length :=
          Option.some.inj hw.2
        have hlen : pos ≤ W.buf.length := by
          rw [hw.1, poke_length, hpos]
          exact le_max_right _ _
        show (compile_ops_lay_ops K [v] W.buf pos).1.getD _ 0 = _
        rw [← hpos]
        simp only [compile_ops_lay_ops]
        rw [op_store_version _ _ _ hlen, operation_to_op_version]
        show W.buf.getD (pos + 6) 0 % 256 = _
        rw [hw.1, poke_getD_after _ _ _ _ c1 (by omega), cg _ (by omega), hbuf]

/-- The version byte of the single op of a request laid out by `compile` is 0,
whatever the buffer held. -/
theorem compile_version_byte (K : proto_h) (r : List Nat → List Nat) (info1 info2 : Nat)
    (ns : List Nat) (set : Option (List Nat)) (key : Option ev2citrusleaf_object)
    (digest : Option (List Nat)) (wparam : Option ev2citrusleaf_write_parameters)
    (timeout : Nat) (v : ev2citrusleaf_bin) (buf_r : List Nat) (buf_size_r : Nat)
    (mbuf : Option (List Nat)) (digest_r : List Nat)
    (hns : strlen ns + 1 < 2 ^ 32)
    (hset : ∀ s, set = some s → strlen s + 1 < 2 ^ 32)
    (hkd : key.isSome = !digest.isSome)
    (hkey : ∀ k, key = some k → k.type ≠ CL_INT → k.size ≤ k.ptr.length ∧ k.size + 2 < 2 ^ 32)
    (hd : ∀ x, digest = some x → sizeof_cf_digest ≤ x.length)
    (h : (compile K r info1 info2 ns set key digest wparam timeout [v] buf_r buf_size_r mbuf
      digest_r).rc = 0) :
    (compile K r info1 info2 ns set key digest wparam timeout [v] buf_r buf_size_r mbuf
      digest_r).buf.getD (30 + (fields_wire K ns set key digest).length + 6) 0 = 0 := by
  unfold compile at h ⊢
  simp only [] at h ⊢
  generalize hA : compile_size_ops K info2 [v] _ = A at h ⊢
  cases A with
  | none => exact absurd h (by simp)
  | some msg_size =>
    simp only [] at h ⊢
    generalize hB : (if msg_size > buf_size_r then _ else some (buf_r, false)) = B at h ⊢
    cases B with
    | none => exact absurd h (by simp)
    | some ch =>
      obtain ⟨buf, malloced⟩ := ch
      simp only [] at h ⊢
      generalize hH : cl_write_header buf msg_size _ _ _ _ _ _ _ = H at h ⊢
      have c3 : H.2 = 30 := by rw [← hH]; rfl
      have c1 : 30 ≤ H.1.length := by
        rw [← hH]
        exact cl_write_header_length_ge _ _ _ _ _ _ _ _ _
      generalize hW : write_fields K r H.1 H.2 ns _ set _ key digest digest_r = W at h ⊢
      cases hret : W.ret with
      | none =>
        simp only [hret] at h
        exact absurd h (by simp)
      | some pos =>
        simp only [hret] at h ⊢
        have hty : ∀ k, key = some k → k.type = CL_STR ∨ k.type = CL_BLOB ∨ k.type = CL_INT := by
          intro k hk
          subst hk
          rw [← hW] at hret
          exact write_fields_ret_key _ _ _ _ _ _ _ _ _ _ _ _ hret
        have hw : W.buf = poke H.1 H.2 (fields_wire K ns set key digest)
            ∧ W.ret = some (H.2 + (fields_wire K ns set key digest).length) := by
          rw [← hW]
          refine write_fields_layout K r _ _ _ _ _ _ _ _ (le_of_eq_of_le c3 c1) hns ?_ hkd
            (fun k hk => ⟨hty k hk, hkey k hk⟩) hd
          intro s hs
          subst hs
          exact ⟨rfl, hset s rfl⟩
        rw [hret, c3] at hw
        have hpos : pos = 30 + (fields_wire K ns set key digest).length :=
          Option.some.inj hw.2
        have hlen : pos ≤ W.buf.length := by
          rw [hw.1, poke_length, hpos]
          exact le_max_right _ _
        rw [← hpos]
        simp only [compile_lay_ops]
        rw [op_store_version _ _ _ hlen, bin_to_op_version]

/-! ## The fields of a request (C32) -/

theorem key_wire_length (k : ev2citrusleaf_object) (h : k.type ≠ CL_INT)
    (hs : k.size ≤ k.ptr.length) : (key_wire k).length = k.size + 1 := by
  unfold key_wire
  rw [if_neg h, List.length_append, List.length_take, Nat.min_eq_left hs]
  simp [Nat.add_comm]

theorem key_4GiB_size : key_4GiB.size = 2 ^ 32 - 2 := rfl

theorem key_4GiB_type : key_4GiB.type = CL_BLOB := rfl

theorem key_4GiB_length : key_4GiB.ptr.length = 2 ^ 32 - 2 := by
  show (List.replicate (2 ^ 32 - 2) 0).length = 2 ^ 32 - 2
  rw [List.length_replicate]

theorem key_4GiB_not_int : key_4GiB.type ≠ CL_INT := by
  rw [key_4GiB_type]; decide

theorem key_4GiB_not_str : ¬ key_4GiB.type = CL_STR := by
  rw [key_4GiB_type]; decide

theorem key_4GiB_inside : key_4GiB.size ≤ key_4GiB.ptr.length := by
  rw [key_4GiB_size, key_4GiB_length]

/-- C32, as stated, fails: for the namespace `test`, no set and a blob key of
`2 ^ 32 - 2` bytes, `write_fields` stores `key->size + 2` in the 32-bit
`field_sz`, which wraps to 0: the five bytes at the start of the key field (at
offset 39, behind the 30 header bytes and the 9 bytes of the namespace field)
announce a field of no bytes, where 1 plus the data length is `2 ^ 32`, and the
returned position is 4 bytes behind the start of the key field. -/
theorem write_fields_wraps_long_key :
    key_4GiB.type = CL_BLOB
      ∧ key_4GiB.size ≤ key_4GiB.ptr.length
      ∧ (key_wire key_4GiB).length + 1 = 2 ^ 32
      ∧ (write_fields aerospike no_digest (List.replicate 64 0) 30 [116, 101, 115, 116, 0] 4
          none 0 (some key_4GiB) none []).ret = some 43
      ∧ ((write_fields aerospike no_digest (List.replicate 64 0) 30 [116, 101, 115, 116, 0] 4
          none 0 (some key_4GiB) none []).buf.drop 39).take 5
        = [0, 0, 0, 0, aerospike.CL_MSG_FIELD_TYPE_KEY] := by
  refine ⟨rfl, key_4GiB_inside, ?_, ?_, ?_⟩
  · rw [key_wire_length key_4GiB key_4GiB_not_int key_4GiB_inside, key_4GiB_size]
    rfl
  · unfold write_fields
    simp only [if_neg key_4GiB_not_str, if_pos key_4GiB_type, key_4GiB_size]
    rfl
  · unfold write_fields
    simp only [if_neg key_4GiB_not_str, if_pos key_4GiB_type, key_4GiB_size]
    exact poke_drop_take _ 39 (cl_msg_swap_field 0 aerospike.CL_MSG_FIELD_TYPE_KEY)
      (le_poke_length _ _ _ _ (le_poke_length _ _ _ _ (le_poke_length _ _ _ _
        (le_poke_length _ _ _ _ (by simp)))))

/-- C32, amended. For every request with a namespace, an optional set and either
a key or a digest (not both), whose namespace, set and key are shorter than
`2 ^ 32 - 2` bytes, and which `compile` accepts (return code 0): behind the 30
header bytes the buffer holds the fields in the order namespace, set,
key-or-digest, each as a 32-bit big-endian `field_size` equal to 1 plus the data
length, a type byte and the data (`field_wire`); the key data is the
particle-type byte followed by the key bytes, for an integer key the 8-byte
big-endian value (`key_wire`); the digest data is the 20 digest bytes; and the
header's `n_fields` is the number of fields.  The same bytes are what
`write_fields` leaves at any position of a buffer for a string, blob or integer
key, and it returns the position behind them. -/
theorem write_fields_wire (K : proto_h) (r : List Nat → List Nat) (info1 info2 : Nat)
    (ns : List Nat) (set : Option (List Nat)) (key : Option ev2citrusleaf_object)
    (digest : Option (List Nat)) (wparam : Option ev2citrusleaf_write_parameters)
    (timeout : Nat) (values : List ev2citrusleaf_bin) (buf_r : List Nat) (buf_size_r : Nat)
    (mbuf : Option (List Nat)) (digest_r : List Nat)
    (hns : strlen ns + 1 < 2 ^ 32)
    (hset : ∀ s, set = some s → strlen s + 1 < 2 ^ 32)
    (hkd : key.isSome = !digest.isSome)
    (hkey : ∀ k, key = some k → k.type ≠ CL_INT → k.size ≤ k.ptr.length ∧ k.size + 2 < 2 ^ 32)
    (hd : ∀ x, digest = some x → sizeof_cf_digest ≤ x.length) :
    ((compile K r info1 info2 ns set key digest wparam timeout values buf_r buf_size_r mbuf
        digest_r).rc = 0 →
      (compile K r info1 info2 ns set key digest wparam timeout values buf_r buf_size_r mbuf
          digest_r).buf.take (30 + (fields_wire_of (request_fields K ns set key digest)).length)
        = request_header
            (compile K r info1 info2 ns set key digest wparam timeout values buf_r buf_size_r
              mbuf digest_r).buf_size
            info1 (wparam_info2 K wparam info2) (wparam_generation wparam)
            (wparam_expiration wparam) timeout (request_fields K ns set key digest).length
            values.length
          ++ fields_wire_of (request_fields K ns set key digest))
      ∧ ∀ (buf : List Nat) (pos : Nat), pos ≤ buf.length →
        (∀ k, key = some k → k.type = CL_STR ∨ k.type = CL_BLOB ∨ k.type = CL_INT) →
        (write_fields K r buf pos ns (strlen ns) set (strlen (chars set)) key digest
            digest_r).buf
          = poke buf pos (fields_wire_of (request_fields K ns set key digest))
        ∧ (write_fields K r buf pos ns (strlen ns) set (strlen (chars set)) key digest
            digest_r).ret
          = some (pos + (fields_wire_of (request_fields K ns set key digest)).length) := by
  rw [← fields_wire_eq, ← fields_count_eq]
  refine ⟨compile_fields K r info1 info2 ns set key digest wparam timeout values buf_r
    buf_size_r mbuf digest_r hns hset hkd hkey hd, fun buf pos hpos hty => ?_⟩
  exact write_fields_layout K r buf pos ns set _ key digest digest_r hpos hns
    (fun s hs => by subst hs; exact ⟨rfl, hset s rfl⟩) hkd
    (fun k hk => ⟨hty k hk, hkey k hk⟩) hd

theorem write_fields_wire_witness :
    put_0x7FFF.rc = 0
      ∧ put_0x7FFF.buf.take
          (30 + (fields_wire_of (request_fields aerospike [116, 101, 115, 116, 0]
            (some [115, 0]) (some key_k1) none)).length)
        = request_header put_0x7FFF.buf_size 0
            (wparam_info2 aerospike none aerospike.CL_MSG_INFO2_WRITE) (wparam_generation none)
            (wparam_expiration none) 200
            (request_fields aerospike [116, 101, 115, 116, 0] (some [115, 0]) (some key_k1)
              none).length 1
          ++ fields_wire_of (request_fields aerospike [116, 101, 115, 116, 0] (some [115, 0])
              (some key_k1) none) :=
  ⟨by decide,
    (write_fields_wire aerospike no_digest 0 aerospike.CL_MSG_INFO2_WRITE [116, 101, 115, 116, 0]
      (some [115, 0]) (some key_k1) none none 200 [bin_0x7FFF] (List.replicate 80 0) 80 none []
      (by decide) (fun s hs => by cases hs; decide) rfl
      (fun k hk _ => by cases hk; decide) (fun x hx => by cases hx)).1 (by decide)⟩

/-! ## Write parameters in the header (C35) -/

/-- C35. For every request laid out by `compile` or `compile_ops` (return
code 0): the bits of the header's `info2` other than GENERATION are the ones the
caller passed (for `compile_ops`, the ones it computed from the operations), and
`info1` is the caller's; the GENERATION bit (a non-zero bit of the byte that the
caller did not pass) is set iff write parameters are given with
`use_generation`; the generation field is then the given generation, and 0
otherwise; `record_ttl` is the write parameters' expiration, and 0 when no write
parameters are given. -/
theorem header_write_parameters (K : proto_h) (r : List Nat → List Nat) (info1 info2 : Nat)
    (ns : List Nat) (set : Option (List Nat)) (key : Option ev2citrusleaf_object)
    (digest : Option (List Nat)) (wparam : Option ev2citrusleaf_write_parameters)
    (timeout : Nat) (values : List ev2citrusleaf_bin) (ops : List ev2citrusleaf_operation)
    (buf_r : List Nat) (buf_size_r : Nat) (mbuf : Option (List Nat)) (digest_r : List Nat) :
    ((compile K r info1 info2 ns set key digest wparam timeout values buf_r buf_size_r mbuf
        digest_r).rc = 0 →
      request_info1 (compile K r info1 info2 ns set key digest wparam timeout values buf_r
          buf_size_r mbuf digest_r).buf = info1 % 256
        ∧ (∀ i, K.CL_MSG_INFO2_GENERATION.testBit i = false →
          (request_info2 (compile K r info1 info2 ns set key digest wparam timeout values buf_r
            buf_size_r mbuf digest_r).buf).testBit i = (info2 % 256).testBit i)
        ∧ (K.CL_MSG_INFO2_GENERATION ≠ 0 → K.CL_MSG_INFO2_GENERATION < 256 →
          info2 &&& K.CL_MSG_INFO2_GENERATION = 0 →
          (request_info2 (compile K r info1 info2 ns set key digest wparam timeout values buf_r
              buf_size_r mbuf digest_r).buf &&& K.CL_MSG_INFO2_GENERATION ≠ 0
            ↔ uses_generation wparam = true))
        ∧ (∀ w, wparam = some w → w.use_generation = true →
          request_generation (compile K r info1 info2 ns set key digest wparam timeout values
            buf_r buf_size_r mbuf digest_r).buf = w.generation % 2 ^ 32)
        ∧ (uses_generation wparam = false →
          request_generation (compile K r info1 info2 ns set key digest wparam timeout values
            buf_r buf_size_r mbuf digest_r).buf = 0)
        ∧ (∀ w, wparam = some w →
          request_record_ttl (compile K r info1 info2 ns set key digest wparam timeout values
            buf_r buf_size_r mbuf digest_r).buf = w.expiration % 2 ^ 32)
        ∧ (wparam = none →
          request_record_ttl (compile K r info1 info2 ns set key digest wparam timeout values
            buf_r buf_size_r mbuf digest_r).buf = 0))
      ∧ ∀ c, compile_ops K r ns set key digest ops wparam buf_r buf_size_r mbuf digest_r
          = some c → c.rc = 0 →
        request_info1 c.buf = (if any_read ops then K.CL_MSG_INFO1_READ else 0) % 256
          ∧ (∀ i, K.CL_MSG_INFO2_GENERATION.testBit i = false →
            (request_info2 c.buf).testBit i
              = ((if any_write ops then K.CL_MSG_INFO2_WRITE else 0) % 256).testBit i)
          ∧ (K.CL_MSG_INFO2_GENERATION ≠ 0 → K.CL_MSG_INFO2_GENERATION < 256 →
            (if any_write ops then K.CL_MSG_INFO2_WRITE else 0) &&& K.CL_MSG_INFO2_GENERATION
              = 0 →
            (request_info2 c.buf &&& K.CL_MSG_INFO2_GENERATION ≠ 0
              ↔ uses_generation wparam = true))
          ∧ (∀ w, wparam = some w → w.use_generation = true →
            request_generation c.buf = w.generation % 2 ^ 32)
          ∧ (uses_generation wparam = false → request_generation c.buf = 0)
          ∧ (∀ w, wparam = some w → request_record_ttl c.buf = w.expiration % 2 ^ 32)
          ∧ (wparam = none → request_record_ttl c.buf = 0) :=
  ⟨fun h => header_wparam_facts K _ _ info1 info2 _ _ _ wparam
      (compile_header K r info1 info2 ns set key digest wparam timeout values buf_r buf_size_r
        mbuf digest_r h),
    fun c hc h => header_wparam_facts K _ _ _ _ _ _ _ wparam
      ((compile_ops_header K r ns set key digest ops wparam buf_r buf_size_r mbuf digest_r c
        hc).2 h)⟩

theorem header_write_parameters_witness :
    put_gen7.rc = 0
      ∧ request_generation put_gen7.buf = 7 % 2 ^ 32
      ∧ request_record_ttl put_gen7.buf = 60 % 2 ^ 32
      ∧ (request_info2 put_gen7.buf &&& aerospike.CL_MSG_INFO2_GENERATION ≠ 0
        ↔ uses_generation (some wparam_gen7) = true) :=
  ⟨by decide,
    ((header_write_parameters aerospike no_digest 0 aerospike.CL_MSG_INFO2_WRITE
      [116, 101, 115, 116, 0] (some [115, 0]) (some key_k1) none (some wparam_gen7) 200 [bin_hi]
      [op_write_hi] (List.replicate 80 0) 80 none []).1 (by decide)).2.2.2.1 wparam_gen7 rfl rfl,
    ((header_write_parameters aerospike no_digest 0 aerospike.CL_MSG_INFO2_WRITE
      [116, 101, 115, 116, 0] (some [115, 0]) (some key_k1) none (some wparam_gen7) 200 [bin_hi]
      [op_write_hi] (List.replicate 80 0) 80 none []).1 (by decide)).2.2.2.2.2.1 wparam_gen7 rfl,
    ((header_write_parameters aerospike no_digest 0 aerospike.CL_MSG_INFO2_WRITE
      [116, 101, 115, 116, 0] (some [115, 0]) (some key_k1) none (some wparam_gen7) 200 [bin_hi]
      [op_write_hi] (List.replicate 80 0) 80 none []).1 (by decide)).2.2.1 (by decide)
      (by decide) (by decide)⟩

/-! ## The timeout in the header (C36) -/

/-- The `transaction_ttl` of a request laid out by `compile` is the timeout it
was handed. -/
theorem compile_transaction_ttl (K : proto_h) (r : List Nat → List Nat) (info1 info2 : Nat)
    (ns : List Nat) (set : Option (List Nat)) (key : Option ev2citrusleaf_object)
    (digest : Option (List Nat)) (wparam : Option ev2citrusleaf_write_parameters)
    (timeout : Nat) (values : List ev2citrusleaf_bin) (buf_r : List Nat) (buf_size_r : Nat)
    (mbuf : Option (List Nat)) (digest_r : List Nat)
    (h : (compile K r info1 info2 ns set key digest wparam timeout values buf_r buf_size_r mbuf
      digest_r).rc = 0) :
    request_transaction_ttl (compile K r info1 info2 ns set key digest wparam timeout values
      buf_r buf_size_r mbuf digest_r).buf = timeout % 2 ^ 32 :=
  (request_header_fields _ _ _ _ _ _ _ _ _
    (compile_header K r info1 info2 ns set key digest wparam timeout values buf_r buf_size_r
      mbuf digest_r h)).2.2.2.2.1

/-- The `transaction_ttl` of a request laid out by `compile_ops` is the
expiration of the write parameters, 0 without them: `compile_ops` is not handed
the timeout at all. -/
theorem compile_ops_transaction_ttl (K : proto_h) (r : List Nat → List Nat) (ns : List Nat)
    (set : Option (List Nat)) (key : Option ev2citrusleaf_object)
    (digest : Option (List Nat)) (ops : List ev2citrusleaf_operation)
    (wparam : Option ev2citrusleaf_write_parameters) (buf_r : List Nat) (buf_size_r : Nat)
    (mbuf : Option (List Nat)) (digest_r : List Nat) (c : compile_result)
    (hc : compile_ops K r ns set key digest ops wparam buf_r buf_size_r mbuf digest_r = some c)
    (h : c.rc = 0) :
    request_transaction_ttl c.buf = wparam_expiration wparam % 2 ^ 32
      ∧ request_transaction_ttl c.buf = request_record_ttl c.buf :=
  ⟨(request_header_fields _ _ _ _ _ _ _ _ _
      ((compile_ops_header K r ns set key digest ops wparam buf_r buf_size_r mbuf digest_r c
        hc).2 h)).2.2.2.2.1,
    (request_header_fields _ _ _ _ _ _ _ _ _
      ((compile_ops_header K r ns set key digest ops wparam buf_r buf_size_r mbuf digest_r c
        hc).2 h)).2.2.2.2.1.trans
    (request_header_fields _ _ _ _ _ _ _ _ _
      ((compile_ops_header K r ns set key digest ops wparam buf_r buf_size_r mbuf digest_r c
        hc).2 h)).2.2.2.1.symm⟩

set_option maxRecDepth 100000 in
/-- C36 fails for operate: an operate call with a timeout of 200 ms and no
write parameters is started with 0 in the header's `transaction_ttl`, and with
write parameters whose expiration is 60 s it is started with 60 there, where the
sample get with the same timeout carries 200.  `compile_ops` hands the
expiration to `cl_write_header` in the place of the timeout. -/
theorem operate_drops_the_timeout :
    operate_hi_started.req.timeout_ms = 200
      ∧ request_transaction_ttl operate_hi_started.req.wr_buf = 0
      ∧ operate_gen7_started.req.timeout_ms = 200
      ∧ request_transaction_ttl operate_gen7_started.req.wr_buf = 60
      ∧ request_record_ttl operate_gen7_started.req.wr_buf = 60
      ∧ get_started.req.timeout_ms = 200
      ∧ request_transaction_ttl get_started.req.wr_buf = 200 := by
  decide

/-! ## The info bits of an operate request (C34) -/

/-- C34. For every operation list (and a non-null set, which `compile_ops`
hands to `strlen`), `compile_ops` returns, and in the request it lays out
(return code 0) the READ bit of `info1` is set iff some operation is a read, and
the WRITE bit of `info2` is set iff some operation is a write or an add; it
reports `write = true` iff some operation is a write or an add, that is iff the
WRITE bit is set; and `operation_to_op` encodes read, write and add with the op
codes READ, WRITE and INCR, which `cl_msg_swap_op` leaves in the fifth byte of
the op.  The bits READ and WRITE are non-zero bits of a byte, and WRITE is not
the GENERATION bit. -/
theorem compile_ops_info_bits (K : proto_h) (r : List Nat → List Nat) (ns s : List Nat)
    (key : Option ev2citrusleaf_object) (digest : Option (List Nat))
    (ops : List ev2citrusleaf_operation) (wparam : Option ev2citrusleaf_write_parameters)
    (buf_r : List Nat) (buf_size_r : Nat) (mbuf : Option (List Nat)) (digest_r : List Nat)
    (hR : K.CL_MSG_INFO1_READ ≠ 0 ∧ K.CL_MSG_INFO1_READ < 256)
    (hW : K.CL_MSG_INFO2_WRITE ≠ 0 ∧ K.CL_MSG_INFO2_WRITE < 256)
    (hG : K.CL_MSG_INFO2_GENERATION &&& K.CL_MSG_INFO2_WRITE = 0) :
    (compile_ops K r ns (some s) key digest ops wparam buf_r buf_size_r mbuf digest_r).isSome
        = true
      ∧ (∀ c, compile_ops K r ns (some s) key digest ops wparam buf_r buf_size_r mbuf digest_r
          = some c →
        (c.write = true ↔ ∃ v ∈ ops, v.op = .CL_OP_WRITE ∨ v.op = .CL_OP_ADD)
          ∧ (c.rc = 0 →
            (request_info1 c.buf &&& K.CL_MSG_INFO1_READ ≠ 0 ↔ ∃ v ∈ ops, v.op = .CL_OP_READ)
              ∧ (request_info2 c.buf &&& K.CL_MSG_INFO2_WRITE ≠ 0
                ↔ ∃ v ∈ ops, v.op = .CL_OP_WRITE ∨ v.op = .CL_OP_ADD)
              ∧ (c.write = true ↔ request_info2 c.buf &&& K.CL_MSG_INFO2_WRITE ≠ 0)))
      ∧ ∀ (v : ev2citrusleaf_operation) (op : cl_msg_op),
        (v.op = .CL_OP_READ →
          (cl_msg_swap_op (operation_to_op K v op)).getD 4 0 = to_u8 K.CL_MSG_OP_READ)
        ∧ (v.op = .CL_OP_WRITE →
          (cl_msg_swap_op (operation_to_op K v op)).getD 4 0 = to_u8 K.CL_MSG_OP_WRITE)
        ∧ (v.op = .CL_OP_ADD →
          (cl_msg_swap_op (operation_to_op K v op)).getD 4 0 = to_u8 K.CL_MSG_OP_INCR) := by
  refine ⟨compile_ops_isSome K r ns s key digest ops wparam buf_r buf_size_r mbuf digest_r,
    fun c hc => ?_, fun v op => ?_⟩
  · obtain ⟨hw, hh⟩ := compile_ops_header K r ns (some s) key digest ops wparam buf_r
      buf_size_r mbuf digest_r c hc
    have hwrite : c.write = true ↔ ∃ v ∈ ops, v.op = .CL_OP_WRITE ∨ v.op = .CL_OP_ADD := by
      rw [hw, ← any_write_iff]
      cases any_write ops <;> simp [hW.1]
    refine ⟨hwrite, fun h0 => ?_⟩
    obtain ⟨h1, h2, -⟩ := request_header_fields _ _ _ _ _ _ _ _ _ (hh h0)
    have hinfo2 : request_info2 c.buf &&& K.CL_MSG_INFO2_WRITE ≠ 0
        ↔ ∃ v ∈ ops, v.op = .CL_OP_WRITE ∨ v.op = .CL_OP_ADD := by
      rw [h2, mod_and_of_lt _ _ hW.2, wparam_info2_eq, ← any_write_iff]
      cases uses_generation wparam <;> cases any_write ops <;>
        simp [or_and_of_disjoint _ _ _ hG, hW.1, hG]
    refine ⟨?_, hinfo2, hwrite.trans hinfo2.symm⟩
    rw [h1, mod_and_of_lt _ _ hR.2, ← any_read_iff]
    cases any_read ops <;> simp [hR.1]
  · obtain ⟨c1, c2, c3⟩ := operation_to_op_code K v op
    refine ⟨fun h => ?_, fun h => ?_, fun h => ?_⟩
    · rw [swap_op_code, c1 h, to_u8_mod]
    · rw [swap_op_code, c2 h, to_u8_mod]
    · rw [swap_op_code, c3 h, to_u8_mod]

theorem compile_ops_info_bits_witness :
    operate_three.write = true
      ∧ request_info1 operate_three.buf &&& aerospike.CL_MSG_INFO1_READ ≠ 0
      ∧ request_info2 operate_three.buf &&& aerospike.CL_MSG_INFO2_WRITE ≠ 0 :=
  ⟨(((compile_ops_info_bits aerospike no_digest [116, 101, 115, 116, 0] [115, 0] (some key_k1)
      none [op_read_v, op_write_hi, op_add_1] none (List.replicate 128 0) 128 none []
      (by decide) (by decide) (by decide)).2.1 operate_three (Option.some_get _).symm).1).mpr
      ⟨op_write_hi, by simp, Or.inl rfl⟩,
    ((((compile_ops_info_bits aerospike no_digest [116, 101, 115, 116, 0] [115, 0] (some key_k1)
      none [op_read_v, op_write_hi, op_add_1] none (List.replicate 128 0) 128 none []
      (by decide) (by decide) (by decide)).2.1 operate_three (Option.some_get _).symm).2
        (by decide)).1).mpr ⟨op_read_v, by simp, rfl⟩,
    ((((compile_ops_info_bits aerospike no_digest [116, 101, 115, 116, 0] [115, 0] (some key_k1)
      none [op_read_v, op_write_hi, op_add_1] none (List.replicate 128 0) 128 none []
      (by decide) (by decide) (by decide)).2.1 operate_three (Option.some_get _).symm).2
        (by decide)).2.1).mpr ⟨op_add_1, by simp, Or.inr rfl⟩⟩

/-! ## The set field (C37) -/

/-- C37, as stated, fails: a get of all bins for the key `k1` in namespace
`test` is accepted both without a set and with the empty set, but the two
requests differ: with the empty set the header counts 3 fields and behind the
namespace field stands a SET field of `field_size` 1, and the request is 5 bytes
longer; without a set the header counts 2 fields and the key field stands
there. -/
theorem empty_set_is_a_field :
    (get_all_of_set none).rc = 0 ∧ (get_all_of_set (some [0])).rc = 0
      ∧ request_n_fields (get_all_of_set none).buf = 2
      ∧ request_n_fields (get_all_of_set (some [0])).buf = 3
      ∧ ((get_all_of_set none).buf.drop 39).take 5
        = [0, 0, 0, 4, aerospike.CL_MSG_FIELD_TYPE_KEY]
      ∧ ((get_all_of_set (some [0])).buf.drop 39).take 5
        = [0, 0, 0, 1, aerospike.CL_MSG_FIELD_TYPE_SET]
      ∧ (get_all_of_set (some [0])).buf_size = (get_all_of_set none).buf_size + 5 := by
  decide

/-- C37, amended. For every request laid out by `compile` (return code 0, a key
or a digest, names and key shorter than `2 ^ 32 - 2` bytes): with an absent set
the fields are the namespace and the key or digest, no SET field is emitted,
`n_fields` does not count one and the size pass adds no set bytes; with an empty
set (a non-null pointer to the empty string) a SET field of `field_size` 1
without data stands behind the namespace field, `n_fields` counts it, and the
size pass adds its 5 bytes.  `compile_ops` lays out the same fields for the
empty set. -/
theorem set_field_encoding (K : proto_h) (r : List Nat → List Nat) (info1 info2 : Nat)
    (ns s : List Nat) (key : Option ev2citrusleaf_object)
    (digest : Option (List Nat)) (wparam : Option ev2citrusleaf_write_parameters)
    (timeout : Nat) (values : List ev2citrusleaf_bin) (ops : List ev2citrusleaf_operation)
    (buf_r : List Nat) (buf_size_r : Nat) (mbuf : Option (List Nat)) (digest_r : List Nat)
    (hns : strlen ns + 1 < 2 ^ 32) (hs : strlen s = 0)
    (hkd : key.isSome = !digest.isSome)
    (hkey : ∀ k, key = some k → k.type ≠ CL_INT → k.size ≤ k.ptr.length ∧ k.size + 2 < 2 ^ 32)
    (hd : ∀ x, digest = some x → sizeof_cf_digest ≤ x.length) :
    ((compile K r info1 info2 ns none key digest wparam timeout values buf_r buf_size_r mbuf
        digest_r).rc = 0 →
      (compile K r info1 info2 ns none key digest wparam timeout values buf_r buf_size_r mbuf
          digest_r).buf.take
          (30 + (fields_wire_of ((K.CL_MSG_FIELD_TYPE_NAMESPACE, cstring ns)
            :: key_fields K key digest)).length)
        = request_header
            (compile K r info1 info2 ns none key digest wparam timeout values buf_r buf_size_r
              mbuf digest_r).buf_size
            info1 (wparam_info2 K wparam info2) (wparam_generation wparam)
            (wparam_expiration wparam) timeout
            ((K.CL_MSG_FIELD_TYPE_NAMESPACE, cstring ns) :: key_fields K key digest).length
            values.length
          ++ fields_wire_of ((K.CL_MSG_FIELD_TYPE_NAMESPACE, cstring ns)
            :: key_fields K key digest))
      ∧ ((compile K r info1 info2 ns (some s) key digest wparam timeout values buf_r buf_size_r
          mbuf digest_r).rc = 0 →
        (compile K r info1 info2 ns (some s) key digest wparam timeout values buf_r buf_size_r
            mbuf digest_r).buf.take
            (30 + (fields_wire_of ((K.CL_MSG_FIELD_TYPE_NAMESPACE, cstring ns)
              :: (K.CL_MSG_FIELD_TYPE_SET, []) :: key_fields K key digest)).length)
          = request_header
              (compile K r info1 info2 ns (some s) key digest wparam timeout values buf_r
                buf_size_r mbuf digest_r).buf_size
              info1 (wparam_info2 K wparam info2) (wparam_generation wparam)
              (wparam_expiration wparam) timeout
              ((K.CL_MSG_FIELD_TYPE_NAMESPACE, cstring ns)
                :: (K.CL_MSG_FIELD_TYPE_SET, []) :: key_fields K key digest).length
              values.length
            ++ fields_wire_of ((K.CL_MSG_FIELD_TYPE_NAMESPACE, cstring ns)
              :: (K.CL_MSG_FIELD_TYPE_SET, []) :: key_fields K key digest))
      ∧ (∀ c, compile_ops K r ns (some s) key digest ops wparam buf_r buf_size_r mbuf digest_r
          = some c → c.rc = 0 →
        c.buf.take
            (30 + (fields_wire_of ((K.CL_MSG_FIELD_TYPE_NAMESPACE, cstring ns)
              :: (K.CL_MSG_FIELD_TYPE_SET, []) :: key_fields K key digest)).length)
          = request_header c.buf_size (if any_read ops then K.CL_MSG_INFO1_READ else 0)
              (wparam_info2 K wparam (if any_write ops then K.CL_MSG_INFO2_WRITE else 0))
              (wparam_generation wparam) (wparam_expiration wparam) (wparam_expiration wparam)
              ((K.CL_MSG_FIELD_TYPE_NAMESPACE, cstring ns)
                :: (K.CL_MSG_FIELD_TYPE_SET, []) :: key_fields K key digest).length
              ops.length
            ++ fields_wire_of ((K.CL_MSG_FIELD_TYPE_NAMESPACE, cstring ns)
              :: (K.CL_MSG_FIELD_TYPE_SET, []) :: key_fields K key digest))
      ∧ compile_size_fields (strlen ns) none 0 key digest
        = compile_size_fields (strlen ns) none (strlen s) key digest
      ∧ compile_size_fields (strlen ns) (some s) (strlen s) key digest
        = (compile_size_fields (strlen ns) none 0 key digest + 5) % 2 ^ 64
      ∧ field_wire K.CL_MSG_FIELD_TYPE_SET [] = [0, 0, 0, 1, K.CL_MSG_FIELD_TYPE_SET % 256] := by
  have hs1 : ∀ x, some s = some x → strlen x + 1 < 2 ^ 32 := by
    intro x hx
    cases hx
    rw [hs]
    decide
  refine ⟨fun h => ?_, fun h => ?_, fun c hc h => ?_, ?_, ?_, ?_⟩
  · rw [← (fields_wire_no_set K ns key digest).1, ← (fields_wire_no_set K ns key digest).2]
    exact compile_fields K r info1 info2 ns none key digest wparam timeout values buf_r
      buf_size_r mbuf digest_r hns (fun x hx => by cases hx) hkd hkey hd h
  · rw [← (fields_wire_empty_set K ns s key digest hs).1,
      ← (fields_wire_empty_set K ns s key digest hs).2]
    exact compile_fields K r info1 info2 ns (some s) key digest wparam timeout values buf_r
      buf_size_r mbuf digest_r hns hs1 hkd hkey hd h
  · rw [← (fields_wire_empty_set K ns s key digest hs).1,
      ← (fields_wire_empty_set K ns s key digest hs).2]
    exact compile_ops_fields K r ns (some s) key digest ops wparam buf_r buf_size_r mbuf
      digest_r c hns hs1 hkd hkey hd hc h
  · exact ((compile_size_fields_set (strlen ns) (strlen s) s key digest).1).symm
  · rw [(compile_size_fields_set (strlen ns) (strlen s) s key digest).2, hs]
    rfl
  · rfl

theorem set_field_encoding_witness :
    (get_all_of_set (some [0])).rc = 0
      ∧ (get_all_of_set (some [0])).buf.take
          (30 + (fields_wire_of ((aerospike.CL_MSG_FIELD_TYPE_NAMESPACE,
              cstring [116, 101, 115, 116, 0])
            :: (aerospike.CL_MSG_FIELD_TYPE_SET, []) :: key_fields aerospike (some key_k1)
              none)).length)
        = request_header (get_all_of_set (some [0])).buf_size
            (aerospike.CL_MSG_INFO1_READ ||| aerospike.CL_MSG_INFO1_GET_ALL)
            (wparam_info2 aerospike none 0) (wparam_generation none) (wparam_expiration none)
            200
            ((aerospike.CL_MSG_FIELD_TYPE_NAMESPACE, cstring [116, 101, 115, 116, 0])
              :: (aerospike.CL_MSG_FIELD_TYPE_SET, []) :: key_fields aerospike (some key_k1)
                none).length
            0
          ++ fields_wire_of ((aerospike.CL_MSG_FIELD_TYPE_NAMESPACE,
              cstring [116, 101, 115, 116, 0])
            :: (aerospike.CL_MSG_FIELD_TYPE_SET, []) :: key_fields aerospike (some key_k1)
              none) :=
  ⟨by decide,
    (set_field_encoding aerospike no_digest
      (aerospike.CL_MSG_INFO1_READ ||| aerospike.CL_MSG_INFO1_GET_ALL) 0
      [116, 101, 115, 116, 0] [0] (some key_k1) none none 200 [] [] (List.replicate 80 0) 80
      none [] (by decide) (by decide) rfl (fun k hk _ => by cases hk; decide)
      (fun x hx => by cases hx)).2.1 (by decide)⟩

/-! ## Language-tagged blobs (C38) -/

/-- For a value that is none of null, integer, float, string and plain blob,
`bin_to_op` writes the op header and the name and nothing else: the particle
type is what the buffer held, and `op_sz` counts no value. -/
theorem bin_to_op_other_type (K : proto_h) (v : ev2citrusleaf_bin) (op : cl_msg_op)
    (h0 : v.object.type ≠ CL_NULL) (h1 : v.object.type ≠ CL_INT)
    (h2 : v.object.type ≠ CL_FLOAT) (h3 : v.object.type ≠ CL_STR)
    (h4 : v.object.type ≠ CL_BLOB) :
    (bin_to_op K K.CL_MSG_OP_WRITE v op).particle_type = op.particle_type
      ∧ (bin_to_op K K.CL_MSG_OP_WRITE v op).op_sz
        = (sizeof_cl_msg_op + strlen v.bin_name - 4) % 2 ^ 32
      ∧ (bin_to_op K K.CL_MSG_OP_WRITE v op).name
        = poke op.name 0 (memcpy_src v.bin_name (strlen v.bin_name)) := by
  simp only [bin_to_op, if_neg K.write_ne_read, value_to_op, if_neg h0, if_neg h1, if_neg h2,
    if_neg h3, if_neg h4, and_self]

/-- The size pass accepts the four language-tagged blobs and counts their
bytes. -/
theorem value_to_op_get_size_language_blob (K : proto_h) (v : ev2citrusleaf_object) (sz : Nat)
    (h0 : v.type ≠ CL_NULL) (h1 : v.type ≠ CL_INT) (h2 : v.type ≠ CL_FLOAT)
    (h3 : v.type ≠ CL_STR)
    (h : v.type = CL_PYTHON_BLOB K ∨ v.type = CL_RUBY_BLOB K ∨ v.type = CL_JAVA_BLOB K
      ∨ v.type = CL_CSHARP_BLOB K) :
    value_to_op_get_size K v sz = (0, (sz + v.size) % 2 ^ 64) := by
  have h' : v.type = CL_PYTHON_BLOB K ∨ v.type = CL_RUBY_BLOB K ∨ v.type = CL_JAVA_BLOB K
      ∨ v.type = CL_CSHARP_BLOB K ∨ v.type = CL_BLOB := by
    rcases h with h | h | h | h
    · exact Or.inl h
    · exact Or.inr (Or.inl h)
    · exact Or.inr (Or.inr (Or.inl h))
    · exact Or.inr (Or.inr (Or.inr (Or.inl h)))
  simp only [value_to_op_get_size, if_neg h0, if_neg h1, if_neg h2, if_neg h3, if_pos h']

set_option maxRecDepth 100000 in
/-- C38 fails: the size pass accepts a java blob of the two bytes `k1` and
counts them, and the put of the bin `b` holding it is laid out with return
code 0; but where the put of the plain blob has `op_size` 7, particle type 4
(BLOB) and the bytes `k1` behind the name, the op of the java blob has
`op_size` 5, particle type 0 instead of the tag 7, and no value bytes: it ends
at offset 62 of the 64 bytes the request announces. -/
theorem put_drops_language_blob :
    bin_java.object.type = aerospike.CL_PARTICLE_TYPE_JAVA_BLOB
      ∧ value_to_op_get_size aerospike bin_java.object 0 = (0, 2)
      ∧ (put_of_bin bin_blob).rc = 0
      ∧ ((put_of_bin bin_blob).buf.drop 53).take 11
        = [0, 0, 0, 7, 2, CL_PARTICLE_TYPE_BLOB, 0, 1, 98, 107, 49]
      ∧ (put_of_bin bin_blob).end_pos = some (put_of_bin bin_blob).buf_size
      ∧ (put_of_bin bin_java).rc = 0
      ∧ ((put_of_bin bin_java).buf.drop 53).take 11 = [0, 0, 0, 5, 2, 0, 0, 1, 98, 0, 0]
      ∧ (put_of_bin bin_java).end_pos = some 62
      ∧ (put_of_bin bin_java).buf_size = 64 := by
  decide

/-! ## The layout of an op (C33) -/

set_option maxRecDepth 100000 in
/-- C33 fails for `operation_to_op`: an operate call that writes a blob of 1000
bytes to the bin `b` needs 1062 bytes, more than the inline write buffer holds,
so the request is laid out in a block from `malloc`, here filled with `0xAA`.
The version byte of its op (at offset 53 + 6) is `0xAA`, left over from the
block, where the put of the same bin, laid out by `bin_to_op` in the same block,
has 0. -/
theorem operate_leaves_version_byte :
    operate_long.rc = 0 ∧ operate_long.malloced = true ∧ operate_long.buf_size = 1062
      ∧ operate_long.buf.getD 59 0 = 170
      ∧ put_long.rc = 0 ∧ put_long.malloced = true ∧ put_long.buf_size = 1062
      ∧ put_long.buf.getD 59 0 = 0 := by
  have hp : 30 + (fields_wire aerospike [116, 101, 115, 116, 0] (some [115, 0]) (some key_k1)
      none).length + 6 = 59 := by decide
  have hm : operate_long.malloced = true := by decide
  have h1 := compile_ops_version_byte aerospike no_digest [116, 101, 115, 116, 0]
    (some [115, 0]) (some key_k1) none ⟨[98, 0], .CL_OP_WRITE, blob_1000⟩ none
    (List.replicate 1024 0) 1024 malloc_block [] operate_long (by decide)
    (fun s hs => by cases hs; decide) rfl (fun k hk _ => by cases hk; decide)
    (fun x hx => by cases hx) (Option.some_get _).symm (by decide)
  have h2 := compile_version_byte aerospike no_digest 0 aerospike.CL_MSG_INFO2_WRITE
    [116, 101, 115, 116, 0] (some [115, 0]) (some key_k1) none none 200 ⟨[98, 0], blob_1000⟩
    (List.replicate 1024 0) 1024 (some malloc_block) [] (by decide)
    (fun s hs => by cases hs; decide) rfl (fun k hk _ => by cases hk; decide)
    (fun x hx => by cases hx) (by decide)
  rw [hp] at h1 h2
  rw [hm, if_pos rfl] at h1
  refine ⟨by decide, hm, by decide, ?_, by decide, by decide, by decide, h2⟩
  rw [h1]
  decide

/-! ## The element count of the hash table (C40) -/

/-- The function `shash_reduce_delete` does not touch `h->elements`. -/
theorem shash_reduce_delete_elements (h : shash) (reduce_fn : List Nat → List Nat → Int) :
    shash_get_size (shash_reduce_delete h reduce_fn).1 = shash_get_size h := rfl

/-- C40 fails for `shash_reduce_delete`: on a single-threaded table of 4 slots
the keys 1 and 2 are put; `shash_get_size` is 2 and both are found.  After
`shash_reduce_delete` with a function that asks to delete every element (it
returns `SHASH_OK`), neither key is found, no slot is in use, and
`shash_get_size` is still 2.  The sibling `shash_delete` counts down: after
deleting both keys the size is 0. -/
theorem reduce_delete_keeps_the_count :
    table_4.table_len = 4 ∧ table_4.flags = 0
      ∧ shash_get_size table_4_two = 2
      ∧ (shash_get table_4_two [1]) = (SHASH_OK, some [10])
      ∧ (shash_get table_4_two [2]) = (SHASH_OK, some [20])
      ∧ (shash_reduce_delete table_4_two delete_all).2 = SHASH_OK
      ∧ (shash_get table_4_reduced [1]).1 = SHASH_ERR_NOTFOUND
      ∧ (shash_get table_4_reduced [2]).1 = SHASH_ERR_NOTFOUND
      ∧ table_4_reduced.table.map (fun b => b.head.in_use) = [false, false, false, false]
      ∧ table_4_reduced.table.map (fun b => b.chain.length) = [0, 0, 0, 0]
      ∧ shash_get_size table_4_reduced = 2
      ∧ shash_get_size (shash_delete (shash_delete table_4_two [1]).1 [2]).1 = 0 := by
  decide

/-! ### The count without `shash_reduce_delete` -/

theorem sum_map_set (l : List shash_bucket) (i : Nat) (b : shash_bucket) (hi : i < l.length) :
    ((l.set i b).map shash_bucket_count).sum
        + shash_bucket_count (l.getD i ⟨⟨false, [], []⟩, []⟩)
      = (l.map shash_bucket_count).sum + shash_bucket_count b := by
  induction l generalizing i with
  | nil => simp at hi
  | cons a l ih =>
    cases i with
    | zero => simp [List.set]; omega
    | succ i =>
      have := ih i (by simpa using hi)
      simp only [List.set, List.map_cons, List.sum_cons, List.getD_cons_succ] at this ⊢
      omega

theorem shash_chain_update_length (h : shash) (key value : List Nat)
    (c c' : List (List Nat × List Nat)) (hc : shash_chain_update h key value c = some c') :
    c'.length = c.length := by
  induction c generalizing c' with
  | nil => simp [shash_chain_update] at hc
  | cons e es ih =>
    simp only [shash_chain_update] at hc
    split_ifs at hc
    · simp only [Option.some.injEq] at hc
      subst hc
      rfl
    · cases hu : shash_chain_update h key value es with
      | none => simp [hu] at hc
      | some es' =>
        simp only [hu, Option.map_some', Option.some.injEq] at hc
        subst hc
        simp [ih es' hu]

theorem shash_chain_delete_length (h : shash) (key : List Nat)
    (c c' : List (List Nat × List Nat)) (hc : shash_chain_delete h key c = some c') :
    c'.length + 1 = c.length := by
  induction c generalizing c' with
  | nil => simp [shash_chain_delete] at hc
  | cons e es ih =>
    simp only [shash_chain_delete] at hc
    split_ifs at hc
    · simp only [Option.some.injEq] at hc
      subst hc
      rfl
    · cases hu : shash_chain_delete h key es with
      | none => simp [hu] at hc
      | some es' =>
        simp only [hu, Option.map_some', Option.some.injEq] at hc
        subst hc
        simp [ih es' hu]

/-- The table is as `shash_create` made it and the count is right: `elements`
is the number of stored elements, as a `uint`. -/
structure shash_counted (h : shash) : Prop where
  len : h.table.length = h.table_len
  pos : 0 < h.table_len
  count : h.elements = shash_stored h % 2 ^ 32

theorem shash_slot_lt (h : shash) (key : List Nat) (hw : shash_counted h) :
    shash_slot h key < h.table.length := by
  rw [hw.len]
  exact Nat.mod_lt _ hw.pos

theorem counted_set_incr (h : shash) (i : Nat) (b : shash_bucket) (hw : shash_counted h)
    (hi : i < h.table.length)
    (hb : shash_bucket_count b = shash_bucket_count (h.table.getD i ⟨⟨false, [], []⟩, []⟩) + 1) :
    shash_counted { h with table := h.table.set i b, elements := (h.elements + 1) % 2 ^ 32 } := by
  have hs := sum_map_set h.table i b hi
  refine ⟨?_, hw.pos, ?_⟩
  · simp only [List.length_set]
    exact hw.len
  · show (h.elements + 1) % 2 ^ 32 = ((h.table.set i b).map shash_bucket_count).sum % 2 ^ 32
    rw [hw.count]
    unfold shash_stored
    omega

theorem counted_set_same (h : shash) (i : Nat) (b : shash_bucket) (hw : shash_counted h)
    (hi : i < h.table.length)
    (hb : shash_bucket_count b = shash_bucket_count (h.table.getD i ⟨⟨false, [], []⟩, []⟩)) :
    shash_counted { h with table := h.table.set i b } := by
  have hs := sum_map_set h.table i b hi
  refine ⟨?_, hw.pos, ?_⟩
  · simp only [List.length_set]
    exact hw.len
  · show h.elements = ((h.table.set i b).map shash_bucket_count).sum % 2 ^ 32
    rw [hw.count]
    unfold shash_stored
    omega

theorem counted_set_decr (h : shash) (i : Nat) (b : shash_bucket) (hw : shash_counted h)
    (hi : i < h.table.length)
    (hb : shash_bucket_count b + 1 = shash_bucket_count (h.table.getD i ⟨⟨false, [], []⟩, []⟩)) :
    shash_counted
      { h with table := h.table.set i b, elements := (h.elements + 2 ^ 32 - 1) % 2 ^ 32 } := by
  have hs := sum_map_set h.table i b hi
  refine ⟨?_, hw.pos, ?_⟩
  · simp only [List.length_set]
    exact hw.len
  · show (h.elements + 2 ^ 32 - 1) % 2 ^ 32
      = ((h.table.set i b).map shash_bucket_count).sum % 2 ^ 32
    rw [hw.count]
    unfold shash_stored
    omega

theorem shash_put_counted (h : shash) (key value : List Nat) (hw : shash_counted h) :
    shash_counted (shash_put h key value).1 := by
  have hi := shash_slot_lt h key hw
  unfold shash_put
  simp only []
  generalize he : h.table.getD (shash_slot h key) ⟨⟨false, [], []⟩, []⟩ = e
  obtain ⟨⟨u, k, v⟩, chain⟩ := e
  split_ifs with h1 h2
  · simp only at h1
    subst h1
    exact counted_set_incr h _ _ hw hi (by rw [he]; simp [shash_bucket_count]; omega)
  · have h1' : u = true := by simpa using h1
    subst h1'
    exact counted_set_same h _ _ hw hi (by rw [he]; simp [shash_bucket_count])
  · have h1' : u = true := by simpa using h1
    subst h1'
    cases hu : shash_chain_update h key value chain with
    | some c =>
      simp only []
      exact counted_set_same h _ _ hw hi
        (by rw [he]; simp [shash_bucket_count, shash_chain_update_length h key value _ c hu])
    | none =>
      simp only []
      exact counted_set_incr h _ _ hw hi (by rw [he]; simp [shash_bucket_count]; omega)

theorem shash_put_unique_counted (h : shash) (key value : List Nat) (hw : shash_counted h) :
    shash_counted (shash_put_unique h key value).1 := by
  have hi := shash_slot_lt h key hw
  unfold shash_put_unique
  simp only []
  generalize he : h.table.getD (shash_slot h key) ⟨⟨false, [], []⟩, []⟩ = e
  obtain ⟨⟨u, k, v⟩, chain⟩ := e
  split_ifs with h1 h2
  · simp only at h1
    subst h1
    exact counted_set_incr h _ _ hw hi (by rw [he]; simp [shash_bucket_count]; omega)
  · exact hw
  · have h1' : u = true := by simpa using h1
    subst h1'
    exact counted_set_incr h _ _ hw hi (by rw [he]; simp [shash_bucket_count]; omega)

theorem shash_delete_counted (h : shash) (key : List Nat) (hw : shash_counted h) :
    shash_counted (shash_delete h key).1 := by
  have hi := shash_slot_lt h key hw
  unfold shash_delete
  simp only []
  generalize he : h.table.getD (shash_slot h key) ⟨⟨false, [], []⟩, []⟩ = e
  obtain ⟨⟨u, k, v⟩, chain⟩ := e
  split_ifs with h1 h2
  · exact hw
  · have h1' : u = true := by simpa using h1
    subst h1'
    cases chain with
    | nil =>
      simp only []
      exact counted_set_decr h _ _ hw hi (by rw [he]; simp [shash_bucket_count])
    | cons c cs =>
      simp only []
      exact counted_set_decr h _ _ hw hi (by rw [he]; simp [shash_bucket_count]; omega)
  · have h1' : u = true := by simpa using h1
    subst h1'
    cases hu : shash_chain_delete h key chain with
    | some c =>
      simp only []
      have hl := shash_chain_delete_length h key _ c hu
      exact counted_set_decr h _ _ hw hi (by rw [he]; simp [shash_bucket_count]; omega)
    | none => exact hw

theorem shash_get_and_delete_counted (h : shash) (key : List Nat) (hw : shash_counted h) :
    shash_counted (shash_get_and_delete h key).1 := by
  have hi := shash_slot_lt h key hw
  unfold shash_get_and_delete
  simp only []
  generalize he : h.table.getD (shash_slot h key) ⟨⟨false, [], []⟩, []⟩ = e
  obtain ⟨⟨u, k, v⟩, chain⟩ := e
  split_ifs with h1 h2
  · exact hw
  · have h1' : u = true := by simpa using h1
    subst h1'
    cases chain with
    | nil =>
      simp only []
      exact counted_set_decr h _ _ hw hi (by rw [he]; simp [shash_bucket_count])
    | cons c cs =>
      simp only []
      exact counted_set_decr h _ _ hw hi (by rw [he]; simp [shash_bucket_count]; omega)
  · have h1' : u = true := by simpa using h1
    subst h1'
    cases hu : shash_chain_delete h key chain with
    | none => exact hw
    | some c =>
      cases hf : chain.find? (fun c => shash_key_eq h c.1 key) with
      | none => exact hw
      | some x =>
        simp only []
        have hl := shash_chain_delete_length h key _ c hu
        exact counted_set_decr h _ _ hw hi (by rw [he]; simp [shash_bucket_count]; omega)

theorem shash_create_counted (h_fn : List Nat → Nat) (key_len value_len sz flags : Nat)
    (h : shash) (hc : shash_create h_fn key_len value_len sz flags = some h) (hsz : 0 < sz) :
    shash_counted h := by
  unfold shash_create at hc
  split_ifs at hc
  simp only [Option.some.injEq] at hc
  subst hc
  refine ⟨by simp, hsz, ?_⟩
  have hz : ∀ n, ((List.replicate n (⟨⟨false, [], []⟩, []⟩ : shash_bucket)).map
      shash_bucket_count).sum = 0 := by
    intro n
    induction n with
    | zero => rfl
    | succ n ih => simp [List.replicate_succ, shash_bucket_count, ih]
  show 0 = ((List.replicate sz (⟨⟨false, [], []⟩, []⟩ : shash_bucket)).map
    shash_bucket_count).sum % 2 ^ 32
  rw [hz]
  rfl

/-- Without `shash_reduce_delete` the count is right: after any sequence of
`shash_put`, `shash_put_unique`, `shash_delete` and `shash_get_and_delete` on a
table that `shash_create` made with at least one slot, `shash_get_size` is the
number of elements stored, as a `uint`. -/
theorem shash_count_without_reduce (h_fn : List Nat → Nat) (key_len value_len sz flags : Nat)
    (h : shash) (hc : shash_create h_fn key_len value_len sz flags = some h) (hsz : 0 < sz)
    (calls : List shash_call) :
    shash_get_size (calls.foldl shash_apply h)
      = shash_stored (calls.foldl shash_apply h) % 2 ^ 32 := by
  have hw := shash_create_counted h_fn key_len value_len sz flags h hc hsz
  suffices hs : shash_counted (calls.foldl shash_apply h) from hs.count
  clear hc
  induction calls generalizing h with
  | nil => exact hw
  | cons c cs ih =>
    refine ih _ ?_
    cases c with
    | put key value => exact shash_put_counted h key value hw
    | put_unique key value => exact shash_put_unique_counted h key value hw
    | delete key => exact shash_delete_counted h key hw
    | get_and_delete key => exact shash_get_and_delete_counted h key hw

/-! ## The buffer positions of a request (C39) -/

theorem restart_positions (w w' : engine) (may_throttle b : Bool) (o : restart_oracle)
    (h : ev2citrusleaf_restart w may_throttle o = some (b, w')) (hp : positions_ok w) :
    positions_ok w' := by
  unfold ev2citrusleaf_restart at h
  split_ifs at h with hlate
  · simp only [Option.some.injEq, Prod.mk.injEq] at h
    obtain ⟨-, rfl⟩ := h
    exact hp
  · simp only at h
    split at h
    · exact absurd h (by simp)
    all_goals
      rename_i hloop
      simp only [Option.some.injEq, Prod.mk.injEq] at h
      obtain ⟨-, rfl⟩ := h
      have h1 := (restart_loop_frame _ _ _ _ _ _ hloop).1
      simp [positions_ok, h1]

theorem request_complete_positions (K : proto_h) (w : engine) (timedout : Bool)
    (o : complete_oracle) (hp : positions_ok w) :
    positions_ok (ev2citrusleaf_request_complete K w timedout o) := by
  obtain ⟨req, ds, te, ne, q, asc, log⟩ := w
  obtain ⟨tms, wpol, ctl, ctld, node, fd, ts, ns, bhs, wr, st, nsp, d, wb, wbs, wbp, wbm, rhb, rhp,
    rb, rbs, rbp⟩ := req
  have hp' : wbp ≤ wbs ∧ rhp ≤ sizeof_cl_proto ∧ rbp ≤ rbs := hp
  by_cases hfd : fd > -1 <;> cases timedout <;> cases node <;> cases ts <;> cases ns <;>
    cases bhs <;>
    simp [ev2citrusleaf_request_complete, cl_request_destroy, hfd, positions_ok] <;>
    first
      | exact hp'
      | (split_ifs <;> exact hp')

theorem event_fail_positions (K : proto_h) (w w' : engine) (fd : Int) (o : network_oracle)
    (h : ev2citrusleaf_event_fail K w fd o = some w') (hp : positions_ok w) :
    positions_ok w' := by
  unfold ev2citrusleaf_event_fail at h
  simp only at h
  split_ifs at h with hw
  · simp only [Option.some.injEq] at h
    subst h
    apply request_complete_positions
    cases w.req.node <;> exact hp
  · split at h
    · exact absurd h (by simp)
    · rename_i b w1 hr
      simp only [Option.some.injEq] at h
      subst h
      apply restart_positions _ _ _ _ _ hr
      cases w.req.node <;> exact hp

theorem io_state_eq (w : engine) :
    io_state w
      = { ({ w with network_event := { w.network_event with pending := false } } : engine) with
          req := { w.req with network_set := false } } := rfl

theorem event_send_positions (K : proto_h) (w w' : engine) (fd : Int) (o : network_oracle)
    (h : event_send K w fd o = some w') (hp : positions_ok w)
    (hb : w.req.wr_buf_pos < w.req.wr_buf_size →
      o.send.rv ≤ (w.req.wr_buf_size : Int) - w.req.wr_buf_pos) :
    positions_ok w' := by
  unfold event_send at h
  simp only at h
  split_ifs at h with h1 h2 h3 h4 h5
  all_goals first
    | exact event_fail_positions K w w' fd o h hp
    | (simp only [Option.some.injEq] at h
       subst h
       first
         | exact hp
         | (have hb1 := hb h1
            obtain ⟨p1, p2, p3⟩ := hp
            refine ⟨?_, p2, p3⟩
            simp only [ev2citrusleaf_event_rearm]
            omega))

theorem event_recv_header_positions (w w' : engine) (o : network_oracle)
    (h : event_recv_header w o = some w') (hp : positions_ok w)
    (hb : w.req.rd_header_pos < sizeof_cl_proto →
      o.recv_header.rv ≤ (sizeof_cl_proto : Int) - w.req.rd_header_pos) :
    positions_ok w' := by
  unfold event_recv_header at h
  simp only at h
  split_ifs at h with h1 h2 h3 h4
  all_goals
    simp only [Option.some.injEq] at h
    subst h
    first
      | exact hp
      | (have hb1 := hb h1
         obtain ⟨p1, p2, p3⟩ := hp
         refine ⟨p1, ?_, p3⟩
         simp only []
         omega)

theorem event_init_rd_buf_positions (K : proto_h) (w : engine) (o : network_oracle)
    (hp : positions_ok w) : positions_ok (event_init_rd_buf K w o).1 := by
  obtain ⟨p1, p2, p3⟩ := hp
  unfold event_init_rd_buf
  simp only
  split_ifs with h1 h2
  · exact ⟨p1, p2, Nat.zero_le _⟩
  · cases o.rd_malloc
    · exact ⟨p1, p2, p3⟩
    · exact ⟨p1, p2, Nat.zero_le _⟩
  · exact ⟨p1, p2, p3⟩

theorem event_recv_body_positions (K : proto_h) (w w' : engine) (fd : Int)
    (o : network_oracle) (h : event_recv_body K w fd o = some w') (hp : positions_ok w)
    (hb : w.req.rd_buf_pos < w.req.rd_buf_size →
      o.recv_body.rv ≤ (w.req.rd_buf_size : Int) - w.req.rd_buf_pos) :
    positions_ok w' := by
  have hgrow : o.recv_body.rv > 0 → w.req.rd_buf_pos < w.req.rd_buf_size →
      positions_ok { w with
        req := { w.req with
          rd_buf := poke w.req.rd_buf w.req.rd_buf_pos
            (o.recv_body.data.take o.recv_body.rv.toNat)
          rd_buf_pos := w.req.rd_buf_pos + o.recv_body.rv.toNat } } := by
    intro h2 h1
    have := hb h1
    obtain ⟨p1, p2, p3⟩ := hp
    refine ⟨p1, p2, ?_⟩
    simp only []
    omega
  unfold event_recv_body at h
  simp only at h
  split_ifs at h with h1 h2 h3 h4 h5
  all_goals first
    | exact event_fail_positions K w w' fd o h hp
    | (simp only [Option.some.injEq] at h
       subst h
       first
         | exact hp
         | exact request_complete_positions K _ _ _ (hgrow h2 h1)
         | exact hgrow h2 h1)

theorem event_positions (K : proto_h) (w w' : engine) (fd : Int) (ev_write : Bool)
    (o : network_oracle) (h : ev2citrusleaf_event K w fd ev_write o = some w')
    (hp : positions_ok w)
    (hs : ev_write = true → w.req.wr_buf_pos < w.req.wr_buf_size →
      o.send.rv ≤ (w.req.wr_buf_size : Int) - w.req.wr_buf_pos)
    (hh : ev_write = false → w.req.rd_header_pos < sizeof_cl_proto →
      o.recv_header.rv ≤ (sizeof_cl_proto : Int) - w.req.rd_header_pos)
    (hbody : ev_write = false → ∀ w1,
      event_recv_header { w with req := { w.req with network_set := false } } o = some w1 →
      w1.req.rd_header_pos = sizeof_cl_proto →
      (event_init_rd_buf K w1 o).1.req.rd_buf_pos < (event_init_rd_buf K w1 o).1.req.rd_buf_size →
      o.recv_body.rv ≤ ((event_init_rd_buf K w1 o).1.req.rd_buf_size : Int)
        - (event_init_rd_buf K w1 o).1.req.rd_buf_pos) :
    positions_ok w' := by
  have hp0 : positions_ok { w with req := { w.req with network_set := false } } := hp
  unfold ev2citrusleaf_event at h
  simp only at h
  split_ifs at h with hw
  · exact event_send_positions K _ w' fd o h hp0 (hs hw)
  · have hw' : ev_write = false := by simpa using hw
    split at h
    · exact event_fail_positions K _ w' fd o h hp0
    · rename_i w1 hh1
      have e1 := event_recv_header_positions _ _ _ hh1 hp0 (hh hw')
      split_ifs at h with h8
      · have e2 := event_init_rd_buf_positions K w1 o e1
        have hb := hbody hw' w1 hh1 h8
        split at h
        · rename_i w2 hi
          rw [hi] at e2
          exact event_fail_positions K _ w' fd o h e2
        · rename_i w2 hi
          rw [hi] at e2 hb
          exact event_recv_body_positions K _ w' fd o h e2 hb
      · simp only [Option.some.injEq] at h
        subst h
        exact e1

/-- An event with bounded `send` and `recv` keeps the positions inside their
buffers. -/
theorem step_positions (K : proto_h) (w w' : engine) (e : event)
    (h : step K w e = some w') (hp : positions_ok w)
    (hb : ∀ o, e = .network o → io_bounded K w o = true) : positions_ok w' := by
  cases e with
  | network o =>
    have hio := hb o rfl
    simp only [step] at h
    split_ifs at h
    unfold io_bounded at hio
    refine event_positions K _ w' _ _ o h hp ?_ ?_ ?_
    · intro hw hlt
      rw [if_pos hw] at hio
      simpa [hlt] using hio
    · intro hw hlt
      rw [if_neg (by simp [hw])] at hio
      simp only [Bool.and_eq_true, Bool.or_eq_true, Bool.not_eq_true', decide_eq_false_iff_not,
        decide_eq_true_eq] at hio
      rcases hio.1 with h1 | h1
      · exact absurd hlt h1
      · exact h1
    · intro hw w1 h1 h8 hlt
      rw [if_neg (by simp [hw])] at hio
      simp only [Bool.and_eq_true] at hio
      have h2 := hio.2
      rw [io_state_eq, h1] at h2
      simp only [Bool.or_eq_true, Bool.not_eq_true', decide_eq_false_iff_not,
        decide_eq_true_eq] at h2
      rcases h2 with (h2 | h2) | h2
      · exact absurd h8 h2
      · exact absurd hlt h2
      · exact h2
  | timer o =>
    simp only [step] at h
    split_ifs at h
    simp only [Option.some.injEq] at h
    subst h
    unfold ev2citrusleaf_timer_expired
    split_ifs
    · exact hp
    · exact request_complete_positions K _ _ _ hp
  | cluster_pop ok =>
    simp only [step] at h
    split_ifs at h
    simp only [Option.some.injEq] at h
    subst h
    unfold ev2citrusleaf_base_hop
    cases ok <;> exact hp
  | base_hop o =>
    simp only [step] at h
    split_ifs at h
    unfold ev2citrusleaf_base_hop_event at h
    simp only at h
    split at h
    · exact absurd h (by simp)
    · rename_i b w1 hr
      simp only [Option.some.injEq] at h
      subst h
      exact restart_positions _ _ _ _ _ hr hp

theorem run_positions (K : proto_h) (es : List event) (w w' : engine)
    (h : run K w es = some w') (hp : positions_ok w) (hb : bounded_run K w es = true) :
    positions_ok w' := by
  induction es generalizing w with
  | nil =>
    simp only [run, Option.some.injEq] at h
    subst h
    exact hp
  | cons e es ih =>
    simp only [run] at h
    split at h
    · exact absurd h (by simp)
    · rename_i w1 hstep
      simp only [bounded_run, hstep, Bool.and_eq_true] at hb
      refine ih w1 h (step_positions K w w1 e hstep hp ?_) hb.2
      intro o ho
      subst ho
      exact hb.1

theorem start_timer_positions (w : engine) (o : start_oracle) :
    (start_timer w o).2.req.wr_buf_pos = w.req.wr_buf_pos
      ∧ (start_timer w o).2.req.rd_header_pos = w.req.rd_header_pos
      ∧ (start_timer w o).2.req.rd_buf_pos = w.req.rd_buf_pos
      ∧ (start_timer w o).2.req.rd_buf_size = w.req.rd_buf_size := by
  unfold start_timer cl_request_destroy
  cases o.cross_threaded <;> simp only [if_true, if_false, Bool.false_eq_true] <;>
    split_ifs <;> exact ⟨rfl, rfl, rfl, rfl⟩

theorem start_failed_positions (w : engine) (hp : positions_ok w) :
    positions_ok (start_failed w) := by
  unfold start_failed cl_request_destroy
  split_ifs <;> exact hp

theorem start_finish_positions (K : proto_h) (w : engine) (o : start_oracle)
    (c : compile_result) (write may_throttle : Bool) (r : start_result) (w0 : engine)
    (h : start_finish K w o c write may_throttle = some r) (hw : r.w = some w0)
    (h1 : w.req.wr_buf_pos = 0) (h2 : w.req.rd_header_pos = 0) (h3 : w.req.rd_buf_pos = 0) :
    positions_ok w0 := by
  have hp : positions_ok { w with
      req := { w.req with
        wr_buf := c.buf, wr_buf_size := c.buf_size, wr_buf_malloced := c.malloced,
        d := c.digest, write := write } } := by
    refine ⟨?_, ?_, ?_⟩
    · show w.req.wr_buf_pos ≤ c.buf_size
      omega
    · show w.req.rd_header_pos ≤ sizeof_cl_proto
      omega
    · show w.req.rd_buf_pos ≤ w.req.rd_buf_size
      omega
  unfold start_finish at h
  simp only at h
  split_ifs at h with hc
  · simp only [Option.some.injEq] at h
    subst h
    simp only [Option.some.injEq] at hw
    subst hw
    exact start_failed_positions _ hp
  · split at h
    · exact absurd h (by simp)
    · rename_i w1 hr
      simp only [Option.some.injEq] at h
      subst h
      simp only [Option.some.injEq] at hw
      subst hw
      exact start_failed_positions _ (restart_positions _ _ _ _ _ hr hp)
    · rename_i w1 hr
      simp only [Option.some.injEq] at h
      subst h
      simp only [Option.some.injEq] at hw
      subst hw
      have hp1 : positions_ok w1 := restart_positions _ _ _ _ _ hr hp
      exact hp1

/-- The request a start call leaves behind has its positions inside their
buffers. -/
theorem start_positions (K : proto_h) (o : start_oracle) (asc : cluster_stats)
    (malloc_ok : Bool) (timeout_ms : Int) (wp : Option ev2citrusleaf_write_parameters)
    (info1 info2 : Nat) (ns : List Nat) (set : Option (List Nat))
    (key : Option ev2citrusleaf_object) (digest : Option (List Nat))
    (wparam : Option ev2citrusleaf_write_parameters) (bins : List ev2citrusleaf_bin)
    (ops : List ev2citrusleaf_operation) (r : start_result) (w0 : engine)
    (h : ev2citrusleaf_start K o asc (cl_request_create malloc_ok timeout_ms wp) info1 info2 ns
          set key digest wparam bins = some r
      ∨ ev2citrusleaf_start_op K o asc (cl_request_create malloc_ok timeout_ms wp) ns
          set key digest ops wparam = some r)
    (hw : r.w = some w0) : positions_ok w0 := by
  cases malloc_ok
  · rcases h with h | h
    · simp only [cl_request_create, ev2citrusleaf_start, Bool.false_eq_true, if_false,
        Option.some.injEq] at h
      subst h
      simp at hw
    · simp only [cl_request_create, ev2citrusleaf_start_op, Bool.false_eq_true, if_false,
        Option.some.injEq] at h
      subst h
      simp at hw
  · obtain ⟨req, hreq, q1, q2, q3⟩ : ∃ req, cl_request_create true timeout_ms wp = some req
        ∧ req.wr_buf_pos = 0 ∧ req.rd_header_pos = 0 ∧ req.rd_buf_pos = 0 :=
      ⟨_, rfl, rfl, rfl, rfl⟩
    rw [hreq] at h
    obtain ⟨t1, t2, t3, t4⟩ := start_timer_positions (engine_init req asc) o
    rcases h with h | h
    · unfold ev2citrusleaf_start at h
      simp only at h
      split at h
      · rename_i w1 hst
        simp only [Option.some.injEq] at h
        subst h
        simp only [Option.some.injEq] at hw
        subst hw
        rw [hst] at t1 t2 t3 t4
        simp only [engine_init] at t1 t2 t3 t4
        refine ⟨?_, ?_, ?_⟩ <;> omega
      · rename_i w1 hst
        rw [hst] at t1 t2 t3 t4
        simp only [engine_init] at t1 t2 t3 t4
        exact start_finish_positions K _ o _ _ _ r w0 h hw (by simp [t1, q1]) (by simp [t2, q2])
          (by simp [t3, q3])
    · unfold ev2citrusleaf_start_op at h
      simp only at h
      split at h
      · rename_i w1 hst
        simp only [Option.some.injEq] at h
        subst h
        simp only [Option.some.injEq] at hw
        subst hw
        rw [hst] at t1 t2 t3 t4
        simp only [engine_init] at t1 t2 t3 t4
        refine ⟨?_, ?_, ?_⟩ <;> omega
      · rename_i w1 hst
        rw [hst] at t1 t2 t3 t4
        simp only [engine_init] at t1 t2 t3 t4
        split at h
        · exact absurd h (by simp)
        · exact start_finish_positions K _ o _ _ _ r w0 h hw (by simp [t1, q1])
            (by simp [t2, q2]) (by simp [t3, q3])

/-! ### The direction of the network watcher -/

theorem restart_slot (w w' : engine) (may_throttle b : Bool) (o : restart_oracle)
    (h : ev2citrusleaf_restart w may_throttle o = some (b, w')) :
    w'.network_event.ev_write = true
      ∨ (w'.network_event.ev_write = w.network_event.ev_write
        ∧ w'.network_event.base_hop = w.network_event.base_hop) := by
  unfold ev2citrusleaf_restart at h
  split_ifs at h with hlate
  · simp only [Option.some.injEq, Prod.mk.injEq] at h
    obtain ⟨-, rfl⟩ := h
    exact Or.inr ⟨rfl, rfl⟩
  · simp only at h
    split at h
    · exact absurd h (by simp)
    all_goals
      rename_i hloop
      simp only [Option.some.injEq, Prod.mk.injEq] at h
      obtain ⟨-, rfl⟩ := h
      have h1 := (restart_loop_frame _ _ _ _ _ _ hloop).2.1
      simp [h1]

theorem request_complete_slot (K : proto_h) (w : engine) (timedout : Bool)
    (o : complete_oracle) :
    (ev2citrusleaf_request_complete K w timedout o).network_event.ev_write
        = w.network_event.ev_write
      ∧ (ev2citrusleaf_request_complete K w timedout o).network_event.base_hop
        = w.network_event.base_hop := by
  obtain ⟨req, ds, te, ne, q, asc, log⟩ := w
  obtain ⟨tms, wpol, ctl, ctld, node, fd, ts, ns, bhs, wr, st, nsp, d, wb, wbs, wbp, wbm, rhb, rhp,
    rb, rbs, rbp⟩ := req
  by_cases hfd : fd > -1 <;> cases timedout <;> cases node <;> cases ts <;> cases ns <;>
    cases bhs <;>
    simp [ev2citrusleaf_request_complete, cl_request_destroy, hfd] <;>
    first
      | exact ⟨rfl, rfl⟩
      | (split_ifs <;> exact ⟨rfl, rfl⟩)

theorem event_fail_slot (K : proto_h) (w w' : engine) (fd : Int) (o : network_oracle)
    (h : ev2citrusleaf_event_fail K w fd o = some w') :
    w'.network_event.ev_write = true
      ∨ (w'.network_event.ev_write = w.network_event.ev_write
        ∧ w'.network_event.base_hop = w.network_event.base_hop) := by
  unfold ev2citrusleaf_event_fail at h
  simp only at h
  split_ifs at h with hw
  · simp only [Option.some.injEq] at h
    subst h
    refine Or.inr ?_
    obtain ⟨c1, c2⟩ := request_complete_slot K
      (match w.req.node with
        | some node =>
          { ({ w with log := w.log ++ [action.cf_close fd], req := { w.req with fd := -1 } }
              : engine) with
            log := w.log ++ [action.cf_close fd] ++ [action.n_fds_open_decr node] }
        | none => { w with log := w.log ++ [action.cf_close fd], req := { w.req with fd := -1 } })
      true o.complete
    cases hn : w.req.node <;> simp only [hn] at c1 c2 ⊢ <;> exact ⟨c1, c2⟩
  · split at h
    · exact absurd h (by simp)
    · rename_i b w1 hr
      simp only [Option.some.injEq] at h
      subst h
      have := restart_slot _ _ _ _ _ hr
      cases hn : w.req.node <;> simp only [hn] at this <;> exact this

/-- The write branch of the handler leaves the watcher writable (or as it was),
unless this `send` brings `wr_buf_pos` up to `wr_buf_size`. -/
theorem event_send_slot (K : proto_h) (w w' : engine) (fd : Int) (o : network_oracle)
    (h : event_send K w fd o = some w') :
    w'.network_event.ev_write = true
      ∨ (w'.network_event.ev_write = w.network_event.ev_write
        ∧ w'.network_event.base_hop = w.network_event.base_hop)
      ∨ (w.req.wr_buf_pos < w.req.wr_buf_size ∧ w'.req.wr_buf_pos = w'.req.wr_buf_size) := by
  unfold event_send at h
  simp only at h
  split_ifs at h with h1 h2 h3 h4 h5
  all_goals first
    | exact (event_fail_slot K w w' fd o h).elim Or.inl (fun hf => Or.inr (Or.inl hf))
    | (simp only [Option.some.injEq] at h
       subst h
       first
         | exact Or.inr (Or.inl ⟨rfl, rfl⟩)
         | exact Or.inr (Or.inr ⟨h1, h3⟩))

/-- The network watcher goes from writable to readable only in the network
event whose `send` brings `wr_buf_pos` up to `wr_buf_size`. -/
theorem step_switch (K : proto_h) (w w' : engine) (e : event)
    (h : step K w e = some w') (hw : w.network_event.ev_write = true)
    (hr : w'.network_event.ev_write = false) (hnb : w'.network_event.base_hop = false) :
    (∃ o, e = .network o) ∧ w.req.wr_buf_pos < w.req.wr_buf_size
      ∧ w'.req.wr_buf_pos = w'.req.wr_buf_size := by
  cases e with
  | network o =>
    simp only [step] at h
    split_ifs at h
    unfold ev2citrusleaf_event at h
    simp only [hw, if_true] at h
    rcases event_send_slot K _ w' _ o h with h1 | ⟨h1, -⟩ | ⟨h1, h2⟩
    · rw [hr] at h1
      exact absurd h1 (by simp)
    · rw [hr] at h1
      simp only [hw] at h1
      exact absurd h1 (by simp)
    · exact ⟨⟨o, rfl⟩, h1, h2⟩
  | timer o =>
    exfalso
    simp only [step] at h
    split_ifs at h
    simp only [Option.some.injEq] at h
    subst h
    unfold ev2citrusleaf_timer_expired at hr
    split_ifs at hr
    · simp only [cl_request_destroy, hw] at hr
      exact absurd hr (by simp)
    · rw [(request_complete_slot K _ _ _).1] at hr
      simp only [hw] at hr
      exact absurd hr (by simp)
  | cluster_pop ok =>
    exfalso
    simp only [step] at h
    split_ifs at h
    simp only [Option.some.injEq] at h
    subst h
    unfold ev2citrusleaf_base_hop at hnb
    cases ok <;> simp at hnb
  | base_hop o =>
    exfalso
    simp only [step] at h
    split_ifs at h with hc
    unfold ev2citrusleaf_base_hop_event at h
    simp only at h
    split at h
    · exact absurd h (by simp)
    · rename_i b w1 hrs
      simp only [Option.some.injEq] at h
      subst h
      rcases restart_slot _ _ _ _ _ hrs with h1 | ⟨-, h1⟩
      · rw [hr] at h1
        exact absurd h1 (by simp)
      · rw [hnb] at h1
        simp only [hc.2.2.2] at h1
        exact absurd h1 (by simp)

end Citrusleaf
